import Mathlib

/-!
# cellSync: shared-memory synchronisation primitives

A shallow embedding of `rpcs3/Emu/SysCalls/Modules/cellSync.cpp`.

* Guest memory is a flat array of bytes.  Every primitive lives in that
  memory, at the address the caller passes (`mem_ptr_t`), next to the payload
  and the caller's buffers.
* `be_t<u16>` / `be_t<u32>` / `be_t<u64>` fields are read and written as
  big-endian byte groups.  `m_data()` is modelled by the big-endian value of
  the bytes it covers: the host's view is a fixed byte permutation of it, and
  the code only copies it, compares it for equality, and stores the constants
  `0` and `se32(1)` through it.
* A call runs sequentially (no other thread touches memory while it runs).
  Loops carry a fuel argument; a loop that is still spinning when the fuel is
  used up yields `none`.
* `Emu.IsStopped()` is a stream of observations: `IsStopped n` is what the
  `n`-th poll made by the call sees.
* Interleavings of several callers are modelled separately, by a scheduler
  over the atomic steps of the same loop bodies.
-/

namespace CellSync

/-! ## Status codes -/

/-- Return values of the library (`CELL_OK` and the `CELL_SYNC_ERROR_*`
constants of `cellSync.h`), kept symbolic. -/
inductive Status where
  | CELL_OK
  | CELL_SYNC_ERROR_AGAIN
  | CELL_SYNC_ERROR_INVAL
  | CELL_SYNC_ERROR_BUSY
  | CELL_SYNC_ERROR_ABORT
  | CELL_SYNC_ERROR_ALIGN
  | CELL_SYNC_ERROR_NULL_POINTER
  | CELL_SYNC_ERROR_STAT
  deriving DecidableEq, Repr

open Status

/-! ## Guest memory -/

/-- Guest memory (`Memory`): one byte per address. -/
abbrev Memory := Nat → Fin 256

/-- Store one byte. -/
def store8 (mem : Memory) (a v : Nat) : Memory :=
  fun x => if x = a then ⟨v % 256, Nat.mod_lt _ (by decide)⟩ else mem x

/-- Read a `be_t<u16>`. -/
def load16 (mem : Memory) (a : Nat) : Nat :=
  (mem a).val * 256 + (mem (a + 1)).val

/-- Write a `be_t<u16>` (the value is truncated to 16 bits). -/
def store16 (mem : Memory) (a v : Nat) : Memory :=
  store8 (store8 mem a (v / 256)) (a + 1) v

/-- Read a `be_t<u32>`. -/
def load32 (mem : Memory) (a : Nat) : Nat :=
  load16 mem a * 65536 + load16 mem (a + 2)

/-- Write a `be_t<u32>` (the value is truncated to 32 bits). -/
def store32 (mem : Memory) (a v : Nat) : Memory :=
  store16 (store16 mem a (v / 65536)) (a + 2) v

/-- Read a `be_t<u64>`. -/
def load64 (mem : Memory) (a : Nat) : Nat :=
  load32 mem a * 4294967296 + load32 mem (a + 4)

/-- Write a `be_t<u64>` (the value is truncated to 64 bits). -/
def store64 (mem : Memory) (a v : Nat) : Memory :=
  store32 (store32 mem a (v / 4294967296)) (a + 4) v

/-- The call `memcpy(Memory + dst, Memory + src, n)`.  The source bytes are
those of the memory before the call (the C function is only defined for
ranges that do not overlap). -/
def memcpy (mem : Memory) (dst src n : Nat) : Memory :=
  fun x => if dst ≤ x ∧ x < dst + n then mem (src + (x - dst)) else mem x

/-- The call `InterlockedCompareExchange(&p->m_data(), exchange, comparand)`
on a 32-bit word: returns the value found, and stores `exchange` when that
value equals `comparand`. -/
def InterlockedCompareExchange (mem : Memory) (dest exchange comparand : Nat) :
    Nat × Memory :=
  let initial := load32 mem dest
  (initial, if initial = comparand then store32 mem dest exchange else mem)

/-! ## 16-bit signed values -/

/-- Conversion of an `int` to `s16`: the representative in `[-32768, 32767]`. -/
def toS16 (x : Int) : Int := (x + 32768) % 65536 - 32768

/-- The 16-bit pattern of an `int`, as stored into a `u16`/`s16` field. -/
def toU16 (x : Int) : Nat := (x % 65536).toNat

/-- The statement `value |= mask` on an `s16` variable, for a mask of at most
16 bits: the 16-bit pattern of `value` or-ed with `mask`, converted back to
`s16`. -/
def orS16 (value : Int) (mask : Nat) : Int := toS16 ((toU16 value ||| mask : Nat) : Int)

/-! ## Mutex -/

namespace CellSyncMutex

/-- Modelled from the spec: the declaration of `CellSyncMutex` (`cellSync.h`)
is not among the sources.  The spec gives the word as `order:16, freed:16`;
`m_order` is taken as the first `be_t<u16>` of the word and `m_freed` as the
second one.  This is the field `m_order` of a local copy whose `m_data()` is
`d`. -/
def m_order (d : Nat) : Nat := d / 65536 % 65536

/-- Field `m_freed` of a local copy whose `m_data()` is `d`. -/
def m_freed (d : Nat) : Nat := d % 65536

/-- Assignment to `m_order` in a local copy. -/
def set_m_order (d v : Nat) : Nat := (v % 65536) * 65536 + d % 65536

/-- Assignment to `m_freed` in a local copy. -/
def set_m_freed (d v : Nat) : Nat := (d / 65536 % 65536) * 65536 + v % 65536

/-- Body of the first loop of `cellSyncMutexLock`: from `old_data` to
`(old_order, new_mutex.m_data())`. -/
def lockUpdate (old_data : Nat) : Nat × Nat :=
  let old_order := m_order old_data
  (old_order, set_m_order old_data (old_order + 1))

/-- Body of the loop of `cellSyncMutexTryLock`: `none` when the two fields
differ (the call returns busy), else the new `m_data()`. -/
def tryLockUpdate (old_data : Nat) : Option Nat :=
  if m_order old_data ≠ m_freed old_data then none
  else some (set_m_order old_data (m_order old_data + 1))

/-- Body of the loop of `cellSyncMutexUnlock`. -/
def unlockUpdate (old_data : Nat) : Nat :=
  set_m_freed old_data (m_freed old_data + 1)

end CellSyncMutex

/-- The function `cellSyncMutexInitialize`. -/
def cellSyncMutexInitialize (mem : Memory) (mutex : Nat) : Status × Memory :=
  if mutex = 0 then (CELL_SYNC_ERROR_NULL_POINTER, mem)
  else if mutex % 4 ≠ 0 then (CELL_SYNC_ERROR_ALIGN, mem)
  else
    let mem := store32 mem mutex 0
    let mem := (InterlockedCompareExchange mem mutex 0 0).2
    (CELL_OK, mem)

/-- First loop of `cellSyncMutexLock`: draw a ticket. -/
def mutexLockDraw (mutex : Nat) : Nat → Memory → Option (Nat × Memory)
  | 0, _ => none
  | fuel + 1, mem =>
    let old_data := load32 mem mutex
    let upd := CellSyncMutex.lockUpdate old_data
    let r := InterlockedCompareExchange mem mutex upd.2 old_data
    if r.1 = old_data then some (upd.1, r.2) else mutexLockDraw mutex fuel r.2

/-- Second loop of `cellSyncMutexLock`: wait until `m_freed` equals the
ticket, or until the emulator is stopped. -/
def mutexLockWait (IsStopped : Nat → Bool) (mem : Memory) (mutex old_order : Nat) :
    Nat → Nat → Option Unit
  | 0, _ => none
  | fuel + 1, polls =>
    if old_order ≠ load16 mem (mutex + 2) then
      if IsStopped polls then some ()
      else mutexLockWait IsStopped mem mutex old_order fuel (polls + 1)
    else some ()

/-- The function `cellSyncMutexLock`. -/
def cellSyncMutexLock (IsStopped : Nat → Bool) (fuel : Nat) (mem : Memory) (mutex : Nat) :
    Option (Status × Memory) :=
  if mutex = 0 then some (CELL_SYNC_ERROR_NULL_POINTER, mem)
  else if mutex % 4 ≠ 0 then some (CELL_SYNC_ERROR_ALIGN, mem)
  else
    match mutexLockDraw mutex fuel mem with
    | none => none
    | some (old_order, mem) =>
      match mutexLockWait IsStopped mem mutex old_order fuel 0 with
      | none => none
      | some () =>
        let mem := (InterlockedCompareExchange mem mutex 0 0).2
        some (CELL_OK, mem)

/-- Loop of `cellSyncMutexTryLock`. -/
def mutexTryLockLoop (mutex : Nat) : Nat → Memory → Option (Status × Memory)
  | 0, _ => none
  | fuel + 1, mem =>
    let old_data := load32 mem mutex
    match CellSyncMutex.tryLockUpdate old_data with
    | none => some (CELL_SYNC_ERROR_BUSY, mem)
    | some new_data =>
      let r := InterlockedCompareExchange mem mutex new_data old_data
      if r.1 = old_data then some (CELL_OK, r.2) else mutexTryLockLoop mutex fuel r.2

/-- The function `cellSyncMutexTryLock`. -/
def cellSyncMutexTryLock (fuel : Nat) (mem : Memory) (mutex : Nat) :
    Option (Status × Memory) :=
  if mutex = 0 then some (CELL_SYNC_ERROR_NULL_POINTER, mem)
  else if mutex % 4 ≠ 0 then some (CELL_SYNC_ERROR_ALIGN, mem)
  else mutexTryLockLoop mutex fuel mem

/-- Loop of `cellSyncMutexUnlock`. -/
def mutexUnlockLoop (mutex : Nat) : Nat → Memory → Option Memory
  | 0, _ => none
  | fuel + 1, mem =>
    let old_data := load32 mem mutex
    let r := InterlockedCompareExchange mem mutex (CellSyncMutex.unlockUpdate old_data) old_data
    if r.1 = old_data then some r.2 else mutexUnlockLoop mutex fuel r.2

/-- The function `cellSyncMutexUnlock`. -/
def cellSyncMutexUnlock (fuel : Nat) (mem : Memory) (mutex : Nat) :
    Option (Status × Memory) :=
  if mutex = 0 then some (CELL_SYNC_ERROR_NULL_POINTER, mem)
  else if mutex % 4 ≠ 0 then some (CELL_SYNC_ERROR_ALIGN, mem)
  else
    let mem := (InterlockedCompareExchange mem mutex 0 0).2
    match mutexUnlockLoop mutex fuel mem with
    | none => none
    | some mem => some (CELL_OK, mem)

/-! ## Barrier -/

namespace CellSyncBarrier

/-- Field `m_value` (the first 16 bits of the word, see the comment
`zeroize first u16` in `cellSyncBarrierInitialize`) of a local copy whose
`m_data()` is `d`. -/
def m_value (d : Nat) : Nat := d / 65536 % 65536

/-- Field `m_count` (the second 16 bits) of a local copy whose `m_data()` is
`d`. -/
def m_count (d : Nat) : Nat := d % 65536

/-- Assignment `new_barrier.m_value = value` in a local copy. -/
def set_m_value (d : Nat) (value : Int) : Nat := toU16 value * 65536 + d % 65536

/-- The update computed by `cellSyncBarrierNotify` and
`cellSyncBarrierTryNotify` once `value >= 0`: `value++`, set the sign bit
when the result equals `(s16)m_count`, and put it back. -/
def notifyUpdate (old_data : Nat) (value : Int) : Nat :=
  let value := toS16 (value + 1)
  let value := if value = toS16 (m_count old_data) then orS16 value 0x8000 else value
  set_m_value old_data value

/-- The update computed by `cellSyncBarrierWait` and `cellSyncBarrierTryWait`
once `value < 0`: `value--`, replace `(s16)0x8000` by 0, and put it back. -/
def waitUpdate (old_data : Nat) (value : Int) : Nat :=
  let value := toS16 (value - 1)
  let value := if value = toS16 0x8000 then 0 else value
  set_m_value old_data value

end CellSyncBarrier

/-- The function `cellSyncBarrierInitialize`; `total_count` is a `u16`. -/
def cellSyncBarrierInitialize (mem : Memory) (barrier total_count : Nat) : Status × Memory :=
  if barrier = 0 then (CELL_SYNC_ERROR_NULL_POINTER, mem)
  else if barrier % 4 ≠ 0 then (CELL_SYNC_ERROR_ALIGN, mem)
  else if total_count = 0 ∨ total_count > 32767 then (CELL_SYNC_ERROR_INVAL, mem)
  else
    let mem := store16 mem barrier 0
    let mem := store16 mem (barrier + 2) total_count
    let mem := (InterlockedCompareExchange mem barrier 0 0).2
    (CELL_OK, mem)

/-- Loop of `cellSyncBarrierNotify`. -/
def barrierNotifyLoop (IsStopped : Nat → Bool) (barrier : Nat) :
    Nat → Nat → Memory → Option (Status × Memory)
  | 0, _, _ => none
  | fuel + 1, polls, mem =>
    let old_data := load32 mem barrier
    let value : Int := toS16 (CellSyncBarrier.m_value old_data)
    if value < 0 then
      if IsStopped polls then some (CELL_OK, mem)
      else barrierNotifyLoop IsStopped barrier fuel (polls + 1) mem
    else
      let r := InterlockedCompareExchange mem barrier
        (CellSyncBarrier.notifyUpdate old_data value) old_data
      if r.1 = old_data then some (CELL_OK, r.2)
      else barrierNotifyLoop IsStopped barrier fuel polls r.2

/-- The function `cellSyncBarrierNotify`. -/
def cellSyncBarrierNotify (IsStopped : Nat → Bool) (fuel : Nat) (mem : Memory)
    (barrier : Nat) : Option (Status × Memory) :=
  if barrier = 0 then some (CELL_SYNC_ERROR_NULL_POINTER, mem)
  else if barrier % 4 ≠ 0 then some (CELL_SYNC_ERROR_ALIGN, mem)
  else
    let mem := (InterlockedCompareExchange mem barrier 0 0).2
    barrierNotifyLoop IsStopped barrier fuel 0 mem

/-- Loop of `cellSyncBarrierTryNotify`.  In the `else` branch the local copy
is written back unchanged and the call returns busy. -/
def barrierTryNotifyLoop (barrier : Nat) : Nat → Memory → Option (Status × Memory)
  | 0, _ => none
  | fuel + 1, mem =>
    let old_data := load32 mem barrier
    let value : Int := toS16 (CellSyncBarrier.m_value old_data)
    if value ≥ 0 then
      let r := InterlockedCompareExchange mem barrier
        (CellSyncBarrier.notifyUpdate old_data value) old_data
      if r.1 = old_data then some (CELL_OK, r.2)
      else barrierTryNotifyLoop barrier fuel r.2
    else
      let r := InterlockedCompareExchange mem barrier old_data old_data
      if r.1 = old_data then some (CELL_SYNC_ERROR_BUSY, r.2)
      else barrierTryNotifyLoop barrier fuel r.2

/-- The function `cellSyncBarrierTryNotify`. -/
def cellSyncBarrierTryNotify (fuel : Nat) (mem : Memory) (barrier : Nat) :
    Option (Status × Memory) :=
  if barrier = 0 then some (CELL_SYNC_ERROR_NULL_POINTER, mem)
  else if barrier % 4 ≠ 0 then some (CELL_SYNC_ERROR_ALIGN, mem)
  else
    let mem := (InterlockedCompareExchange mem barrier 0 0).2
    barrierTryNotifyLoop barrier fuel mem

/-- Loop of `cellSyncBarrierWait`. -/
def barrierWaitLoop (IsStopped : Nat → Bool) (barrier : Nat) :
    Nat → Nat → Memory → Option (Status × Memory)
  | 0, _, _ => none
  | fuel + 1, polls, mem =>
    let old_data := load32 mem barrier
    let value : Int := toS16 (CellSyncBarrier.m_value old_data)
    if value ≥ 0 then
      if IsStopped polls then some (CELL_OK, mem)
      else barrierWaitLoop IsStopped barrier fuel (polls + 1) mem
    else
      let r := InterlockedCompareExchange mem barrier
        (CellSyncBarrier.waitUpdate old_data value) old_data
      if r.1 = old_data then some (CELL_OK, r.2)
      else barrierWaitLoop IsStopped barrier fuel polls r.2

/-- The function `cellSyncBarrierWait`. -/
def cellSyncBarrierWait (IsStopped : Nat → Bool) (fuel : Nat) (mem : Memory)
    (barrier : Nat) : Option (Status × Memory) :=
  if barrier = 0 then some (CELL_SYNC_ERROR_NULL_POINTER, mem)
  else if barrier % 4 ≠ 0 then some (CELL_SYNC_ERROR_ALIGN, mem)
  else
    let mem := (InterlockedCompareExchange mem barrier 0 0).2
    barrierWaitLoop IsStopped barrier fuel 0 mem

/-- Loop of `cellSyncBarrierTryWait`. -/
def barrierTryWaitLoop (barrier : Nat) : Nat → Memory → Option (Status × Memory)
  | 0, _ => none
  | fuel + 1, mem =>
    let old_data := load32 mem barrier
    let value : Int := toS16 (CellSyncBarrier.m_value old_data)
    if value ≥ 0 then some (CELL_SYNC_ERROR_BUSY, mem)
    else
      let r := InterlockedCompareExchange mem barrier
        (CellSyncBarrier.waitUpdate old_data value) old_data
      if r.1 = old_data then some (CELL_OK, r.2)
      else barrierTryWaitLoop barrier fuel r.2

/-- The function `cellSyncBarrierTryWait`. -/
def cellSyncBarrierTryWait (fuel : Nat) (mem : Memory) (barrier : Nat) :
    Option (Status × Memory) :=
  if barrier = 0 then some (CELL_SYNC_ERROR_NULL_POINTER, mem)
  else if barrier % 4 ≠ 0 then some (CELL_SYNC_ERROR_ALIGN, mem)
  else
    let mem := (InterlockedCompareExchange mem barrier 0 0).2
    barrierTryWaitLoop barrier fuel mem

/-- Run `n` calls one after the other; the result is the final memory when
every call returned `CELL_OK`, and `none` otherwise. -/
def runCalls (call : Memory → Option (Status × Memory)) : Nat → Memory → Option Memory
  | 0, mem => some mem
  | n + 1, mem =>
    match call mem with
    | some (CELL_OK, mem) => runCalls call n mem
    | _ => none

/-! ## Mediator (`CellSyncRwm`) -/

namespace CellSyncRwm

/-- Field `m_readers` (the first `u16` of the record, see the comments
`increase first u16` and `return 0x8041010C if first u16 == 0`) of a local
copy whose `m_data()` is `d`. -/
def m_readers (d : Nat) : Nat := d / 65536 % 65536

/-- Field `m_writers` (the second `u16`, see the comment `compare second u16
(m_writers) with 0`) of a local copy whose `m_data()` is `d`. -/
def m_writers (d : Nat) : Nat := d % 65536

/-- Assignment to `m_readers` in a local copy. -/
def set_m_readers (d v : Nat) : Nat := (v % 65536) * 65536 + d % 65536

/-- Assignment to `m_writers` in a local copy. -/
def set_m_writers (d v : Nat) : Nat := (d / 65536 % 65536) * 65536 + v % 65536

/-- The record field `rwm->m_size` (the second `u32` of the record). -/
def m_size (mem : Memory) (rwm : Nat) : Nat := load32 mem (rwm + 4)

/-- The record field `rwm->m_addr` (the second `u64` of the record). -/
def m_addr (mem : Memory) (rwm : Nat) : Nat := load64 mem (rwm + 8)

end CellSyncRwm

/-- The function `cellSyncRwmInitialize`; the arguments are `u32`. -/
def cellSyncRwmInitialize (mem : Memory) (rwm buffer_addr buffer_size : Nat) :
    Status × Memory :=
  if rwm = 0 ∨ buffer_addr = 0 then (CELL_SYNC_ERROR_NULL_POINTER, mem)
  else if rwm % 16 ≠ 0 ∨ buffer_addr % 128 ≠ 0 then (CELL_SYNC_ERROR_ALIGN, mem)
  else if buffer_size % 128 ≠ 0 ∨ buffer_size > 0x4000 then (CELL_SYNC_ERROR_INVAL, mem)
  else
    let mem := store32 mem rwm 0
    let mem := store32 mem (rwm + 4) buffer_size
    let mem := store64 mem (rwm + 8) buffer_addr
    let mem := (InterlockedCompareExchange mem rwm 0 0).2
    (CELL_OK, mem)

/-- First loop of `cellSyncRwmRead`: wait for `m_writers == 0` and increase
`m_readers`.  `Sum.inl` is an early return of the call. -/
def rwmReadAcquire (IsStopped : Nat → Bool) (rwm : Nat) :
    Nat → Nat → Memory → Option (Status ⊕ Memory)
  | 0, _, _ => none
  | fuel + 1, polls, mem =>
    let old_data := load32 mem rwm
    if CellSyncRwm.m_writers old_data ≠ 0 then
      if IsStopped polls then some (Sum.inl CELL_OK)
      else rwmReadAcquire IsStopped rwm fuel (polls + 1) mem
    else
      let new_data := CellSyncRwm.set_m_readers old_data (CellSyncRwm.m_readers old_data + 1)
      let r := InterlockedCompareExchange mem rwm new_data old_data
      if r.1 = old_data then some (Sum.inr r.2)
      else rwmReadAcquire IsStopped rwm fuel polls r.2

/-- Second loop of `cellSyncRwmRead` and of `cellSyncRwmTryRead`: decrease
`m_readers`, or return `CELL_SYNC_ERROR_ABORT` when it is 0. -/
def rwmReadRelease (rwm : Nat) : Nat → Memory → Option (Status × Memory)
  | 0, _ => none
  | fuel + 1, mem =>
    let old_data := load32 mem rwm
    if CellSyncRwm.m_readers old_data = 0 then some (CELL_SYNC_ERROR_ABORT, mem)
    else
      let new_data :=
        CellSyncRwm.set_m_readers old_data (CellSyncRwm.m_readers old_data + 65535)
      let r := InterlockedCompareExchange mem rwm new_data old_data
      if r.1 = old_data then some (CELL_OK, r.2) else rwmReadRelease rwm fuel r.2

/-- The function `cellSyncRwmRead`. -/
def cellSyncRwmRead (IsStopped : Nat → Bool) (fuel : Nat) (mem : Memory)
    (rwm buffer_addr : Nat) : Option (Status × Memory) :=
  if rwm = 0 ∨ buffer_addr = 0 then some (CELL_SYNC_ERROR_NULL_POINTER, mem)
  else if rwm % 16 ≠ 0 then some (CELL_SYNC_ERROR_ALIGN, mem)
  else
    match rwmReadAcquire IsStopped rwm fuel 0 mem with
    | none => none
    | some (Sum.inl st) => some (st, mem)
    | some (Sum.inr mem) =>
      let mem := memcpy mem buffer_addr (CellSyncRwm.m_addr mem rwm) (CellSyncRwm.m_size mem rwm)
      rwmReadRelease rwm fuel mem

/-- First loop of `cellSyncRwmWrite`: wait for `m_writers == 0` and set it to
1.  `Sum.inl` is an early return of the call; otherwise the number of polls
made so far and the memory are handed on. -/
def rwmWriteAcquire (IsStopped : Nat → Bool) (rwm : Nat) :
    Nat → Nat → Memory → Option (Status ⊕ (Nat × Memory))
  | 0, _, _ => none
  | fuel + 1, polls, mem =>
    let old_data := load32 mem rwm
    if CellSyncRwm.m_writers old_data ≠ 0 then
      if IsStopped polls then some (Sum.inl CELL_OK)
      else rwmWriteAcquire IsStopped rwm fuel (polls + 1) mem
    else
      let new_data := CellSyncRwm.set_m_writers old_data 1
      let r := InterlockedCompareExchange mem rwm new_data old_data
      if r.1 = old_data then some (Sum.inr (polls, r.2))
      else rwmWriteAcquire IsStopped rwm fuel polls r.2

/-- Second loop of `cellSyncRwmWrite`: wait until `rwm->m_readers` is 0.
`some true` when the call returns from inside the loop (emulator stopped). -/
def rwmWriteDrain (IsStopped : Nat → Bool) (mem : Memory) (rwm : Nat) :
    Nat → Nat → Option Bool
  | 0, _ => none
  | fuel + 1, polls =>
    if load16 mem rwm ≠ 0 then
      if IsStopped polls then some true
      else rwmWriteDrain IsStopped mem rwm fuel (polls + 1)
    else some false

/-- The function `cellSyncRwmWrite`. -/
def cellSyncRwmWrite (IsStopped : Nat → Bool) (fuel : Nat) (mem : Memory)
    (rwm buffer_addr : Nat) : Option (Status × Memory) :=
  if rwm = 0 ∨ buffer_addr = 0 then some (CELL_SYNC_ERROR_NULL_POINTER, mem)
  else if rwm % 16 ≠ 0 then some (CELL_SYNC_ERROR_ALIGN, mem)
  else
    match rwmWriteAcquire IsStopped rwm fuel 0 mem with
    | none => none
    | some (Sum.inl st) => some (st, mem)
    | some (Sum.inr (polls, mem)) =>
      match rwmWriteDrain IsStopped mem rwm fuel polls with
      | none => none
      | some true => some (CELL_OK, mem)
      | some false =>
        let mem := memcpy mem (CellSyncRwm.m_addr mem rwm) buffer_addr (CellSyncRwm.m_size mem rwm)
        let mem := (InterlockedCompareExchange mem rwm 0 0).2
        let mem := store32 mem rwm 0
        some (CELL_OK, mem)

/-- The byte ranges `[a, a + n)` and `[b, b + m)` have no address in common. -/
def rangesDisjoint (a n b m : Nat) : Prop := n = 0 ∨ m = 0 ∨ a + n ≤ b ∨ b + m ≤ a

instance (a n b m : Nat) : Decidable (rangesDisjoint a n b m) :=
  inferInstanceAs (Decidable (n = 0 ∨ m = 0 ∨ a + n ≤ b ∨ b + m ≤ a))

/-- The mediator record at `rwm` holds the word `w`, the size `size` and the
payload address `payload`. -/
structure RwmRecord (mem : Memory) (rwm w size payload : Nat) : Prop where
  word : load32 mem rwm = w
  size_eq : CellSyncRwm.m_size mem rwm = size
  addr_eq : CellSyncRwm.m_addr mem rwm = payload

/-! ## Interleaved callers of one mutex -/

/-- Where a caller of the mutex stands. -/
inductive MutexPc where
  /-- Outside any call, not holding the mutex (also: at the head of the first
  loop of `cellSyncMutexLock`). -/
  | idle
  /-- In the first loop of `cellSyncMutexLock`, `old_data` read, before the
  compare-exchange. -/
  | lockCas (old_data : Nat)
  /-- In the second loop of `cellSyncMutexLock`, holding ticket `old_order`. -/
  | lockWait (old_order : Nat)
  /-- Returned from `cellSyncMutexLock`, `cellSyncMutexUnlock` not yet begun
  (also: at the head of the loop of `cellSyncMutexUnlock`). -/
  | holding
  /-- In the loop of `cellSyncMutexUnlock`, `old_data` read, before the
  compare-exchange. -/
  | unlockCas (old_data : Nat)
  deriving DecidableEq, Repr

/-- The caller has returned from `cellSyncMutexLock` and its matching unlock
has not yet taken effect. -/
def MutexPc.holds : MutexPc → Bool
  | .holding => true
  | .unlockCas _ => true
  | _ => false

/-- One mutex word shared by the callers `T`. -/
structure MutexSys (T : Type) where
  /-- The value of `mutex->m_data()`. -/
  data : Nat
  /-- Where each caller stands. -/
  pc : T → MutexPc

/-- The mutex after `cellSyncMutexInitialize`, nobody inside a call. -/
def MutexSys.init (T : Type) : MutexSys T := ⟨0, fun _ => MutexPc.idle⟩

/-- Replace the position of caller `t`. -/
def MutexSys.setPc {T : Type} [DecidableEq T] (s : MutexSys T) (t : T) (p : MutexPc) :
    T → MutexPc :=
  fun u => if u = t then p else s.pc u

/-- Caller `t` performs its next atomic step: a read of `m_data()`, a
compare-exchange, or the re-check `old_order != mutex->m_freed`.  The emulator
is not stopped, and a caller unlocks only after its own lock returned. -/
def MutexSys.step {T : Type} [DecidableEq T] (s : MutexSys T) (t : T) : MutexSys T :=
  match s.pc t with
  | .idle => ⟨s.data, s.setPc t (.lockCas s.data)⟩
  | .lockCas old_data =>
    if s.data = old_data then
      ⟨(CellSyncMutex.lockUpdate old_data).2,
        s.setPc t (.lockWait (CellSyncMutex.lockUpdate old_data).1)⟩
    else ⟨s.data, s.setPc t .idle⟩
  | .lockWait old_order =>
    if old_order ≠ CellSyncMutex.m_freed s.data then s
    else ⟨s.data, s.setPc t .holding⟩
  | .holding => ⟨s.data, s.setPc t (.unlockCas s.data)⟩
  | .unlockCas old_data =>
    if s.data = old_data then ⟨CellSyncMutex.unlockUpdate old_data, s.setPc t .idle⟩
    else ⟨s.data, s.setPc t .holding⟩

/-- The state reached from the initialized mutex under a schedule (the list
of the callers that step, in order). -/
def MutexSys.run {T : Type} [DecidableEq T] (sched : List T) : MutexSys T :=
  sched.foldl MutexSys.step (MutexSys.init T)

/-- The caller has drawn a ticket that it has not yet given back: it is
waiting in `cellSyncMutexLock`, or it holds the mutex. -/
def MutexPc.out : MutexPc → Bool
  | .lockWait _ => true
  | .holding => true
  | .unlockCas _ => true
  | _ => false

/-- The invariant of the ticket lock: `O` tickets were drawn and `F` were
given back in all, `g t` is the ticket of caller `t` before truncation to 16
bits. -/
structure MutexInv {T : Type} (s : MutexSys T) (g : T → Nat) (F O : Nat) : Prop where
  le : F ≤ O
  order_eq : CellSyncMutex.m_order s.data = O % 65536
  freed_eq : CellSyncMutex.m_freed s.data = F % 65536
  range : ∀ t, (s.pc t).out = true → F ≤ g t ∧ g t < O
  ticket : ∀ t tk, s.pc t = .lockWait tk → tk = g t % 65536
  holder : ∀ t, (s.pc t).holds = true → g t = F
  inj : ∀ t u, (s.pc t).out = true → (s.pc u).out = true → g t = g u → t = u
  surj : ∀ n, F ≤ n → n < O → ∃ t, (s.pc t).out = true ∧ g t = n

/-- A schedule for the callers `0, 1, 2, ...`: caller 0 locks the mutex (read,
compare-exchange, re-check), then each of the callers `1 .. k` enters
`cellSyncMutexLock` and draws a ticket (read, compare-exchange). -/
def crowd : Nat → List Nat
  | 0 => [0, 0, 0]
  | k + 1 => crowd k ++ [k + 1, k + 1]

/-- The state in which caller 0 holds the mutex and the callers `1 .. k - 1`
wait with the tickets they drew. -/
def crowdState (k : Nat) : MutexSys Nat :=
  ⟨(k % 65536) * 65536,
    fun u => if u = 0 then .holding else if u < k then .lockWait (u % 65536) else .idle⟩

/-- The schedule `crowd 65536` followed by the re-check of caller 65536. -/
def crowdSchedule : List Nat := crowd 65536 ++ [65536]

/-! ## Counting the requests made to one mutex -/

/-- The quantity `(m_order - m_freed) mod 2^16` of a mutex word. -/
def CellSyncMutex.outstanding (d : Nat) : Nat :=
  (CellSyncMutex.m_order d + 65536 - CellSyncMutex.m_freed d) % 65536

/-- The operations on a mutex that change its word. -/
inductive MutexOp where
  | lock
  | tryLock
  | unlock
  deriving DecidableEq, Repr

/-- A mutex word together with the number of lock requests that drew a ticket
and the number of unlocks. -/
structure MutexTally where
  data : Nat
  requests : Nat
  releases : Nat
  deriving DecidableEq, Repr

/-- Apply the update of one operation to the word and count it. -/
def MutexTally.apply (s : MutexTally) : MutexOp → MutexTally
  | .lock => ⟨(CellSyncMutex.lockUpdate s.data).2, s.requests + 1, s.releases⟩
  | .tryLock =>
    match CellSyncMutex.tryLockUpdate s.data with
    | none => s
    | some new_data => ⟨new_data, s.requests + 1, s.releases⟩
  | .unlock => ⟨CellSyncMutex.unlockUpdate s.data, s.requests, s.releases + 1⟩

/-- Apply a sequence of operations to a zeroed word. -/
def MutexTally.replay (ops : List MutexOp) : MutexTally :=
  ops.foldl MutexTally.apply ⟨0, 0, 0⟩

/-! ## Mediator: the non-blocking calls -/

/-- First loop of `cellSyncRwmTryRead`: return busy when `m_writers != 0`,
else increase `m_readers`.  `Sum.inl` is an early return of the call. -/
def rwmTryReadAcquire (rwm : Nat) : Nat → Memory → Option (Status ⊕ Memory)
  | 0, _ => none
  | fuel + 1, mem =>
    let old_data := load32 mem rwm
    if CellSyncRwm.m_writers old_data ≠ 0 then some (Sum.inl CELL_SYNC_ERROR_BUSY)
    else
      let new_data := CellSyncRwm.set_m_readers old_data (CellSyncRwm.m_readers old_data + 1)
      let r := InterlockedCompareExchange mem rwm new_data old_data
      if r.1 = old_data then some (Sum.inr r.2)
      else rwmTryReadAcquire rwm fuel r.2

/-- The function `cellSyncRwmTryRead`. -/
def cellSyncRwmTryRead (fuel : Nat) (mem : Memory) (rwm buffer_addr : Nat) :
    Option (Status × Memory) :=
  if rwm = 0 ∨ buffer_addr = 0 then some (CELL_SYNC_ERROR_NULL_POINTER, mem)
  else if rwm % 16 ≠ 0 then some (CELL_SYNC_ERROR_ALIGN, mem)
  else
    match rwmTryReadAcquire rwm fuel mem with
    | none => none
    | some (Sum.inl st) => some (st, mem)
    | some (Sum.inr mem) =>
      let mem := memcpy mem buffer_addr (CellSyncRwm.m_addr mem rwm) (CellSyncRwm.m_size mem rwm)
      rwmReadRelease rwm fuel mem

/-- The function `cellSyncRwmTryWrite`.  The constant `se32(1)` is the word
whose big-endian value is 1: `m_readers = 0`, `m_writers = 1`. -/
def cellSyncRwmTryWrite (mem : Memory) (rwm buffer_addr : Nat) : Status × Memory :=
  if rwm = 0 ∨ buffer_addr = 0 then (CELL_SYNC_ERROR_NULL_POINTER, mem)
  else if rwm % 16 ≠ 0 then (CELL_SYNC_ERROR_ALIGN, mem)
  else
    let r := InterlockedCompareExchange mem rwm 1 0
    if r.1 ≠ 0 then (CELL_SYNC_ERROR_BUSY, r.2)
    else
      let mem := r.2
      let mem := memcpy mem (CellSyncRwm.m_addr mem rwm) buffer_addr (CellSyncRwm.m_size mem rwm)
      let mem := (InterlockedCompareExchange mem rwm 0 0).2
      let mem := store32 mem rwm 0
      (CELL_OK, mem)

/-! ## Mediator: the atomic transitions of the word -/

/-- The updates of the mediator word made by the calls. -/
inductive RwmStep where
  /-- `m_readers++` in `cellSyncRwmRead` / `cellSyncRwmTryRead`. -/
  | readerIncrement
  /-- `m_readers--` in the release loop. -/
  | readerDecrement
  /-- `m_writers = 1` in `cellSyncRwmWrite`. -/
  | writerSet
  /-- The compare-exchange of the whole word from 0 to `se32(1)` in
  `cellSyncRwmTryWrite`. -/
  | tryWriterSet
  /-- The assignment `rwm->m_data() = 0`. -/
  | reset
  deriving DecidableEq, Repr

/-- The word after an update; an update whose test fails on the word leaves
it unchanged. -/
def RwmStep.apply (d : Nat) : RwmStep → Nat
  | .readerIncrement =>
    if CellSyncRwm.m_writers d ≠ 0 then d
    else CellSyncRwm.set_m_readers d (CellSyncRwm.m_readers d + 1)
  | .readerDecrement =>
    if CellSyncRwm.m_readers d = 0 then d
    else CellSyncRwm.set_m_readers d (CellSyncRwm.m_readers d + 65535)
  | .writerSet =>
    if CellSyncRwm.m_writers d ≠ 0 then d else CellSyncRwm.set_m_writers d 1
  | .tryWriterSet => if d ≠ 0 then d else 1
  | .reset => 0

/-! ## Interleaved callers of one mediator -/

/-- The call an idle caller begins. -/
inductive RwmOp where
  | read
  | tryRead
  | write
  | tryWrite
  deriving DecidableEq, Repr

/-- Where a caller of the mediator stands. -/
inductive RwmPc where
  /-- Outside any call (also: at the head of a first loop). -/
  | idle
  /-- In the first loop of a read, `old_data` read, before the test of
  `m_writers` and the compare-exchange. -/
  | readCas (old_data : Nat)
  /-- `m_readers` increased, the copy to the caller's buffer not yet done. -/
  | readCopy
  /-- The copy done, at the head of the release loop. -/
  | readDone
  /-- In the release loop, `old_data` read, before the test of `m_readers`
  and the compare-exchange. -/
  | readDecCas (old_data : Nat)
  /-- In the first loop of `cellSyncRwmWrite`, `old_data` read. -/
  | writeCas (old_data : Nat)
  /-- `m_writers` set by `cellSyncRwmWrite`, waiting for `m_readers == 0`. -/
  | writeDrain
  /-- A writer before its copy into the payload is complete. -/
  | writeCopy
  /-- A writer after its copy, before `rwm->m_data() = 0`. -/
  | writeReset
  deriving DecidableEq, Repr

/-- The caller is a reader between its increment and its decrement. -/
def RwmPc.midRead : RwmPc → Bool
  | .readCopy => true
  | .readDone => true
  | .readDecCas _ => true
  | _ => false

/-- The caller is a writer in its payload-copy phase. -/
def RwmPc.inCopy : RwmPc → Bool
  | .writeCopy => true
  | _ => false

/-- The caller is a writer that has set `m_writers` and not yet reset the
word. -/
def RwmPc.holdsW : RwmPc → Bool
  | .writeDrain => true
  | .writeCopy => true
  | .writeReset => true
  | _ => false

/-- The caller is a writer past its wait for `m_readers == 0`. -/
def RwmPc.pastDrain : RwmPc → Bool
  | .writeCopy => true
  | .writeReset => true
  | _ => false

/-- One mediator word shared by the callers `T`. -/
structure RwmSys (T : Type) where
  /-- The value of `rwm->m_data()`. -/
  data : Nat
  /-- Where each caller stands. -/
  pc : T → RwmPc

/-- The mediator after `cellSyncRwmInitialize`, nobody inside a call. -/
def RwmSys.init (T : Type) : RwmSys T := ⟨0, fun _ => RwmPc.idle⟩

/-- Replace the position of caller `t`. -/
def RwmSys.setPc {T : Type} [DecidableEq T] (s : RwmSys T) (t : T) (p : RwmPc) :
    T → RwmPc :=
  fun u => if u = t then p else s.pc u

/-- Caller `t` performs its next atomic step; `op` is the call it begins when
it is idle.  The emulator is not stopped.  A reader that finds `m_writers`
set, and a writer that does, go back to the head of their loop (or return
busy); a failed compare-exchange retries. -/
def RwmSys.step {T : Type} [DecidableEq T] (s : RwmSys T) (a : T × RwmOp) : RwmSys T :=
  match s.pc a.1 with
  | .idle =>
    match a.2 with
    | .read => ⟨s.data, s.setPc a.1 (.readCas s.data)⟩
    | .tryRead => ⟨s.data, s.setPc a.1 (.readCas s.data)⟩
    | .write => ⟨s.data, s.setPc a.1 (.writeCas s.data)⟩
    | .tryWrite => if s.data ≠ 0 then s else ⟨1, s.setPc a.1 .writeCopy⟩
  | .readCas old_data =>
    if CellSyncRwm.m_writers old_data ≠ 0 then ⟨s.data, s.setPc a.1 .idle⟩
    else if s.data = old_data then
      ⟨CellSyncRwm.set_m_readers old_data (CellSyncRwm.m_readers old_data + 1),
        s.setPc a.1 .readCopy⟩
    else ⟨s.data, s.setPc a.1 .idle⟩
  | .readCopy => ⟨s.data, s.setPc a.1 .readDone⟩
  | .readDone => ⟨s.data, s.setPc a.1 (.readDecCas s.data)⟩
  | .readDecCas old_data =>
    if CellSyncRwm.m_readers old_data = 0 then ⟨s.data, s.setPc a.1 .idle⟩
    else if s.data = old_data then
      ⟨CellSyncRwm.set_m_readers old_data (CellSyncRwm.m_readers old_data + 65535),
        s.setPc a.1 .idle⟩
    else ⟨s.data, s.setPc a.1 .readDone⟩
  | .writeCas old_data =>
    if CellSyncRwm.m_writers old_data ≠ 0 then ⟨s.data, s.setPc a.1 .idle⟩
    else if s.data = old_data then
      ⟨CellSyncRwm.set_m_writers old_data 1, s.setPc a.1 .writeDrain⟩
    else ⟨s.data, s.setPc a.1 .idle⟩
  | .writeDrain =>
    if CellSyncRwm.m_readers s.data ≠ 0 then s else ⟨s.data, s.setPc a.1 .writeCopy⟩
  | .writeCopy => ⟨s.data, s.setPc a.1 .writeReset⟩
  | .writeReset => ⟨0, s.setPc a.1 .idle⟩

/-- The state reached from the initialized mediator under a schedule. -/
def RwmSys.run {T : Type} [DecidableEq T] (sched : List (T × RwmOp)) : RwmSys T :=
  sched.foldl RwmSys.step (RwmSys.init T)

/-- The readers between their increment and their decrement. -/
def midReaders {T : Type} [Fintype T] (pc : T → RwmPc) : Finset T :=
  Finset.univ.filter (fun t => (pc t).midRead = true)

/-- The invariant of the mediator word when fewer than 2^16 callers take
part. -/
structure RwmInv {T : Type} [Fintype T] (s : RwmSys T) : Prop where
  readers_eq : CellSyncRwm.m_readers s.data = (midReaders s.pc).card
  writers_le : CellSyncRwm.m_writers s.data ≤ 1
  writers_held : ∀ t, (s.pc t).holdsW = true → CellSyncRwm.m_writers s.data = 1
  writer_unique : ∀ t u, (s.pc t).holdsW = true → (s.pc u).holdsW = true → t = u
  copy_excl : ∀ t, (s.pc t).pastDrain = true → (midReaders s.pc).card = 0
  dec_old : ∀ t old_data, s.pc t = .readDecCas old_data → CellSyncRwm.m_readers old_data ≠ 0

/-- A schedule for the callers `0, 1, 2, ...`: each of the callers
`0 .. k - 1` begins a read and increases `m_readers` (read, then
compare-exchange). -/
def readerCrowd : Nat → List (Nat × RwmOp)
  | 0 => []
  | k + 1 => readerCrowd k ++ [(k, .read), (k, .read)]

/-- The state in which the callers `0 .. k - 1` are readers that have
increased `m_readers`. -/
def readerCrowdState (k : Nat) : RwmSys Nat :=
  ⟨(k % 65536) * 65536, fun u => if u < k then .readCopy else .idle⟩

/-- After 65536 readers have entered, caller 0 finishes its copy, reads the
word in the release loop, finds `m_readers == 0` and returns, and then calls
`cellSyncRwmTryWrite`. -/
def readerCrowdSchedule : List (Nat × RwmOp) :=
  readerCrowd 65536 ++ [(0, .read), (0, .read), (0, .read), (0, .tryWrite)]

/-! ## Queue (`CellSyncQueue`) -/

/-- Why a call of the queue did not return. -/
inductive Fault where
  /-- A loop was still retrying or spinning when the fuel ran out. -/
  | outOfFuel
  /-- An unsigned remainder was evaluated with divisor 0. -/
  | divisionByZero
  deriving DecidableEq, Repr

/-- The remainder `a % b` of two `u32` values; a zero divisor is a fault. -/
def umod32 (a b : Nat) : Option Nat := if b = 0 then none else some (a % b)

/-- The call `InterlockedCompareExchange(&queue->m_data(), exchange,
comparand)` on a 64-bit word. -/
def InterlockedCompareExchange64 (mem : Memory) (dest exchange comparand : Nat) :
    Nat × Memory :=
  let initial := load64 mem dest
  (initial, if initial = comparand then store64 mem dest exchange else mem)

namespace CellSyncQueue

/-- Field `m_v1` (the first `u32` of the record: `pop_busy:8`,
`push_position:24`) of a local copy whose `m_data()` is `d`. -/
def m_v1 (d : Nat) : Nat := d / 4294967296 % 4294967296

/-- Field `m_v2` (the second `u32`: `push_busy:8`, `count:24`) of a local copy
whose `m_data()` is `d`. -/
def m_v2 (d : Nat) : Nat := d % 4294967296

/-- Assignment to `m_v1` in a local copy (the value is truncated to 32
bits). -/
def set_m_v1 (d v : Nat) : Nat := (v % 4294967296) * 4294967296 + d % 4294967296

/-- Assignment to `m_v2` in a local copy (the value is truncated to 32
bits). -/
def set_m_v2 (d v : Nat) : Nat := (d / 4294967296 % 4294967296) * 4294967296 + v % 4294967296

/-- The record field `queue->m_size` (the third `u32` of the record). -/
def m_size (mem : Memory) (queue : Nat) : Nat := load32 mem (queue + 8)

/-- The record field `queue->m_depth` (the fourth `u32` of the record). -/
def m_depth (mem : Memory) (queue : Nat) : Nat := load32 mem (queue + 12)

/-- The record field `queue->m_addr` (the third `u64` of the record). -/
def m_addr (mem : Memory) (queue : Nat) : Nat := load64 mem (queue + 16)

/-- The test that makes push spin and try_push return busy:
`(v2 >> 24) || ((v2 & 0xffffff) + (v1 >> 24)) >= depth`. -/
def pushBlocked (v1 v2 depth : Nat) : Prop :=
  v2 >>> 24 ≠ 0 ∨ (v2 &&& 0xffffff) + (v1 >>> 24) ≥ depth

instance (v1 v2 depth : Nat) : Decidable (pushBlocked v1 v2 depth) :=
  inferInstanceAs (Decidable (_ ∨ _))

/-- The update of push and try_push: `(position, new_queue.m_data())`;
`none` when `% depth` is evaluated with `depth == 0`. -/
def pushUpdate (old_data depth : Nat) : Option (Nat × Nat) :=
  let v1 := m_v1 old_data
  let v2 := m_v2 old_data
  let position := v1 &&& 0xffffff
  match umod32 (position + 1) depth with
  | none => none
  | some next =>
    let d := set_m_v1 old_data ((v1 &&& 0xff000000) ||| next)
    let d := set_m_v2 d ((1 <<< 24) ||| ((v2 &&& 0xffffff) + 1))
    some (position, d)

/-- The update of the release loop of push and try_push:
`new_queue.m_v2 &= 0xffffff`. -/
def pushRelease (old_data : Nat) : Nat :=
  set_m_v2 old_data (m_v2 old_data &&& 0xffffff)

/-- The test that makes pop and peek spin and try_pop and try_peek return
busy: `(v1 >> 24) || ((v2 & 0xffffff) <= (v2 >> 24))`. -/
def popBlocked (v1 v2 : Nat) : Prop :=
  v1 >>> 24 ≠ 0 ∨ (v2 &&& 0xffffff) ≤ (v2 >>> 24)

instance (v1 v2 : Nat) : Decidable (popBlocked v1 v2) :=
  inferInstanceAs (Decidable (_ ∨ _))

/-- The value of `((v1 & 0xffffff) + depth - (v2 & 0xffffff)) % depth` in
`u32` arithmetic; `none` when `depth == 0`. -/
def popPosition (v1 v2 depth : Nat) : Option Nat :=
  umod32 ((((v1 &&& 0xffffff) + depth) % 4294967296 + 4294967296 - (v2 &&& 0xffffff))
    % 4294967296) depth

/-- The update of pop and try_pop: `(position, new_queue.m_data())`. -/
def popUpdate (old_data depth : Nat) : Option (Nat × Nat) :=
  let v1 := m_v1 old_data
  let v2 := m_v2 old_data
  let d := set_m_v1 old_data (0x1000000 ||| v1)
  match popPosition v1 v2 depth with
  | none => none
  | some position =>
    let d := set_m_v2 d ((v2 &&& 0xff000000) |||
      (((v2 &&& 0xffffff) + 4294967296 - 1) % 4294967296))
    some (position, d)

/-- The update of peek and try_peek: `(position, new_queue.m_data())`. -/
def peekUpdate (old_data depth : Nat) : Option (Nat × Nat) :=
  let v1 := m_v1 old_data
  let v2 := m_v2 old_data
  let d := set_m_v1 old_data (0x1000000 ||| v1)
  match popPosition v1 v2 depth with
  | none => none
  | some position => some (position, d)

/-- The update of the release loop of pop, try_pop, peek and try_peek:
`new_queue.m_v1 &= 0xffffff`. -/
def popRelease (old_data : Nat) : Nat :=
  set_m_v1 old_data (m_v1 old_data &&& 0xffffff)

end CellSyncQueue

/-- The function `cellSyncQueueInitialize`; the arguments are `u32`. -/
def cellSyncQueueInitialize (mem : Memory) (queue buffer_addr size depth : Nat) :
    Status × Memory :=
  if queue = 0 then (CELL_SYNC_ERROR_NULL_POINTER, mem)
  else if size ≠ 0 ∧ buffer_addr = 0 then (CELL_SYNC_ERROR_NULL_POINTER, mem)
  else if queue % 32 ≠ 0 ∨ buffer_addr % 16 ≠ 0 then (CELL_SYNC_ERROR_ALIGN, mem)
  else if depth = 0 ∨ size % 16 ≠ 0 then (CELL_SYNC_ERROR_INVAL, mem)
  else
    let mem := store64 mem queue 0
    let mem := store32 mem (queue + 8) size
    let mem := store32 mem (queue + 12) depth
    let mem := store64 mem (queue + 16) buffer_addr
    let mem := (InterlockedCompareExchange64 mem queue 0 0).2
    (CELL_OK, mem)

/-- Release loop of push and try_push: clear the fifth byte of the word. -/
def queuePushRelease (queue : Nat) : Nat → Memory → Except Fault Memory
  | 0, _ => .error .outOfFuel
  | fuel + 1, mem =>
    let old_data := load64 mem queue
    let r := InterlockedCompareExchange64 mem queue (CellSyncQueue.pushRelease old_data) old_data
    if r.1 = old_data then .ok r.2 else queuePushRelease queue fuel r.2

/-- Release loop of pop, try_pop, peek and try_peek: clear the first byte of
the word. -/
def queuePopRelease (queue : Nat) : Nat → Memory → Except Fault Memory
  | 0, _ => .error .outOfFuel
  | fuel + 1, mem =>
    let old_data := load64 mem queue
    let r := InterlockedCompareExchange64 mem queue (CellSyncQueue.popRelease old_data) old_data
    if r.1 = old_data then .ok r.2 else queuePopRelease queue fuel r.2

/-- First loop of `cellSyncQueuePush`.  `Sum.inl` is an early return of the
call, `Sum.inr` carries the claimed position. -/
def queuePushClaim (IsStopped : Nat → Bool) (queue depth : Nat) :
    Nat → Nat → Memory → Except Fault (Status ⊕ (Nat × Memory))
  | 0, _, _ => .error .outOfFuel
  | fuel + 1, polls, mem =>
    let old_data := load64 mem queue
    if CellSyncQueue.pushBlocked (CellSyncQueue.m_v1 old_data) (CellSyncQueue.m_v2 old_data)
        depth then
      if IsStopped polls then .ok (Sum.inl CELL_OK)
      else queuePushClaim IsStopped queue depth fuel (polls + 1) mem
    else
      match CellSyncQueue.pushUpdate old_data depth with
      | none => .error .divisionByZero
      | some (position, new_data) =>
        let r := InterlockedCompareExchange64 mem queue new_data old_data
        if r.1 = old_data then .ok (Sum.inr (position, r.2))
        else queuePushClaim IsStopped queue depth fuel polls r.2

/-- First loop of `cellSyncQueueTryPush`. -/
def queueTryPushClaim (queue depth : Nat) :
    Nat → Memory → Except Fault (Status ⊕ (Nat × Memory))
  | 0, _ => .error .outOfFuel
  | fuel + 1, mem =>
    let old_data := load64 mem queue
    if CellSyncQueue.pushBlocked (CellSyncQueue.m_v1 old_data) (CellSyncQueue.m_v2 old_data)
        depth then .ok (Sum.inl CELL_SYNC_ERROR_BUSY)
    else
      match CellSyncQueue.pushUpdate old_data depth with
      | none => .error .divisionByZero
      | some (position, new_data) =>
        let r := InterlockedCompareExchange64 mem queue new_data old_data
        if r.1 = old_data then .ok (Sum.inr (position, r.2))
        else queueTryPushClaim queue depth fuel r.2

/-- What push and try_push do once a position is claimed: the copy
`memcpy(Memory + m_addr + position * size, Memory + buffer_addr, size)`, in
which `position * size` is a `u32` product, then the release loop. -/
def queuePushCommit (fuel : Nat) (mem : Memory) (queue buffer_addr size position : Nat) :
    Except Fault (Status × Memory) :=
  let mem := memcpy mem (CellSyncQueue.m_addr mem queue + (position * size) % 4294967296)
    buffer_addr size
  match queuePushRelease queue fuel mem with
  | .error e => .error e
  | .ok mem => .ok (CELL_OK, mem)

/-- The function `cellSyncQueuePush`.  The test `m_depth limit broken` at its
head only logs and calls `Emu.Pause()`; the call goes on, and the test is
left out. -/
def cellSyncQueuePush (IsStopped : Nat → Bool) (fuel : Nat) (mem : Memory)
    (queue buffer_addr : Nat) : Except Fault (Status × Memory) :=
  if queue = 0 ∨ buffer_addr = 0 then .ok (CELL_SYNC_ERROR_NULL_POINTER, mem)
  else if queue % 32 ≠ 0 then .ok (CELL_SYNC_ERROR_ALIGN, mem)
  else
    let size := CellSyncQueue.m_size mem queue
    let depth := CellSyncQueue.m_depth mem queue
    match queuePushClaim IsStopped queue depth fuel 0 mem with
    | .error e => .error e
    | .ok (Sum.inl st) => .ok (st, mem)
    | .ok (Sum.inr (position, mem)) => queuePushCommit fuel mem queue buffer_addr size position

/-- The function `cellSyncQueueTryPush` (see `cellSyncQueuePush` for the test
at its head). -/
def cellSyncQueueTryPush (fuel : Nat) (mem : Memory) (queue buffer_addr : Nat) :
    Except Fault (Status × Memory) :=
  if queue = 0 ∨ buffer_addr = 0 then .ok (CELL_SYNC_ERROR_NULL_POINTER, mem)
  else if queue % 32 ≠ 0 then .ok (CELL_SYNC_ERROR_ALIGN, mem)
  else
    let size := CellSyncQueue.m_size mem queue
    let depth := CellSyncQueue.m_depth mem queue
    match queueTryPushClaim queue depth fuel mem with
    | .error e => .error e
    | .ok (Sum.inl st) => .ok (st, mem)
    | .ok (Sum.inr (position, mem)) => queuePushCommit fuel mem queue buffer_addr size position

/-- First loop of `cellSyncQueuePop` (`update` is `popUpdate`) and of
`cellSyncQueuePeek` (`update` is `peekUpdate`); the two loops differ only in
the update. -/
def queuePopClaim (update : Nat → Nat → Option (Nat × Nat)) (IsStopped : Nat → Bool)
    (queue depth : Nat) : Nat → Nat → Memory → Except Fault (Status ⊕ (Nat × Memory))
  | 0, _, _ => .error .outOfFuel
  | fuel + 1, polls, mem =>
    let old_data := load64 mem queue
    if CellSyncQueue.popBlocked (CellSyncQueue.m_v1 old_data) (CellSyncQueue.m_v2 old_data) then
      if IsStopped polls then .ok (Sum.inl CELL_OK)
      else queuePopClaim update IsStopped queue depth fuel (polls + 1) mem
    else
      match update old_data depth with
      | none => .error .divisionByZero
      | some (position, new_data) =>
        let r := InterlockedCompareExchange64 mem queue new_data old_data
        if r.1 = old_data then .ok (Sum.inr (position, r.2))
        else queuePopClaim update IsStopped queue depth fuel polls r.2

/-- First loop of `cellSyncQueueTryPop` (`update` is `popUpdate`) and of
`cellSyncQueueTryPeek` (`update` is `peekUpdate`). -/
def queueTryPopClaim (update : Nat → Nat → Option (Nat × Nat)) (queue depth : Nat) :
    Nat → Memory → Except Fault (Status ⊕ (Nat × Memory))
  | 0, _ => .error .outOfFuel
  | fuel + 1, mem =>
    let old_data := load64 mem queue
    if CellSyncQueue.popBlocked (CellSyncQueue.m_v1 old_data) (CellSyncQueue.m_v2 old_data) then
      .ok (Sum.inl CELL_SYNC_ERROR_BUSY)
    else
      match update old_data depth with
      | none => .error .divisionByZero
      | some (position, new_data) =>
        let r := InterlockedCompareExchange64 mem queue new_data old_data
        if r.1 = old_data then .ok (Sum.inr (position, r.2))
        else queueTryPopClaim update queue depth fuel r.2

/-- What pop, try_pop, peek and try_peek do once a position is claimed: the
copy `memcpy(Memory + buffer_addr, Memory + m_addr + position * size, size)`,
then the release loop. -/
def queuePopCommit (fuel : Nat) (mem : Memory) (queue buffer_addr size position : Nat) :
    Except Fault (Status × Memory) :=
  let mem := memcpy mem buffer_addr
    (CellSyncQueue.m_addr mem queue + (position * size) % 4294967296) size
  match queuePopRelease queue fuel mem with
  | .error e => .error e
  | .ok mem => .ok (CELL_OK, mem)

/-- The function `cellSyncQueuePop`. -/
def cellSyncQueuePop (IsStopped : Nat → Bool) (fuel : Nat) (mem : Memory)
    (queue buffer_addr : Nat) : Except Fault (Status × Memory) :=
  if queue = 0 ∨ buffer_addr = 0 then .ok (CELL_SYNC_ERROR_NULL_POINTER, mem)
  else if queue % 32 ≠ 0 then .ok (CELL_SYNC_ERROR_ALIGN, mem)
  else
    let size := CellSyncQueue.m_size mem queue
    let depth := CellSyncQueue.m_depth mem queue
    match queuePopClaim CellSyncQueue.popUpdate IsStopped queue depth fuel 0 mem with
    | .error e => .error e
    | .ok (Sum.inl st) => .ok (st, mem)
    | .ok (Sum.inr (position, mem)) => queuePopCommit fuel mem queue buffer_addr size position

/-- The function `cellSyncQueueTryPop`. -/
def cellSyncQueueTryPop (fuel : Nat) (mem : Memory) (queue buffer_addr : Nat) :
    Except Fault (Status × Memory) :=
  if queue = 0 ∨ buffer_addr = 0 then .ok (CELL_SYNC_ERROR_NULL_POINTER, mem)
  else if queue % 32 ≠ 0 then .ok (CELL_SYNC_ERROR_ALIGN, mem)
  else
    let size := CellSyncQueue.m_size mem queue
    let depth := CellSyncQueue.m_depth mem queue
    match queueTryPopClaim CellSyncQueue.popUpdate queue depth fuel mem with
    | .error e => .error e
    | .ok (Sum.inl st) => .ok (st, mem)
    | .ok (Sum.inr (position, mem)) => queuePopCommit fuel mem queue buffer_addr size position

/-- The function `cellSyncQueuePeek`. -/
def cellSyncQueuePeek (IsStopped : Nat → Bool) (fuel : Nat) (mem : Memory)
    (queue buffer_addr : Nat) : Except Fault (Status × Memory) :=
  if queue = 0 ∨ buffer_addr = 0 then .ok (CELL_SYNC_ERROR_NULL_POINTER, mem)
  else if queue % 32 ≠ 0 then .ok (CELL_SYNC_ERROR_ALIGN, mem)
  else
    let size := CellSyncQueue.m_size mem queue
    let depth := CellSyncQueue.m_depth mem queue
    match queuePopClaim CellSyncQueue.peekUpdate IsStopped queue depth fuel 0 mem with
    | .error e => .error e
    | .ok (Sum.inl st) => .ok (st, mem)
    | .ok (Sum.inr (position, mem)) => queuePopCommit fuel mem queue buffer_addr size position

/-- The function `cellSyncQueueTryPeek`. -/
def cellSyncQueueTryPeek (fuel : Nat) (mem : Memory) (queue buffer_addr : Nat) :
    Except Fault (Status × Memory) :=
  if queue = 0 ∨ buffer_addr = 0 then .ok (CELL_SYNC_ERROR_NULL_POINTER, mem)
  else if queue % 32 ≠ 0 then .ok (CELL_SYNC_ERROR_ALIGN, mem)
  else
    let size := CellSyncQueue.m_size mem queue
    let depth := CellSyncQueue.m_depth mem queue
    match queueTryPopClaim CellSyncQueue.peekUpdate queue depth fuel mem with
    | .error e => .error e
    | .ok (Sum.inl st) => .ok (st, mem)
    | .ok (Sum.inr (position, mem)) => queuePopCommit fuel mem queue buffer_addr size position

/-- The function `cellSyncQueueSize`: `Sum.inl` is an error status, `Sum.inr`
the returned count. -/
def cellSyncQueueSize (mem : Memory) (queue : Nat) : Status ⊕ Nat :=
  if queue = 0 then Sum.inl CELL_SYNC_ERROR_NULL_POINTER
  else if queue % 32 ≠ 0 then Sum.inl CELL_SYNC_ERROR_ALIGN
  else Sum.inr (load32 mem (queue + 4) &&& 0xffffff)

namespace CellSyncQueue

/-- The field `push_position` of the word: `v1 & 0xffffff`. -/
def push_position (d : Nat) : Nat := m_v1 d &&& 0xffffff

/-- The field `pop_busy` of the word: `v1 >> 24`. -/
def pop_busy (d : Nat) : Nat := m_v1 d >>> 24

/-- The field `count` of the word: `v2 & 0xffffff`. -/
def count (d : Nat) : Nat := m_v2 d &&& 0xffffff

/-- The field `push_busy` of the word: `v2 >> 24`. -/
def push_busy (d : Nat) : Nat := m_v2 d >>> 24

/-- The 64-bit word with the given four fields. -/
def pack (pop_busy push_position push_busy count : Nat) : Nat :=
  (pop_busy * 16777216 + push_position) * 4294967296 + (push_busy * 16777216 + count)

end CellSyncQueue

/-- The queue record at `queue` holds the word `w`, the entry size `size`, the
capacity `depth` and the ring address `addr`. -/
structure QueueRecord (mem : Memory) (queue w size depth addr : Nat) : Prop where
  word : load64 mem queue = w
  size_eq : CellSyncQueue.m_size mem queue = size
  depth_eq : CellSyncQueue.m_depth mem queue = depth
  addr_eq : CellSyncQueue.m_addr mem queue = addr

/-- The memory in which the byte at address `x` holds `x mod 256`. -/
def rampMemory : Memory := fun x => ⟨x % 256, Nat.mod_lt _ (by decide)⟩

/-- The memory after `cellSyncQueueInitialize(queue, buffer_addr, size, depth)`
on `mem` in which the queue word has then reached `w`. -/
def queueInState (mem : Memory) (queue buffer_addr size depth w : Nat) : Memory :=
  store64 (cellSyncQueueInitialize mem queue buffer_addr size depth).2 queue w

namespace CellSyncQueue

/-- The update of the first loop of `cellSyncQueueClear`:
`new_queue.m_v1 = v1 | 0x1000000`. -/
def clearPopUpdate (old_data : Nat) : Nat :=
  set_m_v1 old_data (m_v1 old_data ||| 0x1000000)

/-- The update of the second loop of `cellSyncQueueClear`:
`new_queue.m_v2 = v2 | 0x1000000`. -/
def clearPushUpdate (old_data : Nat) : Nat :=
  set_m_v2 old_data (m_v2 old_data ||| 0x1000000)

end CellSyncQueue

/-- First loop of `cellSyncQueueClear`: wait for `v1 >> 24 == 0` and set the
first byte.  `Sum.inr` carries the number of polls made and the memory. -/
def queueClearClaimPop (IsStopped : Nat → Bool) (queue : Nat) :
    Nat → Nat → Memory → Except Fault (Status ⊕ (Nat × Memory))
  | 0, _, _ => .error .outOfFuel
  | fuel + 1, polls, mem =>
    let old_data := load64 mem queue
    if CellSyncQueue.m_v1 old_data >>> 24 ≠ 0 then
      if IsStopped polls then .ok (Sum.inl CELL_OK)
      else queueClearClaimPop IsStopped queue fuel (polls + 1) mem
    else
      let r := InterlockedCompareExchange64 mem queue
        (CellSyncQueue.clearPopUpdate old_data) old_data
      if r.1 = old_data then .ok (Sum.inr (polls, r.2))
      else queueClearClaimPop IsStopped queue fuel polls r.2

/-- Second loop of `cellSyncQueueClear`: wait for `v2 >> 24 == 0` and set the
fifth byte. -/
def queueClearClaimPush (IsStopped : Nat → Bool) (queue : Nat) :
    Nat → Nat → Memory → Except Fault (Status ⊕ (Nat × Memory))
  | 0, _, _ => .error .outOfFuel
  | fuel + 1, polls, mem =>
    let old_data := load64 mem queue
    if CellSyncQueue.m_v2 old_data >>> 24 ≠ 0 then
      if IsStopped polls then .ok (Sum.inl CELL_OK)
      else queueClearClaimPush IsStopped queue fuel (polls + 1) mem
    else
      let r := InterlockedCompareExchange64 mem queue
        (CellSyncQueue.clearPushUpdate old_data) old_data
      if r.1 = old_data then .ok (Sum.inr (polls, r.2))
      else queueClearClaimPush IsStopped queue fuel polls r.2

/-- The function `cellSyncQueueClear` (see `cellSyncQueuePush` for the test at
its head). -/
def cellSyncQueueClear (IsStopped : Nat → Bool) (fuel : Nat) (mem : Memory) (queue : Nat) :
    Except Fault (Status × Memory) :=
  if queue = 0 then .ok (CELL_SYNC_ERROR_NULL_POINTER, mem)
  else if queue % 32 ≠ 0 then .ok (CELL_SYNC_ERROR_ALIGN, mem)
  else
    match queueClearClaimPop IsStopped queue fuel 0 mem with
    | .error e => .error e
    | .ok (Sum.inl st) => .ok (st, mem)
    | .ok (Sum.inr (polls, mem)) =>
      match queueClearClaimPush IsStopped queue fuel polls mem with
      | .error e => .error e
      | .ok (Sum.inl st) => .ok (st, mem)
      | .ok (Sum.inr (_, mem)) =>
        let mem := store64 mem queue 0
        let mem := (InterlockedCompareExchange64 mem queue 0 0).2
        .ok (CELL_OK, mem)

/-! ## Queue: the atomic transitions of the word -/

/-- The updates of the queue word made by the calls. -/
inductive QueueStep where
  /-- The compare-exchange of the first loop of push and try_push. -/
  | pushClaim
  /-- The compare-exchange of the release loop of push and try_push. -/
  | pushRelease
  /-- The compare-exchange of the first loop of pop and try_pop. -/
  | popClaim
  /-- The compare-exchange of the first loop of peek and try_peek. -/
  | peekClaim
  /-- The compare-exchange of the release loop of pop, try_pop, peek and
  try_peek. -/
  | popRelease
  /-- The compare-exchange of the first loop of clear. -/
  | clearPopClaim
  /-- The compare-exchange of the second loop of clear. -/
  | clearPushClaim
  /-- The assignment `queue->m_data() = 0` of clear. -/
  | reset
  deriving DecidableEq, Repr

/-- The word after an update, for a queue of capacity `depth`; an update whose
test fails on the word (or whose remainder faults) leaves it unchanged. -/
def QueueStep.apply (depth : Nat) (d : Nat) : QueueStep → Nat
  | .pushClaim =>
    if CellSyncQueue.pushBlocked (CellSyncQueue.m_v1 d) (CellSyncQueue.m_v2 d) depth then d
    else
      match CellSyncQueue.pushUpdate d depth with
      | none => d
      | some (_, new_data) => new_data
  | .pushRelease => CellSyncQueue.pushRelease d
  | .popClaim =>
    if CellSyncQueue.popBlocked (CellSyncQueue.m_v1 d) (CellSyncQueue.m_v2 d) then d
    else
      match CellSyncQueue.popUpdate d depth with
      | none => d
      | some (_, new_data) => new_data
  | .peekClaim =>
    if CellSyncQueue.popBlocked (CellSyncQueue.m_v1 d) (CellSyncQueue.m_v2 d) then d
    else
      match CellSyncQueue.peekUpdate d depth with
      | none => d
      | some (_, new_data) => new_data
  | .popRelease => CellSyncQueue.popRelease d
  | .clearPopClaim =>
    if CellSyncQueue.m_v1 d >>> 24 ≠ 0 then d else CellSyncQueue.clearPopUpdate d
  | .clearPushClaim =>
    if CellSyncQueue.m_v2 d >>> 24 ≠ 0 then d else CellSyncQueue.clearPushUpdate d
  | .reset => 0

/-- The bounds on the queue word: `push_position <= depth` and
`count <= depth`. -/
def QueueBounds (depth d : Nat) : Prop :=
  CellSyncQueue.push_position d ≤ depth ∧ CellSyncQueue.count d ≤ depth

/-! ## Queue: sequences of uncontended calls and the abstract list queue -/

/-- The `n` bytes at address `a`. -/
def readBytes (mem : Memory) (a n : Nat) : List (Fin 256) :=
  (List.range n).map (fun i => mem (a + i))

/-- One call on the queue, with the caller's buffer address. -/
inductive QueueCall where
  | tryPush (buffer_addr : Nat)
  | tryPop (buffer_addr : Nat)
  | size
  deriving DecidableEq, Repr

/-- What a call asks of a list queue: `push` carries the bytes of the source
buffer at the time of the call. -/
inductive FifoOp where
  | push (entry : List (Fin 256))
  | pop
  | size
  deriving DecidableEq, Repr

/-- What a call shows to its caller: the status, for a pop also the bytes
delivered to the destination (none unless the status is `CELL_OK`), for a size
query the returned value. -/
inductive QueueObs where
  | pushed (status : Status)
  | popped (status : Status) (bytes : List (Fin 256))
  | size (result : Status ⊕ Nat)
  deriving DecidableEq, Repr

/-- One call of `cellSyncQueueTryPush`, `cellSyncQueueTryPop` or
`cellSyncQueueSize` on the queue at `queue`, whose entries have `entry_size`
bytes: what was asked, what the caller saw, and the memory afterwards. -/
def queueCall (fuel queue entry_size : Nat) (mem : Memory) :
    QueueCall → Except Fault ((FifoOp × QueueObs) × Memory)
  | .tryPush buffer_addr =>
    match cellSyncQueueTryPush fuel mem queue buffer_addr with
    | .error e => .error e
    | .ok (st, mem') => .ok ((.push (readBytes mem buffer_addr entry_size), .pushed st), mem')
  | .tryPop buffer_addr =>
    match cellSyncQueueTryPop fuel mem queue buffer_addr with
    | .error e => .error e
    | .ok (st, mem') =>
      .ok ((.pop, .popped st
        (if st = CELL_OK then readBytes mem' buffer_addr entry_size else [])), mem')
  | .size => .ok ((.size, .size (cellSyncQueueSize mem queue)), mem)

/-- A sequence of calls made one after the other (no call overlaps another). -/
def queueCalls (fuel queue entry_size : Nat) :
    Memory → List QueueCall → Except Fault (List (FifoOp × QueueObs) × Memory)
  | mem, [] => .ok ([], mem)
  | mem, c :: rest =>
    match queueCall fuel queue entry_size mem c with
    | .error e => .error e
    | .ok (o, mem') =>
      match queueCalls fuel queue entry_size mem' rest with
      | .error e => .error e
      | .ok (os, memF) => .ok (o :: os, memF)

/-- The abstract bounded list queue of the specification, of capacity `C`:
try_push returns Busy iff the list has `C` entries and otherwise appends the
source bytes; try_pop returns Busy iff the list is empty and otherwise
delivers the oldest entry and removes it; size returns the list length. -/
def fifoObs (C : Nat) : List (List (Fin 256)) → List FifoOp → List QueueObs
  | _, [] => []
  | l, .push e :: rest =>
    if l.length = C then .pushed CELL_SYNC_ERROR_BUSY :: fifoObs C l rest
    else .pushed CELL_OK :: fifoObs C (l ++ [e]) rest
  | [], .pop :: rest => .popped CELL_SYNC_ERROR_BUSY [] :: fifoObs C [] rest
  | e :: l, .pop :: rest => .popped CELL_OK e :: fifoObs C l rest
  | l, .size :: rest => .size (Sum.inr l.length) :: fifoObs C l rest

/-- The list held by a ring of `C` slots at `addr` whose word has
`push_position = p` and `count = n`: the entries of the slots
`(p + C - n + k) mod C` for `k = 0 .. n - 1`, oldest first. -/
def ringEntries (mem : Memory) (addr size C p n : Nat) : List (List (Fin 256)) :=
  (List.range n).map (fun k => readBytes mem (addr + (p + C - n + k) % C * size) size)

/-- The caller's buffer of a call is non-null; a source buffer does not
overlap the queue word; a destination buffer overlaps neither the fields of
the queue record (its first 24 bytes) nor the ring. -/
def QueueCall.valid (queue addr size C : Nat) : QueueCall → Prop
  | .tryPush src => src ≠ 0 ∧ (src + size ≤ queue ∨ queue + 8 ≤ src)
  | .tryPop dst => dst ≠ 0 ∧ (dst + size ≤ queue ∨ queue + 24 ≤ dst) ∧
      (dst + size ≤ addr ∨ addr + C * size ≤ dst)
  | .size => True

instance (queue addr size C : Nat) (c : QueueCall) :
    Decidable (QueueCall.valid queue addr size C c) := by
  cases c <;> unfold QueueCall.valid <;> infer_instance

/-- The queue at `queue` is idle (no busy flag) with `push_position = p` and
`count = n` within a ring of `C` slots. -/
structure QueueIdle (mem : Memory) (queue size C addr p n : Nat) : Prop where
  record : QueueRecord mem queue (CellSyncQueue.pack 0 p 0 n) size C addr
  position_lt : p < C
  count_le : n ≤ C

/-! ## Barrier: the atomic transitions of the word -/

/-- The updates of the barrier word made by the calls. -/
inductive BarrierStep where
  /-- The compare-exchange of `cellSyncBarrierNotify`. -/
  | notify
  /-- The compare-exchange of `cellSyncBarrierTryNotify`. -/
  | tryNotify
  /-- The compare-exchange of `cellSyncBarrierWait`. -/
  | wait
  /-- The compare-exchange of `cellSyncBarrierTryWait`. -/
  | tryWait
  deriving DecidableEq, Repr

/-- The word after an update; an update whose test fails on the word leaves
it unchanged (notify spins, try_notify writes the word back and returns busy,
wait spins, try_wait returns busy). -/
def BarrierStep.apply (d : Nat) : BarrierStep → Nat
  | .notify | .tryNotify =>
    if toS16 (CellSyncBarrier.m_value d) < 0 then d
    else CellSyncBarrier.notifyUpdate d (toS16 (CellSyncBarrier.m_value d))
  | .wait | .tryWait =>
    if toS16 (CellSyncBarrier.m_value d) ≥ 0 then d
    else CellSyncBarrier.waitUpdate d (toS16 (CellSyncBarrier.m_value d))

/-- The words a barrier of `N` parties goes through: `m_count = N`, and
`m_value` is below `N` (gate clear) or `0x8000 + k` with `1 <= k <= N` (gate
set). -/
def BarrierReach (N d : Nat) : Prop :=
  CellSyncBarrier.m_count d = N ∧
    (CellSyncBarrier.m_value d < N ∨
      (32769 ≤ CellSyncBarrier.m_value d ∧ CellSyncBarrier.m_value d ≤ 32768 + N))

/-! ## Extended queue (`CellSyncLFQueue`): initialization -/

/-- The declaration of `struct CellSyncLFQueue` and of
`enum CellSyncQueueDirection` (header `cellSync.h`), taken as a parameter:
the byte offset of every field the code names, the number of elements of the
array `m_hs`, `sizeof(CellSyncLFQueue)`, and the value of the enumerator
`CELL_SYNC_QUEUE_ANY2ANY`.  The fields `m_h1` .. `m_h8` and the elements of
`m_hs` are `be_t<u16>`, `m_size`, `m_depth`, `m_direction`, `m_v1`, `m_v2`,
`m_v3` are `be_t<u32>`, `m_buffer` and `m_eaSignal` are `be_t<u64>`, `m_bs`
is `u8[4]`; `m_data` is the offset of the `u32` that `m_data()` refers to. -/
structure LFQueueLayout where
  m_h1 : Nat
  m_h2 : Nat
  m_h3 : Nat
  m_h4 : Nat
  m_h5 : Nat
  m_h6 : Nat
  m_h7 : Nat
  m_h8 : Nat
  m_size : Nat
  m_depth : Nat
  m_buffer : Nat
  m_bs : Nat
  m_direction : Nat
  m_v1 : Nat
  m_data : Nat
  m_hs : Nat
  hs_len : Nat
  m_eaSignal : Nat
  m_v2 : Nat
  m_v3 : Nat
  sizeof : Nat
  CELL_SYNC_QUEUE_ANY2ANY : Nat
  deriving DecidableEq, Repr

/-- Well-formedness of a declaration: the fields follow one another without
overlap inside the record, the `u32` of `m_data()` lies between `m_v1` and
`m_hs`, and `m_hs` has an element 16 (the code writes `m_hs[16]`). -/
abbrev LFQueueLayout.Ordered (L : LFQueueLayout) : Prop :=
  L.m_h1 + 2 ≤ L.m_h2 ∧ L.m_h2 + 2 ≤ L.m_h3 ∧ L.m_h3 + 2 ≤ L.m_h4 ∧
  L.m_h4 + 2 ≤ L.m_h5 ∧ L.m_h5 + 2 ≤ L.m_h6 ∧ L.m_h6 + 2 ≤ L.m_h7 ∧
  L.m_h7 + 2 ≤ L.m_h8 ∧ L.m_h8 + 2 ≤ L.m_size ∧ L.m_size + 4 ≤ L.m_depth ∧
  L.m_depth + 4 ≤ L.m_buffer ∧ L.m_buffer + 8 ≤ L.m_bs ∧
  L.m_bs + 4 ≤ L.m_direction ∧ L.m_direction + 4 ≤ L.m_v1 ∧
  L.m_v1 + 4 ≤ L.m_data ∧ L.m_data + 4 ≤ L.m_hs ∧
  L.m_hs + 2 * L.hs_len ≤ L.m_eaSignal ∧ L.m_eaSignal + 8 ≤ L.m_v2 ∧
  L.m_v2 + 4 ≤ L.m_v3 ∧ L.m_v3 + 4 ≤ L.sizeof ∧ 16 < L.hs_len

/-- A well-formed declaration for concrete evaluations: a record of 128
bytes with the fields in the order in which `syncLFQueueInitialize` names
them, the `u32` of `m_data()` at offset `0x2c` (the comment in
`cellSyncLFQueueInitialize`: "reserve u32 at 0x2c offset"), 32 elements in
`m_hs`, and `CELL_SYNC_QUEUE_ANY2ANY = 3` (the largest direction the
function accepts). -/
def LFQueueLayout.packed : LFQueueLayout where
  m_h1 := 0x0
  m_h2 := 0x2
  m_h3 := 0x4
  m_h4 := 0x6
  m_h5 := 0x8
  m_h6 := 0xa
  m_h7 := 0xc
  m_h8 := 0xe
  m_size := 0x10
  m_depth := 0x14
  m_buffer := 0x18
  m_bs := 0x20
  m_direction := 0x24
  m_v1 := 0x28
  m_data := 0x2c
  m_hs := 0x30
  hs_len := 32
  m_eaSignal := 0x70
  m_v2 := 0x78
  m_v3 := 0x7c
  sizeof := 128
  CELL_SYNC_QUEUE_ANY2ANY := 3

/-- Return value of `cellSyncLFQueueInitialize` (an `s32`): a status of this
library, or the non-zero result of `process_get_sdk_version` passed on to
the caller. -/
inductive LFQueueReturn where
  | status (s : Status)
  | sdk_version_error (ret : Int)
  deriving DecidableEq, Repr

/-- The loop of `syncLFQueueInitialize` over the elements of `m_hs`:
`queue->m_hs[i] = 0`. -/
def syncLFQueueClearHs (L : LFQueueLayout) (queue : Nat) (mem : Memory) : Memory :=
  (List.range L.hs_len).foldl (fun m i => store16 m (queue + L.m_hs + 2 * i) 0) mem

/-- The function `syncLFQueueInitialize`; the arguments are `u32`, `-1` is
the all-ones value of the field's width. -/
def syncLFQueueInitialize (L : LFQueueLayout) (mem : Memory)
    (queue buffer_addr size depth direction eaSignal_addr : Nat) : Memory :=
  let mem := store16 mem (queue + L.m_h1) 0
  let mem := store16 mem (queue + L.m_h2) 0
  let mem := store16 mem (queue + L.m_h4) 0
  let mem := store16 mem (queue + L.m_h5) 0
  let mem := store16 mem (queue + L.m_h6) 0
  let mem := store16 mem (queue + L.m_h8) 0
  let mem := store32 mem (queue + L.m_size) size
  let mem := store32 mem (queue + L.m_depth) depth
  let mem := store64 mem (queue + L.m_buffer) buffer_addr
  let mem := store32 mem (queue + L.m_direction) direction
  let mem := syncLFQueueClearHs L queue mem
  let mem := store64 mem (queue + L.m_eaSignal) eaSignal_addr
  if direction = L.CELL_SYNC_QUEUE_ANY2ANY then
    let mem := store16 mem (queue + L.m_h3) 0
    let mem := store16 mem (queue + L.m_h7) 0
    let mem := store64 mem (queue + L.m_buffer) (buffer_addr ||| 1)
    let mem := store8 mem (queue + L.m_bs) 0xff
    let mem := store8 mem (queue + L.m_bs + 1) 0xff
    let mem := store32 mem (queue + L.m_v1) 0xffffffff
    let mem := store16 mem (queue + L.m_hs) 0xffff
    let mem := store16 mem (queue + L.m_hs + 2 * 16) 0xffff
    let mem := store32 mem (queue + L.m_v2) 0
    store32 mem (queue + L.m_v3) 0
  else
    let mem := store8 mem (queue + L.m_bs) 0xff
    let mem := store8 mem (queue + L.m_bs + 1) 0xff
    let mem := store8 mem (queue + L.m_bs + 2) 0xff
    let mem := store8 mem (queue + L.m_bs + 3) 0xff
    let mem := store32 mem (queue + L.m_v1) 0
    let mem := store32 mem (queue + L.m_v2) 0
    store32 mem (queue + L.m_v3) 0

/-- The scan of `cellSyncLFQueueInitialize` over the record, one `u64` at a
time: some `u64` of the record is non-zero. -/
def lfQueueNonZero (L : LFQueueLayout) (mem : Memory) (queue : Nat) : Bool :=
  (List.range (L.sizeof / 8)).any (fun i => decide (load64 mem (queue + i * 8) ≠ 0))

/-- The loop of `cellSyncLFQueueInitialize` that reserves the `u32` of
`m_data()`.  `Sum.inl` is an early return of the call, `Sum.inr` carries
`old_value` and the memory after the exchange. -/
def lfQueueReserve (L : LFQueueLayout) (sdk_ver : Int) (queue : Nat) :
    Nat → Memory → Except Fault (Status ⊕ (Nat × Memory))
  | 0, _ => .error .outOfFuel
  | fuel + 1, mem =>
    let old_data := load32 mem (queue + L.m_data)
    if old_data ≠ 0 then
      if sdk_ver > 0x17ffff ∧ old_data ≠ 2 then .ok (Sum.inl CELL_SYNC_ERROR_STAT)
      else
        let r := InterlockedCompareExchange mem (queue + L.m_data) old_data old_data
        if r.1 = old_data then .ok (Sum.inr (old_data, r.2))
        else lfQueueReserve L sdk_ver queue fuel r.2
    else
      if sdk_ver > 0x17ffff ∧ lfQueueNonZero L mem queue = true then
        .ok (Sum.inl CELL_SYNC_ERROR_STAT)
      else
        let r := InterlockedCompareExchange mem (queue + L.m_data) 1 old_data
        if r.1 = old_data then .ok (Sum.inr (1, r.2))
        else lfQueueReserve L sdk_ver queue fuel r.2

/-- The function `cellSyncLFQueueInitialize`.  `ret` and `sdk_ver` are the
result and the output of `process_get_sdk_version(process_getpid(), sdk_ver)`
(an `s32` each); the other arguments are `u32`. -/
def cellSyncLFQueueInitialize (L : LFQueueLayout) (ret sdk_ver : Int) (fuel : Nat)
    (mem : Memory) (queue buffer_addr size depth direction eaSignal_addr : Nat) :
    Except Fault (LFQueueReturn × Memory) :=
  if queue = 0 then .ok (.status CELL_SYNC_ERROR_NULL_POINTER, mem)
  else if size ≠ 0 ∧ buffer_addr = 0 then .ok (.status CELL_SYNC_ERROR_NULL_POINTER, mem)
  else if size ≠ 0 ∧ (size > 0x4000 ∨ size % 16 ≠ 0) then
    .ok (.status CELL_SYNC_ERROR_INVAL, mem)
  else if depth = 0 ∨ depth / 2 ^ 15 ≠ 0 ∨ direction > 3 then
    .ok (.status CELL_SYNC_ERROR_INVAL, mem)
  else if queue % 128 ≠ 0 ∨ buffer_addr % 16 ≠ 0 then
    .ok (.status CELL_SYNC_ERROR_ALIGN, mem)
  else if ret ≠ 0 then .ok (.sdk_version_error ret, mem)
  else
    let sdk_ver := if sdk_ver = -1 then 0x460000 else sdk_ver
    match lfQueueReserve L sdk_ver queue fuel mem with
    | .error e => .error e
    | .ok (Sum.inl s) => .ok (.status s, mem)
    | .ok (Sum.inr (old_value, mem)) =>
      if old_value = 2 then
        if load32 mem (queue + L.m_size) ≠ size ∨ load32 mem (queue + L.m_depth) ≠ depth ∨
            load64 mem (queue + L.m_buffer) ≠ buffer_addr then
          .ok (.status CELL_SYNC_ERROR_INVAL, mem)
        else if sdk_ver > 0x17ffff ∧
            (load64 mem (queue + L.m_eaSignal) ≠ eaSignal_addr ∨
              load32 mem (queue + L.m_direction) ≠ direction) then
          .ok (.status CELL_SYNC_ERROR_INVAL, mem)
        else
          let mem := (InterlockedCompareExchange mem (queue + L.m_data) 0 0).2
          .ok (.status CELL_OK, mem)
      else
        let mem := syncLFQueueInitialize L mem queue buffer_addr size depth direction
          eaSignal_addr
        let mem := (InterlockedCompareExchange mem (queue + L.m_data) 0 0).2
        let mem := store32 mem (queue + L.m_data) 0
        let mem := (InterlockedCompareExchange mem (queue + L.m_data) 0 0).2
        .ok (.status CELL_OK, mem)

/-- The record as `syncLFQueueInitialize` writes it over `mem`, with the
`u32` of `m_data()` holding 2. -/
def lfQueueReady (L : LFQueueLayout) (mem : Memory)
    (queue buffer_addr size depth direction eaSignal_addr : Nat) : Memory :=
  store32 (syncLFQueueInitialize L mem queue buffer_addr size depth direction eaSignal_addr)
    (queue + L.m_data) 2

/-- The parameter checks of `cellSyncLFQueueInitialize` pass (the arguments
are `u32`). -/
abbrev LFQueueValid (queue buffer_addr size depth direction eaSignal_addr : Nat) : Prop :=
  queue ≠ 0 ∧ queue % 128 = 0 ∧ queue < 4294967296 ∧
  (size ≠ 0 → buffer_addr ≠ 0) ∧ buffer_addr % 16 = 0 ∧ buffer_addr < 4294967296 ∧
  size ≤ 0x4000 ∧ size % 16 = 0 ∧ depth ≠ 0 ∧ depth < 2 ^ 15 ∧ direction ≤ 3 ∧
  eaSignal_addr < 4294967296

/-! ## Mediator: a write abandoned in its wait -/

/-- Caller `t` is in the second loop of `cellSyncRwmWrite` (`m_writers` set,
waiting for `m_readers == 0`), finds the emulator stopped and returns
`CELL_OK`: the word is left as it is, the caller is outside any call. -/
def RwmSys.cancel {T : Type} [DecidableEq T] (s : RwmSys T) (t : T) : RwmSys T :=
  match s.pc t with
  | .writeDrain => ⟨s.data, s.setPc t .idle⟩
  | _ => s

/-- The word has `m_writers == 1` and no caller is a writer between setting
`m_writers` and resetting the word. -/
def RwmAbandoned {T : Type} (s : RwmSys T) : Prop :=
  CellSyncRwm.m_writers s.data = 1 ∧ ∀ t, (s.pc t).holdsW = false

/-! ## Memory lemmas -/

theorem store8_apply (mem : Memory) (a v x : Nat) :
    store8 mem a v x = if x = a then ⟨v % 256, Nat.mod_lt _ (by decide)⟩ else mem x := rfl

theorem store16_outside (mem : Memory) (a v x : Nat) (h : x < a ∨ a + 2 ≤ x) :
    store16 mem a v x = mem x := by
  unfold store16 store8
  have h1 : x ≠ a + 1 := by omega
  have h2 : x ≠ a := by omega
  simp [h1, h2]

theorem store32_outside (mem : Memory) (a v x : Nat) (h : x < a ∨ a + 4 ≤ x) :
    store32 mem a v x = mem x := by
  unfold store32
  rw [store16_outside _ _ _ _ (by omega), store16_outside _ _ _ _ (by omega)]

theorem store64_outside (mem : Memory) (a v x : Nat) (h : x < a ∨ a + 8 ≤ x) :
    store64 mem a v x = mem x := by
  unfold store64
  rw [store32_outside _ _ _ _ (by omega), store32_outside _ _ _ _ (by omega)]

theorem load16_congr (mem mem' : Memory) (a : Nat)
    (h : ∀ x, a ≤ x → x < a + 2 → mem x = mem' x) : load16 mem a = load16 mem' a := by
  unfold load16
  rw [h a (by omega) (by omega), h (a + 1) (by omega) (by omega)]

theorem load32_congr (mem mem' : Memory) (a : Nat)
    (h : ∀ x, a ≤ x → x < a + 4 → mem x = mem' x) : load32 mem a = load32 mem' a := by
  unfold load32
  rw [load16_congr mem mem' a (fun x h1 h2 => h x h1 (by omega)),
    load16_congr mem mem' (a + 2) (fun x h1 h2 => h x (by omega) (by omega))]

theorem load64_congr (mem mem' : Memory) (a : Nat)
    (h : ∀ x, a ≤ x → x < a + 8 → mem x = mem' x) : load64 mem a = load64 mem' a := by
  unfold load64
  rw [load32_congr mem mem' a (fun x h1 h2 => h x h1 (by omega)),
    load32_congr mem mem' (a + 4) (fun x h1 h2 => h x (by omega) (by omega))]

theorem load16_lt (mem : Memory) (a : Nat) : load16 mem a < 65536 := by
  unfold load16
  have h1 := (mem a).isLt
  have h2 := (mem (a + 1)).isLt
  omega

theorem load32_lt (mem : Memory) (a : Nat) : load32 mem a < 4294967296 := by
  unfold load32
  have h1 := load16_lt mem a
  have h2 := load16_lt mem (a + 2)
  omega

theorem load16_store16 (mem : Memory) (a v : Nat) :
    load16 (store16 mem a v) a = v % 65536 := by
  unfold load16 store16 store8
  simp
  omega

theorem load32_store32 (mem : Memory) (a v : Nat) :
    load32 (store32 mem a v) a = v % 4294967296 := by
  unfold load32 store32
  rw [load16_store16]
  rw [load16_congr (store16 (store16 mem a (v / 65536)) (a + 2) v) (store16 mem a (v / 65536)) a
    (fun x h1 h2 => store16_outside _ _ _ _ (by omega))]
  rw [load16_store16]
  omega

theorem store16_load16 (mem : Memory) (a : Nat) : store16 mem a (load16 mem a) = mem := by
  funext x
  unfold store16 store8 load16
  have h1 := (mem a).isLt
  have h2 := (mem (a + 1)).isLt
  by_cases hx1 : x = a + 1
  · subst hx1
    simp
    apply Fin.ext
    simp
    omega
  · by_cases hx : x = a
    · subst hx
      simp
      apply Fin.ext
      simp
      omega
    · simp [hx, hx1]

theorem store16_mod (mem : Memory) (a v : Nat) :
    store16 mem a (v % 65536) = store16 mem a v := by
  funext x
  unfold store16 store8
  have e1 : v % 65536 / 256 % 256 = v / 256 % 256 := by omega
  have e2 : v % 65536 % 256 = v % 256 := by omega
  simp only [e1, e2]

theorem store32_load32 (mem : Memory) (a : Nat) : store32 mem a (load32 mem a) = mem := by
  unfold store32 load32
  have h1 := load16_lt mem a
  have h2 := load16_lt mem (a + 2)
  have e1 : (load16 mem a * 65536 + load16 mem (a + 2)) / 65536 = load16 mem a := by omega
  have e2 : (load16 mem a * 65536 + load16 mem (a + 2)) % 65536 = load16 mem (a + 2) := by
    omega
  rw [e1, store16_load16, ← store16_mod, e2, store16_load16]

theorem load16_store32_hi (mem : Memory) (a v : Nat) :
    load16 (store32 mem a v) a = v / 65536 % 65536 := by
  unfold store32
  rw [load16_congr _ (store16 mem a (v / 65536)) a
    (fun x h1 h2 => store16_outside _ _ _ _ (by omega)), load16_store16]

theorem load16_store32_lo (mem : Memory) (a v : Nat) :
    load16 (store32 mem a v) (a + 2) = v % 65536 := by
  unfold store32
  rw [load16_store16]

theorem load32_hi (mem : Memory) (a : Nat) : load32 mem a / 65536 % 65536 = load16 mem a := by
  unfold load32
  have h1 := load16_lt mem a
  have h2 := load16_lt mem (a + 2)
  omega

theorem load32_lo (mem : Memory) (a : Nat) : load32 mem a % 65536 = load16 mem (a + 2) := by
  unfold load32
  have h1 := load16_lt mem a
  have h2 := load16_lt mem (a + 2)
  omega

/-! ## Compare-exchange in a sequential call -/

theorem ICE_fst (mem : Memory) (a e c : Nat) :
    (InterlockedCompareExchange mem a e c).1 = load32 mem a := rfl

theorem ICE_hit (mem : Memory) (a e : Nat) :
    (InterlockedCompareExchange mem a e (load32 mem a)).2 = store32 mem a e := by
  simp [InterlockedCompareExchange]

theorem ICE_sync (mem : Memory) (a : Nat) :
    (InterlockedCompareExchange mem a 0 0).2 = mem := by
  unfold InterlockedCompareExchange
  by_cases h : load32 mem a = 0
  · simp only [h, if_true]
    rw [← h, store32_load32]
  · simp [h]

/-! ## Mutex: sequential calls -/

theorem mutexTryLockLoop_succ (mutex fuel : Nat) (mem : Memory) :
    mutexTryLockLoop mutex (fuel + 1) mem =
      match CellSyncMutex.tryLockUpdate (load32 mem mutex) with
      | none => some (CELL_SYNC_ERROR_BUSY, mem)
      | some new_data => some (CELL_OK, store32 mem mutex new_data) := by
  unfold mutexTryLockLoop
  cases h : CellSyncMutex.tryLockUpdate (load32 mem mutex) with
  | none => simp only [h]
  | some nd => simp only [h, ICE_fst, ICE_hit, if_true]

theorem mutexLockDraw_succ (mutex fuel : Nat) (mem : Memory) :
    mutexLockDraw mutex (fuel + 1) mem =
      some ((CellSyncMutex.lockUpdate (load32 mem mutex)).1,
        store32 mem mutex (CellSyncMutex.lockUpdate (load32 mem mutex)).2) := by
  unfold mutexLockDraw
  simp [ICE_fst, ICE_hit]

theorem mutexUnlockLoop_succ (mutex fuel : Nat) (mem : Memory) :
    mutexUnlockLoop mutex (fuel + 1) mem =
      some (store32 mem mutex (CellSyncMutex.unlockUpdate (load32 mem mutex))) := by
  unfold mutexUnlockLoop
  simp [ICE_fst, ICE_hit]

/-- C2: at a non-null 4-aligned address `cellSyncMutexTryLock` returns
`CELL_OK` iff `m_order == m_freed`; on success `m_order` is increased by one
modulo 2^16, `m_freed` and all other memory are unchanged; when the fields
differ it returns `CELL_SYNC_ERROR_BUSY` and memory is unchanged. -/
theorem cellSyncMutexTryLock_spec (fuel : Nat) (mem : Memory) (mutex : Nat)
    (hnull : mutex ≠ 0) (halign : mutex % 4 = 0) :
    ((∃ mem', cellSyncMutexTryLock (fuel + 1) mem mutex = some (CELL_OK, mem')) ↔
      load16 mem mutex = load16 mem (mutex + 2)) ∧
    (load16 mem mutex = load16 mem (mutex + 2) →
      ∃ mem', cellSyncMutexTryLock (fuel + 1) mem mutex = some (CELL_OK, mem') ∧
        load16 mem' mutex = (load16 mem mutex + 1) % 65536 ∧
        load16 mem' (mutex + 2) = load16 mem (mutex + 2) ∧
        ∀ x, x < mutex ∨ mutex + 4 ≤ x → mem' x = mem x) ∧
    (load16 mem mutex ≠ load16 mem (mutex + 2) →
      cellSyncMutexTryLock (fuel + 1) mem mutex = some (CELL_SYNC_ERROR_BUSY, mem)) := by
  have hcall : cellSyncMutexTryLock (fuel + 1) mem mutex =
      mutexTryLockLoop mutex (fuel + 1) mem := by
    simp [cellSyncMutexTryLock, hnull, halign]
  rw [hcall, mutexTryLockLoop_succ]
  unfold CellSyncMutex.tryLockUpdate CellSyncMutex.m_order CellSyncMutex.m_freed
  rw [load32_hi, load32_lo]
  by_cases h : load16 mem mutex = load16 mem (mutex + 2)
  · have hl := load16_lt mem (mutex + 2)
    have hif : (if load16 mem mutex ≠ load16 mem (mutex + 2) then (none : Option Nat)
        else some (CellSyncMutex.set_m_order (load32 mem mutex) (load16 mem mutex + 1))) =
        some (CellSyncMutex.set_m_order (load32 mem mutex) (load16 mem mutex + 1)) := by
      simp [h]
    rw [hif]
    refine ⟨⟨fun _ => h, fun _ => ⟨_, rfl⟩⟩, fun _ => ⟨_, rfl, ?_, ?_, ?_⟩,
      fun hne => absurd h hne⟩
    · rw [load16_store32_hi]
      unfold CellSyncMutex.set_m_order
      omega
    · rw [load16_store32_lo]
      unfold CellSyncMutex.set_m_order
      rw [load32_lo]
      omega
    · intro x hx
      exact store32_outside _ _ _ _ hx
  · have hif : (if load16 mem mutex ≠ load16 mem (mutex + 2) then (none : Option Nat)
        else some (CellSyncMutex.set_m_order (load32 mem mutex) (load16 mem mutex + 1))) =
        none := by
      simp [h]
    rw [hif]
    refine ⟨⟨fun ⟨m, hm⟩ => ?_, fun he => absurd he h⟩,
      fun he => absurd he h, fun _ => rfl⟩
    simp at hm

/-- Witness for C2: a free mutex at address 4 in zeroed memory. -/
theorem cellSyncMutexTryLock_spec_witness :
    ((∃ mem', cellSyncMutexTryLock 1 (fun _ => 0) 4 = some (CELL_OK, mem')) ↔
      load16 (fun _ => 0) 4 = load16 (fun _ => 0) (4 + 2)) ∧
    (load16 (fun _ => 0) 4 = load16 (fun _ => 0) (4 + 2) →
      ∃ mem', cellSyncMutexTryLock 1 (fun _ => 0) 4 = some (CELL_OK, mem') ∧
        load16 mem' 4 = (load16 (fun _ => 0) 4 + 1) % 65536 ∧
        load16 mem' (4 + 2) = load16 (fun _ => 0) (4 + 2) ∧
        ∀ x, x < 4 ∨ 4 + 4 ≤ x → mem' x = (fun _ => 0 : Memory) x) ∧
    (load16 (fun _ => 0) 4 ≠ load16 (fun _ => 0) (4 + 2) →
      cellSyncMutexTryLock 1 (fun _ => 0) 4 = some (CELL_SYNC_ERROR_BUSY, fun _ => 0)) :=
  cellSyncMutexTryLock_spec 0 (fun _ => 0) 4 (by decide) (by decide)

theorem mutexTryLockLoop_busy (mutex : Nat) (fuel : Nat) (mem mem' : Memory)
    (h : mutexTryLockLoop mutex fuel mem = some (CELL_SYNC_ERROR_BUSY, mem')) : mem' = mem := by
  cases fuel with
  | zero => simp [mutexTryLockLoop] at h
  | succ n =>
    rw [mutexTryLockLoop_succ] at h
    cases hc : CellSyncMutex.tryLockUpdate (load32 mem mutex) with
    | none =>
      rw [hc] at h
      simp only [Option.some.injEq, Prod.mk.injEq, true_and] at h
      exact h.symm
    | some nd =>
      rw [hc] at h
      simp at h

theorem MutexTally.apply_outstanding (s : MutexTally) (op : MutexOp)
    (h : (CellSyncMutex.outstanding s.data : Int) =
      ((s.requests : Int) - (s.releases : Int)) % 65536) :
    (CellSyncMutex.outstanding (s.apply op).data : Int) =
      (((s.apply op).requests : Int) - ((s.apply op).releases : Int)) % 65536 := by
  cases op with
  | lock =>
    simp only [MutexTally.apply, CellSyncMutex.lockUpdate, CellSyncMutex.outstanding,
      CellSyncMutex.set_m_order, CellSyncMutex.m_order, CellSyncMutex.m_freed] at h ⊢
    push_cast at h ⊢
    omega
  | tryLock =>
    unfold MutexTally.apply CellSyncMutex.tryLockUpdate
    by_cases hc : CellSyncMutex.m_order s.data ≠ CellSyncMutex.m_freed s.data
    · rw [if_pos hc]
      exact h
    · rw [if_neg hc]
      simp only [CellSyncMutex.outstanding,
        CellSyncMutex.set_m_order, CellSyncMutex.m_order, CellSyncMutex.m_freed] at h ⊢
      push_cast at h ⊢
      omega
  | unlock =>
    simp only [MutexTally.apply, CellSyncMutex.unlockUpdate, CellSyncMutex.outstanding,
      CellSyncMutex.set_m_freed, CellSyncMutex.m_order, CellSyncMutex.m_freed] at h ⊢
    push_cast at h ⊢
    omega

theorem MutexTally.foldl_outstanding (ops : List MutexOp) (s : MutexTally)
    (h : (CellSyncMutex.outstanding s.data : Int) =
      ((s.requests : Int) - (s.releases : Int)) % 65536) :
    (CellSyncMutex.outstanding (ops.foldl MutexTally.apply s).data : Int) =
      (((ops.foldl MutexTally.apply s).requests : Int) -
        ((ops.foldl MutexTally.apply s).releases : Int)) % 65536 := by
  induction ops generalizing s with
  | nil => exact h
  | cons op rest ih => exact ih (s.apply op) (MutexTally.apply_outstanding s op h)

/-- C3: for every mutex word `d`, the update of `cellSyncMutexLock` and a
successful update of `cellSyncMutexTryLock` increase `(m_order - m_freed) mod
2^16` by exactly one and keep `m_freed`; the update of `cellSyncMutexUnlock`
decreases it by exactly one and keeps `m_order`; a `cellSyncMutexTryLock` that
returns busy leaves memory unchanged; and after any sequence of operations on
a zeroed word the quantity equals the number of lock requests that drew a
ticket minus the number of unlocks, modulo 2^16. -/
theorem mutex_counting_invariant (d : Nat) (ops : List MutexOp) :
    (CellSyncMutex.outstanding (CellSyncMutex.lockUpdate d).2 =
        (CellSyncMutex.outstanding d + 1) % 65536 ∧
      CellSyncMutex.m_freed (CellSyncMutex.lockUpdate d).2 = CellSyncMutex.m_freed d) ∧
    (∀ new_data, CellSyncMutex.tryLockUpdate d = some new_data →
      CellSyncMutex.outstanding new_data = (CellSyncMutex.outstanding d + 1) % 65536 ∧
      CellSyncMutex.m_freed new_data = CellSyncMutex.m_freed d) ∧
    (CellSyncMutex.outstanding (CellSyncMutex.unlockUpdate d) =
        (CellSyncMutex.outstanding d + 65535) % 65536 ∧
      (CellSyncMutex.outstanding (CellSyncMutex.unlockUpdate d) + 1) % 65536 =
        CellSyncMutex.outstanding d ∧
      CellSyncMutex.m_order (CellSyncMutex.unlockUpdate d) = CellSyncMutex.m_order d) ∧
    (∀ fuel mem mutex mem',
      cellSyncMutexTryLock fuel mem mutex = some (CELL_SYNC_ERROR_BUSY, mem') → mem' = mem) ∧
    (CellSyncMutex.outstanding (MutexTally.replay ops).data : Int) =
      (((MutexTally.replay ops).requests : Int) - ((MutexTally.replay ops).releases : Int))
        % 65536 := by
  refine ⟨⟨?_, ?_⟩, ?_, ⟨?_, ?_, ?_⟩, ?_, ?_⟩
  · simp only [CellSyncMutex.lockUpdate, CellSyncMutex.outstanding,
      CellSyncMutex.set_m_order, CellSyncMutex.m_order, CellSyncMutex.m_freed]
    omega
  · simp only [CellSyncMutex.lockUpdate,
      CellSyncMutex.set_m_order, CellSyncMutex.m_order, CellSyncMutex.m_freed]
    omega
  · intro nd hnd
    unfold CellSyncMutex.tryLockUpdate at hnd
    by_cases hc : CellSyncMutex.m_order d ≠ CellSyncMutex.m_freed d
    · rw [if_pos hc] at hnd
      exact absurd hnd (by simp)
    · rw [if_neg hc] at hnd
      simp only [Option.some.injEq] at hnd
      subst hnd
      simp only [CellSyncMutex.outstanding,
        CellSyncMutex.set_m_order, CellSyncMutex.m_order, CellSyncMutex.m_freed]
      omega
  · simp only [CellSyncMutex.unlockUpdate, CellSyncMutex.outstanding,
      CellSyncMutex.set_m_freed, CellSyncMutex.m_order, CellSyncMutex.m_freed]
    omega
  · simp only [CellSyncMutex.unlockUpdate, CellSyncMutex.outstanding,
      CellSyncMutex.set_m_freed, CellSyncMutex.m_order, CellSyncMutex.m_freed]
    omega
  · simp only [CellSyncMutex.unlockUpdate,
      CellSyncMutex.set_m_freed, CellSyncMutex.m_order, CellSyncMutex.m_freed]
    omega
  · intro fuel mem mutex mem' h
    unfold cellSyncMutexTryLock at h
    by_cases h0 : mutex = 0
    · simp [h0] at h
    · by_cases h4 : mutex % 4 ≠ 0
      · simp [h0, h4] at h
      · simp only [h0, h4, if_false] at h
        exact mutexTryLockLoop_busy mutex fuel mem mem' h
  · exact MutexTally.foldl_outstanding ops ⟨0, 0, 0⟩ (by decide)

theorem mutexLockWait_equal (IsStopped : Nat → Bool) (mem : Memory)
    (mutex old_order fuel polls : Nat) (h : old_order = load16 mem (mutex + 2)) :
    mutexLockWait IsStopped mem mutex old_order (fuel + 1) polls = some () := by
  unfold mutexLockWait
  simp [h]

theorem mutexLockWait_stopped (IsStopped : Nat → Bool) (mem : Memory)
    (mutex old_order n : Nat) (hstop : IsStopped n = true) :
    ∀ fuel polls, polls ≤ n → n - polls < fuel →
      mutexLockWait IsStopped mem mutex old_order fuel polls = some () := by
  intro fuel
  induction fuel with
  | zero => intro polls _ h; omega
  | succ k ih =>
    intro polls hle hlt
    unfold mutexLockWait
    by_cases hne : old_order ≠ load16 mem (mutex + 2)
    · rw [if_pos hne]
      by_cases hp : IsStopped polls = true
      · rw [if_pos hp]
      · rw [if_neg hp]
        have hpn : polls ≠ n := fun e => hp (e ▸ hstop)
        exact ih (polls + 1) (by omega) (by omega)
    · rw [if_neg hne]

/-- C4: at a non-null 4-aligned address, the first loop of `cellSyncMutexLock`
returns the old `m_order` as the ticket and leaves `m_order + 1` (modulo 2^16)
stored, with `m_freed` and all other memory unchanged.  When `m_freed` already
equals the ticket the call returns `CELL_OK` with that memory, without polling
the stop flag.  When it differs and the stop flag is seen at the `n`-th poll,
the call returns `CELL_OK` (for any fuel above `n`) with that same memory:
the ticket stays drawn and `m_freed` is not advanced. -/
theorem cellSyncMutexLock_spec (IsStopped : Nat → Bool) (fuel n : Nat) (mem : Memory)
    (mutex : Nat) (hnull : mutex ≠ 0) (halign : mutex % 4 = 0) :
    ∃ mem1, mutexLockDraw mutex (fuel + 1) mem = some (load16 mem mutex, mem1) ∧
      load16 mem1 mutex = (load16 mem mutex + 1) % 65536 ∧
      load16 mem1 (mutex + 2) = load16 mem (mutex + 2) ∧
      (∀ x, x < mutex ∨ mutex + 4 ≤ x → mem1 x = mem x) ∧
      (load16 mem (mutex + 2) = load16 mem mutex →
        cellSyncMutexLock IsStopped (fuel + 1) mem mutex = some (CELL_OK, mem1)) ∧
      (load16 mem (mutex + 2) ≠ load16 mem mutex → IsStopped n = true → n < fuel →
        cellSyncMutexLock IsStopped fuel mem mutex = some (CELL_OK, mem1)) := by
  have hfreed : load16 (store32 mem mutex (CellSyncMutex.lockUpdate (load32 mem mutex)).2)
      (mutex + 2) = load16 mem (mutex + 2) := by
    rw [load16_store32_lo]
    simp only [CellSyncMutex.lockUpdate, CellSyncMutex.set_m_order]
    rw [load32_lo]
    have := load16_lt mem (mutex + 2)
    omega
  have hticket : (CellSyncMutex.lockUpdate (load32 mem mutex)).1 = load16 mem mutex := by
    simp only [CellSyncMutex.lockUpdate, CellSyncMutex.m_order]
    rw [load32_hi]
  refine ⟨store32 mem mutex (CellSyncMutex.lockUpdate (load32 mem mutex)).2, ?_, ?_, hfreed,
    fun x hx => store32_outside _ _ _ _ hx, ?_, ?_⟩
  · rw [mutexLockDraw_succ, hticket]
  · rw [load16_store32_hi]
    simp only [CellSyncMutex.lockUpdate, CellSyncMutex.set_m_order, CellSyncMutex.m_order]
    rw [load32_hi]
    omega
  · intro heq
    unfold cellSyncMutexLock
    rw [if_neg hnull, if_neg (by omega : ¬ mutex % 4 ≠ 0), mutexLockDraw_succ]
    simp only
    rw [mutexLockWait_equal _ _ _ _ _ _ (by rw [hfreed, hticket, heq])]
    simp only [ICE_sync]
  · intro _ hstop hlt
    obtain ⟨k, rfl⟩ : ∃ k, fuel = k + 1 := ⟨fuel - 1, by omega⟩
    unfold cellSyncMutexLock
    rw [if_neg hnull, if_neg (by omega : ¬ mutex % 4 ≠ 0), mutexLockDraw_succ]
    simp only
    rw [mutexLockWait_stopped IsStopped _ mutex _ n hstop (k + 1) 0 (by omega) (by omega)]
    simp only [ICE_sync]

/-- Witness for C4: the mutex at address 4 of a memory whose bytes are all 0
except byte 7 (so `m_order = 0`, `m_freed = 1`), stop flag always set. -/
theorem cellSyncMutexLock_spec_witness :
    ∃ mem1, mutexLockDraw 4 (1 + 1) (fun x => if x = 7 then 1 else 0) =
        some (load16 (fun x => if x = 7 then 1 else 0) 4, mem1) ∧
      load16 mem1 4 = (load16 (fun x => if x = 7 then 1 else 0) 4 + 1) % 65536 ∧
      load16 mem1 (4 + 2) = load16 (fun x => if x = 7 then 1 else 0) (4 + 2) ∧
      (∀ x, x < 4 ∨ 4 + 4 ≤ x → mem1 x = (fun x => if x = 7 then 1 else 0 : Memory) x) ∧
      (load16 (fun x => if x = 7 then 1 else 0) (4 + 2) =
          load16 (fun x => if x = 7 then 1 else 0) 4 →
        cellSyncMutexLock (fun _ => true) (1 + 1) (fun x => if x = 7 then 1 else 0) 4 =
          some (CELL_OK, mem1)) ∧
      (load16 (fun x => if x = 7 then 1 else 0) (4 + 2) ≠
          load16 (fun x => if x = 7 then 1 else 0) 4 →
        (fun _ => true : Nat → Bool) 0 = true → 0 < 1 →
        cellSyncMutexLock (fun _ => true) 1 (fun x => if x = 7 then 1 else 0) 4 =
          some (CELL_OK, mem1)) :=
  cellSyncMutexLock_spec (fun _ => true) 1 0 (fun x => if x = 7 then 1 else 0) 4
    (by decide) (by decide)

/-! ## 16-bit arithmetic -/

theorem toS16_of_lt (v : Nat) (h : v < 32768) : toS16 (v : Int) = v := by
  unfold toS16
  omega

theorem toS16_of_ge (v : Nat) (h1 : 32768 ≤ v) (h2 : v < 65536) :
    toS16 (v : Int) = (v : Int) - 65536 := by
  unfold toS16
  omega

theorem toS16_nonneg_iff (v : Nat) (h : v < 65536) : 0 ≤ toS16 (v : Int) ↔ v < 32768 := by
  unfold toS16
  omega

theorem toS16_inj (v w : Nat) (hv : v < 65536) (hw : w < 65536) :
    toS16 (v : Int) = toS16 (w : Int) ↔ v = w := by
  unfold toS16
  omega

theorem toU16_toS16 (x : Int) : toU16 (toS16 x) = toU16 x := by
  unfold toU16 toS16
  omega

theorem toU16_natCast (v : Nat) : toU16 (v : Int) = v % 65536 := by
  unfold toU16
  omega

theorem or_gate_of_lt (v : Nat) (h : v < 32768) : v ||| 32768 = v + 32768 := by
  have h1 := Nat.mul_add_lt_is_or (i := 15) (b := v) (by simpa using h) 1
  simp only [Nat.reducePow, Nat.mul_one] at h1
  rw [Nat.or_comm, ← h1]
  omega

theorem or_gate_of_ge (v : Nat) (h1 : 32768 ≤ v) (h2 : v < 65536) : v ||| 32768 = v := by
  obtain ⟨r, rfl⟩ : ∃ r, v = r + 32768 := ⟨v - 32768, by omega⟩
  rw [← or_gate_of_lt r (by omega), Nat.or_assoc, Nat.or_self]

/-! ## Memory: a word determines its four bytes -/

theorem store16_inside (mem mem' : Memory) (a v x : Nat) (h1 : a ≤ x) (h2 : x < a + 2) :
    store16 mem a v x = store16 mem' a v x := by
  unfold store16 store8
  by_cases hx1 : x = a + 1
  · simp [hx1]
  · have hx : x = a := by omega
    simp [hx]

theorem store32_inside (mem mem' : Memory) (a v x : Nat) (h1 : a ≤ x) (h2 : x < a + 4) :
    store32 mem a v x = store32 mem' a v x := by
  unfold store32
  by_cases hx : a + 2 ≤ x
  · exact store16_inside _ _ _ _ _ hx (by omega)
  · rw [store16_outside (store16 mem a (v / 65536)) (a + 2) v x (by omega),
      store16_outside (store16 mem' a (v / 65536)) (a + 2) v x (by omega)]
    exact store16_inside _ _ _ _ _ h1 (by omega)

theorem mem_eq_of_word_eq (mem mem' : Memory) (a : Nat)
    (hin : load32 mem a = load32 mem' a)
    (hout : ∀ x, x < a ∨ a + 4 ≤ x → mem x = mem' x) : mem = mem' := by
  funext x
  by_cases hx : x < a ∨ a + 4 ≤ x
  · exact hout x hx
  · rw [← store32_load32 mem a, ← store32_load32 mem' a, hin]
    exact store32_inside _ _ _ _ _ (by omega) (by omega)

theorem load32_eq_of_halves (mem mem' : Memory) (a : Nat)
    (h1 : load16 mem a = load16 mem' a) (h2 : load16 mem (a + 2) = load16 mem' (a + 2)) :
    load32 mem a = load32 mem' a := by
  unfold load32
  rw [h1, h2]

/-! ## Barrier: the two updates -/

theorem CellSyncBarrier.m_value_set (d : Nat) (x : Int) :
    CellSyncBarrier.m_value (CellSyncBarrier.set_m_value d x) = toU16 x := by
  unfold CellSyncBarrier.m_value CellSyncBarrier.set_m_value toU16
  omega

theorem CellSyncBarrier.m_count_set (d : Nat) (x : Int) :
    CellSyncBarrier.m_count (CellSyncBarrier.set_m_value d x) = CellSyncBarrier.m_count d := by
  unfold CellSyncBarrier.m_count CellSyncBarrier.set_m_value
  omega

theorem CellSyncBarrier.notifyUpdate_value (d : Nat)
    (hv : CellSyncBarrier.m_value d < 32768) :
    CellSyncBarrier.m_value
        (CellSyncBarrier.notifyUpdate d (toS16 (CellSyncBarrier.m_value d))) =
      if CellSyncBarrier.m_value d + 1 = CellSyncBarrier.m_count d
      then (CellSyncBarrier.m_value d + 1) ||| 32768
      else CellSyncBarrier.m_value d + 1 := by
  have hc : CellSyncBarrier.m_count d < 65536 := by
    unfold CellSyncBarrier.m_count
    omega
  unfold CellSyncBarrier.notifyUpdate
  simp only
  rw [CellSyncBarrier.m_value_set, toS16_of_lt _ hv]
  have e1 : ((CellSyncBarrier.m_value d : Int) + 1) = ((CellSyncBarrier.m_value d + 1 : Nat) : Int) := by
    push_cast
    rfl
  rw [e1]
  have hinj := toS16_inj (CellSyncBarrier.m_value d + 1) (CellSyncBarrier.m_count d)
    (by omega) hc
  by_cases heq : CellSyncBarrier.m_value d + 1 = CellSyncBarrier.m_count d
  · rw [if_pos (hinj.mpr heq), if_pos heq]
    unfold orS16
    rw [toU16_toS16, toU16_toS16, toU16_natCast, toU16_natCast]
    have e2 : (CellSyncBarrier.m_value d + 1) % 65536 = CellSyncBarrier.m_value d + 1 := by
      omega
    rw [e2]
    have hlt : (CellSyncBarrier.m_value d + 1) ||| 32768 < 2 ^ 16 :=
      Nat.or_lt_two_pow (by omega) (by omega)
    omega
  · rw [if_neg (fun h => heq (hinj.mp h)), if_neg heq, toU16_toS16, toU16_natCast]
    omega

theorem CellSyncBarrier.waitUpdate_value (d : Nat)
    (hv : 32768 ≤ CellSyncBarrier.m_value d) :
    CellSyncBarrier.m_value
        (CellSyncBarrier.waitUpdate d (toS16 (CellSyncBarrier.m_value d))) =
      if CellSyncBarrier.m_value d = 32769 then 0
      else (CellSyncBarrier.m_value d + 65535) % 65536 := by
  have hlt : CellSyncBarrier.m_value d < 65536 := by
    unfold CellSyncBarrier.m_value
    omega
  unfold CellSyncBarrier.waitUpdate
  simp only
  rw [CellSyncBarrier.m_value_set, toS16_of_ge _ hv hlt]
  by_cases heq : CellSyncBarrier.m_value d = 32769
  · rw [if_pos heq, if_pos (by rw [heq]; decide)]
    decide
  · rw [if_neg heq, if_neg (by unfold toS16; omega)]
    unfold toU16 toS16
    omega

/-! ## Barrier: sequential calls -/

theorem CellSyncBarrier.m_value_load32 (mem : Memory) (a : Nat) :
    CellSyncBarrier.m_value (load32 mem a) = load16 mem a := load32_hi mem a

theorem CellSyncBarrier.m_count_load32 (mem : Memory) (a : Nat) :
    CellSyncBarrier.m_count (load32 mem a) = load16 mem (a + 2) := load32_lo mem a

theorem cellSyncBarrierNotify_open (IsStopped : Nat → Bool) (fuel : Nat) (mem : Memory)
    (barrier : Nat) (hnull : barrier ≠ 0) (halign : barrier % 4 = 0)
    (hv : load16 mem barrier < 32768) :
    cellSyncBarrierNotify IsStopped (fuel + 1) mem barrier =
      some (CELL_OK, store32 mem barrier
        (CellSyncBarrier.notifyUpdate (load32 mem barrier) (toS16 (load16 mem barrier)))) := by
  unfold cellSyncBarrierNotify
  rw [if_neg hnull, if_neg (by omega : ¬ barrier % 4 ≠ 0)]
  simp only [ICE_sync]
  rw [barrierNotifyLoop]
  have hneg : ¬ toS16 (load16 mem barrier : Int) < 0 := by
    rw [toS16_of_lt _ hv]
    omega
  simp only [CellSyncBarrier.m_value_load32, ICE_fst, ICE_hit, if_true, if_neg hneg]

theorem cellSyncBarrierWait_gated (IsStopped : Nat → Bool) (fuel : Nat) (mem : Memory)
    (barrier : Nat) (hnull : barrier ≠ 0) (halign : barrier % 4 = 0)
    (hv : 32768 ≤ load16 mem barrier) :
    cellSyncBarrierWait IsStopped (fuel + 1) mem barrier =
      some (CELL_OK, store32 mem barrier
        (CellSyncBarrier.waitUpdate (load32 mem barrier) (toS16 (load16 mem barrier)))) := by
  have hlt := load16_lt mem barrier
  unfold cellSyncBarrierWait
  rw [if_neg hnull, if_neg (by omega : ¬ barrier % 4 ≠ 0)]
  simp only [ICE_sync]
  rw [barrierWaitLoop]
  have hneg : ¬ toS16 (load16 mem barrier : Int) ≥ 0 := by
    rw [toS16_of_ge _ hv hlt]
    omega
  simp only [CellSyncBarrier.m_value_load32, ICE_fst, ICE_hit, if_true, if_neg hneg]

/-- One notify on an open barrier: the new fields and the untouched rest. -/
theorem cellSyncBarrierNotify_step (IsStopped : Nat → Bool) (fuel : Nat) (mem : Memory)
    (barrier : Nat) (hnull : barrier ≠ 0) (halign : barrier % 4 = 0)
    (hv : load16 mem barrier < 32768) :
    ∃ mem', cellSyncBarrierNotify IsStopped (fuel + 1) mem barrier = some (CELL_OK, mem') ∧
      load16 mem' barrier =
        (if load16 mem barrier + 1 = load16 mem (barrier + 2)
         then (load16 mem barrier + 1) ||| 32768 else load16 mem barrier + 1) ∧
      load16 mem' (barrier + 2) = load16 mem (barrier + 2) ∧
      ∀ x, x < barrier ∨ barrier + 4 ≤ x → mem' x = mem x := by
  refine ⟨_, cellSyncBarrierNotify_open IsStopped fuel mem barrier hnull halign hv, ?_, ?_,
    fun x hx => store32_outside _ _ _ _ hx⟩
  · rw [load16_store32_hi]
    have h := CellSyncBarrier.notifyUpdate_value (load32 mem barrier)
      (by rw [CellSyncBarrier.m_value_load32]; exact hv)
    rw [CellSyncBarrier.m_value_load32, CellSyncBarrier.m_count_load32] at h
    exact h
  · rw [load16_store32_lo]
    have h := CellSyncBarrier.m_count_set (load32 mem barrier)
    unfold CellSyncBarrier.notifyUpdate
    simp only
    rw [← CellSyncBarrier.m_count_load32]
    exact h _

/-- One wait on a gated barrier: the new fields and the untouched rest. -/
theorem cellSyncBarrierWait_step (IsStopped : Nat → Bool) (fuel : Nat) (mem : Memory)
    (barrier : Nat) (hnull : barrier ≠ 0) (halign : barrier % 4 = 0)
    (hv : 32768 ≤ load16 mem barrier) :
    ∃ mem', cellSyncBarrierWait IsStopped (fuel + 1) mem barrier = some (CELL_OK, mem') ∧
      load16 mem' barrier =
        (if load16 mem barrier = 32769 then 0 else (load16 mem barrier + 65535) % 65536) ∧
      load16 mem' (barrier + 2) = load16 mem (barrier + 2) ∧
      ∀ x, x < barrier ∨ barrier + 4 ≤ x → mem' x = mem x := by
  refine ⟨_, cellSyncBarrierWait_gated IsStopped fuel mem barrier hnull halign hv, ?_, ?_,
    fun x hx => store32_outside _ _ _ _ hx⟩
  · rw [load16_store32_hi]
    have h := CellSyncBarrier.waitUpdate_value (load32 mem barrier)
      (by rw [CellSyncBarrier.m_value_load32]; exact hv)
    rw [CellSyncBarrier.m_value_load32] at h
    exact h
  · rw [load16_store32_lo]
    have h := CellSyncBarrier.m_count_set (load32 mem barrier)
    unfold CellSyncBarrier.waitUpdate
    simp only
    rw [← CellSyncBarrier.m_count_load32]
    exact h _

theorem cellSyncBarrierInitialize_ok (mem : Memory) (barrier total_count : Nat)
    (hnull : barrier ≠ 0) (halign : barrier % 4 = 0)
    (h1 : 1 ≤ total_count) (h2 : total_count ≤ 32767) :
    cellSyncBarrierInitialize mem barrier total_count =
      (CELL_OK, store16 (store16 mem barrier 0) (barrier + 2) total_count) := by
  unfold cellSyncBarrierInitialize
  rw [if_neg hnull, if_neg (by omega : ¬ barrier % 4 ≠ 0),
    if_neg (by omega : ¬ (total_count = 0 ∨ total_count > 32767))]
  simp only [ICE_sync]

theorem barrier_init_fields (mem : Memory) (barrier total_count : Nat)
    (h2 : total_count ≤ 32767) :
    load16 (store16 (store16 mem barrier 0) (barrier + 2) total_count) barrier = 0 ∧
    load16 (store16 (store16 mem barrier 0) (barrier + 2) total_count) (barrier + 2) =
      total_count := by
  constructor
  · rw [load16_congr _ (store16 mem barrier 0) barrier
      (fun x h1 h2 => store16_outside _ _ _ _ (by omega)), load16_store16]
  · rw [load16_store16]
    omega

theorem runCalls_succ (call : Memory → Option (Status × Memory)) (n : Nat) (mem : Memory) :
    runCalls call (n + 1) mem =
      match call mem with
      | some (CELL_OK, mem) => runCalls call n mem
      | _ => none := rfl

theorem runCalls_succ_ok (call : Memory → Option (Status × Memory)) (n : Nat)
    (mem mem1 : Memory) (h : call mem = some (CELL_OK, mem1)) :
    runCalls call (n + 1) mem = runCalls call n mem1 := by
  rw [runCalls_succ, h]

theorem runCalls_add (call : Memory → Option (Status × Memory)) (a b : Nat)
    (mem mem1 : Memory) (h : runCalls call a mem = some mem1) :
    runCalls call (a + b) mem = runCalls call b mem1 := by
  induction a generalizing mem with
  | zero =>
    simp only [runCalls, Option.some.injEq] at h
    subst h
    rw [Nat.zero_add]
  | succ a ih =>
    rw [Nat.add_right_comm]
    cases hc : call mem with
    | none =>
      rw [runCalls_succ, hc] at h
      exact absurd h (by simp)
    | some r =>
      obtain ⟨st, m2⟩ := r
      cases st with
      | CELL_OK =>
        rw [runCalls_succ_ok _ _ _ _ hc] at h ⊢
        exact ih m2 h
      | _ =>
        rw [runCalls_succ, hc] at h
        exact absurd h (by simp)

/-- Notifies below the party count only count up. -/
theorem barrier_notify_run (IsStopped : Nat → Bool) (fuel barrier N : Nat)
    (hnull : barrier ≠ 0) (halign : barrier % 4 = 0) (hN : N ≤ 32767) :
    ∀ (k j : Nat) (mem : Memory), load16 mem barrier = j → load16 mem (barrier + 2) = N →
      j + k < N →
      ∃ mem', runCalls (fun m => cellSyncBarrierNotify IsStopped (fuel + 1) m barrier) k mem =
          some mem' ∧
        load16 mem' barrier = j + k ∧ load16 mem' (barrier + 2) = N ∧
        ∀ x, x < barrier ∨ barrier + 4 ≤ x → mem' x = mem x := by
  intro k
  induction k with
  | zero =>
    intro j mem hj hc _
    exact ⟨mem, rfl, by simpa using hj, hc, fun _ _ => rfl⟩
  | succ k ih =>
    intro j mem hj hc hlt
    obtain ⟨m1, hcall, hv1, hc1, hout1⟩ :=
      cellSyncBarrierNotify_step IsStopped fuel mem barrier hnull halign (by omega)
    rw [hj, hc, if_neg (by omega)] at hv1
    obtain ⟨m2, hrun, hv2, hc2, hout2⟩ := ih (j + 1) m1 hv1 (hc1.trans hc) (by omega)
    refine ⟨m2, ?_, by omega, hc2, fun x hx => (hout2 x hx).trans (hout1 x hx)⟩
    rw [runCalls_succ_ok _ _ _ _ hcall]
    exact hrun

/-- Waits above the last one only count down, the gate staying set. -/
theorem barrier_wait_run (IsStopped : Nat → Bool) (fuel barrier N : Nat)
    (hnull : barrier ≠ 0) (halign : barrier % 4 = 0) :
    ∀ (k r : Nat) (mem : Memory), load16 mem barrier = 32768 + r →
      load16 mem (barrier + 2) = N → k < r → r ≤ 32767 →
      ∃ mem', runCalls (fun m => cellSyncBarrierWait IsStopped (fuel + 1) m barrier) k mem =
          some mem' ∧
        load16 mem' barrier = 32768 + (r - k) ∧ load16 mem' (barrier + 2) = N ∧
        ∀ x, x < barrier ∨ barrier + 4 ≤ x → mem' x = mem x := by
  intro k
  induction k with
  | zero =>
    intro r mem hr hc _ _
    exact ⟨mem, rfl, by simpa using hr, hc, fun _ _ => rfl⟩
  | succ k ih =>
    intro r mem hr hc hlt hle
    obtain ⟨m1, hcall, hv1, hc1, hout1⟩ :=
      cellSyncBarrierWait_step IsStopped fuel mem barrier hnull halign (by omega)
    rw [hr, if_neg (by omega)] at hv1
    obtain ⟨m2, hrun, hv2, hc2, hout2⟩ :=
      ih (r - 1) m1 (by omega) (hc1.trans hc) (by omega) (by omega)
    refine ⟨m2, ?_, by omega, hc2, fun x hx => (hout2 x hx).trans (hout1 x hx)⟩
    rw [runCalls_succ_ok _ _ _ _ hcall]
    exact hrun

theorem testBit15_of_lt (v : Nat) (h : v < 32768) : v.testBit 15 = false :=
  Nat.testBit_lt_two_pow (by simpa using h)

theorem testBit15_of_ge (v : Nat) (h1 : 32768 ≤ v) (h2 : v < 65536) : v.testBit 15 = true := by
  rw [Nat.testBit_to_div_mod]
  simp only [Nat.reducePow, decide_eq_true_eq]
  omega

/-- The `N`-th notify after `cellSyncBarrierInitialize(N)` sets the gate. -/
theorem barrier_notify_all (IsStopped : Nat → Bool) (fuel barrier N : Nat) (mem : Memory)
    (hnull : barrier ≠ 0) (halign : barrier % 4 = 0) (hN1 : 1 ≤ N) (hN2 : N ≤ 32767)
    (hv : load16 mem barrier = 0) (hc : load16 mem (barrier + 2) = N) :
    ∃ mem', runCalls (fun m => cellSyncBarrierNotify IsStopped (fuel + 1) m barrier) N mem =
        some mem' ∧
      load16 mem' barrier = N + 32768 ∧ load16 mem' (barrier + 2) = N ∧
      ∀ x, x < barrier ∨ barrier + 4 ≤ x → mem' x = mem x := by
  obtain ⟨m1, hrun1, hv1, hc1, hout1⟩ :=
    barrier_notify_run IsStopped fuel barrier N hnull halign hN2 (N - 1) 0 mem hv hc (by omega)
  obtain ⟨m2, hcall, hv2, hc2, hout2⟩ :=
    cellSyncBarrierNotify_step IsStopped fuel m1 barrier hnull halign (by omega)
  rw [hv1, hc1, if_pos (by omega)] at hv2
  refine ⟨m2, ?_, ?_, hc2.trans hc1, fun x hx => (hout2 x hx).trans (hout1 x hx)⟩
  · have e : N = (N - 1) + 1 := by omega
    rw [e, runCalls_add _ _ _ _ _ hrun1, runCalls_succ_ok _ _ _ _ hcall]
    rfl
  · rw [hv2, or_gate_of_lt _ (by omega)]
    omega

/-- C5: for `N` in `[1, 32767]`, after `cellSyncBarrierInitialize(N)` at a
non-null 4-aligned address, `k <= N` successive calls of
`cellSyncBarrierNotify` all return `CELL_OK`; for `k < N` the field `m_value`
equals `k` with bit 15 clear, for `k = N` it equals `N | 0x8000` (bit 15 set);
`m_count` equals `N` throughout. -/
theorem barrier_gate_opens_at_count (IsStopped : Nat → Bool) (fuel : Nat) (mem : Memory)
    (barrier N k : Nat) (hnull : barrier ≠ 0) (halign : barrier % 4 = 0)
    (hN1 : 1 ≤ N) (hN2 : N ≤ 32767) (hk : k ≤ N) :
    ∃ mem0 memk, cellSyncBarrierInitialize mem barrier N = (CELL_OK, mem0) ∧
      runCalls (fun m => cellSyncBarrierNotify IsStopped (fuel + 1) m barrier) k mem0 =
        some memk ∧
      (k < N → load16 memk barrier = k ∧ (load16 memk barrier).testBit 15 = false) ∧
      (k = N → load16 memk barrier = N ||| 0x8000 ∧
        (load16 memk barrier).testBit 15 = true) ∧
      load16 memk (barrier + 2) = N := by
  obtain ⟨hv0, hc0⟩ := barrier_init_fields mem barrier N hN2
  by_cases hlt : k < N
  · obtain ⟨mk, hrun, hv, hc, _⟩ :=
      barrier_notify_run IsStopped fuel barrier N hnull halign hN2 k 0 _ hv0 hc0 (by omega)
    refine ⟨_, mk, cellSyncBarrierInitialize_ok mem barrier N hnull halign hN1 hN2, hrun,
      fun _ => ⟨by omega, testBit15_of_lt _ (by omega)⟩, fun h => absurd h (by omega), hc⟩
  · have hkN : k = N := by omega
    subst hkN
    obtain ⟨mk, hrun, hv, hc, _⟩ :=
      barrier_notify_all IsStopped fuel barrier k _ hnull halign hN1 hN2 hv0 hc0
    refine ⟨_, mk, cellSyncBarrierInitialize_ok mem barrier k hnull halign hN1 hN2, hrun,
      fun h => absurd h hlt, fun _ => ⟨?_, testBit15_of_ge _ (by omega) (by omega)⟩, hc⟩
    rw [hv]
    exact (or_gate_of_lt _ (by omega)).symm

/-- Witness for C5: a barrier of 3 parties at address 8, after 3 notifies. -/
theorem barrier_gate_opens_at_count_witness :
    ∃ mem0 memk, cellSyncBarrierInitialize (fun _ => 0) 8 3 = (CELL_OK, mem0) ∧
      runCalls (fun m => cellSyncBarrierNotify (fun _ => false) (0 + 1) m 8) 3 mem0 =
        some memk ∧
      (3 < 3 → load16 memk 8 = 3 ∧ (load16 memk 8).testBit 15 = false) ∧
      (3 = 3 → load16 memk 8 = 3 ||| 0x8000 ∧ (load16 memk 8).testBit 15 = true) ∧
      load16 memk (8 + 2) = 3 :=
  barrier_gate_opens_at_count (fun _ => false) 0 (fun _ => 0) 8 3 3
    (by decide) (by decide) (by decide) (by decide) (by decide)

/-- C6: for `N` in `[1, 32767]`, after `cellSyncBarrierInitialize(N)` at a
non-null 4-aligned address, `N` calls of `cellSyncBarrierNotify` followed by
`j <= N` calls of `cellSyncBarrierWait` all return `CELL_OK`; while `j < N`
bit 15 of `m_value` is still set, and for `j = N` memory is exactly the
memory left by the initialization (`m_value = 0`, `m_count = N`). -/
theorem barrier_round_reusable (IsStopped : Nat → Bool) (fuel : Nat) (mem : Memory)
    (barrier N j : Nat) (hnull : barrier ≠ 0) (halign : barrier % 4 = 0)
    (hN1 : 1 ≤ N) (hN2 : N ≤ 32767) (hj : j ≤ N) :
    ∃ mem0 memN memj, cellSyncBarrierInitialize mem barrier N = (CELL_OK, mem0) ∧
      load16 mem0 barrier = 0 ∧ load16 mem0 (barrier + 2) = N ∧
      runCalls (fun m => cellSyncBarrierNotify IsStopped (fuel + 1) m barrier) N mem0 =
        some memN ∧
      runCalls (fun m => cellSyncBarrierWait IsStopped (fuel + 1) m barrier) j memN =
        some memj ∧
      (j < N → (load16 memj barrier).testBit 15 = true) ∧
      (j = N → memj = mem0) := by
  obtain ⟨hv0, hc0⟩ := barrier_init_fields mem barrier N hN2
  obtain ⟨mN, hrunN, hvN, hcN, houtN⟩ :=
    barrier_notify_all IsStopped fuel barrier N _ hnull halign hN1 hN2 hv0 hc0
  by_cases hlt : j < N
  · obtain ⟨mj, hrun, hv, hc, _⟩ :=
      barrier_wait_run IsStopped fuel barrier N hnull halign j N mN (by omega) hcN hlt hN2
    exact ⟨_, mN, mj, cellSyncBarrierInitialize_ok mem barrier N hnull halign hN1 hN2,
      hv0, hc0, hrunN, hrun, fun _ => testBit15_of_ge _ (by omega) (by omega),
      fun h => absurd h (by omega)⟩
  · have hjN : j = N := by omega
    subst hjN
    obtain ⟨m1, hrun1, hv1, hc1, hout1⟩ :=
      barrier_wait_run IsStopped fuel barrier j hnull halign (j - 1) j mN (by omega) hcN
        (by omega) hN2
    obtain ⟨m2, hcall, hv2, hc2, hout2⟩ :=
      cellSyncBarrierWait_step IsStopped fuel m1 barrier hnull halign (by omega)
    rw [hv1, if_pos (by omega)] at hv2
    have hrun : runCalls (fun m => cellSyncBarrierWait IsStopped (fuel + 1) m barrier) j mN =
        some m2 := by
      have e : j = (j - 1) + 1 := by omega
      rw [e, runCalls_add _ _ _ _ _ hrun1, runCalls_succ_ok _ _ _ _ hcall]
      rfl
    refine ⟨_, mN, m2, cellSyncBarrierInitialize_ok mem barrier j hnull halign hN1 hN2,
      hv0, hc0, hrunN, hrun, fun h => absurd h hlt, fun _ => ?_⟩
    apply mem_eq_of_word_eq _ _ barrier
    · exact load32_eq_of_halves _ _ _ (hv2.trans hv0.symm)
        ((hc2.trans (hc1.trans hc0.symm)))
    · intro x hx
      rw [hout2 x hx, hout1 x hx, houtN x hx]

/-- Witness for C6: a barrier of 2 parties at address 8, a complete round. -/
theorem barrier_round_reusable_witness :
    ∃ mem0 memN memj, cellSyncBarrierInitialize (fun _ => 0) 8 2 = (CELL_OK, mem0) ∧
      load16 mem0 8 = 0 ∧ load16 mem0 (8 + 2) = 2 ∧
      runCalls (fun m => cellSyncBarrierNotify (fun _ => false) (0 + 1) m 8) 2 mem0 =
        some memN ∧
      runCalls (fun m => cellSyncBarrierWait (fun _ => false) (0 + 1) m 8) 2 memN =
        some memj ∧
      (2 < 2 → (load16 memj 8).testBit 15 = true) ∧
      (2 = 2 → memj = mem0) :=
  barrier_round_reusable (fun _ => false) 0 (fun _ => 0) 8 2 2
    (by decide) (by decide) (by decide) (by decide) (by decide)

/-! ## Barrier: waiting and the non-blocking calls -/

theorem barrierWaitLoop_closed (IsStopped : Nat → Bool) (barrier : Nat) (mem : Memory)
    (hv : 0 ≤ toS16 (load16 mem barrier : Int)) :
    ∀ fuel polls, barrierWaitLoop IsStopped barrier fuel polls mem = none ∨
      barrierWaitLoop IsStopped barrier fuel polls mem = some (CELL_OK, mem) := by
  intro fuel
  induction fuel with
  | zero => intro polls; left; rfl
  | succ n ih =>
    intro polls
    rw [barrierWaitLoop]
    simp only [CellSyncBarrier.m_value_load32, if_pos (ge_iff_le.mpr hv)]
    by_cases hs : IsStopped polls = true
    · right
      rw [if_pos hs]
    · rw [if_neg hs]
      exact ih (polls + 1)

theorem barrierWaitLoop_blocked (IsStopped : Nat → Bool) (barrier : Nat) (mem : Memory)
    (hv : 0 ≤ toS16 (load16 mem barrier : Int)) (hrun : ∀ i, IsStopped i = false) :
    ∀ fuel polls, barrierWaitLoop IsStopped barrier fuel polls mem = none := by
  intro fuel
  induction fuel with
  | zero => intro polls; rfl
  | succ n ih =>
    intro polls
    rw [barrierWaitLoop]
    simp only [CellSyncBarrier.m_value_load32, if_pos (ge_iff_le.mpr hv), hrun polls]
    exact ih (polls + 1)

theorem cellSyncBarrierWait_valid (IsStopped : Nat → Bool) (fuel : Nat) (mem : Memory)
    (barrier : Nat) (hnull : barrier ≠ 0) (halign : barrier % 4 = 0) :
    cellSyncBarrierWait IsStopped fuel mem barrier =
      barrierWaitLoop IsStopped barrier fuel 0 mem := by
  unfold cellSyncBarrierWait
  rw [if_neg hnull, if_neg (by omega : ¬ barrier % 4 ≠ 0)]
  simp only [ICE_sync]

theorem cellSyncBarrierTryWait_valid (fuel : Nat) (mem : Memory)
    (barrier : Nat) (hnull : barrier ≠ 0) (halign : barrier % 4 = 0) :
    cellSyncBarrierTryWait (fuel + 1) mem barrier =
      if toS16 (load16 mem barrier : Int) ≥ 0 then some (CELL_SYNC_ERROR_BUSY, mem)
      else some (CELL_OK, store32 mem barrier
        (CellSyncBarrier.waitUpdate (load32 mem barrier) (toS16 (load16 mem barrier)))) := by
  unfold cellSyncBarrierTryWait
  rw [if_neg hnull, if_neg (by omega : ¬ barrier % 4 ≠ 0)]
  simp only [ICE_sync]
  rw [barrierTryWaitLoop]
  simp only [CellSyncBarrier.m_value_load32, ICE_fst, ICE_hit, if_true]

/-- C7: at a non-null 4-aligned address, `cellSyncBarrierTryWait` returns
`CELL_SYNC_ERROR_BUSY` with memory unchanged iff `m_value` read as `s16` is
`>= 0` (and otherwise returns `CELL_OK` after the decrement); while the value
is `>= 0`, `cellSyncBarrierWait` never changes memory: it is still spinning or
has returned because the emulator stopped, and when the emulator never stops
it does not return for any fuel.  With `total_count = 3`, after 0, 1 or 2
notifies a wait does not return and a try-wait is busy; after the third
notify the wait returns `CELL_OK`. -/
theorem barrier_wait_held_until_gate (IsStopped : Nat → Bool) (fuel : Nat) (mem : Memory)
    (barrier : Nat) (hnull : barrier ≠ 0) (halign : barrier % 4 = 0) :
    (cellSyncBarrierTryWait (fuel + 1) mem barrier = some (CELL_SYNC_ERROR_BUSY, mem) ↔
      0 ≤ toS16 (load16 mem barrier : Int)) ∧
    (toS16 (load16 mem barrier : Int) < 0 →
      ∃ mem', cellSyncBarrierTryWait (fuel + 1) mem barrier = some (CELL_OK, mem')) ∧
    (0 ≤ toS16 (load16 mem barrier : Int) →
      (cellSyncBarrierWait IsStopped fuel mem barrier = none ∨
        cellSyncBarrierWait IsStopped fuel mem barrier = some (CELL_OK, mem)) ∧
      ((∀ i, IsStopped i = false) → cellSyncBarrierWait IsStopped fuel mem barrier = none)) ∧
    (∀ k, k ≤ 3 → ∃ mem0 memk,
      cellSyncBarrierInitialize mem barrier 3 = (CELL_OK, mem0) ∧
      runCalls (fun m => cellSyncBarrierNotify IsStopped (fuel + 1) m barrier) k mem0 =
        some memk ∧
      (k < 3 → cellSyncBarrierWait (fun _ => false) fuel memk barrier = none ∧
        cellSyncBarrierTryWait (fuel + 1) memk barrier =
          some (CELL_SYNC_ERROR_BUSY, memk)) ∧
      (k = 3 → ∃ mem', cellSyncBarrierWait (fun _ => false) (fuel + 1) memk barrier =
        some (CELL_OK, mem'))) := by
  refine ⟨?_, ?_, ?_, ?_⟩
  · rw [cellSyncBarrierTryWait_valid fuel mem barrier hnull halign]
    by_cases hv : toS16 (load16 mem barrier : Int) ≥ 0
    · rw [if_pos hv]
      exact ⟨fun _ => hv, fun _ => rfl⟩
    · rw [if_neg hv]
      exact ⟨fun h => absurd h (by simp), fun h => absurd h hv⟩
  · intro hv
    rw [cellSyncBarrierTryWait_valid fuel mem barrier hnull halign,
      if_neg (by omega : ¬ toS16 (load16 mem barrier : Int) ≥ 0)]
    exact ⟨_, rfl⟩
  · intro hv
    rw [cellSyncBarrierWait_valid IsStopped fuel mem barrier hnull halign]
    exact ⟨barrierWaitLoop_closed IsStopped barrier mem hv fuel 0,
      fun hrun => barrierWaitLoop_blocked IsStopped barrier mem hv hrun fuel 0⟩
  · intro k hk
    obtain ⟨hv0, hc0⟩ := barrier_init_fields mem barrier 3 (by omega)
    by_cases hlt : k < 3
    · obtain ⟨mk, hrun, hv, hc, _⟩ :=
        barrier_notify_run IsStopped fuel barrier 3 hnull halign (by omega) k 0 _ hv0 hc0
          (by omega)
      have hnn : 0 ≤ toS16 (load16 mk barrier : Int) := by
        rw [hv, toS16_of_lt _ (by omega)]
        omega
      refine ⟨_, mk, cellSyncBarrierInitialize_ok mem barrier 3 hnull halign (by omega)
        (by omega), hrun, fun _ => ⟨?_, ?_⟩, fun h => absurd h (by omega)⟩
      · rw [cellSyncBarrierWait_valid _ fuel mk barrier hnull halign]
        exact barrierWaitLoop_blocked _ barrier mk hnn (fun _ => rfl) fuel 0
      · rw [cellSyncBarrierTryWait_valid fuel mk barrier hnull halign, if_pos hnn]
    · have hk3 : k = 3 := by omega
      subst hk3
      obtain ⟨mk, hrun, hv, hc, _⟩ :=
        barrier_notify_all IsStopped fuel barrier 3 _ hnull halign (by omega) (by omega)
          hv0 hc0
      refine ⟨_, mk, cellSyncBarrierInitialize_ok mem barrier 3 hnull halign (by omega)
        (by omega), hrun, fun h => absurd h hlt, fun _ => ?_⟩
      exact ⟨_, cellSyncBarrierWait_gated _ fuel mk barrier hnull halign (by omega)⟩

/-- Witness for C7: the barrier at address 8 of a zeroed memory. -/
theorem barrier_wait_held_until_gate_witness :
    (cellSyncBarrierTryWait (5 + 1) (fun _ => 0) 8 =
        some (CELL_SYNC_ERROR_BUSY, fun _ => 0) ↔
      0 ≤ toS16 (load16 (fun _ => 0) 8 : Int)) ∧
    (toS16 (load16 (fun _ => 0) 8 : Int) < 0 →
      ∃ mem', cellSyncBarrierTryWait (5 + 1) (fun _ => 0) 8 = some (CELL_OK, mem')) ∧
    (0 ≤ toS16 (load16 (fun _ => 0) 8 : Int) →
      (cellSyncBarrierWait (fun _ => false) 5 (fun _ => 0) 8 = none ∨
        cellSyncBarrierWait (fun _ => false) 5 (fun _ => 0) 8 =
          some (CELL_OK, fun _ => 0)) ∧
      ((∀ i, (fun _ => false : Nat → Bool) i = false) →
        cellSyncBarrierWait (fun _ => false) 5 (fun _ => 0) 8 = none)) ∧
    (∀ k, k ≤ 3 → ∃ mem0 memk,
      cellSyncBarrierInitialize (fun _ => 0) 8 3 = (CELL_OK, mem0) ∧
      runCalls (fun m => cellSyncBarrierNotify (fun _ => false) (5 + 1) m 8) k mem0 =
        some memk ∧
      (k < 3 → cellSyncBarrierWait (fun _ => false) 5 memk 8 = none ∧
        cellSyncBarrierTryWait (5 + 1) memk 8 = some (CELL_SYNC_ERROR_BUSY, memk)) ∧
      (k = 3 → ∃ mem', cellSyncBarrierWait (fun _ => false) (5 + 1) memk 8 =
        some (CELL_OK, mem'))) :=
  barrier_wait_held_until_gate (fun _ => false) 5 (fun _ => 0) 8 (by decide) (by decide)

/-- C8: at a non-null 4-aligned address `cellSyncBarrierInitialize` returns
`CELL_SYNC_ERROR_INVAL` iff `total_count` is 0 or above 32767, and memory is
then unchanged; otherwise it returns `CELL_OK`, `m_value` is 0, `m_count` is
`total_count`, and no byte outside the word changes. -/
theorem cellSyncBarrierInitialize_spec (mem : Memory) (barrier total_count : Nat)
    (hnull : barrier ≠ 0) (halign : barrier % 4 = 0) :
    ((cellSyncBarrierInitialize mem barrier total_count).1 = CELL_SYNC_ERROR_INVAL ↔
      (total_count = 0 ∨ total_count > 32767)) ∧
    ((total_count = 0 ∨ total_count > 32767) →
      cellSyncBarrierInitialize mem barrier total_count = (CELL_SYNC_ERROR_INVAL, mem)) ∧
    (¬ (total_count = 0 ∨ total_count > 32767) →
      ∃ mem', cellSyncBarrierInitialize mem barrier total_count = (CELL_OK, mem') ∧
        load16 mem' barrier = 0 ∧ load16 mem' (barrier + 2) = total_count ∧
        ∀ x, x < barrier ∨ barrier + 4 ≤ x → mem' x = mem x) := by
  by_cases hbad : total_count = 0 ∨ total_count > 32767
  · have hcall : cellSyncBarrierInitialize mem barrier total_count =
        (CELL_SYNC_ERROR_INVAL, mem) := by
      unfold cellSyncBarrierInitialize
      rw [if_neg hnull, if_neg (by omega : ¬ barrier % 4 ≠ 0), if_pos hbad]
    exact ⟨⟨fun _ => hbad, fun _ => by rw [hcall]⟩, fun _ => hcall, fun h => absurd hbad h⟩
  · have hcall := cellSyncBarrierInitialize_ok mem barrier total_count hnull halign
      (by omega) (by omega)
    obtain ⟨hv, hc⟩ := barrier_init_fields mem barrier total_count (by omega)
    refine ⟨⟨fun h => ?_, fun h => absurd h hbad⟩, fun h => absurd h hbad,
      fun _ => ⟨_, hcall, hv, hc, fun x hx => ?_⟩⟩
    · rw [hcall] at h
      exact absurd h (by simp)
    · rw [store16_outside _ _ _ _ (by omega), store16_outside _ _ _ _ (by omega)]

/-- Witness for C8: 3 parties, barrier at address 8. -/
theorem cellSyncBarrierInitialize_spec_witness :
    ((cellSyncBarrierInitialize (fun _ => 1) 8 3).1 = CELL_SYNC_ERROR_INVAL ↔
      (3 = 0 ∨ 3 > 32767)) ∧
    ((3 = 0 ∨ 3 > 32767) →
      cellSyncBarrierInitialize (fun _ => 1) 8 3 = (CELL_SYNC_ERROR_INVAL, fun _ => 1)) ∧
    (¬ (3 = 0 ∨ 3 > 32767) →
      ∃ mem', cellSyncBarrierInitialize (fun _ => 1) 8 3 = (CELL_OK, mem') ∧
        load16 mem' 8 = 0 ∧ load16 mem' (8 + 2) = 3 ∧
        ∀ x, x < 8 ∨ 8 + 4 ≤ x → mem' x = (fun _ => 1 : Memory) x) :=
  cellSyncBarrierInitialize_spec (fun _ => 1) 8 3 (by decide) (by decide)

theorem cellSyncBarrierTryNotify_valid (fuel : Nat) (mem : Memory)
    (barrier : Nat) (hnull : barrier ≠ 0) (halign : barrier % 4 = 0) :
    cellSyncBarrierTryNotify (fuel + 1) mem barrier =
      if toS16 (load16 mem barrier : Int) ≥ 0 then
        some (CELL_OK, store32 mem barrier
          (CellSyncBarrier.notifyUpdate (load32 mem barrier) (toS16 (load16 mem barrier))))
      else some (CELL_SYNC_ERROR_BUSY, mem) := by
  unfold cellSyncBarrierTryNotify
  rw [if_neg hnull, if_neg (by omega : ¬ barrier % 4 ≠ 0)]
  simp only [ICE_sync]
  rw [barrierTryNotifyLoop]
  simp only [CellSyncBarrier.m_value_load32, ICE_fst, ICE_hit, if_true, store32_load32]

/-- C9: at a non-null 4-aligned address, when `m_value` read as `s16` is
`>= 0`, `cellSyncBarrierTryNotify` and `cellSyncBarrierNotify` both return
`CELL_OK` with the same memory, in which `m_value` is the old value plus one,
or-ed with `0x8000` when that sum equals `m_count`, and `m_count` and all
other bytes are unchanged; when the value is `< 0`,
`cellSyncBarrierTryNotify` returns `CELL_SYNC_ERROR_BUSY` with memory
unchanged. -/
theorem barrier_try_notify_same_transition (IsStopped : Nat → Bool) (fuel : Nat)
    (mem : Memory) (barrier : Nat) (hnull : barrier ≠ 0) (halign : barrier % 4 = 0) :
    (0 ≤ toS16 (load16 mem barrier : Int) →
      ∃ mem', cellSyncBarrierTryNotify (fuel + 1) mem barrier = some (CELL_OK, mem') ∧
        cellSyncBarrierNotify IsStopped (fuel + 1) mem barrier = some (CELL_OK, mem') ∧
        load16 mem' barrier =
          (if load16 mem barrier + 1 = load16 mem (barrier + 2)
           then (load16 mem barrier + 1) ||| 0x8000 else load16 mem barrier + 1) ∧
        load16 mem' (barrier + 2) = load16 mem (barrier + 2) ∧
        ∀ x, x < barrier ∨ barrier + 4 ≤ x → mem' x = mem x) ∧
    (toS16 (load16 mem barrier : Int) < 0 →
      cellSyncBarrierTryNotify (fuel + 1) mem barrier =
        some (CELL_SYNC_ERROR_BUSY, mem)) := by
  constructor
  · intro hv
    have hlt : load16 mem barrier < 32768 :=
      (toS16_nonneg_iff _ (load16_lt mem barrier)).mp hv
    obtain ⟨m1, hcall, hv1, hc1, hout1⟩ :=
      cellSyncBarrierNotify_step IsStopped fuel mem barrier hnull halign hlt
    refine ⟨m1, ?_, hcall, hv1, hc1, hout1⟩
    rw [cellSyncBarrierTryNotify_valid fuel mem barrier hnull halign,
      if_pos (ge_iff_le.mpr hv), ← cellSyncBarrierNotify_open IsStopped fuel mem barrier
        hnull halign hlt]
    exact hcall
  · intro hv
    rw [cellSyncBarrierTryNotify_valid fuel mem barrier hnull halign,
      if_neg (by omega : ¬ toS16 (load16 mem barrier : Int) ≥ 0)]

/-- Witness for C9: the barrier at address 8 of a zeroed memory. -/
theorem barrier_try_notify_same_transition_witness :
    (0 ≤ toS16 (load16 (fun _ => 0) 8 : Int) →
      ∃ mem', cellSyncBarrierTryNotify (0 + 1) (fun _ => 0) 8 = some (CELL_OK, mem') ∧
        cellSyncBarrierNotify (fun _ => false) (0 + 1) (fun _ => 0) 8 =
          some (CELL_OK, mem') ∧
        load16 mem' 8 =
          (if load16 (fun _ => 0) 8 + 1 = load16 (fun _ => 0) (8 + 2)
           then (load16 (fun _ => 0) 8 + 1) ||| 0x8000 else load16 (fun _ => 0) 8 + 1) ∧
        load16 mem' (8 + 2) = load16 (fun _ => 0) (8 + 2) ∧
        ∀ x, x < 8 ∨ 8 + 4 ≤ x → mem' x = (fun _ => 0 : Memory) x) ∧
    (toS16 (load16 (fun _ => 0) 8 : Int) < 0 →
      cellSyncBarrierTryNotify (0 + 1) (fun _ => 0) 8 =
        some (CELL_SYNC_ERROR_BUSY, fun _ => 0)) :=
  barrier_try_notify_same_transition (fun _ => false) 0 (fun _ => 0) 8
    (by decide) (by decide)

/-! ## Mutex: interleaved callers -/

theorem MutexPc.out_of_holds (p : MutexPc) (h : p.holds = true) : p.out = true := by
  cases p <;> simp_all [MutexPc.holds, MutexPc.out]

theorem MutexSys.setPc_same {T : Type} [DecidableEq T] (s : MutexSys T) (t : T)
    (p : MutexPc) : s.setPc t p t = p := by
  simp [MutexSys.setPc]

theorem MutexSys.setPc_other {T : Type} [DecidableEq T] (s : MutexSys T) (t u : T)
    (p : MutexPc) (h : u ≠ t) : s.setPc t p u = s.pc u := by
  simp [MutexSys.setPc, h]

/-- The outstanding tickets are no more than the callers. -/
theorem MutexInv.card_bound {T : Type} [Fintype T] {s : MutexSys T} {g : T → Nat}
    {F O : Nat} (h : MutexInv s g F O) : O - F ≤ Fintype.card T := by
  have hsurj : Set.SurjOn g (↑(Finset.univ : Finset T)) (↑(Finset.Ico F O)) := by
    intro n hn
    have hn' := Finset.mem_Ico.mp hn
    obtain ⟨t, _, ht⟩ := h.surj n hn'.1 hn'.2
    exact ⟨t, by simp, ht⟩
  have hcard := Finset.card_le_card_of_surjOn g hsurj
  rw [Nat.card_Ico] at hcard
  exact hcard

/-- A step of caller `t` that changes neither the word nor whether `t` has a
ticket out. -/
theorem MutexInv.move {T : Type} [DecidableEq T] {s : MutexSys T} {g : T → Nat}
    {F O : Nat} (h : MutexInv s g F O) (t : T) (p : MutexPc)
    (hout : p.out = (s.pc t).out) (hholds : p.holds = true → g t = F)
    (hticket : ∀ tk, p = .lockWait tk → tk = g t % 65536) :
    MutexInv ⟨s.data, s.setPc t p⟩ g F O := by
  have hpc : ∀ u, ((s.setPc t p) u).out = (s.pc u).out := by
    intro u
    by_cases hu : u = t
    · subst hu
      rw [MutexSys.setPc_same, hout]
    · rw [MutexSys.setPc_other _ _ _ _ hu]
  refine ⟨h.le, h.order_eq, h.freed_eq, ?_, ?_, ?_, ?_, ?_⟩
  · intro u hu
    exact h.range u (by rw [← hpc u]; exact hu)
  · intro u tk hu
    by_cases hut : u = t
    · subst hut
      simp only [MutexSys.setPc_same] at hu
      exact hticket tk hu
    · simp only [MutexSys.setPc_other _ _ _ _ hut] at hu
      exact h.ticket u tk hu
  · intro u hu
    by_cases hut : u = t
    · subst hut
      simp only [MutexSys.setPc_same] at hu
      exact hholds hu
    · simp only [MutexSys.setPc_other _ _ _ _ hut] at hu
      exact h.holder u hu
  · intro u v hu hv
    exact h.inj u v (by rw [← hpc u]; exact hu) (by rw [← hpc v]; exact hv)
  · intro n h1 h2
    obtain ⟨u, hu, hg⟩ := h.surj n h1 h2
    exact ⟨u, by rw [← hpc u] at hu; exact hu, hg⟩

/-- Every step keeps the invariant when there are at most 2^16 callers. -/
theorem MutexInv.step {T : Type} [DecidableEq T] [Fintype T]
    (hT : Fintype.card T ≤ 65536) {s : MutexSys T} {g : T → Nat} {F O : Nat}
    (h : MutexInv s g F O) (t : T) : ∃ g' F' O', MutexInv (s.step t) g' F' O' := by
  have hb := h.card_bound
  unfold MutexSys.step
  cases hp : s.pc t with
  | idle =>
    simp only
    exact ⟨g, F, O, h.move t _ (by rw [hp]; rfl) (fun hh => by simp [MutexPc.holds] at hh)
      (fun tk hh => by simp at hh)⟩
  | lockCas old_data =>
    simp only
    by_cases hd : s.data = old_data
    · rw [if_pos hd]
      subst hd
      have hnot : (s.pc t).out = false := by rw [hp]; rfl
      refine ⟨fun u => if u = t then O else g u, F, O + 1, ?_⟩
      refine ⟨by have := h.le; omega, ?_, ?_, ?_, ?_, ?_, ?_, ?_⟩
      · have h1 := h.order_eq
        simp only [CellSyncMutex.lockUpdate, CellSyncMutex.set_m_order,
          CellSyncMutex.m_order] at h1 ⊢
        omega
      · have h1 := h.freed_eq
        simp only [CellSyncMutex.lockUpdate, CellSyncMutex.set_m_order,
          CellSyncMutex.m_freed] at h1 ⊢
        omega
      · intro u hu
        by_cases hut : u = t
        · subst hut
          have := h.le
          simp only [if_true]
          omega
        · simp only [MutexSys.setPc_other _ _ _ _ hut] at hu
          have := h.range u hu
          simp only [if_neg hut]
          omega
      · intro u tk hu
        by_cases hut : u = t
        · subst hut
          simp only [MutexSys.setPc_same, MutexPc.lockWait.injEq] at hu
          simp only [if_true]
          rw [← hu, ← h.order_eq]
          rfl
        · simp only [MutexSys.setPc_other _ _ _ _ hut] at hu
          simp only [if_neg hut]
          exact h.ticket u tk hu
      · intro u hu
        by_cases hut : u = t
        · subst hut
          simp [MutexSys.setPc_same, MutexPc.holds] at hu
        · simp only [MutexSys.setPc_other _ _ _ _ hut] at hu
          simp only [if_neg hut]
          exact h.holder u hu
      · intro u v hu hv huv
        by_cases hut : u = t
        · by_cases hvt : v = t
          · rw [hut, hvt]
          · simp only [MutexSys.setPc_other _ _ _ _ hvt] at hv
            have := h.range v hv
            simp only [if_pos hut, if_neg hvt] at huv
            omega
        · simp only [MutexSys.setPc_other _ _ _ _ hut] at hu
          have hru := h.range u hu
          by_cases hvt : v = t
          · simp only [if_neg hut, if_pos hvt] at huv
            omega
          · simp only [MutexSys.setPc_other _ _ _ _ hvt] at hv
            simp only [if_neg hut, if_neg hvt] at huv
            exact h.inj u v hu hv huv
      · intro n h1 h2
        by_cases hn : n = O
        · refine ⟨t, ?_, ?_⟩
          · simp [MutexSys.setPc_same, MutexPc.out]
          · simp only [if_true]
            exact hn.symm
        · obtain ⟨u, hu, hg⟩ := h.surj n h1 (by omega)
          have hut : u ≠ t := by
            intro e
            rw [e, hnot] at hu
            exact absurd hu (by simp)
          refine ⟨u, ?_, ?_⟩
          · simp only [MutexSys.setPc_other _ _ _ _ hut]
            exact hu
          · simp only [if_neg hut]
            exact hg
    · rw [if_neg hd]
      exact ⟨g, F, O, h.move t _ (by rw [hp]; rfl) (fun hh => by simp [MutexPc.holds] at hh)
        (fun tk hh => by simp at hh)⟩
  | lockWait old_order =>
    simp only
    by_cases hne : old_order ≠ CellSyncMutex.m_freed s.data
    · rw [if_pos hne]
      exact ⟨g, F, O, h⟩
    · rw [if_neg hne]
      have heq : old_order = CellSyncMutex.m_freed s.data := by
        by_contra hc
        exact hne hc
      have htk := h.ticket t old_order hp
      have hr := h.range t (by rw [hp]; rfl)
      have hf := h.freed_eq
      exact ⟨g, F, O, h.move t _ (by rw [hp]; rfl) (fun _ => by omega)
        (fun tk hh => by simp at hh)⟩
  | holding =>
    simp only
    have hg := h.holder t (by rw [hp]; rfl)
    exact ⟨g, F, O, h.move t _ (by rw [hp]; rfl) (fun _ => hg) (fun tk hh => by simp at hh)⟩
  | unlockCas old_data =>
    simp only
    have hg := h.holder t (by rw [hp]; rfl)
    have hot : (s.pc t).out = true := by rw [hp]; rfl
    by_cases hd : s.data = old_data
    · rw [if_pos hd]
      subst hd
      have hrt := h.range t hot
      refine ⟨g, F + 1, O, ?_⟩
      refine ⟨by omega, ?_, ?_, ?_, ?_, ?_, ?_, ?_⟩
      · have h1 := h.order_eq
        simp only [CellSyncMutex.unlockUpdate, CellSyncMutex.set_m_freed,
          CellSyncMutex.m_order] at h1 ⊢
        omega
      · have h1 := h.freed_eq
        simp only [CellSyncMutex.unlockUpdate, CellSyncMutex.set_m_freed,
          CellSyncMutex.m_freed] at h1 ⊢
        omega
      · intro u hu
        by_cases hut : u = t
        · subst hut
          simp [MutexSys.setPc_same, MutexPc.out] at hu
        · simp only [MutexSys.setPc_other _ _ _ _ hut] at hu
          have hru := h.range u hu
          have hne : g u ≠ g t := fun e => hut (h.inj u t hu hot e)
          omega
      · intro u tk hu
        by_cases hut : u = t
        · subst hut
          simp [MutexSys.setPc_same] at hu
        · simp only [MutexSys.setPc_other _ _ _ _ hut] at hu
          exact h.ticket u tk hu
      · intro u hu
        by_cases hut : u = t
        · subst hut
          simp [MutexSys.setPc_same, MutexPc.holds] at hu
        · simp only [MutexSys.setPc_other _ _ _ _ hut] at hu
          have hgu := h.holder u hu
          exact absurd (h.inj u t (MutexPc.out_of_holds _ hu) hot (by omega)) hut
      · intro u v hu hv huv
        by_cases hut : u = t
        · subst hut
          simp [MutexSys.setPc_same, MutexPc.out] at hu
        · by_cases hvt : v = t
          · subst hvt
            simp [MutexSys.setPc_same, MutexPc.out] at hv
          · simp only [MutexSys.setPc_other _ _ _ _ hut] at hu
            simp only [MutexSys.setPc_other _ _ _ _ hvt] at hv
            exact h.inj u v hu hv huv
      · intro n h1 h2
        obtain ⟨u, hu, hgn⟩ := h.surj n (by omega) h2
        have hut : u ≠ t := by
          intro e
          rw [e] at hgn
          omega
        exact ⟨u, by simp only [MutexSys.setPc_other _ _ _ _ hut]; exact hu, hgn⟩
    · rw [if_neg hd]
      exact ⟨g, F, O, h.move t _ (by rw [hp]; rfl) (fun _ => hg) (fun tk hh => by simp at hh)⟩

theorem MutexInv.init (T : Type) : MutexInv (MutexSys.init T) (fun _ => 0) 0 0 := by
  refine ⟨Nat.le_refl _, by simp [MutexSys.init, CellSyncMutex.m_order],
    by simp [MutexSys.init, CellSyncMutex.m_freed], ?_, ?_, ?_, ?_, ?_⟩
  · intro t ht
    simp [MutexSys.init, MutexPc.out] at ht
  · intro t tk ht
    simp [MutexSys.init] at ht
  · intro t ht
    simp [MutexSys.init, MutexPc.holds] at ht
  · intro t u ht
    simp [MutexSys.init, MutexPc.out] at ht
  · intro n h1 h2
    omega

theorem MutexInv.foldl {T : Type} [DecidableEq T] [Fintype T]
    (hT : Fintype.card T ≤ 65536) (sched : List T) :
    ∀ (s : MutexSys T), (∃ g F O, MutexInv s g F O) →
      ∃ g F O, MutexInv (sched.foldl MutexSys.step s) g F O := by
  induction sched with
  | nil => intro s h; exact h
  | cons t rest ih =>
    intro s h
    obtain ⟨g, F, O, hinv⟩ := h
    exact ih (s.step t) (hinv.step hT t)

/-- C1 (amended): with at most 2^16 callers, in every state reachable from
the initialized mutex by reads of `m_data()`, compare-exchanges of
`cellSyncMutexLock` and `cellSyncMutexUnlock` and re-checks of `m_freed`
against the ticket (the emulator never stopped, each caller unlocking only
after its own lock returned), at most one caller is between the return of its
lock and the effect of its unlock. -/
theorem mutex_mutual_exclusion {T : Type} [DecidableEq T] [Fintype T]
    (hT : Fintype.card T ≤ 65536) (sched : List T) (t u : T)
    (ht : ((MutexSys.run sched).pc t).holds = true)
    (hu : ((MutexSys.run sched).pc u).holds = true) : t = u := by
  obtain ⟨g, F, O, hinv⟩ :=
    MutexInv.foldl hT sched (MutexSys.init T) ⟨_, _, _, MutexInv.init T⟩
  have h1 := hinv.holder t ht
  have h2 := hinv.holder u hu
  exact hinv.inj t u (MutexPc.out_of_holds _ ht) (MutexPc.out_of_holds _ hu) (by
    rw [h1, h2])

/-- Witness for C1 (amended): two callers; caller 0 has locked, caller 1 has
drawn a ticket and re-checked it once. -/
theorem mutex_mutual_exclusion_witness :
    Fintype.card (Fin 2) ≤ 65536 ∧
    ((MutexSys.run [0, 0, 0, 1, 1, 1] : MutexSys (Fin 2)).pc 0).holds = true ∧
    ((MutexSys.run [0, 0, 0, 1, 1, 1] : MutexSys (Fin 2)).pc 1).holds = false ∧
    (0 : Fin 2) = 0 :=
  ⟨by simp, by decide, by decide,
    mutex_mutual_exclusion (by simp) [0, 0, 0, 1, 1, 1] 0 0 (by decide) (by decide)⟩

theorem MutexSys.eq_of {T : Type} (a b : MutexSys T) (hd : a.data = b.data)
    (hp : ∀ u, a.pc u = b.pc u) : a = b := by
  cases a
  cases b
  simp only [MutexSys.mk.injEq]
  exact ⟨hd, funext hp⟩

theorem MutexSys.run_append {T : Type} [DecidableEq T] (l1 l2 : List T) :
    MutexSys.run (l1 ++ l2) = l2.foldl MutexSys.step (MutexSys.run l1) := by
  unfold MutexSys.run
  rw [List.foldl_append]

theorem crowdState_step (k : Nat) (hk : 1 ≤ k) :
    ((crowdState k).step k).step k = crowdState (k + 1) := by
  have h0 : k ≠ 0 := by omega
  have hpc : (crowdState k).pc k = MutexPc.idle := by
    simp [crowdState, h0]
  have hstep1 : (crowdState k).step k =
      ⟨(crowdState k).data, (crowdState k).setPc k (.lockCas (crowdState k).data)⟩ := by
    unfold MutexSys.step
    rw [hpc]
  rw [hstep1]
  unfold MutexSys.step
  simp only [MutexSys.setPc_same, if_true]
  apply MutexSys.eq_of
  · simp only [crowdState, CellSyncMutex.lockUpdate, CellSyncMutex.set_m_order,
      CellSyncMutex.m_order]
    omega
  · intro u
    simp only [MutexSys.setPc, crowdState, CellSyncMutex.lockUpdate, CellSyncMutex.m_order]
    by_cases huk : u = k
    · subst huk
      rw [if_pos rfl, if_neg h0, if_pos (by omega)]
      congr 1
      omega
    · rw [if_neg huk, if_neg huk]
      by_cases hu0 : u = 0
      · rw [if_pos hu0, if_pos hu0]
      · rw [if_neg hu0, if_neg hu0]
        by_cases hlt : u < k
        · rw [if_pos hlt, if_pos (by omega)]
        · rw [if_neg hlt, if_neg (by omega)]

theorem run_crowd (k : Nat) : MutexSys.run (crowd k) = crowdState (k + 1) := by
  induction k with
  | zero =>
    apply MutexSys.eq_of
    · decide
    · intro u
      by_cases hu0 : u = 0
      · subst hu0
        decide
      · simp [MutexSys.run, crowd, MutexSys.step, MutexSys.init, MutexSys.setPc, crowdState,
          hu0, CellSyncMutex.lockUpdate, CellSyncMutex.m_order, CellSyncMutex.m_freed,
          CellSyncMutex.set_m_order]
  | succ k ih =>
    rw [crowd, MutexSys.run_append, ih]
    simp only [List.foldl_cons, List.foldl_nil]
    exact crowdState_step (k + 1) (by omega)

/-- C1 (counterexample): with the callers `0 .. 65536`, after `crowdSchedule`
(caller 0 holds the mutex, 65536 further callers have drawn the tickets
`1, ..., 65535, 0`, and caller 65536 has re-checked its ticket 0 against
`m_freed = 0`) the callers 0 and 65536 have both returned from
`cellSyncMutexLock` and neither has unlocked. -/
theorem mutex_mutual_exclusion_fails_beyond_65536_callers :
    ((MutexSys.run crowdSchedule).pc 0).holds = true ∧
    ((MutexSys.run crowdSchedule).pc 65536).holds = true ∧
    (0 : Nat) ≠ 65536 := by
  have hrun : MutexSys.run crowdSchedule = (crowdState 65537).step 65536 := by
    unfold crowdSchedule
    rw [MutexSys.run_append, run_crowd]
    rfl
  have hpc : (crowdState 65537).pc 65536 = MutexPc.lockWait 0 := by
    simp [crowdState]
  have hfreed : CellSyncMutex.m_freed (crowdState 65537).data = 0 := by
    simp [crowdState, CellSyncMutex.m_freed]
  have hstep : (crowdState 65537).step 65536 =
      ⟨(crowdState 65537).data, (crowdState 65537).setPc 65536 .holding⟩ := by
    unfold MutexSys.step
    rw [hpc]
    simp only [hfreed, ne_eq, not_true_eq_false, if_false]
  rw [hrun, hstep]
  refine ⟨?_, ?_, by decide⟩
  · simp [MutexSys.setPc, crowdState, MutexPc.holds]
  · simp [MutexSys.setPc, MutexPc.holds]

/-! ## Mediator: sequential calls -/

theorem memcpy_outside (mem : Memory) (dst src n x : Nat) (h : x < dst ∨ dst + n ≤ x) :
    memcpy mem dst src n x = mem x := by
  unfold memcpy
  rw [if_neg (by omega)]

theorem memcpy_inside (mem : Memory) (dst src n i : Nat) (h : i < n) :
    memcpy mem dst src n (dst + i) = mem (src + i) := by
  unfold memcpy
  rw [if_pos (by omega)]
  congr 2
  omega

theorem load64_store64 (mem : Memory) (a v : Nat) :
    load64 (store64 mem a v) a = v % 18446744073709551616 := by
  unfold load64 store64
  rw [load32_store32]
  rw [load32_congr (store32 (store32 mem a (v / 4294967296)) (a + 4) v)
    (store32 mem a (v / 4294967296)) a (fun x h1 h2 => store32_outside _ _ _ _ (by omega))]
  rw [load32_store32]
  omega

theorem rwmWriteAcquire_free (IsStopped : Nat → Bool) (rwm fuel polls : Nat) (mem : Memory)
    (hw : load32 mem rwm = 0) :
    rwmWriteAcquire IsStopped rwm (fuel + 1) polls mem =
      some (Sum.inr (polls, store32 mem rwm 1)) := by
  rw [rwmWriteAcquire]
  simp only [hw, ICE_fst]
  rw [← hw, ICE_hit, hw]
  simp [CellSyncRwm.m_writers, CellSyncRwm.set_m_writers]

theorem rwmWriteDrain_free (IsStopped : Nat → Bool) (rwm fuel polls : Nat) (mem : Memory)
    (hr : load16 mem rwm = 0) :
    rwmWriteDrain IsStopped mem rwm (fuel + 1) polls = some false := by
  rw [rwmWriteDrain]
  simp [hr]

theorem cellSyncRwmWrite_free (IsStopped : Nat → Bool) (fuel : Nat) (mem : Memory)
    (rwm buffer_addr : Nat) (hnull : rwm ≠ 0) (halign : rwm % 16 = 0)
    (hbuf : buffer_addr ≠ 0) (hw : load32 mem rwm = 0) :
    cellSyncRwmWrite IsStopped (fuel + 1) mem rwm buffer_addr =
      some (CELL_OK, store32 (memcpy (store32 mem rwm 1)
        (CellSyncRwm.m_addr (store32 mem rwm 1) rwm) buffer_addr
        (CellSyncRwm.m_size (store32 mem rwm 1) rwm)) rwm 0) := by
  unfold cellSyncRwmWrite
  rw [if_neg (by omega : ¬ (rwm = 0 ∨ buffer_addr = 0)),
    if_neg (by omega : ¬ rwm % 16 ≠ 0), rwmWriteAcquire_free _ _ _ _ _ hw]
  simp only
  rw [rwmWriteDrain_free _ _ _ _ _ (by rw [load16_store32_hi])]
  simp only [ICE_sync]

theorem rwmReadAcquire_free (IsStopped : Nat → Bool) (rwm fuel polls : Nat) (mem : Memory)
    (hw : load32 mem rwm = 0) :
    rwmReadAcquire IsStopped rwm (fuel + 1) polls mem =
      some (Sum.inr (store32 mem rwm 65536)) := by
  rw [rwmReadAcquire]
  simp only [hw, ICE_fst]
  rw [← hw, ICE_hit, hw]
  simp [CellSyncRwm.m_writers, CellSyncRwm.set_m_readers, CellSyncRwm.m_readers]

theorem rwmReadRelease_one (rwm fuel : Nat) (mem : Memory) (hw : load32 mem rwm = 65536) :
    rwmReadRelease rwm (fuel + 1) mem = some (CELL_OK, store32 mem rwm 0) := by
  rw [rwmReadRelease]
  simp only [hw, ICE_fst]
  rw [← hw, ICE_hit, hw]
  simp [CellSyncRwm.set_m_readers, CellSyncRwm.m_readers]

theorem cellSyncRwmRead_free (IsStopped : Nat → Bool) (fuel : Nat) (mem : Memory)
    (rwm buffer_addr : Nat) (hnull : rwm ≠ 0) (halign : rwm % 16 = 0)
    (hbuf : buffer_addr ≠ 0) (hw : load32 mem rwm = 0)
    (hkeep : load32 (memcpy (store32 mem rwm 65536) buffer_addr
        (CellSyncRwm.m_addr (store32 mem rwm 65536) rwm)
        (CellSyncRwm.m_size (store32 mem rwm 65536) rwm)) rwm = 65536) :
    cellSyncRwmRead IsStopped (fuel + 1) mem rwm buffer_addr =
      some (CELL_OK, store32 (memcpy (store32 mem rwm 65536) buffer_addr
        (CellSyncRwm.m_addr (store32 mem rwm 65536) rwm)
        (CellSyncRwm.m_size (store32 mem rwm 65536) rwm)) rwm 0) := by
  unfold cellSyncRwmRead
  rw [if_neg (by omega : ¬ (rwm = 0 ∨ buffer_addr = 0)),
    if_neg (by omega : ¬ rwm % 16 ≠ 0), rwmReadAcquire_free _ _ _ _ _ hw]
  simp only
  rw [rwmReadRelease_one _ _ _ hkeep]

/-- The fields behind the word only depend on bytes 4 to 15 of the record. -/
theorem RwmRecord.congr_tail {mem mem' : Memory} {rwm w w' size payload : Nat}
    (h : RwmRecord mem rwm w size payload)
    (hagree : ∀ x, rwm + 4 ≤ x → x < rwm + 16 → mem' x = mem x)
    (hw : load32 mem' rwm = w') : RwmRecord mem' rwm w' size payload := by
  refine ⟨hw, ?_, ?_⟩
  · rw [← h.size_eq]
    exact load32_congr _ _ _ (fun x h1 h2 => hagree x h1 (by omega))
  · rw [← h.addr_eq]
    exact load64_congr _ _ _ (fun x h1 h2 => hagree x (by omega) (by omega))

theorem RwmRecord.store_word {mem : Memory} {rwm w size payload : Nat}
    (h : RwmRecord mem rwm w size payload) (v : Nat) (hv : v < 4294967296) :
    RwmRecord (store32 mem rwm v) rwm v size payload :=
  h.congr_tail (fun x h1 _ => store32_outside _ _ _ _ (by omega))
    (by rw [load32_store32]; omega)

theorem RwmRecord.after_memcpy {mem : Memory} {rwm w size payload : Nat}
    (h : RwmRecord mem rwm w size payload) (dst src n : Nat)
    (hd : rangesDisjoint rwm 16 dst n) :
    RwmRecord (memcpy mem dst src n) rwm w size payload := by
  have hout : ∀ x, rwm ≤ x → x < rwm + 16 → memcpy mem dst src n x = mem x := by
    intro x h1 h2
    apply memcpy_outside
    unfold rangesDisjoint at hd
    omega
  refine h.congr_tail (fun x h1 h2 => hout x (by omega) h2) ?_
  rw [← h.word]
  exact load32_congr _ _ _ (fun x h1 h2 => hout x h1 (by omega))

theorem cellSyncRwmInitialize_ok (mem mem0 : Memory) (rwm buffer_addr buffer_size : Nat)
    (hrange : buffer_addr < 4294967296)
    (hinit : cellSyncRwmInitialize mem rwm buffer_addr buffer_size = (CELL_OK, mem0)) :
    rwm ≠ 0 ∧ rwm % 16 = 0 ∧ RwmRecord mem0 rwm 0 buffer_size buffer_addr ∧
      ∀ x, x < rwm ∨ rwm + 16 ≤ x → mem0 x = mem x := by
  unfold cellSyncRwmInitialize at hinit
  by_cases h1 : rwm = 0 ∨ buffer_addr = 0
  · rw [if_pos h1] at hinit
    exact absurd hinit (by simp)
  rw [if_neg h1] at hinit
  by_cases h2 : rwm % 16 ≠ 0 ∨ buffer_addr % 128 ≠ 0
  · rw [if_pos h2] at hinit
    exact absurd hinit (by simp)
  rw [if_neg h2] at hinit
  by_cases h3 : buffer_size % 128 ≠ 0 ∨ buffer_size > 0x4000
  · rw [if_pos h3] at hinit
    exact absurd hinit (by simp)
  rw [if_neg h3] at hinit
  simp only [ICE_sync, Prod.mk.injEq, true_and] at hinit
  subst hinit
  refine ⟨by omega, by omega, ⟨?_, ?_, ?_⟩, ?_⟩
  · rw [load32_congr _ (store32 mem rwm 0) rwm (fun x h1 h2 => by
      rw [store64_outside _ _ _ _ (by omega), store32_outside _ _ _ _ (by omega)]),
      load32_store32]
  · unfold CellSyncRwm.m_size
    rw [load32_congr _ (store32 (store32 mem rwm 0) (rwm + 4) buffer_size) (rwm + 4)
      (fun x h1 h2 => store64_outside _ _ _ _ (by omega)), load32_store32]
    omega
  · unfold CellSyncRwm.m_addr
    rw [load64_store64]
    omega
  · intro x hx
    rw [store64_outside _ _ _ _ (by omega), store32_outside _ _ _ _ (by omega),
      store32_outside _ _ _ _ (by omega)]

/-- C10 (counterexample): in zeroed memory, with the mediator record at 16,
the payload at 256 (128 bytes), the source buffer at 512 and the destination
buffer at 16, the three ranges `[512, 640)`, `[16, 144)`, `[256, 384)` are
pairwise disjoint, `cellSyncRwmInitialize` and `cellSyncRwmWrite` return
`CELL_OK`, and `cellSyncRwmRead` returns `CELL_SYNC_ERROR_ABORT`: its copy
overwrites the record, so the release loop finds `m_readers == 0`.  Likewise,
with the record at 4096 and the source buffer at address 0 (disjoint from the
payload and from a destination at 1024), `cellSyncRwmWrite` returns
`CELL_SYNC_ERROR_NULL_POINTER`. -/
theorem rwm_round_trip_fails_when_buffer_overlaps_record :
    (rangesDisjoint 512 128 16 128 ∧ rangesDisjoint 512 128 256 128 ∧
      rangesDisjoint 16 128 256 128 ∧
      (cellSyncRwmInitialize (fun _ => 0) 16 256 128).1 = CELL_OK ∧
      (cellSyncRwmWrite (fun _ => false) 1
        (cellSyncRwmInitialize (fun _ => 0) 16 256 128).2 16 512).map Prod.fst =
          some CELL_OK ∧
      ((cellSyncRwmWrite (fun _ => false) 1
        (cellSyncRwmInitialize (fun _ => 0) 16 256 128).2 16 512).bind
          (fun r => cellSyncRwmRead (fun _ => false) 1 r.2 16 16)).map Prod.fst =
        some CELL_SYNC_ERROR_ABORT) ∧
    (rangesDisjoint 0 128 1024 128 ∧ rangesDisjoint 0 128 256 128 ∧
      rangesDisjoint 1024 128 256 128 ∧
      (cellSyncRwmInitialize (fun _ => 0) 4096 256 128).1 = CELL_OK ∧
      (cellSyncRwmWrite (fun _ => false) 1
        (cellSyncRwmInitialize (fun _ => 0) 4096 256 128).2 4096 0).map Prod.fst =
          some CELL_SYNC_ERROR_NULL_POINTER) := by
  decide

/-- C10 (amended): after `cellSyncRwmInitialize(rwm, payload, size)` returned
`CELL_OK`, for non-null source and destination buffers that are disjoint from
each other, from the payload and from the 16-byte mediator record, the payload
being disjoint from the record as well, a sequential `cellSyncRwmWrite(src)`
followed by `cellSyncRwmRead(dst)` both return `CELL_OK`, the destination then
holds the `size` bytes that were at the source, and the word is 0. -/
theorem rwm_write_read_round_trip (IsStopped IsStopped' : Nat → Bool) (fuel : Nat)
    (mem mem0 : Memory) (rwm payload size src dst : Nat)
    (hrange : payload < 4294967296)
    (hinit : cellSyncRwmInitialize mem rwm payload size = (CELL_OK, mem0))
    (hsrc : src ≠ 0) (hdst : dst ≠ 0)
    (_hsd : rangesDisjoint src size dst size)
    (_hsp : rangesDisjoint src size payload size)
    (_hdp : rangesDisjoint dst size payload size)
    (hrs : rangesDisjoint rwm 16 src size)
    (hrd : rangesDisjoint rwm 16 dst size)
    (hrp : rangesDisjoint rwm 16 payload size) :
    ∃ mem1 mem2,
      cellSyncRwmWrite IsStopped (fuel + 1) mem0 rwm src = some (CELL_OK, mem1) ∧
      cellSyncRwmRead IsStopped' (fuel + 1) mem1 rwm dst = some (CELL_OK, mem2) ∧
      (∀ i, i < size → mem2 (dst + i) = mem (src + i)) ∧
      load32 mem2 rwm = 0 := by
  obtain ⟨hnull, halign, hrec0, hout0⟩ :=
    cellSyncRwmInitialize_ok mem mem0 rwm payload size hrange hinit
  unfold rangesDisjoint at hrs hrd hrp
  -- the write
  have hreca := hrec0.store_word 1 (by omega)
  have hwrite := cellSyncRwmWrite_free IsStopped fuel mem0 rwm src hnull halign hsrc hrec0.word
  rw [hreca.addr_eq, hreca.size_eq] at hwrite
  have hrec1 := (hreca.after_memcpy payload src size hrp).store_word 0 (by omega)
  have hpay1 : ∀ i, i < size →
      store32 (memcpy (store32 mem0 rwm 1) payload src size) rwm 0 (payload + i) =
        mem (src + i) := by
    intro i hi
    rw [store32_outside _ _ _ _ (by omega), memcpy_inside _ _ _ _ _ hi,
      store32_outside _ _ _ _ (by omega), hout0 _ (by omega)]
  -- the read
  have hrecc := hrec1.store_word 65536 (by omega)
  have hrecd := hrecc.after_memcpy dst payload size hrd
  have hread := cellSyncRwmRead_free IsStopped' fuel _ rwm dst hnull halign hdst hrec1.word
    (by rw [hrecc.addr_eq, hrecc.size_eq]; exact hrecd.word)
  rw [hrecc.addr_eq, hrecc.size_eq] at hread
  refine ⟨_, _, hwrite, hread, ?_, ?_⟩
  · intro i hi
    rw [store32_outside _ _ _ _ (by omega), memcpy_inside _ _ _ _ _ hi,
      store32_outside _ _ _ _ (by omega)]
    exact hpay1 i hi
  · rw [load32_store32]

/-- Witness for C10 (amended): record at 16, payload at 256 (128 bytes),
source at 512, destination at 1024, in a memory whose byte at `x` is
`x mod 256`. -/
theorem rwm_write_read_round_trip_witness :
    ∃ mem1 mem2,
      cellSyncRwmWrite (fun _ => false) (0 + 1)
        (cellSyncRwmInitialize (fun x => ⟨x % 256, Nat.mod_lt _ (by decide)⟩) 16 256 128).2
        16 512 = some (CELL_OK, mem1) ∧
      cellSyncRwmRead (fun _ => false) (0 + 1) mem1 16 1024 = some (CELL_OK, mem2) ∧
      (∀ i, i < 128 → mem2 (1024 + i) =
        (fun x => ⟨x % 256, Nat.mod_lt _ (by decide)⟩ : Memory) (512 + i)) ∧
      load32 mem2 16 = 0 :=
  have hinit : cellSyncRwmInitialize (fun x => ⟨x % 256, Nat.mod_lt _ (by decide)⟩) 16 256 128 =
      (CELL_OK,
        (cellSyncRwmInitialize (fun x => ⟨x % 256, Nat.mod_lt _ (by decide)⟩) 16 256 128).2) :=
    Prod.ext (by decide) rfl
  rwm_write_read_round_trip (fun _ => false) (fun _ => false) 0
    (fun x => ⟨x % 256, Nat.mod_lt _ (by decide)⟩)
    (cellSyncRwmInitialize (fun x => ⟨x % 256, Nat.mod_lt _ (by decide)⟩) 16 256 128).2
    16 256 128 512 1024
    (by decide) hinit (by decide) (by decide) (by decide) (by decide)
    (by decide) (by decide) (by decide) (by decide)

/-! ## Mediator: `cellSyncRwmTryWrite` and the release loop -/

theorem cellSyncRwmTryWrite_valid (mem : Memory) (rwm buffer_addr : Nat)
    (hnull : rwm ≠ 0) (halign : rwm % 16 = 0) (hbuf : buffer_addr ≠ 0) :
    cellSyncRwmTryWrite mem rwm buffer_addr =
      if load32 mem rwm ≠ 0 then (CELL_SYNC_ERROR_BUSY, mem)
      else (CELL_OK, store32 (memcpy (store32 mem rwm 1)
        (CellSyncRwm.m_addr (store32 mem rwm 1) rwm) buffer_addr
        (CellSyncRwm.m_size (store32 mem rwm 1) rwm)) rwm 0) := by
  unfold cellSyncRwmTryWrite
  rw [if_neg (by omega : ¬ (rwm = 0 ∨ buffer_addr = 0)), if_neg (by omega : ¬ rwm % 16 ≠ 0)]
  by_cases hw : load32 mem rwm = 0
  · have hne : ¬ load32 mem rwm ≠ 0 := fun h => h hw
    have hice : (InterlockedCompareExchange mem rwm 1 0).2 = store32 mem rwm 1 := by
      rw [← hw, ICE_hit]
    simp only [ICE_fst, if_neg hne, hice, ICE_sync]
  · have hice : (InterlockedCompareExchange mem rwm 1 0).2 = mem := by
      unfold InterlockedCompareExchange
      simp only [if_neg hw]
    simp only [ICE_fst, if_pos hw, hice]

/-- C11: at a non-null 16-aligned mediator address and a non-null source,
`cellSyncRwmTryWrite` returns `CELL_SYNC_ERROR_BUSY` with memory unchanged iff
the 32-bit word is non-zero.  When the word is 0 it stores `m_readers = 0`,
`m_writers = 1`, copies `m_size` bytes from the source to `m_addr`, stores 0
in the word and returns `CELL_OK`.  After the increment of one read on a
zero word (word `0x00010000`) it returns busy in every memory with that
word, and after the decrement of that read it returns `CELL_OK`. -/
theorem cellSyncRwmTryWrite_spec (IsStopped : Nat → Bool) (fuel : Nat) (mem : Memory)
    (rwm buffer_addr : Nat) (hnull : rwm ≠ 0) (halign : rwm % 16 = 0)
    (hbuf : buffer_addr ≠ 0) :
    (cellSyncRwmTryWrite mem rwm buffer_addr = (CELL_SYNC_ERROR_BUSY, mem) ↔
      load32 mem rwm ≠ 0) ∧
    (load32 mem rwm = 0 →
      load16 (store32 mem rwm 1) rwm = 0 ∧ load16 (store32 mem rwm 1) (rwm + 2) = 1 ∧
      cellSyncRwmTryWrite mem rwm buffer_addr =
        (CELL_OK, store32 (memcpy (store32 mem rwm 1) (CellSyncRwm.m_addr mem rwm)
          buffer_addr (CellSyncRwm.m_size mem rwm)) rwm 0) ∧
      load32 (cellSyncRwmTryWrite mem rwm buffer_addr).2 rwm = 0) ∧
    (load32 mem rwm = 0 →
      ∃ ma, rwmReadAcquire IsStopped rwm (fuel + 1) 0 mem = some (Sum.inr ma) ∧
        load16 ma rwm = 1 ∧ load16 ma (rwm + 2) = 0 ∧
        ∀ m, load32 m rwm = load32 ma rwm →
          cellSyncRwmTryWrite m rwm buffer_addr = (CELL_SYNC_ERROR_BUSY, m) ∧
          ∃ m', rwmReadRelease rwm (fuel + 1) m = some (CELL_OK, m') ∧
            (cellSyncRwmTryWrite m' rwm buffer_addr).1 = CELL_OK) := by
  have hvalid := cellSyncRwmTryWrite_valid
  refine ⟨?_, ?_, ?_⟩
  · rw [hvalid mem rwm buffer_addr hnull halign hbuf]
    by_cases hw : load32 mem rwm ≠ 0
    · rw [if_pos hw]
      exact ⟨fun _ => hw, fun _ => rfl⟩
    · rw [if_neg hw]
      exact ⟨fun h => absurd h (by simp), fun h => absurd h hw⟩
  · intro hw
    have hsize : CellSyncRwm.m_size (store32 mem rwm 1) rwm = CellSyncRwm.m_size mem rwm :=
      load32_congr _ _ _ (fun x h1 h2 => store32_outside _ _ _ _ (by omega))
    have haddr : CellSyncRwm.m_addr (store32 mem rwm 1) rwm = CellSyncRwm.m_addr mem rwm :=
      load64_congr _ _ _ (fun x h1 h2 => store32_outside _ _ _ _ (by omega))
    have hcall := hvalid mem rwm buffer_addr hnull halign hbuf
    rw [if_neg (fun h => h hw), hsize, haddr] at hcall
    refine ⟨by rw [load16_store32_hi], by rw [load16_store32_lo], hcall, ?_⟩
    rw [hcall, load32_store32]
  · intro hw
    refine ⟨store32 mem rwm 65536, rwmReadAcquire_free IsStopped rwm fuel 0 mem hw,
      by rw [load16_store32_hi], by rw [load16_store32_lo], ?_⟩
    intro m hm
    rw [load32_store32] at hm
    have hm' : load32 m rwm = 65536 := by omega
    refine ⟨?_, store32 m rwm 0, rwmReadRelease_one rwm fuel m hm', ?_⟩
    · rw [hvalid m rwm buffer_addr hnull halign hbuf, if_pos (by omega)]
    · rw [hvalid _ rwm buffer_addr hnull halign hbuf,
        if_neg (by rw [load32_store32]; omega)]

/-- Witness for C11: the mediator at address 16 of a zeroed memory, source at
512. -/
theorem cellSyncRwmTryWrite_spec_witness :
    (cellSyncRwmTryWrite (fun _ => 0) 16 512 = (CELL_SYNC_ERROR_BUSY, fun _ => 0) ↔
      load32 (fun _ => 0) 16 ≠ 0) ∧
    (load32 (fun _ => 0) 16 = 0 →
      load16 (store32 (fun _ => 0) 16 1) 16 = 0 ∧
      load16 (store32 (fun _ => 0) 16 1) (16 + 2) = 1 ∧
      cellSyncRwmTryWrite (fun _ => 0) 16 512 =
        (CELL_OK, store32 (memcpy (store32 (fun _ => 0) 16 1)
          (CellSyncRwm.m_addr (fun _ => 0) 16) 512 (CellSyncRwm.m_size (fun _ => 0) 16))
          16 0) ∧
      load32 (cellSyncRwmTryWrite (fun _ => 0) 16 512).2 16 = 0) ∧
    (load32 (fun _ => 0) 16 = 0 →
      ∃ ma, rwmReadAcquire (fun _ => false) 16 (0 + 1) 0 (fun _ => 0) = some (Sum.inr ma) ∧
        load16 ma 16 = 1 ∧ load16 ma (16 + 2) = 0 ∧
        ∀ m, load32 m 16 = load32 ma 16 →
          cellSyncRwmTryWrite m 16 512 = (CELL_SYNC_ERROR_BUSY, m) ∧
          ∃ m', rwmReadRelease 16 (0 + 1) m = some (CELL_OK, m') ∧
            (cellSyncRwmTryWrite m' 16 512).1 = CELL_OK) :=
  cellSyncRwmTryWrite_spec (fun _ => false) 0 (fun _ => 0) 16 512
    (by decide) (by decide) (by decide)

theorem rwmReadRelease_succ (rwm fuel : Nat) (mem : Memory) :
    rwmReadRelease rwm (fuel + 1) mem =
      if CellSyncRwm.m_readers (load32 mem rwm) = 0 then some (CELL_SYNC_ERROR_ABORT, mem)
      else some (CELL_OK, store32 mem rwm (CellSyncRwm.set_m_readers (load32 mem rwm)
        (CellSyncRwm.m_readers (load32 mem rwm) + 65535))) := by
  rw [rwmReadRelease]
  simp only [ICE_fst, ICE_hit, if_true]

/-- C13: the release loop shared by `cellSyncRwmRead` and
`cellSyncRwmTryRead` returns `CELL_SYNC_ERROR_ABORT` with memory unchanged
when `m_readers` is 0, and otherwise returns `CELL_OK` with `m_readers`
decreased by exactly one, `m_writers` and all other bytes unchanged; both
calls end with that loop, run on the memory left by their copy. -/
theorem rwm_reader_underflow_aborts (fuel : Nat) (mem : Memory) (rwm : Nat) :
    (load16 mem rwm = 0 →
      rwmReadRelease rwm (fuel + 1) mem = some (CELL_SYNC_ERROR_ABORT, mem)) ∧
    (load16 mem rwm ≠ 0 →
      ∃ mem', rwmReadRelease rwm (fuel + 1) mem = some (CELL_OK, mem') ∧
        load16 mem' rwm + 1 = load16 mem rwm ∧
        load16 mem' (rwm + 2) = load16 mem (rwm + 2) ∧
        ∀ x, x < rwm ∨ rwm + 4 ≤ x → mem' x = mem x) ∧
    (∀ (IsStopped : Nat → Bool) (buffer_addr : Nat) (mem0 m1 : Memory),
      rwm ≠ 0 → rwm % 16 = 0 → buffer_addr ≠ 0 →
      rwmReadAcquire IsStopped rwm (fuel + 1) 0 mem0 = some (Sum.inr m1) →
      cellSyncRwmRead IsStopped (fuel + 1) mem0 rwm buffer_addr =
        rwmReadRelease rwm (fuel + 1)
          (memcpy m1 buffer_addr (CellSyncRwm.m_addr m1 rwm) (CellSyncRwm.m_size m1 rwm))) ∧
    (∀ (buffer_addr : Nat) (mem0 m1 : Memory),
      rwm ≠ 0 → rwm % 16 = 0 → buffer_addr ≠ 0 →
      rwmTryReadAcquire rwm (fuel + 1) mem0 = some (Sum.inr m1) →
      cellSyncRwmTryRead (fuel + 1) mem0 rwm buffer_addr =
        rwmReadRelease rwm (fuel + 1)
          (memcpy m1 buffer_addr (CellSyncRwm.m_addr m1 rwm) (CellSyncRwm.m_size m1 rwm))) := by
  have hr : CellSyncRwm.m_readers (load32 mem rwm) = load16 mem rwm := load32_hi mem rwm
  refine ⟨?_, ?_, ?_, ?_⟩
  · intro h0
    rw [rwmReadRelease_succ, hr, if_pos h0]
  · intro hne
    have hlt := load16_lt mem rwm
    refine ⟨_, by rw [rwmReadRelease_succ, hr, if_neg hne], ?_, ?_,
      fun x hx => store32_outside _ _ _ _ hx⟩
    · rw [load16_store32_hi]
      unfold CellSyncRwm.set_m_readers
      omega
    · rw [load16_store32_lo]
      unfold CellSyncRwm.set_m_readers
      rw [load32_lo]
      have := load16_lt mem (rwm + 2)
      omega
  · intro IsStopped buffer_addr mem0 m1 hnull halign hbuf hacq
    unfold cellSyncRwmRead
    rw [if_neg (by omega : ¬ (rwm = 0 ∨ buffer_addr = 0)),
      if_neg (by omega : ¬ rwm % 16 ≠ 0), hacq]
  · intro buffer_addr mem0 m1 hnull halign hbuf hacq
    unfold cellSyncRwmTryRead
    rw [if_neg (by omega : ¬ (rwm = 0 ∨ buffer_addr = 0)),
      if_neg (by omega : ¬ rwm % 16 ≠ 0), hacq]

/-! ## Mediator: the word under any sequence of updates -/

theorem RwmStep.apply_writers_le (d : Nat) (st : RwmStep)
    (h : CellSyncRwm.m_writers d ≤ 1) : CellSyncRwm.m_writers (RwmStep.apply d st) ≤ 1 := by
  cases st with
  | readerIncrement =>
    simp only [RwmStep.apply]
    by_cases hc : CellSyncRwm.m_writers d ≠ 0
    · rw [if_pos hc]
      exact h
    · rw [if_neg hc]
      unfold CellSyncRwm.m_writers CellSyncRwm.set_m_readers at *
      omega
  | readerDecrement =>
    simp only [RwmStep.apply]
    by_cases hc : CellSyncRwm.m_readers d = 0
    · rw [if_pos hc]
      exact h
    · rw [if_neg hc]
      unfold CellSyncRwm.m_writers CellSyncRwm.set_m_readers at *
      omega
  | writerSet =>
    simp only [RwmStep.apply]
    by_cases hc : CellSyncRwm.m_writers d ≠ 0
    · rw [if_pos hc]
      exact h
    · rw [if_neg hc]
      unfold CellSyncRwm.m_writers CellSyncRwm.set_m_writers
      omega
  | tryWriterSet =>
    simp only [RwmStep.apply]
    by_cases hc : d ≠ 0
    · rw [if_pos hc]
      exact h
    · rw [if_neg hc]
      decide
  | reset =>
    simp only [RwmStep.apply]
    decide

theorem RwmStep.foldl_writers_le (steps : List RwmStep) (d : Nat)
    (h : CellSyncRwm.m_writers d ≤ 1) :
    CellSyncRwm.m_writers (steps.foldl RwmStep.apply d) ≤ 1 := by
  induction steps generalizing d with
  | nil => exact h
  | cons st rest ih => exact ih _ (RwmStep.apply_writers_le d st h)

/-- C14: every word reached from the initialized mediator word 0 by any
sequence of the updates of read, try_read, write and try_write (reader
increment, reader decrement, writer set, the compare-exchange of try_write,
word reset) has `m_writers` equal to 0 or 1. -/
theorem rwm_writers_zero_or_one (steps : List RwmStep) :
    CellSyncRwm.m_writers (steps.foldl RwmStep.apply 0) = 0 ∨
    CellSyncRwm.m_writers (steps.foldl RwmStep.apply 0) = 1 := by
  have h := RwmStep.foldl_writers_le steps 0 (by decide)
  omega

/-! ## Mediator: interleaved callers -/

theorem RwmSys.setPc_self {T : Type} [DecidableEq T] (s : RwmSys T) (t : T)
    (p : RwmPc) : s.setPc t p t = p := by
  simp [RwmSys.setPc]

theorem RwmSys.setPc_ne {T : Type} [DecidableEq T] (s : RwmSys T) (t u : T)
    (p : RwmPc) (h : u ≠ t) : s.setPc t p u = s.pc u := by
  simp [RwmSys.setPc, h]

theorem mem_midReaders {T : Type} [Fintype T] (pc : T → RwmPc) (t : T) :
    t ∈ midReaders pc ↔ (pc t).midRead = true := by
  simp [midReaders]

theorem midReaders_same {T : Type} [Fintype T] [DecidableEq T] (s : RwmSys T) (t : T)
    (p : RwmPc) (h : p.midRead = (s.pc t).midRead) :
    midReaders (s.setPc t p) = midReaders s.pc := by
  ext u
  rw [mem_midReaders, mem_midReaders]
  by_cases hu : u = t
  · subst hu
    rw [RwmSys.setPc_self, h]
  · rw [RwmSys.setPc_ne _ _ _ _ hu]

theorem midReaders_enter {T : Type} [Fintype T] [DecidableEq T] (s : RwmSys T) (t : T)
    (p : RwmPc) (hold : (s.pc t).midRead = false) (hnew : p.midRead = true) :
    (midReaders (s.setPc t p)).card = (midReaders s.pc).card + 1 := by
  have hins : midReaders (s.setPc t p) = insert t (midReaders s.pc) := by
    ext u
    rw [Finset.mem_insert, mem_midReaders, mem_midReaders]
    by_cases hu : u = t
    · subst hu
      rw [RwmSys.setPc_self]
      exact ⟨fun _ => Or.inl rfl, fun _ => hnew⟩
    · rw [RwmSys.setPc_ne _ _ _ _ hu]
      exact ⟨fun h => Or.inr h, fun h => h.resolve_left hu⟩
  rw [hins, Finset.card_insert_of_not_mem]
  rw [mem_midReaders, hold]
  simp

theorem midReaders_leave {T : Type} [Fintype T] [DecidableEq T] (s : RwmSys T) (t : T)
    (p : RwmPc) (hold : (s.pc t).midRead = true) (hnew : p.midRead = false) :
    (midReaders (s.setPc t p)).card + 1 = (midReaders s.pc).card := by
  have hers : midReaders (s.setPc t p) = (midReaders s.pc).erase t := by
    ext u
    rw [Finset.mem_erase, mem_midReaders, mem_midReaders]
    by_cases hu : u = t
    · subst hu
      rw [RwmSys.setPc_self, hnew]
      simp
    · rw [RwmSys.setPc_ne _ _ _ _ hu]
      exact ⟨fun h => ⟨hu, h⟩, fun h => h.2⟩
  have hmem : t ∈ midReaders s.pc := (mem_midReaders _ _).mpr hold
  rw [hers, Finset.card_erase_of_mem hmem]
  have := Finset.card_pos.mpr ⟨t, hmem⟩
  omega

theorem midReaders_lt {T : Type} [Fintype T] (pc : T → RwmPc) (t : T)
    (hold : (pc t).midRead = false) : (midReaders pc).card < Fintype.card T := by
  apply Finset.card_lt_univ_of_not_mem (x := t)
  rw [mem_midReaders, hold]
  simp

theorem midReaders_pos {T : Type} [Fintype T] (pc : T → RwmPc) (t : T)
    (hold : (pc t).midRead = true) : 0 < (midReaders pc).card :=
  Finset.card_pos.mpr ⟨t, (mem_midReaders _ _).mpr hold⟩

theorem RwmInv.at_init (T : Type) [Fintype T] : RwmInv (RwmSys.init T) := by
  have hempty : (midReaders (RwmSys.init T).pc).card = 0 := by
    rw [Finset.card_eq_zero]
    ext u
    simp [mem_midReaders, RwmSys.init, RwmPc.midRead]
  refine ⟨?_, by simp [RwmSys.init, CellSyncRwm.m_writers], ?_, ?_, ?_, ?_⟩
  · rw [hempty]
    simp [RwmSys.init, CellSyncRwm.m_readers]
  · intro t ht
    simp [RwmSys.init, RwmPc.holdsW] at ht
  · intro t u ht
    simp [RwmSys.init, RwmPc.holdsW] at ht
  · intro t ht
    simp [RwmSys.init, RwmPc.pastDrain] at ht
  · intro t old_data ht
    simp [RwmSys.init] at ht

/-- A step of caller `t` that changes neither the word, nor whether `t` is a
reader inside the mediator, nor whether it is a writer holding it. -/
theorem RwmInv.move_pc {T : Type} [Fintype T] [DecidableEq T] {s : RwmSys T}
    (h : RwmInv s) (t : T) (p : RwmPc)
    (hmid : p.midRead = (s.pc t).midRead) (hW : p.holdsW = (s.pc t).holdsW)
    (hpast : p.pastDrain = true → (midReaders s.pc).card = 0)
    (hdec : ∀ old_data, p = .readDecCas old_data → CellSyncRwm.m_readers old_data ≠ 0) :
    RwmInv ⟨s.data, s.setPc t p⟩ := by
  have hmr := midReaders_same s t p hmid
  have hWu : ∀ u, ((s.setPc t p) u).holdsW = (s.pc u).holdsW := by
    intro u
    by_cases hu : u = t
    · subst hu
      rw [RwmSys.setPc_self, hW]
    · rw [RwmSys.setPc_ne _ _ _ _ hu]
  refine ⟨?_, h.writers_le, ?_, ?_, ?_, ?_⟩
  · show CellSyncRwm.m_readers s.data = (midReaders (s.setPc t p)).card
    rw [hmr]
    exact h.readers_eq
  · intro u hu
    exact h.writers_held u (by rw [← hWu u]; exact hu)
  · intro u v hu hv
    exact h.writer_unique u v (by rw [← hWu u]; exact hu) (by rw [← hWu v]; exact hv)
  · intro u hu
    show (midReaders (s.setPc t p)).card = 0
    rw [hmr]
    by_cases hut : u = t
    · subst hut
      simp only [RwmSys.setPc_self] at hu
      exact hpast hu
    · simp only [RwmSys.setPc_ne _ _ _ _ hut] at hu
      exact h.copy_excl u hu
  · intro u old_data hu
    by_cases hut : u = t
    · subst hut
      simp only [RwmSys.setPc_self] at hu
      exact hdec old_data hu
    · simp only [RwmSys.setPc_ne _ _ _ _ hut] at hu
      exact h.dec_old u old_data hu

theorem RwmPc.holdsW_of_pastDrain (p : RwmPc) (h : p.pastDrain = true) : p.holdsW = true := by
  cases p <;> simp_all [RwmPc.pastDrain, RwmPc.holdsW]

theorem RwmInv.no_holder {T : Type} [Fintype T] {s : RwmSys T} (h : RwmInv s)
    (hw : CellSyncRwm.m_writers s.data = 0) (u : T) : (s.pc u).holdsW = false := by
  cases hu : (s.pc u).holdsW with
  | false => rfl
  | true =>
    have := h.writers_held u hu
    omega

/-- A step of caller `t` that stores a new word. -/
theorem RwmInv.update {T : Type} [Fintype T] [DecidableEq T] {s : RwmSys T}
    (h : RwmInv s) (t : T) (p : RwmPc) (d : Nat)
    (hreaders : CellSyncRwm.m_readers d = (midReaders (s.setPc t p)).card)
    (hwle : CellSyncRwm.m_writers d ≤ 1)
    (hheld : ∀ u, ((s.setPc t p) u).holdsW = true → CellSyncRwm.m_writers d = 1)
    (hothers : ∀ u, u ≠ t → (s.pc u).holdsW = true → p.holdsW = false)
    (hpast : ∀ u, ((s.setPc t p) u).pastDrain = true → (midReaders (s.setPc t p)).card = 0)
    (hdec : ∀ old_data, p = .readDecCas old_data → CellSyncRwm.m_readers old_data ≠ 0) :
    RwmInv ⟨d, s.setPc t p⟩ := by
  refine ⟨hreaders, hwle, hheld, ?_, hpast, ?_⟩
  · intro u v hu hv
    simp only at hu hv
    by_cases hut : u = t
    · by_cases hvt : v = t
      · rw [hut, hvt]
      · rw [hut, RwmSys.setPc_self] at hu
        rw [RwmSys.setPc_ne _ _ _ _ hvt] at hv
        rw [hothers v hvt hv] at hu
        exact absurd hu (by simp)
    · rw [RwmSys.setPc_ne _ _ _ _ hut] at hu
      by_cases hvt : v = t
      · rw [hvt, RwmSys.setPc_self] at hv
        rw [hothers u hut hu] at hv
        exact absurd hv (by simp)
      · rw [RwmSys.setPc_ne _ _ _ _ hvt] at hv
        exact h.writer_unique u v hu hv
  · intro u old_data hu
    simp only at hu
    by_cases hut : u = t
    · rw [hut, RwmSys.setPc_self] at hu
      exact hdec old_data hu
    · rw [RwmSys.setPc_ne _ _ _ _ hut] at hu
      exact h.dec_old u old_data hu

/-- When no writer held the mediator before the step, none but `t` holds it
after. -/
theorem RwmInv.holder_is {T : Type} [Fintype T] [DecidableEq T] {s : RwmSys T}
    (h : RwmInv s) (hw : CellSyncRwm.m_writers s.data = 0) (t u : T) (p : RwmPc)
    (hu : ((s.setPc t p) u).holdsW = true) : u = t ∧ p.holdsW = true := by
  by_cases hut : u = t
  · rw [hut, RwmSys.setPc_self] at hu
    exact ⟨hut, hu⟩
  · rw [RwmSys.setPc_ne _ _ _ _ hut, h.no_holder hw u] at hu
    exact absurd hu (by simp)

/-- Every step keeps the invariant when fewer than 2^16 callers take part. -/
theorem RwmInv.step_inv {T : Type} [Fintype T] [DecidableEq T]
    (hT : Fintype.card T ≤ 65535) {s : RwmSys T} (h : RwmInv s) (a : T × RwmOp) :
    RwmInv (s.step a) := by
  obtain ⟨t, op⟩ := a
  unfold RwmSys.step
  simp only
  cases hp : s.pc t with
  | idle =>
    simp only
    cases op with
    | read =>
      exact h.move_pc t _ (by rw [hp]; rfl) (by rw [hp]; rfl)
        (fun hh => by simp [RwmPc.pastDrain] at hh) (fun o hh => by simp at hh)
    | tryRead =>
      exact h.move_pc t _ (by rw [hp]; rfl) (by rw [hp]; rfl)
        (fun hh => by simp [RwmPc.pastDrain] at hh) (fun o hh => by simp at hh)
    | write =>
      exact h.move_pc t _ (by rw [hp]; rfl) (by rw [hp]; rfl)
        (fun hh => by simp [RwmPc.pastDrain] at hh) (fun o hh => by simp at hh)
    | tryWrite =>
      simp only
      by_cases hd : s.data ≠ 0
      · rw [if_pos hd]
        exact h
      · rw [if_neg hd]
        have hd0 : s.data = 0 := by omega
        have hw0 : CellSyncRwm.m_writers s.data = 0 := by rw [hd0]; rfl
        have hr0 : (midReaders s.pc).card = 0 := by
          rw [← h.readers_eq, hd0]
          rfl
        have hmr := midReaders_same s t RwmPc.writeCopy (by rw [hp]; rfl)
        refine h.update t _ 1 ?_ (by decide) (fun _ _ => by decide) ?_ ?_
          (fun o hh => by simp at hh)
        · rw [hmr, hr0]
          rfl
        · intro u _ hu
          rw [h.no_holder hw0 u] at hu
          exact absurd hu (by simp)
        · intro u _
          rw [hmr, hr0]
  | readCas old_data =>
    simp only
    by_cases hw : CellSyncRwm.m_writers old_data ≠ 0
    · rw [if_pos hw]
      exact h.move_pc t _ (by rw [hp]; rfl) (by rw [hp]; rfl)
        (fun hh => by simp [RwmPc.pastDrain] at hh) (fun o hh => by simp at hh)
    · rw [if_neg hw]
      by_cases hd : s.data = old_data
      · rw [if_pos hd]
        subst hd
        have hw0 : CellSyncRwm.m_writers s.data = 0 := by omega
        have hcard := midReaders_enter s t RwmPc.readCopy (by rw [hp]; rfl) rfl
        have hlt := midReaders_lt s.pc t (by rw [hp]; rfl)
        have hre := h.readers_eq
        refine h.update t _ _ ?_ ?_ ?_ ?_ ?_ (fun o hh => by simp at hh)
        · rw [hcard, ← hre]
          unfold CellSyncRwm.m_readers CellSyncRwm.set_m_readers
          unfold CellSyncRwm.m_readers at hre
          omega
        · unfold CellSyncRwm.m_writers CellSyncRwm.set_m_readers
          unfold CellSyncRwm.m_writers at hw0
          omega
        · intro u hu
          have := (h.holder_is hw0 t u _ hu).2
          simp [RwmPc.holdsW] at this
        · intro u _ _
          rfl
        · intro u hu
          have := (h.holder_is hw0 t u _ (RwmPc.holdsW_of_pastDrain _ hu)).2
          simp [RwmPc.holdsW] at this
      · rw [if_neg hd]
        exact h.move_pc t _ (by rw [hp]; rfl) (by rw [hp]; rfl)
          (fun hh => by simp [RwmPc.pastDrain] at hh) (fun o hh => by simp at hh)
  | readCopy =>
    simp only
    exact h.move_pc t _ (by rw [hp]; rfl) (by rw [hp]; rfl)
      (fun hh => by simp [RwmPc.pastDrain] at hh) (fun o hh => by simp at hh)
  | readDone =>
    simp only
    have hpos := midReaders_pos s.pc t (by rw [hp]; rfl)
    refine h.move_pc t _ (by rw [hp]; rfl) (by rw [hp]; rfl)
      (fun hh => by simp [RwmPc.pastDrain] at hh) ?_
    intro o hh
    simp only [RwmPc.readDecCas.injEq] at hh
    rw [← hh, h.readers_eq]
    omega
  | readDecCas old_data =>
    simp only
    have hold := h.dec_old t old_data hp
    rw [if_neg hold]
    by_cases hd : s.data = old_data
    · rw [if_pos hd]
      subst hd
      have hcard := midReaders_leave s t RwmPc.idle (by rw [hp]; rfl) rfl
      have hpos := midReaders_pos s.pc t (by rw [hp]; rfl)
      have hlt : (midReaders s.pc).card ≤ Fintype.card T := Finset.card_le_univ _
      have hre := h.readers_eq
      have hwle := h.writers_le
      refine h.update t _ _ ?_ ?_ ?_ ?_ ?_ (fun o hh => by simp at hh)
      · unfold CellSyncRwm.m_readers CellSyncRwm.set_m_readers
        unfold CellSyncRwm.m_readers at hre
        omega
      · unfold CellSyncRwm.m_writers CellSyncRwm.set_m_readers
        unfold CellSyncRwm.m_writers at hwle
        omega
      · intro u hu
        by_cases hut : u = t
        · rw [hut, RwmSys.setPc_self] at hu
          simp [RwmPc.holdsW] at hu
        · rw [RwmSys.setPc_ne _ _ _ _ hut] at hu
          have hw1 := h.writers_held u hu
          unfold CellSyncRwm.m_writers CellSyncRwm.set_m_readers
          unfold CellSyncRwm.m_writers at hw1
          omega
      · intro u _ _
        rfl
      · intro u hu
        by_cases hut : u = t
        · rw [hut, RwmSys.setPc_self] at hu
          simp [RwmPc.pastDrain] at hu
        · rw [RwmSys.setPc_ne _ _ _ _ hut] at hu
          have := h.copy_excl u hu
          omega
    · rw [if_neg hd]
      exact h.move_pc t _ (by rw [hp]; rfl) (by rw [hp]; rfl)
        (fun hh => by simp [RwmPc.pastDrain] at hh) (fun o hh => by simp at hh)
  | writeCas old_data =>
    simp only
    by_cases hw : CellSyncRwm.m_writers old_data ≠ 0
    · rw [if_pos hw]
      exact h.move_pc t _ (by rw [hp]; rfl) (by rw [hp]; rfl)
        (fun hh => by simp [RwmPc.pastDrain] at hh) (fun o hh => by simp at hh)
    · rw [if_neg hw]
      by_cases hd : s.data = old_data
      · rw [if_pos hd]
        subst hd
        have hw0 : CellSyncRwm.m_writers s.data = 0 := by omega
        have hmr := midReaders_same s t RwmPc.writeDrain (by rw [hp]; rfl)
        have hre := h.readers_eq
        have hset : CellSyncRwm.m_writers (CellSyncRwm.set_m_writers s.data 1) = 1 := by
          unfold CellSyncRwm.m_writers CellSyncRwm.set_m_writers
          omega
        refine h.update t _ _ ?_ (by omega) (fun _ _ => hset) ?_ ?_
          (fun o hh => by simp at hh)
        · rw [hmr, ← hre]
          unfold CellSyncRwm.m_readers CellSyncRwm.set_m_writers
          omega
        · intro u _ hu
          rw [h.no_holder hw0 u] at hu
          exact absurd hu (by simp)
        · intro u hu
          by_cases hut : u = t
          · rw [hut, RwmSys.setPc_self] at hu
            simp [RwmPc.pastDrain] at hu
          · rw [RwmSys.setPc_ne _ _ _ _ hut] at hu
            have := h.no_holder hw0 u
            rw [RwmPc.holdsW_of_pastDrain _ hu] at this
            exact absurd this (by simp)
      · rw [if_neg hd]
        exact h.move_pc t _ (by rw [hp]; rfl) (by rw [hp]; rfl)
          (fun hh => by simp [RwmPc.pastDrain] at hh) (fun o hh => by simp at hh)
  | writeDrain =>
    simp only
    by_cases hr : CellSyncRwm.m_readers s.data ≠ 0
    · rw [if_pos hr]
      exact h
    · rw [if_neg hr]
      refine h.move_pc t _ (by rw [hp]; rfl) (by rw [hp]; rfl) (fun _ => ?_)
        (fun o hh => by simp at hh)
      rw [← h.readers_eq]
      omega
  | writeCopy =>
    simp only
    exact h.move_pc t _ (by rw [hp]; rfl) (by rw [hp]; rfl)
      (fun _ => h.copy_excl t (by rw [hp]; rfl)) (fun o hh => by simp at hh)
  | writeReset =>
    simp only
    have hr0 := h.copy_excl t (by rw [hp]; rfl)
    have hmr := midReaders_same s t RwmPc.idle (by rw [hp]; rfl)
    have hone : ∀ u, u ≠ t → (s.pc u).holdsW = true → False := by
      intro u hut hu
      exact hut (h.writer_unique u t hu (by rw [hp]; rfl))
    refine h.update t _ 0 ?_ (by decide) ?_ ?_ ?_ (fun o hh => by simp at hh)
    · rw [hmr, hr0]
      rfl
    · intro u hu
      by_cases hut : u = t
      · rw [hut, RwmSys.setPc_self] at hu
        simp [RwmPc.holdsW] at hu
      · rw [RwmSys.setPc_ne _ _ _ _ hut] at hu
        exact absurd hu (fun hh => hone u hut hh)
    · intro u _ _
      rfl
    · intro u _
      rw [hmr, hr0]

theorem RwmInv.foldl_inv {T : Type} [Fintype T] [DecidableEq T]
    (hT : Fintype.card T ≤ 65535) (sched : List (T × RwmOp)) :
    ∀ (s : RwmSys T), RwmInv s → RwmInv (sched.foldl RwmSys.step s) := by
  induction sched with
  | nil => intro s h; exact h
  | cons a rest ih =>
    intro s h
    exact ih (s.step a) (h.step_inv hT a)

/-- C12 (amended): with fewer than 2^16 callers (at most 65535), in every
state reachable from the initialized mediator by the atomic steps of read,
try_read, write and try_write (reads of the word, the reader-increment and
reader-decrement compare-exchanges, the reader copy, the writer's 0 -> 1
compare-exchange, the whole-word compare-exchange of try_write, the writer's
`m_readers == 0` check, the writer copy and the word reset; the emulator
never stopped), no writer is in its payload-copy phase while a reader is
between its increment and its decrement. -/
theorem rwm_writer_exclusion {T : Type} [Fintype T] [DecidableEq T]
    (hT : Fintype.card T ≤ 65535) (sched : List (T × RwmOp)) (t u : T)
    (ht : ((RwmSys.run sched).pc t).inCopy = true) :
    ((RwmSys.run sched).pc u).midRead = false := by
  have hinv := RwmInv.foldl_inv hT sched (RwmSys.init T) (RwmInv.at_init T)
  have hpast : ((RwmSys.run sched).pc t).pastDrain = true := by
    unfold RwmSys.run at ht ⊢
    cases hp : (List.foldl RwmSys.step (RwmSys.init T) sched).pc t <;>
      simp_all [RwmPc.inCopy, RwmPc.pastDrain]
  have h0 := hinv.copy_excl t hpast
  cases hu : ((RwmSys.run sched).pc u).midRead with
  | false => rfl
  | true =>
    have := midReaders_pos _ u hu
    unfold RwmSys.run at this
    omega

/-- Witness for C12 (amended): two callers; caller 1 reads while caller 0
writes: the writer waits in its second loop until the reader has decreased
`m_readers`, and only then enters its copy phase. -/
theorem rwm_writer_exclusion_witness :
    Fintype.card (Fin 2) ≤ 65535 ∧
    ((RwmSys.run [(1, .read), (1, .read), (0, .write), (0, .write), (0, .write),
      (1, .read), (1, .read), (1, .read), (0, .write)] : RwmSys (Fin 2)).pc 0).inCopy = true ∧
    ((RwmSys.run [(1, .read), (1, .read), (0, .write), (0, .write), (0, .write)] :
      RwmSys (Fin 2)).pc 0) = .writeDrain ∧
    ((RwmSys.run [(1, .read), (1, .read), (0, .write), (0, .write), (0, .write),
      (1, .read), (1, .read), (1, .read), (0, .write)] : RwmSys (Fin 2)).pc 1).midRead = false :=
  ⟨by simp, by decide, by decide,
    rwm_writer_exclusion (by simp) [(1, .read), (1, .read), (0, .write), (0, .write),
      (0, .write), (1, .read), (1, .read), (1, .read), (0, .write)] 0 1 (by decide)⟩

theorem RwmSys.ext_of {T : Type} (a b : RwmSys T) (hd : a.data = b.data)
    (hp : ∀ u, a.pc u = b.pc u) : a = b := by
  cases a
  cases b
  simp only [RwmSys.mk.injEq]
  exact ⟨hd, funext hp⟩

theorem RwmSys.run_concat {T : Type} [DecidableEq T] (l1 l2 : List (T × RwmOp)) :
    RwmSys.run (l1 ++ l2) = l2.foldl RwmSys.step (RwmSys.run l1) := by
  unfold RwmSys.run
  rw [List.foldl_append]

theorem readerCrowdState_step (k : Nat) :
    ((readerCrowdState k).step (k, .read)).step (k, .read) = readerCrowdState (k + 1) := by
  have hpc : (readerCrowdState k).pc k = RwmPc.idle := by
    simp [readerCrowdState]
  have hstep1 : (readerCrowdState k).step (k, .read) =
      ⟨(readerCrowdState k).data,
        (readerCrowdState k).setPc k (.readCas (readerCrowdState k).data)⟩ := by
    unfold RwmSys.step
    simp only [hpc]
  have hw : CellSyncRwm.m_writers (readerCrowdState k).data = 0 := by
    simp [readerCrowdState, CellSyncRwm.m_writers]
  rw [hstep1]
  unfold RwmSys.step
  simp only [RwmSys.setPc_self, hw, ne_eq, not_true_eq_false, if_false, if_true]
  apply RwmSys.ext_of
  · simp only [readerCrowdState, CellSyncRwm.set_m_readers, CellSyncRwm.m_readers]
    omega
  · intro u
    simp only [RwmSys.setPc, readerCrowdState]
    by_cases huk : u = k
    · subst huk
      rw [if_pos rfl, if_pos (by omega)]
    · rw [if_neg huk, if_neg huk]
      by_cases hlt : u < k
      · rw [if_pos hlt, if_pos (by omega)]
      · rw [if_neg hlt, if_neg (by omega)]

theorem run_readerCrowd (k : Nat) : RwmSys.run (readerCrowd k) = readerCrowdState k := by
  induction k with
  | zero =>
    apply RwmSys.ext_of
    · rfl
    · intro u
      simp [RwmSys.run, readerCrowd, RwmSys.init, readerCrowdState]
  | succ k ih =>
    rw [readerCrowd, RwmSys.run_concat, ih]
    simp only [List.foldl_cons, List.foldl_nil]
    exact readerCrowdState_step k

/-- C12 (counterexample): with the 65536 callers `0 .. 65535`, after
`readerCrowdSchedule` (all of them have increased `m_readers`, which has
wrapped to 0; caller 0 has found `m_readers == 0` in its release loop and
returned, then called `cellSyncRwmTryWrite`, whose compare-exchange of the
zero word succeeded) caller 0 is a writer in its copy phase while caller 1
is a reader between its increment and its decrement. -/
theorem rwm_writer_exclusion_fails_with_65536_callers :
    ((RwmSys.run readerCrowdSchedule).pc 0).inCopy = true ∧
    ((RwmSys.run readerCrowdSchedule).pc 1).midRead = true := by
  have hrun : RwmSys.run readerCrowdSchedule =
      [(0, RwmOp.read), (0, .read), (0, .read), (0, .tryWrite)].foldl RwmSys.step
        (readerCrowdState 65536) := by
    unfold readerCrowdSchedule
    rw [RwmSys.run_concat, run_readerCrowd]
  rw [hrun]
  constructor <;>
    simp [RwmSys.step, readerCrowdState, RwmSys.setPc, CellSyncRwm.m_readers,
      RwmPc.inCopy, RwmPc.midRead]

/-! ## Bit fields of 32-bit values -/

theorem and_low24 (v : Nat) : v &&& 0xffffff = v % 16777216 :=
  Nat.and_pow_two_sub_one_eq_mod v 24

theorem shr24 (v : Nat) : v >>> 24 = v / 16777216 :=
  Nat.shiftRight_eq_div_pow v 24

theorem or_mod_pow (x y n : Nat) : (x ||| y) % 2 ^ n = (x % 2 ^ n) ||| (y % 2 ^ n) := by
  apply Nat.eq_of_testBit_eq
  intro i
  simp only [Nat.testBit_mod_two_pow, Nat.testBit_or]
  cases decide (i < n) <;> simp

theorem and_high8 (v : Nat) (h : v < 4294967296) :
    v &&& 0xff000000 = v / 16777216 * 16777216 := by
  have e1 : (0xff000000 : Nat) = (2 ^ 8 - 1) <<< 24 := by decide
  have e2 : v / 16777216 * 16777216 = (v >>> 24) <<< 24 := by
    rw [Nat.shiftRight_eq_div_pow, Nat.shiftLeft_eq]
  rw [e1, e2]
  apply Nat.eq_of_testBit_eq
  intro i
  simp only [Nat.testBit_and, Nat.testBit_shiftLeft, Nat.testBit_two_pow_sub_one,
    Nat.testBit_shiftRight]
  by_cases hi : i ≥ 24
  · have e3 : 24 + (i - 24) = i := by omega
    simp only [hi, decide_True, Bool.true_and, e3]
    by_cases h32 : i - 24 < 8
    · simp [h32]
    · have : v.testBit i = false := by
        apply Nat.testBit_lt_two_pow
        calc v < 2 ^ 32 := h
          _ ≤ 2 ^ i := Nat.pow_le_pow_right (by decide) (by omega)
      simp [h32, this]
  · simp [hi]

theorem or_of_high_low (a b : Nat) (hb : b < 16777216) :
    (a * 16777216) ||| b = a * 16777216 + b := by
  have h1 := Nat.mul_add_lt_is_or (i := 24) (b := b) (by simpa using hb) a
  simp only [Nat.reducePow] at h1
  rw [Nat.mul_comm, ← h1]

theorem or_bit24 (v : Nat) (h : v < 16777216) : 0x1000000 ||| v = 16777216 + v := by
  have := or_of_high_low 1 v h
  simpa using this

/-! ## Memory: 64-bit words -/

theorem load64_lt (mem : Memory) (a : Nat) : load64 mem a < 18446744073709551616 := by
  unfold load64
  have h1 := load32_lt mem a
  have h2 := load32_lt mem (a + 4)
  omega

theorem store32_mod (mem : Memory) (a v : Nat) :
    store32 mem a (v % 4294967296) = store32 mem a v := by
  unfold store32
  have e0 : v % 4294967296 / 65536 = v / 65536 % 65536 :=
    Nat.mod_mul_right_div_self v 65536 65536
  have e2 : v % 4294967296 % 65536 = v % 65536 :=
    Nat.mod_mod_of_dvd v (by decide : 65536 ∣ 4294967296)
  have h1 : store16 mem a (v % 4294967296 / 65536) = store16 mem a (v / 65536) := by
    rw [e0, store16_mod]
  have h2 : ∀ m : Memory, store16 m (a + 2) (v % 4294967296) = store16 m (a + 2) v := by
    intro m
    rw [← store16_mod m (a + 2) (v % 4294967296), e2, store16_mod]
  rw [h1, h2]

theorem store64_load64 (mem : Memory) (a : Nat) : store64 mem a (load64 mem a) = mem := by
  unfold store64 load64
  have h1 := load32_lt mem a
  have h2 := load32_lt mem (a + 4)
  have e1 : (load32 mem a * 4294967296 + load32 mem (a + 4)) / 4294967296 = load32 mem a := by
    omega
  have e2 : (load32 mem a * 4294967296 + load32 mem (a + 4)) % 4294967296 =
      load32 mem (a + 4) := by
    omega
  rw [e1, store32_load32, ← store32_mod, e2, store32_load32]

theorem load32_store64_hi (mem : Memory) (a v : Nat) :
    load32 (store64 mem a v) a = v / 4294967296 % 4294967296 := by
  unfold store64
  rw [load32_congr _ (store32 mem a (v / 4294967296)) a
    (fun x h1 h2 => store32_outside _ _ _ _ (by omega)), load32_store32]

theorem load32_store64_lo (mem : Memory) (a v : Nat) :
    load32 (store64 mem a v) (a + 4) = v % 4294967296 := by
  unfold store64
  rw [load32_store32]

theorem load64_hi (mem : Memory) (a : Nat) :
    load64 mem a / 4294967296 % 4294967296 = load32 mem a := by
  unfold load64
  have h1 := load32_lt mem a
  have h2 := load32_lt mem (a + 4)
  omega

theorem load64_lo (mem : Memory) (a : Nat) :
    load64 mem a % 4294967296 = load32 mem (a + 4) := by
  unfold load64
  have h1 := load32_lt mem a
  have h2 := load32_lt mem (a + 4)
  omega

theorem ICE64_fst (mem : Memory) (a e c : Nat) :
    (InterlockedCompareExchange64 mem a e c).1 = load64 mem a := rfl

theorem ICE64_hit (mem : Memory) (a e : Nat) :
    (InterlockedCompareExchange64 mem a e (load64 mem a)).2 = store64 mem a e := by
  simp [InterlockedCompareExchange64]

theorem ICE64_sync (mem : Memory) (a : Nat) :
    (InterlockedCompareExchange64 mem a 0 0).2 = mem := by
  unfold InterlockedCompareExchange64
  by_cases h : load64 mem a = 0
  · simp only [h, if_true]
    rw [← h, store64_load64]
  · simp [h]

/-! ## Queue: the fields of the word -/

namespace CellSyncQueue

theorem m_v1_lt (d : Nat) : m_v1 d < 4294967296 := by
  unfold m_v1
  omega

theorem m_v2_lt (d : Nat) : m_v2 d < 4294967296 := by
  unfold m_v2
  omega

theorem push_position_eq (d : Nat) : push_position d = m_v1 d % 16777216 := and_low24 _

theorem pop_busy_eq (d : Nat) : pop_busy d = m_v1 d / 16777216 := shr24 _

theorem count_eq (d : Nat) : count d = m_v2 d % 16777216 := and_low24 _

theorem push_busy_eq (d : Nat) : push_busy d = m_v2 d / 16777216 := shr24 _

theorem set_both (d x y : Nat) :
    set_m_v2 (set_m_v1 d x) y = (x % 4294967296) * 4294967296 + y % 4294967296 := by
  unfold set_m_v2 set_m_v1
  omega

theorem set_m_v1_eq (d x : Nat) :
    set_m_v1 d x = (x % 4294967296) * 4294967296 + m_v2 d := rfl

theorem set_m_v2_eq (d y : Nat) :
    set_m_v2 d y = m_v1 d * 4294967296 + y % 4294967296 := rfl

theorem pack_v1 (b1 p b2 n : Nat) (hb2 : b2 < 256) (hn : n < 16777216) :
    (pack b1 p b2 n) / 4294967296 = b1 * 16777216 + p := by
  unfold pack
  omega

theorem pack_v2 (b1 p b2 n : Nat) (hb2 : b2 < 256) (hn : n < 16777216) :
    (pack b1 p b2 n) % 4294967296 = b2 * 16777216 + n := by
  unfold pack
  omega

theorem pack_fields (b1 p b2 n : Nat) (hb1 : b1 < 256) (hp : p < 16777216)
    (hb2 : b2 < 256) (hn : n < 16777216) :
    pop_busy (pack b1 p b2 n) = b1 ∧ push_position (pack b1 p b2 n) = p ∧
    push_busy (pack b1 p b2 n) = b2 ∧ count (pack b1 p b2 n) = n := by
  have h1 := pack_v1 b1 p b2 n hb2 hn
  have h2 := pack_v2 b1 p b2 n hb2 hn
  rw [pop_busy_eq, push_position_eq, push_busy_eq, count_eq]
  unfold m_v1 m_v2
  rw [h1, h2]
  omega

theorem pack_unpack (d : Nat) (h : d < 18446744073709551616) :
    pack (pop_busy d) (push_position d) (push_busy d) (count d) = d := by
  rw [pop_busy_eq, push_position_eq, push_busy_eq, count_eq]
  unfold pack m_v1 m_v2
  omega

theorem fields_lt (d : Nat) :
    pop_busy d < 256 ∧ push_position d < 16777216 ∧ push_busy d < 256 ∧
      count d < 16777216 := by
  have h1 := m_v1_lt d
  have h2 := m_v2_lt d
  rw [pop_busy_eq, push_position_eq, push_busy_eq, count_eq]
  omega

theorem pushBlocked_iff (d depth : Nat) :
    pushBlocked (m_v1 d) (m_v2 d) depth ↔ push_busy d ≠ 0 ∨ count d + pop_busy d ≥ depth :=
  Iff.rfl

theorem popBlocked_iff (d : Nat) :
    popBlocked (m_v1 d) (m_v2 d) ↔ pop_busy d ≠ 0 ∨ count d ≤ push_busy d :=
  Iff.rfl

theorem pushRelease_pack (d : Nat) :
    pushRelease d = pack (pop_busy d) (push_position d) 0 (count d) := by
  have h1 := m_v1_lt d
  have h2 := m_v2_lt d
  unfold pushRelease
  rw [set_m_v2_eq, and_low24, pop_busy_eq, push_position_eq, count_eq]
  unfold pack
  omega

theorem popRelease_pack (d : Nat) :
    popRelease d = pack 0 (push_position d) (push_busy d) (count d) := by
  have h1 := m_v1_lt d
  have h2 := m_v2_lt d
  unfold popRelease
  rw [set_m_v1_eq, and_low24, push_busy_eq, push_position_eq, count_eq]
  unfold pack
  omega

theorem pushUpdate_pack (d depth : Nat) (hdepth : depth ≠ 0)
    (hnext : (push_position d + 1) % depth < 16777216) (hn : count d + 1 < 16777216) :
    pushUpdate d depth = some (push_position d,
      pack (pop_busy d) ((push_position d + 1) % depth) 1 (count d + 1)) := by
  have h1 := m_v1_lt d
  unfold pushUpdate umod32
  simp only [if_neg hdepth]
  rw [set_both, and_high8 _ h1, or_of_high_low _ _ (by
    rw [push_position_eq] at hnext; rw [and_low24]; exact hnext)]
  have e24 : (1 <<< 24 : Nat) = 1 * 16777216 := by decide
  rw [e24, or_of_high_low _ _ (by rw [count_eq] at hn; rw [and_low24]; exact hn)]
  rw [and_low24, and_low24]
  rw [push_position_eq, pop_busy_eq, count_eq] at *
  unfold pack
  refine congrArg some (Prod.ext ?_ ?_)
  · simp only
  · simp only
    omega

theorem popUpdate_pack (d depth : Nat) (hdepth : depth ≠ 0) (hb : pop_busy d = 0)
    (hn : 1 ≤ count d) :
    popUpdate d depth = some
      ((((push_position d + depth) % 4294967296 + 4294967296 - count d) % 4294967296) % depth,
        pack 1 (push_position d) (push_busy d) (count d - 1)) := by
  have h1 := m_v1_lt d
  have h2 := m_v2_lt d
  rw [pop_busy_eq] at hb
  have hv1 : m_v1 d < 16777216 := by omega
  unfold popUpdate popPosition umod32
  simp only [if_neg hdepth]
  rw [set_both, and_high8 _ h2, or_bit24 _ hv1, and_low24, and_low24]
  have hc : (m_v2 d % 16777216 + 4294967296 - 1) % 4294967296 = m_v2 d % 16777216 - 1 := by
    rw [count_eq] at hn
    omega
  rw [hc, or_of_high_low _ _ (by omega)]
  rw [push_position_eq, push_busy_eq, count_eq]
  unfold pack
  refine congrArg some (Prod.ext ?_ ?_)
  · simp only
  · simp only
    omega

theorem peekUpdate_pack (d depth : Nat) (hdepth : depth ≠ 0) (hb : pop_busy d = 0) :
    peekUpdate d depth = some
      ((((push_position d + depth) % 4294967296 + 4294967296 - count d) % 4294967296) % depth,
        pack 1 (push_position d) (push_busy d) (count d)) := by
  have h1 := m_v1_lt d
  have h2 := m_v2_lt d
  rw [pop_busy_eq] at hb
  have hv1 : m_v1 d < 16777216 := by omega
  unfold peekUpdate popPosition umod32
  simp only [if_neg hdepth]
  rw [set_m_v1_eq, or_bit24 _ hv1, and_low24, and_low24]
  rw [push_position_eq, push_busy_eq, count_eq]
  unfold pack
  refine congrArg some (Prod.ext ?_ ?_)
  · simp only
  · simp only
    omega

end CellSyncQueue

/-! ## Queue: sequential calls -/

theorem CellSyncQueue.m_v1_load64 (mem : Memory) (a : Nat) :
    CellSyncQueue.m_v1 (load64 mem a) = load32 mem a := load64_hi mem a

theorem CellSyncQueue.m_v2_load64 (mem : Memory) (a : Nat) :
    CellSyncQueue.m_v2 (load64 mem a) = load32 mem (a + 4) := load64_lo mem a

theorem CellSyncQueue.pushUpdate_some (d depth : Nat) (hdepth : depth ≠ 0) :
    ∃ nd, CellSyncQueue.pushUpdate d depth = some (CellSyncQueue.push_position d, nd) := by
  unfold CellSyncQueue.pushUpdate umod32
  simp only [if_neg hdepth]
  exact ⟨_, rfl⟩

theorem CellSyncQueue.popUpdate_some (d depth : Nat) (hdepth : depth ≠ 0) :
    ∃ r, CellSyncQueue.popUpdate d depth = some r := by
  unfold CellSyncQueue.popUpdate CellSyncQueue.popPosition umod32
  simp only [if_neg hdepth]
  exact ⟨_, rfl⟩

theorem CellSyncQueue.popUpdate_none (d : Nat) : CellSyncQueue.popUpdate d 0 = none := by
  unfold CellSyncQueue.popUpdate CellSyncQueue.popPosition umod32
  simp

theorem CellSyncQueue.peekUpdate_some (d depth : Nat) (hdepth : depth ≠ 0) :
    ∃ r, CellSyncQueue.peekUpdate d depth = some r := by
  unfold CellSyncQueue.peekUpdate CellSyncQueue.popPosition umod32
  simp only [if_neg hdepth]
  exact ⟨_, rfl⟩

theorem CellSyncQueue.peekUpdate_none (d : Nat) : CellSyncQueue.peekUpdate d 0 = none := by
  unfold CellSyncQueue.peekUpdate CellSyncQueue.popPosition umod32
  simp

theorem queuePushRelease_succ (queue fuel : Nat) (mem : Memory) :
    queuePushRelease queue (fuel + 1) mem =
      .ok (store64 mem queue (CellSyncQueue.pushRelease (load64 mem queue))) := by
  rw [queuePushRelease]
  simp only [ICE64_fst, ICE64_hit, if_true]

theorem queuePopRelease_succ (queue fuel : Nat) (mem : Memory) :
    queuePopRelease queue (fuel + 1) mem =
      .ok (store64 mem queue (CellSyncQueue.popRelease (load64 mem queue))) := by
  rw [queuePopRelease]
  simp only [ICE64_fst, ICE64_hit, if_true]

theorem queueTryPushClaim_blocked (queue depth fuel : Nat) (mem : Memory)
    (h : CellSyncQueue.pushBlocked (CellSyncQueue.m_v1 (load64 mem queue))
      (CellSyncQueue.m_v2 (load64 mem queue)) depth) :
    queueTryPushClaim queue depth (fuel + 1) mem = .ok (Sum.inl CELL_SYNC_ERROR_BUSY) := by
  rw [queueTryPushClaim]
  simp only [if_pos h]

theorem queueTryPushClaim_open (queue depth fuel : Nat) (mem : Memory) (position nd : Nat)
    (h : ¬ CellSyncQueue.pushBlocked (CellSyncQueue.m_v1 (load64 mem queue))
      (CellSyncQueue.m_v2 (load64 mem queue)) depth)
    (hu : CellSyncQueue.pushUpdate (load64 mem queue) depth = some (position, nd)) :
    queueTryPushClaim queue depth (fuel + 1) mem =
      .ok (Sum.inr (position, store64 mem queue nd)) := by
  rw [queueTryPushClaim]
  simp only [if_neg h, hu, ICE64_fst, ICE64_hit, if_true]

theorem queuePushClaim_open (IsStopped : Nat → Bool) (queue depth fuel polls : Nat)
    (mem : Memory) (position nd : Nat)
    (h : ¬ CellSyncQueue.pushBlocked (CellSyncQueue.m_v1 (load64 mem queue))
      (CellSyncQueue.m_v2 (load64 mem queue)) depth)
    (hu : CellSyncQueue.pushUpdate (load64 mem queue) depth = some (position, nd)) :
    queuePushClaim IsStopped queue depth (fuel + 1) polls mem =
      .ok (Sum.inr (position, store64 mem queue nd)) := by
  rw [queuePushClaim]
  simp only [if_neg h, hu, ICE64_fst, ICE64_hit, if_true]

theorem queueTryPopClaim_blocked (update : Nat → Nat → Option (Nat × Nat))
    (queue depth fuel : Nat) (mem : Memory)
    (h : CellSyncQueue.popBlocked (CellSyncQueue.m_v1 (load64 mem queue))
      (CellSyncQueue.m_v2 (load64 mem queue))) :
    queueTryPopClaim update queue depth (fuel + 1) mem =
      .ok (Sum.inl CELL_SYNC_ERROR_BUSY) := by
  rw [queueTryPopClaim]
  simp only [if_pos h]

theorem queueTryPopClaim_open (update : Nat → Nat → Option (Nat × Nat))
    (queue depth fuel : Nat) (mem : Memory) (position nd : Nat)
    (h : ¬ CellSyncQueue.popBlocked (CellSyncQueue.m_v1 (load64 mem queue))
      (CellSyncQueue.m_v2 (load64 mem queue)))
    (hu : update (load64 mem queue) depth = some (position, nd)) :
    queueTryPopClaim update queue depth (fuel + 1) mem =
      .ok (Sum.inr (position, store64 mem queue nd)) := by
  rw [queueTryPopClaim]
  simp only [if_neg h, hu, ICE64_fst, ICE64_hit, if_true]

theorem queueTryPopClaim_fault (update : Nat → Nat → Option (Nat × Nat))
    (queue depth fuel : Nat) (mem : Memory)
    (h : ¬ CellSyncQueue.popBlocked (CellSyncQueue.m_v1 (load64 mem queue))
      (CellSyncQueue.m_v2 (load64 mem queue)))
    (hu : update (load64 mem queue) depth = none) :
    queueTryPopClaim update queue depth (fuel + 1) mem = .error .divisionByZero := by
  rw [queueTryPopClaim]
  simp only [if_neg h, hu]

theorem queuePopClaim_open (update : Nat → Nat → Option (Nat × Nat))
    (IsStopped : Nat → Bool) (queue depth fuel polls : Nat) (mem : Memory)
    (position nd : Nat)
    (h : ¬ CellSyncQueue.popBlocked (CellSyncQueue.m_v1 (load64 mem queue))
      (CellSyncQueue.m_v2 (load64 mem queue)))
    (hu : update (load64 mem queue) depth = some (position, nd)) :
    queuePopClaim update IsStopped queue depth (fuel + 1) polls mem =
      .ok (Sum.inr (position, store64 mem queue nd)) := by
  rw [queuePopClaim]
  simp only [if_neg h, hu, ICE64_fst, ICE64_hit, if_true]

theorem queuePushCommit_succ (fuel : Nat) (mem : Memory)
    (queue buffer_addr size position : Nat) :
    queuePushCommit (fuel + 1) mem queue buffer_addr size position =
      .ok (CELL_OK, store64
        (memcpy mem (CellSyncQueue.m_addr mem queue + (position * size) % 4294967296)
          buffer_addr size) queue
        (CellSyncQueue.pushRelease (load64
          (memcpy mem (CellSyncQueue.m_addr mem queue + (position * size) % 4294967296)
            buffer_addr size) queue))) := by
  unfold queuePushCommit
  simp only [queuePushRelease_succ]

theorem queuePopCommit_succ (fuel : Nat) (mem : Memory)
    (queue buffer_addr size position : Nat) :
    queuePopCommit (fuel + 1) mem queue buffer_addr size position =
      .ok (CELL_OK, store64
        (memcpy mem buffer_addr
          (CellSyncQueue.m_addr mem queue + (position * size) % 4294967296) size) queue
        (CellSyncQueue.popRelease (load64
          (memcpy mem buffer_addr
            (CellSyncQueue.m_addr mem queue + (position * size) % 4294967296) size)
          queue))) := by
  unfold queuePopCommit
  simp only [queuePopRelease_succ]

theorem cellSyncQueueTryPush_blocked (fuel : Nat) (mem : Memory) (queue buffer_addr : Nat)
    (hnull : queue ≠ 0) (halign : queue % 32 = 0) (hbuf : buffer_addr ≠ 0)
    (h : CellSyncQueue.pushBlocked (CellSyncQueue.m_v1 (load64 mem queue))
      (CellSyncQueue.m_v2 (load64 mem queue)) (CellSyncQueue.m_depth mem queue)) :
    cellSyncQueueTryPush (fuel + 1) mem queue buffer_addr =
      .ok (CELL_SYNC_ERROR_BUSY, mem) := by
  unfold cellSyncQueueTryPush
  rw [if_neg (by omega : ¬ (queue = 0 ∨ buffer_addr = 0)),
    if_neg (by omega : ¬ queue % 32 ≠ 0)]
  dsimp only
  rw [queueTryPushClaim_blocked _ _ _ _ h]

theorem cellSyncQueueTryPush_open (fuel : Nat) (mem : Memory) (queue buffer_addr : Nat)
    (position nd : Nat)
    (hnull : queue ≠ 0) (halign : queue % 32 = 0) (hbuf : buffer_addr ≠ 0)
    (h : ¬ CellSyncQueue.pushBlocked (CellSyncQueue.m_v1 (load64 mem queue))
      (CellSyncQueue.m_v2 (load64 mem queue)) (CellSyncQueue.m_depth mem queue))
    (hu : CellSyncQueue.pushUpdate (load64 mem queue) (CellSyncQueue.m_depth mem queue) =
      some (position, nd)) :
    cellSyncQueueTryPush (fuel + 1) mem queue buffer_addr =
      queuePushCommit (fuel + 1) (store64 mem queue nd) queue buffer_addr
        (CellSyncQueue.m_size mem queue) position := by
  unfold cellSyncQueueTryPush
  rw [if_neg (by omega : ¬ (queue = 0 ∨ buffer_addr = 0)),
    if_neg (by omega : ¬ queue % 32 ≠ 0)]
  dsimp only
  rw [queueTryPushClaim_open _ _ _ _ _ _ h hu]

theorem cellSyncQueuePush_open (IsStopped : Nat → Bool) (fuel : Nat) (mem : Memory)
    (queue buffer_addr : Nat) (position nd : Nat)
    (hnull : queue ≠ 0) (halign : queue % 32 = 0) (hbuf : buffer_addr ≠ 0)
    (h : ¬ CellSyncQueue.pushBlocked (CellSyncQueue.m_v1 (load64 mem queue))
      (CellSyncQueue.m_v2 (load64 mem queue)) (CellSyncQueue.m_depth mem queue))
    (hu : CellSyncQueue.pushUpdate (load64 mem queue) (CellSyncQueue.m_depth mem queue) =
      some (position, nd)) :
    cellSyncQueuePush IsStopped (fuel + 1) mem queue buffer_addr =
      queuePushCommit (fuel + 1) (store64 mem queue nd) queue buffer_addr
        (CellSyncQueue.m_size mem queue) position := by
  unfold cellSyncQueuePush
  rw [if_neg (by omega : ¬ (queue = 0 ∨ buffer_addr = 0)),
    if_neg (by omega : ¬ queue % 32 ≠ 0)]
  dsimp only
  rw [queuePushClaim_open _ _ _ _ _ _ _ _ h hu]

/-- C17: at a non-null 32-aligned queue address and a non-null source,
`cellSyncQueueTryPush` returns `CELL_SYNC_ERROR_BUSY` with memory (word and
ring buffer) unchanged iff `push_busy != 0` or `count + pop_busy >= m_depth`;
otherwise it returns `CELL_OK`; in particular it is busy when
`count = m_depth`. -/
theorem cellSyncQueueTryPush_busy_iff (fuel : Nat) (mem : Memory) (queue buffer_addr : Nat)
    (hnull : queue ≠ 0) (halign : queue % 32 = 0) (hbuf : buffer_addr ≠ 0) :
    (cellSyncQueueTryPush (fuel + 1) mem queue buffer_addr =
        .ok (CELL_SYNC_ERROR_BUSY, mem) ↔
      (CellSyncQueue.push_busy (load64 mem queue) ≠ 0 ∨
        CellSyncQueue.count (load64 mem queue) + CellSyncQueue.pop_busy (load64 mem queue) ≥
          CellSyncQueue.m_depth mem queue)) ∧
    (¬ (CellSyncQueue.push_busy (load64 mem queue) ≠ 0 ∨
        CellSyncQueue.count (load64 mem queue) + CellSyncQueue.pop_busy (load64 mem queue) ≥
          CellSyncQueue.m_depth mem queue) →
      ∃ mem', cellSyncQueueTryPush (fuel + 1) mem queue buffer_addr = .ok (CELL_OK, mem')) ∧
    (CellSyncQueue.count (load64 mem queue) = CellSyncQueue.m_depth mem queue →
      cellSyncQueueTryPush (fuel + 1) mem queue buffer_addr =
        .ok (CELL_SYNC_ERROR_BUSY, mem)) := by
  have hbusy : (CellSyncQueue.push_busy (load64 mem queue) ≠ 0 ∨
        CellSyncQueue.count (load64 mem queue) + CellSyncQueue.pop_busy (load64 mem queue) ≥
          CellSyncQueue.m_depth mem queue) →
      cellSyncQueueTryPush (fuel + 1) mem queue buffer_addr =
        .ok (CELL_SYNC_ERROR_BUSY, mem) := fun hb =>
    cellSyncQueueTryPush_blocked fuel mem queue buffer_addr hnull halign hbuf
      ((CellSyncQueue.pushBlocked_iff _ _).mpr hb)
  have hopen : ¬ (CellSyncQueue.push_busy (load64 mem queue) ≠ 0 ∨
        CellSyncQueue.count (load64 mem queue) + CellSyncQueue.pop_busy (load64 mem queue) ≥
          CellSyncQueue.m_depth mem queue) →
      ∃ mem', cellSyncQueueTryPush (fuel + 1) mem queue buffer_addr =
        .ok (CELL_OK, mem') := by
    intro hb
    obtain ⟨nd, hnd⟩ := CellSyncQueue.pushUpdate_some (load64 mem queue)
      (CellSyncQueue.m_depth mem queue) (by omega)
    rw [cellSyncQueueTryPush_open fuel mem queue buffer_addr _ _ hnull halign hbuf
      (fun h => hb ((CellSyncQueue.pushBlocked_iff _ _).mp h)) hnd, queuePushCommit_succ]
    exact ⟨_, rfl⟩
  refine ⟨⟨fun h => ?_, hbusy⟩, hopen, fun hfull => hbusy (Or.inr (by omega))⟩
  by_contra hb
  obtain ⟨m', hm'⟩ := hopen hb
  rw [hm'] at h
  simp at h

/-- Witness for C17: the queue record at address 32 of a zeroed memory (so
`m_depth = 0`: every push is busy), source at 512. -/
theorem cellSyncQueueTryPush_busy_iff_witness :
    (cellSyncQueueTryPush (0 + 1) (fun _ => 0) 32 512 =
        .ok (CELL_SYNC_ERROR_BUSY, fun _ => 0) ↔
      (CellSyncQueue.push_busy (load64 (fun _ => 0) 32) ≠ 0 ∨
        CellSyncQueue.count (load64 (fun _ => 0) 32) +
          CellSyncQueue.pop_busy (load64 (fun _ => 0) 32) ≥
          CellSyncQueue.m_depth (fun _ => 0) 32)) ∧
    (¬ (CellSyncQueue.push_busy (load64 (fun _ => 0) 32) ≠ 0 ∨
        CellSyncQueue.count (load64 (fun _ => 0) 32) +
          CellSyncQueue.pop_busy (load64 (fun _ => 0) 32) ≥
          CellSyncQueue.m_depth (fun _ => 0) 32) →
      ∃ mem', cellSyncQueueTryPush (0 + 1) (fun _ => 0) 32 512 = .ok (CELL_OK, mem')) ∧
    (CellSyncQueue.count (load64 (fun _ => 0) 32) = CellSyncQueue.m_depth (fun _ => 0) 32 →
      cellSyncQueueTryPush (0 + 1) (fun _ => 0) 32 512 =
        .ok (CELL_SYNC_ERROR_BUSY, fun _ => 0)) :=
  cellSyncQueueTryPush_busy_iff 0 (fun _ => 0) 32 512 (by decide) (by decide) (by decide)

theorem cellSyncQueueTryPop_open (fuel : Nat) (mem : Memory)
    (queue buffer_addr : Nat) (position nd : Nat)
    (hnull : queue ≠ 0) (halign : queue % 32 = 0) (hbuf : buffer_addr ≠ 0)
    (h : ¬ CellSyncQueue.popBlocked (CellSyncQueue.m_v1 (load64 mem queue))
      (CellSyncQueue.m_v2 (load64 mem queue)))
    (hu : CellSyncQueue.popUpdate (load64 mem queue) (CellSyncQueue.m_depth mem queue) =
      some (position, nd)) :
    cellSyncQueueTryPop (fuel + 1) mem queue buffer_addr =
      queuePopCommit (fuel + 1) (store64 mem queue nd) queue buffer_addr
        (CellSyncQueue.m_size mem queue) position := by
  unfold cellSyncQueueTryPop
  rw [if_neg (by omega : ¬ (queue = 0 ∨ buffer_addr = 0)),
    if_neg (by omega : ¬ queue % 32 ≠ 0)]
  dsimp only
  rw [queueTryPopClaim_open _ _ _ _ _ _ _ h hu]

theorem cellSyncQueueTryPop_blocked (fuel : Nat) (mem : Memory) (queue buffer_addr : Nat)
    (hnull : queue ≠ 0) (halign : queue % 32 = 0) (hbuf : buffer_addr ≠ 0)
    (h : CellSyncQueue.popBlocked (CellSyncQueue.m_v1 (load64 mem queue))
      (CellSyncQueue.m_v2 (load64 mem queue))) :
    cellSyncQueueTryPop (fuel + 1) mem queue buffer_addr = .ok (CELL_SYNC_ERROR_BUSY, mem) := by
  unfold cellSyncQueueTryPop
  rw [if_neg (by omega : ¬ (queue = 0 ∨ buffer_addr = 0)),
    if_neg (by omega : ¬ queue % 32 ≠ 0)]
  dsimp only
  rw [queueTryPopClaim_blocked _ _ _ _ _ h]

theorem cellSyncQueueTryPop_fault (fuel : Nat) (mem : Memory) (queue buffer_addr : Nat)
    (hnull : queue ≠ 0) (halign : queue % 32 = 0) (hbuf : buffer_addr ≠ 0)
    (h : ¬ CellSyncQueue.popBlocked (CellSyncQueue.m_v1 (load64 mem queue))
      (CellSyncQueue.m_v2 (load64 mem queue)))
    (hdepth : CellSyncQueue.m_depth mem queue = 0) :
    cellSyncQueueTryPop (fuel + 1) mem queue buffer_addr = .error .divisionByZero := by
  unfold cellSyncQueueTryPop
  rw [if_neg (by omega : ¬ (queue = 0 ∨ buffer_addr = 0)),
    if_neg (by omega : ¬ queue % 32 ≠ 0)]
  dsimp only
  rw [queueTryPopClaim_fault _ _ _ _ _ h (by rw [hdepth]; exact CellSyncQueue.popUpdate_none _)]

theorem cellSyncQueueTryPeek_open (fuel : Nat) (mem : Memory)
    (queue buffer_addr : Nat) (position nd : Nat)
    (hnull : queue ≠ 0) (halign : queue % 32 = 0) (hbuf : buffer_addr ≠ 0)
    (h : ¬ CellSyncQueue.popBlocked (CellSyncQueue.m_v1 (load64 mem queue))
      (CellSyncQueue.m_v2 (load64 mem queue)))
    (hu : CellSyncQueue.peekUpdate (load64 mem queue) (CellSyncQueue.m_depth mem queue) =
      some (position, nd)) :
    cellSyncQueueTryPeek (fuel + 1) mem queue buffer_addr =
      queuePopCommit (fuel + 1) (store64 mem queue nd) queue buffer_addr
        (CellSyncQueue.m_size mem queue) position := by
  unfold cellSyncQueueTryPeek
  rw [if_neg (by omega : ¬ (queue = 0 ∨ buffer_addr = 0)),
    if_neg (by omega : ¬ queue % 32 ≠ 0)]
  dsimp only
  rw [queueTryPopClaim_open _ _ _ _ _ _ _ h hu]

theorem cellSyncQueueTryPeek_blocked (fuel : Nat) (mem : Memory) (queue buffer_addr : Nat)
    (hnull : queue ≠ 0) (halign : queue % 32 = 0) (hbuf : buffer_addr ≠ 0)
    (h : CellSyncQueue.popBlocked (CellSyncQueue.m_v1 (load64 mem queue))
      (CellSyncQueue.m_v2 (load64 mem queue))) :
    cellSyncQueueTryPeek (fuel + 1) mem queue buffer_addr = .ok (CELL_SYNC_ERROR_BUSY, mem) := by
  unfold cellSyncQueueTryPeek
  rw [if_neg (by omega : ¬ (queue = 0 ∨ buffer_addr = 0)),
    if_neg (by omega : ¬ queue % 32 ≠ 0)]
  dsimp only
  rw [queueTryPopClaim_blocked _ _ _ _ _ h]

theorem cellSyncQueueTryPeek_fault (fuel : Nat) (mem : Memory) (queue buffer_addr : Nat)
    (hnull : queue ≠ 0) (halign : queue % 32 = 0) (hbuf : buffer_addr ≠ 0)
    (h : ¬ CellSyncQueue.popBlocked (CellSyncQueue.m_v1 (load64 mem queue))
      (CellSyncQueue.m_v2 (load64 mem queue)))
    (hdepth : CellSyncQueue.m_depth mem queue = 0) :
    cellSyncQueueTryPeek (fuel + 1) mem queue buffer_addr = .error .divisionByZero := by
  unfold cellSyncQueueTryPeek
  rw [if_neg (by omega : ¬ (queue = 0 ∨ buffer_addr = 0)),
    if_neg (by omega : ¬ queue % 32 ≠ 0)]
  dsimp only
  rw [queueTryPopClaim_fault _ _ _ _ _ h (by rw [hdepth]; exact CellSyncQueue.peekUpdate_none _)]

theorem cellSyncQueuePop_open (IsStopped : Nat → Bool) (fuel : Nat) (mem : Memory)
    (queue buffer_addr : Nat) (position nd : Nat)
    (hnull : queue ≠ 0) (halign : queue % 32 = 0) (hbuf : buffer_addr ≠ 0)
    (h : ¬ CellSyncQueue.popBlocked (CellSyncQueue.m_v1 (load64 mem queue))
      (CellSyncQueue.m_v2 (load64 mem queue)))
    (hu : CellSyncQueue.popUpdate (load64 mem queue) (CellSyncQueue.m_depth mem queue) =
      some (position, nd)) :
    cellSyncQueuePop IsStopped (fuel + 1) mem queue buffer_addr =
      queuePopCommit (fuel + 1) (store64 mem queue nd) queue buffer_addr
        (CellSyncQueue.m_size mem queue) position := by
  unfold cellSyncQueuePop
  rw [if_neg (by omega : ¬ (queue = 0 ∨ buffer_addr = 0)),
    if_neg (by omega : ¬ queue % 32 ≠ 0)]
  dsimp only
  rw [queuePopClaim_open _ _ _ _ _ _ _ _ _ h hu]

theorem cellSyncQueuePeek_open (IsStopped : Nat → Bool) (fuel : Nat) (mem : Memory)
    (queue buffer_addr : Nat) (position nd : Nat)
    (hnull : queue ≠ 0) (halign : queue % 32 = 0) (hbuf : buffer_addr ≠ 0)
    (h : ¬ CellSyncQueue.popBlocked (CellSyncQueue.m_v1 (load64 mem queue))
      (CellSyncQueue.m_v2 (load64 mem queue)))
    (hu : CellSyncQueue.peekUpdate (load64 mem queue) (CellSyncQueue.m_depth mem queue) =
      some (position, nd)) :
    cellSyncQueuePeek IsStopped (fuel + 1) mem queue buffer_addr =
      queuePopCommit (fuel + 1) (store64 mem queue nd) queue buffer_addr
        (CellSyncQueue.m_size mem queue) position := by
  unfold cellSyncQueuePeek
  rw [if_neg (by omega : ¬ (queue = 0 ∨ buffer_addr = 0)),
    if_neg (by omega : ¬ queue % 32 ≠ 0)]
  dsimp only
  rw [queuePopClaim_open _ _ _ _ _ _ _ _ _ h hu]

/-- C18: at a non-null 32-aligned queue address and a non-null destination,
`cellSyncQueueTryPop` and `cellSyncQueueTryPeek` return
`CELL_SYNC_ERROR_BUSY` with memory (word and destination) unchanged iff
`pop_busy != 0` or `count <= push_busy`; in particular they are busy when
`count = 0` and when `count = 1` with `push_busy = 1`.  When the test fails
they return `CELL_OK` if `m_depth != 0` (and do not return if `m_depth == 0`:
the remainder faults). -/
theorem cellSyncQueueTryPop_busy_iff (fuel : Nat) (mem : Memory) (queue buffer_addr : Nat)
    (hnull : queue ≠ 0) (halign : queue % 32 = 0) (hbuf : buffer_addr ≠ 0) :
    (cellSyncQueueTryPop (fuel + 1) mem queue buffer_addr =
        .ok (CELL_SYNC_ERROR_BUSY, mem) ↔
      (CellSyncQueue.pop_busy (load64 mem queue) ≠ 0 ∨
        CellSyncQueue.count (load64 mem queue) ≤ CellSyncQueue.push_busy (load64 mem queue))) ∧
    (cellSyncQueueTryPeek (fuel + 1) mem queue buffer_addr =
        .ok (CELL_SYNC_ERROR_BUSY, mem) ↔
      (CellSyncQueue.pop_busy (load64 mem queue) ≠ 0 ∨
        CellSyncQueue.count (load64 mem queue) ≤ CellSyncQueue.push_busy (load64 mem queue))) ∧
    (CellSyncQueue.count (load64 mem queue) = 0 →
      cellSyncQueueTryPop (fuel + 1) mem queue buffer_addr =
          .ok (CELL_SYNC_ERROR_BUSY, mem) ∧
        cellSyncQueueTryPeek (fuel + 1) mem queue buffer_addr =
          .ok (CELL_SYNC_ERROR_BUSY, mem)) ∧
    (CellSyncQueue.count (load64 mem queue) = 1 →
      CellSyncQueue.push_busy (load64 mem queue) = 1 →
      cellSyncQueueTryPop (fuel + 1) mem queue buffer_addr =
          .ok (CELL_SYNC_ERROR_BUSY, mem) ∧
        cellSyncQueueTryPeek (fuel + 1) mem queue buffer_addr =
          .ok (CELL_SYNC_ERROR_BUSY, mem)) ∧
    (¬ (CellSyncQueue.pop_busy (load64 mem queue) ≠ 0 ∨
        CellSyncQueue.count (load64 mem queue) ≤ CellSyncQueue.push_busy (load64 mem queue)) →
      (CellSyncQueue.m_depth mem queue ≠ 0 →
        (∃ mem', cellSyncQueueTryPop (fuel + 1) mem queue buffer_addr =
          .ok (CELL_OK, mem')) ∧
        (∃ mem', cellSyncQueueTryPeek (fuel + 1) mem queue buffer_addr =
          .ok (CELL_OK, mem'))) ∧
      (CellSyncQueue.m_depth mem queue = 0 →
        cellSyncQueueTryPop (fuel + 1) mem queue buffer_addr = .error .divisionByZero ∧
        cellSyncQueueTryPeek (fuel + 1) mem queue buffer_addr =
          .error .divisionByZero)) := by
  have hbusy : (CellSyncQueue.pop_busy (load64 mem queue) ≠ 0 ∨
        CellSyncQueue.count (load64 mem queue) ≤ CellSyncQueue.push_busy (load64 mem queue)) →
      cellSyncQueueTryPop (fuel + 1) mem queue buffer_addr =
          .ok (CELL_SYNC_ERROR_BUSY, mem) ∧
        cellSyncQueueTryPeek (fuel + 1) mem queue buffer_addr =
          .ok (CELL_SYNC_ERROR_BUSY, mem) := fun hb =>
    ⟨cellSyncQueueTryPop_blocked fuel mem queue buffer_addr hnull halign hbuf
        ((CellSyncQueue.popBlocked_iff _).mpr hb),
      cellSyncQueueTryPeek_blocked fuel mem queue buffer_addr hnull halign hbuf
        ((CellSyncQueue.popBlocked_iff _).mpr hb)⟩
  have hopen : ¬ (CellSyncQueue.pop_busy (load64 mem queue) ≠ 0 ∨
        CellSyncQueue.count (load64 mem queue) ≤ CellSyncQueue.push_busy (load64 mem queue)) →
      (CellSyncQueue.m_depth mem queue ≠ 0 →
        (∃ mem', cellSyncQueueTryPop (fuel + 1) mem queue buffer_addr =
          .ok (CELL_OK, mem')) ∧
        (∃ mem', cellSyncQueueTryPeek (fuel + 1) mem queue buffer_addr =
          .ok (CELL_OK, mem'))) ∧
      (CellSyncQueue.m_depth mem queue = 0 →
        cellSyncQueueTryPop (fuel + 1) mem queue buffer_addr = .error .divisionByZero ∧
        cellSyncQueueTryPeek (fuel + 1) mem queue buffer_addr =
          .error .divisionByZero) := by
    intro hb
    have hnb := fun h => hb ((CellSyncQueue.popBlocked_iff (load64 mem queue)).mp h)
    refine ⟨fun hd => ⟨?_, ?_⟩, fun hd =>
      ⟨cellSyncQueueTryPop_fault fuel mem queue buffer_addr hnull halign hbuf hnb hd,
        cellSyncQueueTryPeek_fault fuel mem queue buffer_addr hnull halign hbuf hnb hd⟩⟩
    · obtain ⟨⟨pos, nd⟩, hnd⟩ := CellSyncQueue.popUpdate_some (load64 mem queue) _ hd
      rw [cellSyncQueueTryPop_open fuel mem queue buffer_addr _ _ hnull halign hbuf hnb hnd,
        queuePopCommit_succ]
      exact ⟨_, rfl⟩
    · obtain ⟨⟨pos, nd⟩, hnd⟩ := CellSyncQueue.peekUpdate_some (load64 mem queue) _ hd
      rw [cellSyncQueueTryPeek_open fuel mem queue buffer_addr _ _ hnull halign hbuf hnb hnd,
        queuePopCommit_succ]
      exact ⟨_, rfl⟩
  refine ⟨⟨fun h => ?_, fun hb => (hbusy hb).1⟩, ⟨fun h => ?_, fun hb => (hbusy hb).2⟩,
    fun h0 => hbusy (Or.inr (by omega)), fun h1 hb1 => hbusy (Or.inr (by omega)), hopen⟩
  · by_contra hb
    by_cases hd : CellSyncQueue.m_depth mem queue = 0
    · rw [((hopen hb).2 hd).1] at h
      simp at h
    · obtain ⟨m', hm'⟩ := ((hopen hb).1 hd).1
      rw [hm'] at h
      simp at h
  · by_contra hb
    by_cases hd : CellSyncQueue.m_depth mem queue = 0
    · rw [((hopen hb).2 hd).2] at h
      simp at h
    · obtain ⟨m', hm'⟩ := ((hopen hb).1 hd).2
      rw [hm'] at h
      simp at h

/-- Witness for C18: the queue record at address 32 of a zeroed memory (an
empty queue), destination at 512. -/
theorem cellSyncQueueTryPop_busy_iff_witness :
    cellSyncQueueTryPop (0 + 1) (fun _ => 0) 32 512 =
        .ok (CELL_SYNC_ERROR_BUSY, fun _ => 0) ∧
    cellSyncQueueTryPeek (0 + 1) (fun _ => 0) 32 512 =
        .ok (CELL_SYNC_ERROR_BUSY, fun _ => 0) :=
  (cellSyncQueueTryPop_busy_iff 0 (fun _ => 0) 32 512 (by decide) (by decide)
    (by decide)).2.2.1 (by decide)

/-! ## The queue record under stores and copies -/

/-- The fields behind the word only depend on bytes 8 to 23 of the record. -/
theorem QueueRecord.congr_fields {mem mem' : Memory} {queue w w' size depth addr : Nat}
    (h : QueueRecord mem queue w size depth addr)
    (hagree : ∀ x, queue + 8 ≤ x → x < queue + 24 → mem' x = mem x)
    (hw : load64 mem' queue = w') : QueueRecord mem' queue w' size depth addr := by
  refine ⟨hw, ?_, ?_, ?_⟩
  · rw [← h.size_eq]
    exact load32_congr _ _ _ (fun x h1 h2 => hagree x h1 (by omega))
  · rw [← h.depth_eq]
    exact load32_congr _ _ _ (fun x h1 h2 => hagree x (by omega) (by omega))
  · rw [← h.addr_eq]
    exact load64_congr _ _ _ (fun x h1 h2 => hagree x (by omega) (by omega))

theorem QueueRecord.set_word {mem : Memory} {queue w size depth addr : Nat}
    (h : QueueRecord mem queue w size depth addr) (v : Nat)
    (hv : v < 18446744073709551616) :
    QueueRecord (store64 mem queue v) queue v size depth addr :=
  h.congr_fields (fun x h1 _ => store64_outside _ _ _ _ (by omega))
    (by rw [load64_store64]; omega)

theorem QueueRecord.after_copy {mem : Memory} {queue w size depth addr : Nat}
    (h : QueueRecord mem queue w size depth addr) (dst src n : Nat)
    (hd : rangesDisjoint queue 24 dst n) :
    QueueRecord (memcpy mem dst src n) queue w size depth addr := by
  have hout : ∀ x, queue ≤ x → x < queue + 24 → memcpy mem dst src n x = mem x := by
    intro x h1 h2
    apply memcpy_outside
    unfold rangesDisjoint at hd
    omega
  refine h.congr_fields (fun x h1 h2 => hout x (by omega) h2) ?_
  rw [← h.word]
  exact load64_congr _ _ _ (fun x h1 h2 => hout x h1 (by omega))

theorem QueueRecord.of_mem (mem : Memory) (queue : Nat) :
    QueueRecord mem queue (load64 mem queue) (CellSyncQueue.m_size mem queue)
      (CellSyncQueue.m_depth mem queue) (CellSyncQueue.m_addr mem queue) :=
  ⟨rfl, rfl, rfl, rfl⟩

theorem CellSyncQueue.pack_lt (b1 p b2 n : Nat) (hb1 : b1 < 256) (hp : p < 16777216)
    (hb2 : b2 < 256) (hn : n < 16777216) :
    CellSyncQueue.pack b1 p b2 n < 18446744073709551616 := by
  unfold CellSyncQueue.pack
  omega

theorem cellSyncQueueInitialize_ok (mem : Memory) (queue buffer_addr size depth : Nat)
    (hnull : queue ≠ 0) (hbuf : size ≠ 0 → buffer_addr ≠ 0) (halign : queue % 32 = 0)
    (hbalign : buffer_addr % 16 = 0) (hdepth : depth ≠ 0) (hsize : size % 16 = 0)
    (hs32 : size < 4294967296) (hd32 : depth < 4294967296)
    (hb64 : buffer_addr < 18446744073709551616) :
    (cellSyncQueueInitialize mem queue buffer_addr size depth).1 = CELL_OK ∧
    QueueRecord (cellSyncQueueInitialize mem queue buffer_addr size depth).2 queue 0
      size depth buffer_addr ∧
    ∀ x, x < queue ∨ queue + 24 ≤ x →
      (cellSyncQueueInitialize mem queue buffer_addr size depth).2 x = mem x := by
  unfold cellSyncQueueInitialize
  rw [if_neg hnull, if_neg (fun h => hbuf h.1 h.2 : ¬ (size ≠ 0 ∧ buffer_addr = 0)),
    if_neg (by omega : ¬ (queue % 32 ≠ 0 ∨ buffer_addr % 16 ≠ 0)),
    if_neg (by omega : ¬ (depth = 0 ∨ size % 16 ≠ 0))]
  simp only [ICE64_sync]
  refine ⟨trivial, ⟨?_, ?_, ?_, ?_⟩, ?_⟩
  · rw [load64_congr _ (store64 mem queue 0) queue, load64_store64]
    intro x h1 h2
    rw [store64_outside _ _ _ _ (by omega), store32_outside _ _ _ _ (by omega),
      store32_outside _ _ _ _ (by omega)]
  · unfold CellSyncQueue.m_size
    rw [load32_congr _ (store32 (store64 mem queue 0) (queue + 8) size) (queue + 8),
      load32_store32]
    · omega
    · intro x h1 h2
      rw [store64_outside _ _ _ _ (by omega), store32_outside _ _ _ _ (by omega)]
  · unfold CellSyncQueue.m_depth
    rw [load32_congr _ (store32 (store32 (store64 mem queue 0) (queue + 8) size)
        (queue + 12) depth) (queue + 12), load32_store32]
    · omega
    · intro x h1 h2
      rw [store64_outside _ _ _ _ (by omega)]
  · unfold CellSyncQueue.m_addr
    rw [load64_store64]
    omega
  · intro x hx
    rw [store64_outside _ _ _ _ (by omega), store32_outside _ _ _ _ (by omega),
      store32_outside _ _ _ _ (by omega), store64_outside _ _ _ _ (by omega)]

/-! ## Push and pop on a queue word with known fields -/

theorem CellSyncQueue.pushUpdate_open (d depth : Nat)
    (hbusy : CellSyncQueue.push_busy d = 0)
    (hroom : CellSyncQueue.count d + CellSyncQueue.pop_busy d < depth)
    (hcap : depth < 16777216) :
    ¬ CellSyncQueue.pushBlocked (CellSyncQueue.m_v1 d) (CellSyncQueue.m_v2 d) depth ∧
    CellSyncQueue.pushUpdate d depth = some (CellSyncQueue.push_position d,
      CellSyncQueue.pack (CellSyncQueue.pop_busy d)
        ((CellSyncQueue.push_position d + 1) % depth) 1 (CellSyncQueue.count d + 1)) := by
  have hlt : (CellSyncQueue.push_position d + 1) % depth < depth :=
    Nat.mod_lt _ (by omega)
  refine ⟨fun h => ?_, CellSyncQueue.pushUpdate_pack d depth (by omega) (by omega) (by omega)⟩
  rcases (CellSyncQueue.pushBlocked_iff d depth).mp h with h1 | h1
  · exact h1 hbusy
  · omega

theorem queuePushCommit_record (fuel : Nat) (mem : Memory)
    (queue src size depth addr p b1 q n : Nat)
    (hrec : QueueRecord mem queue (CellSyncQueue.pack b1 q 1 n) size depth addr)
    (hb1 : b1 < 256) (hq : q < 16777216) (hn : n < 16777216)
    (hmul : p * size < 4294967296)
    (hslot : addr + p * size + size ≤ queue ∨ queue + 8 ≤ addr + p * size) :
    queuePushCommit (fuel + 1) mem queue src size p =
      .ok (CELL_OK, store64 (memcpy mem (addr + p * size) src size) queue
        (CellSyncQueue.pack b1 q 0 n)) := by
  have hw : load64 (memcpy mem (addr + p * size) src size) queue =
      CellSyncQueue.pack b1 q 1 n := by
    rw [← hrec.word]
    exact load64_congr _ _ _ (fun x h1 h2 => memcpy_outside _ _ _ _ _ (by omega))
  obtain ⟨f1, f2, -, f4⟩ := CellSyncQueue.pack_fields b1 q 1 n hb1 hq (by decide) hn
  rw [queuePushCommit_succ, hrec.addr_eq, Nat.mod_eq_of_lt hmul, hw,
    CellSyncQueue.pushRelease_pack, f1, f2, f4]

theorem CellSyncQueue.popUpdate_open (d depth : Nat)
    (hbusy : CellSyncQueue.pop_busy d = 0)
    (hcount : CellSyncQueue.push_busy d < CellSyncQueue.count d)
    (hinv : CellSyncQueue.count d ≤ depth)
    (hwrap : CellSyncQueue.push_position d + depth - CellSyncQueue.count d < 4294967296) :
    ¬ CellSyncQueue.popBlocked (CellSyncQueue.m_v1 d) (CellSyncQueue.m_v2 d) ∧
    CellSyncQueue.popUpdate d depth = some
      ((CellSyncQueue.push_position d + depth - CellSyncQueue.count d) % depth,
        CellSyncQueue.pack 1 (CellSyncQueue.push_position d) (CellSyncQueue.push_busy d)
          (CellSyncQueue.count d - 1)) ∧
    CellSyncQueue.peekUpdate d depth = some
      ((CellSyncQueue.push_position d + depth - CellSyncQueue.count d) % depth,
        CellSyncQueue.pack 1 (CellSyncQueue.push_position d) (CellSyncQueue.push_busy d)
          (CellSyncQueue.count d)) := by
  obtain ⟨-, hp, -, hn⟩ := CellSyncQueue.fields_lt d
  have hpos : ((CellSyncQueue.push_position d + depth) % 4294967296 + 4294967296 -
      CellSyncQueue.count d) % 4294967296 =
      CellSyncQueue.push_position d + depth - CellSyncQueue.count d := by
    omega
  refine ⟨fun h => ?_, ?_, ?_⟩
  · rcases (CellSyncQueue.popBlocked_iff d).mp h with h1 | h1
    · exact h1 hbusy
    · omega
  · rw [CellSyncQueue.popUpdate_pack d depth (by omega) hbusy (by omega), hpos]
  · rw [CellSyncQueue.peekUpdate_pack d depth (by omega) hbusy, hpos]

theorem queuePopCommit_record (fuel : Nat) (mem : Memory)
    (queue dst size depth addr p q b2 n : Nat)
    (hrec : QueueRecord mem queue (CellSyncQueue.pack 1 q b2 n) size depth addr)
    (hq : q < 16777216) (hb2 : b2 < 256) (hn : n < 16777216)
    (hmul : p * size < 4294967296)
    (hdst : dst + size ≤ queue ∨ queue + 8 ≤ dst) :
    queuePopCommit (fuel + 1) mem queue dst size p =
      .ok (CELL_OK, store64 (memcpy mem dst (addr + p * size) size) queue
        (CellSyncQueue.pack 0 q b2 n)) := by
  have hw : load64 (memcpy mem dst (addr + p * size) size) queue =
      CellSyncQueue.pack 1 q b2 n := by
    rw [← hrec.word]
    exact load64_congr _ _ _ (fun x h1 h2 => memcpy_outside _ _ _ _ _ (by omega))
  obtain ⟨-, f2, f3, f4⟩ := CellSyncQueue.pack_fields 1 q b2 n (by decide) hq hb2 hn
  rw [queuePopCommit_succ, hrec.addr_eq, Nat.mod_eq_of_lt hmul, hw,
    CellSyncQueue.popRelease_pack, f2, f3, f4]

theorem queuePush_step (IsStopped : Nat → Bool) (fuel : Nat) (mem : Memory)
    (queue src pb p n size depth addr : Nat)
    (hnull : queue ≠ 0) (halign : queue % 32 = 0) (hsrc : src ≠ 0)
    (hrec : QueueRecord mem queue (CellSyncQueue.pack pb p 0 n) size depth addr)
    (hpb : pb < 256) (hp : p < 16777216) (hroom : n + pb < depth) (hcap : depth < 16777216)
    (hmul : p * size < 4294967296)
    (hslot : addr + p * size + size ≤ queue ∨ queue + 8 ≤ addr + p * size) :
    queuePushClaim IsStopped queue depth (fuel + 1) 0 mem = .ok (Sum.inr (p,
      store64 mem queue (CellSyncQueue.pack pb ((p + 1) % depth) 1 (n + 1)))) ∧
    cellSyncQueuePush IsStopped (fuel + 1) mem queue src = .ok (CELL_OK,
      store64 (memcpy (store64 mem queue (CellSyncQueue.pack pb ((p + 1) % depth) 1 (n + 1)))
        (addr + p * size) src size) queue
        (CellSyncQueue.pack pb ((p + 1) % depth) 0 (n + 1))) ∧
    cellSyncQueueTryPush (fuel + 1) mem queue src = .ok (CELL_OK,
      store64 (memcpy (store64 mem queue (CellSyncQueue.pack pb ((p + 1) % depth) 1 (n + 1)))
        (addr + p * size) src size) queue
        (CellSyncQueue.pack pb ((p + 1) % depth) 0 (n + 1))) := by
  obtain ⟨f1, f2, f3, f4⟩ := CellSyncQueue.pack_fields pb p 0 n hpb hp (by decide) (by omega)
  have hq : (p + 1) % depth < 16777216 :=
    Nat.lt_trans (Nat.mod_lt _ (by omega)) hcap
  have hopen := CellSyncQueue.pushUpdate_open (CellSyncQueue.pack pb p 0 n) depth f3
    (by rw [f4, f1]; exact hroom) hcap
  rw [f1, f2, f4] at hopen
  obtain ⟨hnb, hu⟩ := hopen
  have hrec1 := hrec.set_word (CellSyncQueue.pack pb ((p + 1) % depth) 1 (n + 1))
    (CellSyncQueue.pack_lt _ _ _ _ hpb hq (by decide) (by omega))
  have hcommit := queuePushCommit_record fuel _ queue src size depth addr p pb
    ((p + 1) % depth) (n + 1) hrec1 hpb hq (by omega) hmul hslot
  obtain ⟨hw, hs, hd, -⟩ := hrec
  subst hs hd
  rw [← hw] at hnb hu
  refine ⟨queuePushClaim_open IsStopped queue _ fuel 0 mem _ _ hnb hu, ?_, ?_⟩
  · rw [cellSyncQueuePush_open IsStopped fuel mem queue src _ _ hnull halign hsrc hnb hu,
      hcommit]
  · rw [cellSyncQueueTryPush_open fuel mem queue src _ _ hnull halign hsrc hnb hu,
      hcommit]

/-- Counterexample to C19 as stated (any capacity, any addresses).
(a) Capacity `2^24`, `push_position = count = 2^24 - 1`, no busy flag: the
word is within the bounds, `count + pop_busy < capacity`, and
`cellSyncQueuePush` stores `count = 0` instead of `2^24` (the increment
overflows the 24-bit field).
(b) A ring at the address of the queue record: the copy into slot 0 overwrites
the word just stored, and the call ends with `count = 0` instead of 1.
(c) Entry size `2^31` and `push_position = 2`: the `u32` product
`position * size` wraps to 0, and the bytes go to slot 0 (address 64) while
slot 2 (address `64 + 2^32`) is left as it was. -/
theorem queue_push_transition_fails :
    ((cellSyncQueueInitialize (fun _ => 0) 32 64 16 16777216).1 = CELL_OK ∧
      CellSyncQueue.m_depth
        (queueInState (fun _ => 0) 32 64 16 16777216
          (CellSyncQueue.pack 0 16777215 0 16777215)) 32 = 16777216 ∧
      load64 (queueInState (fun _ => 0) 32 64 16 16777216
          (CellSyncQueue.pack 0 16777215 0 16777215)) 32 =
        CellSyncQueue.pack 0 16777215 0 16777215 ∧
      CellSyncQueue.push_position (CellSyncQueue.pack 0 16777215 0 16777215) ≤ 16777216 ∧
      CellSyncQueue.count (CellSyncQueue.pack 0 16777215 0 16777215) ≤ 16777216 ∧
      CellSyncQueue.push_busy (CellSyncQueue.pack 0 16777215 0 16777215) = 0 ∧
      CellSyncQueue.count (CellSyncQueue.pack 0 16777215 0 16777215) +
        CellSyncQueue.pop_busy (CellSyncQueue.pack 0 16777215 0 16777215) < 16777216 ∧
      CellSyncQueue.count (CellSyncQueue.pack 0 16777215 0 16777215) + 1 = 16777216 ∧
      (cellSyncQueuePush (fun _ => false) 1
        (queueInState (fun _ => 0) 32 64 16 16777216
          (CellSyncQueue.pack 0 16777215 0 16777215)) 32 512).toOption.map
        (fun r => (r.1, CellSyncQueue.count (load64 r.2 32), cellSyncQueueSize r.2 32)) =
        some (CELL_OK, 0, Sum.inr 0)) ∧
    ((cellSyncQueueInitialize (fun _ => 0) 32 32 16 4).1 = CELL_OK ∧
      CellSyncQueue.m_depth (queueInState (fun _ => 0) 32 32 16 4 0) 32 = 4 ∧
      load64 (queueInState (fun _ => 0) 32 32 16 4 0) 32 = CellSyncQueue.pack 0 0 0 0 ∧
      (cellSyncQueuePush (fun _ => false) 1
        (queueInState (fun _ => 0) 32 32 16 4 0) 32 512).toOption.map
        (fun r => (r.1, CellSyncQueue.count (load64 r.2 32), cellSyncQueueSize r.2 32)) =
        some (CELL_OK, 0, Sum.inr 0)) ∧
    ((cellSyncQueueInitialize rampMemory 32 64 2147483648 4).1 = CELL_OK ∧
      CellSyncQueue.m_depth
        (queueInState rampMemory 32 64 2147483648 4 (CellSyncQueue.pack 0 2 0 2)) 32 = 4 ∧
      load64 (queueInState rampMemory 32 64 2147483648 4 (CellSyncQueue.pack 0 2 0 2)) 32 =
        CellSyncQueue.pack 0 2 0 2 ∧
      queueInState rampMemory 32 64 2147483648 4 (CellSyncQueue.pack 0 2 0 2) 65 = 65 ∧
      queueInState rampMemory 32 64 2147483648 4 (CellSyncQueue.pack 0 2 0 2) 4097 = 1 ∧
      (cellSyncQueuePush (fun _ => false) 1
        (queueInState rampMemory 32 64 2147483648 4 (CellSyncQueue.pack 0 2 0 2))
          32 4096).toOption.map
        (fun r => (r.1, r.2 65, r.2 (64 + 2 * 2147483648 + 1))) =
        some (CELL_OK, 1, 65)) := by
  decide

/-- C19 (amended): let the queue record hold a word with `push_busy = 0`,
within the bounds (`push_position <= capacity`, `count <= capacity`) and with
`count + pop_busy < capacity`, and let `capacity < 2^24`,
`p * entry_size < 2^32` for `p` the old `push_position`, and the ring slot
at `buffer_addr + p * entry_size` not overlap the queue word.  Then
`cellSyncQueuePush` claims slot `p` with one atomic update that stores
`push_position = (p + 1) mod capacity`, `push_busy = 1` and
`count = old count + 1` (and leaves `pop_busy`), then writes exactly
`entry_size` bytes from the source to `buffer_addr + p * entry_size`, then
clears `push_busy` leaving the other fields as stored, and returns `CELL_OK`;
no byte outside the word and that slot changes. -/
theorem cellSyncQueuePush_transition (IsStopped : Nat → Bool) (fuel : Nat) (mem : Memory)
    (queue src pb p n size depth addr : Nat)
    (hnull : queue ≠ 0) (halign : queue % 32 = 0) (hsrc : src ≠ 0)
    (hrec : QueueRecord mem queue (CellSyncQueue.pack pb p 0 n) size depth addr)
    (hpb : pb < 256) (hinv : p ≤ depth ∧ n ≤ depth) (hroom : n + pb < depth)
    (hcap : depth < 16777216) (hmul : p * size < 4294967296)
    (hslot : addr + p * size + size ≤ queue ∨ queue + 8 ≤ addr + p * size) :
    ∃ claimed copied final,
      queuePushClaim IsStopped queue depth (fuel + 1) 0 mem = .ok (Sum.inr (p, claimed)) ∧
      claimed = store64 mem queue (CellSyncQueue.pack pb ((p + 1) % depth) 1 (n + 1)) ∧
      (CellSyncQueue.pop_busy (load64 claimed queue) = pb ∧
        CellSyncQueue.push_position (load64 claimed queue) = (p + 1) % depth ∧
        CellSyncQueue.push_busy (load64 claimed queue) = 1 ∧
        CellSyncQueue.count (load64 claimed queue) = n + 1) ∧
      copied = memcpy claimed (addr + p * size) src size ∧
      cellSyncQueuePush IsStopped (fuel + 1) mem queue src = .ok (CELL_OK, final) ∧
      final = store64 copied queue (CellSyncQueue.pack pb ((p + 1) % depth) 0 (n + 1)) ∧
      (CellSyncQueue.pop_busy (load64 final queue) = pb ∧
        CellSyncQueue.push_position (load64 final queue) = (p + 1) % depth ∧
        CellSyncQueue.push_busy (load64 final queue) = 0 ∧
        CellSyncQueue.count (load64 final queue) = n + 1) ∧
      (∀ i, i < size → final (addr + p * size + i) = claimed (src + i)) ∧
      (∀ x, x < queue ∨ queue + 8 ≤ x → claimed x = mem x) ∧
      (∀ x, x < queue ∨ queue + 8 ≤ x →
        x < addr + p * size ∨ addr + p * size + size ≤ x → final x = mem x) := by
  have hp : p < 16777216 := by omega
  have hq : (p + 1) % depth < 16777216 :=
    Nat.lt_trans (Nat.mod_lt _ (by omega)) hcap
  obtain ⟨hclaim, hpush, -⟩ := queuePush_step IsStopped fuel mem queue src pb p n size depth
    addr hnull halign hsrc hrec hpb hp hroom hcap hmul hslot
  refine ⟨_, _, _, hclaim, rfl, ?_, rfl, hpush, rfl, ?_, ?_, ?_, ?_⟩
  · rw [load64_store64, Nat.mod_eq_of_lt
      (CellSyncQueue.pack_lt _ _ _ _ hpb hq (by decide) (by omega))]
    exact CellSyncQueue.pack_fields _ _ _ _ hpb hq (by decide) (by omega)
  · rw [load64_store64, Nat.mod_eq_of_lt
      (CellSyncQueue.pack_lt _ _ _ _ hpb hq (by decide) (by omega))]
    exact CellSyncQueue.pack_fields _ _ _ _ hpb hq (by decide) (by omega)
  · intro i hi
    rw [store64_outside _ _ _ _ (by omega), memcpy_inside _ _ _ _ _ hi]
  · intro x hx
    exact store64_outside _ _ _ _ hx
  · intro x hx hx'
    rw [store64_outside _ _ _ _ hx, memcpy_outside _ _ _ _ _ hx', store64_outside _ _ _ _ hx]

/-- Witness for C19: capacity 4, entry size 16, ring at 64, one entry stored
(`push_position = count = 1`); the push takes slot 1 at address 80. -/
theorem cellSyncQueuePush_transition_witness :
    ∃ final,
      cellSyncQueuePush (fun _ => false) (0 + 1)
        (queueInState rampMemory 32 64 16 4 (CellSyncQueue.pack 0 1 0 1)) 32 512 =
          .ok (CELL_OK, final) ∧
      (CellSyncQueue.pop_busy (load64 final 32) = 0 ∧
        CellSyncQueue.push_position (load64 final 32) = (1 + 1) % 4 ∧
        CellSyncQueue.push_busy (load64 final 32) = 0 ∧
        CellSyncQueue.count (load64 final 32) = 1 + 1) ∧
      ∀ i, i < 16 → final (64 + 1 * 16 + i) =
        store64 (queueInState rampMemory 32 64 16 4 (CellSyncQueue.pack 0 1 0 1)) 32
          (CellSyncQueue.pack 0 ((1 + 1) % 4) 1 (1 + 1)) (512 + i) :=
  have h := cellSyncQueuePush_transition (fun _ => false) 0
    (queueInState rampMemory 32 64 16 4 (CellSyncQueue.pack 0 1 0 1)) 32 512 0 1 1 16 4 64
    (by decide) (by decide) (by decide)
    ⟨by decide, by decide, by decide, by decide⟩
    (by decide) (by decide) (by decide) (by decide) (by decide) (by decide)
  match h with
  | ⟨_, _, final, _, hc, _, _, hpush, _, hfields, hbytes, _, _⟩ =>
    ⟨final, hpush, hfields, fun i hi => hc ▸ hbytes i hi⟩

theorem queuePop_step (IsStopped : Nat → Bool) (fuel : Nat) (mem : Memory)
    (queue dst p b2 n size depth addr : Nat)
    (hnull : queue ≠ 0) (halign : queue % 32 = 0) (hdst : dst ≠ 0)
    (hrec : QueueRecord mem queue (CellSyncQueue.pack 0 p b2 n) size depth addr)
    (hp : p < 16777216) (hb2 : b2 < 256) (hn : n < 16777216)
    (hcount : b2 < n) (hinv : n ≤ depth) (hwrap : p + depth - n < 4294967296)
    (hmul : (p + depth - n) % depth * size < 4294967296)
    (hdstw : dst + size ≤ queue ∨ queue + 8 ≤ dst) :
    queuePopClaim CellSyncQueue.popUpdate IsStopped queue depth (fuel + 1) 0 mem =
      .ok (Sum.inr ((p + depth - n) % depth,
        store64 mem queue (CellSyncQueue.pack 1 p b2 (n - 1)))) ∧
    cellSyncQueuePop IsStopped (fuel + 1) mem queue dst = .ok (CELL_OK,
      store64 (memcpy (store64 mem queue (CellSyncQueue.pack 1 p b2 (n - 1))) dst
        (addr + (p + depth - n) % depth * size) size) queue
        (CellSyncQueue.pack 0 p b2 (n - 1))) ∧
    cellSyncQueueTryPop (fuel + 1) mem queue dst = .ok (CELL_OK,
      store64 (memcpy (store64 mem queue (CellSyncQueue.pack 1 p b2 (n - 1))) dst
        (addr + (p + depth - n) % depth * size) size) queue
        (CellSyncQueue.pack 0 p b2 (n - 1))) := by
  obtain ⟨f1, f2, f3, f4⟩ := CellSyncQueue.pack_fields 0 p b2 n (by decide) hp hb2 hn
  have hopen := CellSyncQueue.popUpdate_open (CellSyncQueue.pack 0 p b2 n) depth f1
    (by rw [f3, f4]; exact hcount) (by rw [f4]; exact hinv) (by rw [f2, f4]; exact hwrap)
  rw [f2, f3, f4] at hopen
  obtain ⟨hnb, hu, -⟩ := hopen
  have hrec1 := hrec.set_word (CellSyncQueue.pack 1 p b2 (n - 1))
    (CellSyncQueue.pack_lt _ _ _ _ (by decide) hp hb2 (by omega))
  have hcommit := queuePopCommit_record fuel _ queue dst size depth addr
    ((p + depth - n) % depth) p b2 (n - 1) hrec1 hp hb2 (by omega) hmul hdstw
  obtain ⟨hw, hs, hd, -⟩ := hrec
  subst hs hd
  rw [← hw] at hnb hu
  refine ⟨queuePopClaim_open _ IsStopped queue _ fuel 0 mem _ _ hnb hu, ?_, ?_⟩
  · rw [cellSyncQueuePop_open IsStopped fuel mem queue dst _ _ hnull halign hdst hnb hu,
      hcommit]
  · rw [cellSyncQueueTryPop_open fuel mem queue dst _ _ hnull halign hdst hnb hu,
      hcommit]

/-- Counterexample to C20 as stated (any capacity, any addresses).
(a) Capacity `2^32 - 1` (accepted by `cellSyncQueueInitialize`),
`push_position = 5`, `count = 4`: the `u32` sum `push_position + depth` wraps,
the call reads slot 0 (its byte 1 is the byte at address 65) where
`(push_position + capacity - count) mod capacity` is slot 1 (address 81).
(b) Destination at the address of the queue record: the copy overwrites the
word, and the call ends with `count = 4539975` instead of 0.
(c) Entry size `2^31`, `push_position = 3`, `count = 1`: the slot is 2, the
`u32` product `position * size` wraps to 0 and the call delivers the byte at
address 64 (slot 0), not the byte of slot 2 at `64 + 2^32`. -/
theorem queue_pop_transition_fails :
    ((cellSyncQueueInitialize rampMemory 32 64 16 4294967295).1 = CELL_OK ∧
      CellSyncQueue.m_depth
        (queueInState rampMemory 32 64 16 4294967295 (CellSyncQueue.pack 0 5 0 4)) 32 =
          4294967295 ∧
      load64 (queueInState rampMemory 32 64 16 4294967295 (CellSyncQueue.pack 0 5 0 4)) 32 =
        CellSyncQueue.pack 0 5 0 4 ∧
      CellSyncQueue.push_position (CellSyncQueue.pack 0 5 0 4) = 5 ∧
      CellSyncQueue.count (CellSyncQueue.pack 0 5 0 4) = 4 ∧
      CellSyncQueue.pop_busy (CellSyncQueue.pack 0 5 0 4) = 0 ∧
      CellSyncQueue.push_busy (CellSyncQueue.pack 0 5 0 4) = 0 ∧
      (5 + 4294967295 - 4) % 4294967295 = 1 ∧
      queueInState rampMemory 32 64 16 4294967295 (CellSyncQueue.pack 0 5 0 4)
        (64 + 1 * 16 + 1) = 81 ∧
      (cellSyncQueuePop (fun _ => false) 1
        (queueInState rampMemory 32 64 16 4294967295 (CellSyncQueue.pack 0 5 0 4))
          32 16).toOption.map (fun r => (r.1, r.2 (16 + 1))) = some (CELL_OK, 65)) ∧
    ((cellSyncQueueInitialize rampMemory 32 64 16 4).1 = CELL_OK ∧
      CellSyncQueue.m_depth
        (queueInState rampMemory 32 64 16 4 (CellSyncQueue.pack 0 1 0 1)) 32 = 4 ∧
      load64 (queueInState rampMemory 32 64 16 4 (CellSyncQueue.pack 0 1 0 1)) 32 =
        CellSyncQueue.pack 0 1 0 1 ∧
      (cellSyncQueuePop (fun _ => false) 1
        (queueInState rampMemory 32 64 16 4 (CellSyncQueue.pack 0 1 0 1))
          32 32).toOption.map (fun r => (r.1, CellSyncQueue.count (load64 r.2 32))) =
        some (CELL_OK, 4539975)) ∧
    ((cellSyncQueueInitialize (store8 rampMemory (64 + 2 * 2147483648) 7)
        32 64 2147483648 4).1 = CELL_OK ∧
      CellSyncQueue.m_depth
        (queueInState (store8 rampMemory (64 + 2 * 2147483648) 7) 32 64 2147483648 4
          (CellSyncQueue.pack 0 3 0 1)) 32 = 4 ∧
      load64 (queueInState (store8 rampMemory (64 + 2 * 2147483648) 7) 32 64 2147483648 4
          (CellSyncQueue.pack 0 3 0 1)) 32 = CellSyncQueue.pack 0 3 0 1 ∧
      (3 + 4 - 1) % 4 = 2 ∧
      queueInState (store8 rampMemory (64 + 2 * 2147483648) 7) 32 64 2147483648 4
        (CellSyncQueue.pack 0 3 0 1) (64 + 2 * 2147483648) = 7 ∧
      (cellSyncQueuePop (fun _ => false) 1
        (queueInState (store8 rampMemory (64 + 2 * 2147483648) 7) 32 64 2147483648 4
          (CellSyncQueue.pack 0 3 0 1)) 32 16).toOption.map (fun r => (r.1, r.2 16)) =
        some (CELL_OK, 64)) := by
  decide

/-- C20 (amended): let the queue record hold a word with `pop_busy = 0`,
within the bounds and with `count > push_busy`, and let
`push_position + capacity - count < 2^32`, `slot * entry_size < 2^32` for
`slot = (push_position + capacity - count) mod capacity`, and the destination
not overlap the queue word.  Then `cellSyncQueuePop` sets `pop_busy = 1`,
decrements `count` by one and leaves `push_position` and `push_busy` in one
atomic update, copies exactly `entry_size` bytes from
`buffer_addr + slot * entry_size` to the destination, then clears `pop_busy`
leaving the other fields as stored, and returns `CELL_OK`; no byte outside the
word and the destination changes. -/
theorem cellSyncQueuePop_transition (IsStopped : Nat → Bool) (fuel : Nat) (mem : Memory)
    (queue dst p b2 n size depth addr : Nat)
    (hnull : queue ≠ 0) (halign : queue % 32 = 0) (hdst : dst ≠ 0)
    (hrec : QueueRecord mem queue (CellSyncQueue.pack 0 p b2 n) size depth addr)
    (hp : p < 16777216) (hb2 : b2 < 256) (hn : n < 16777216)
    (hinv : p ≤ depth ∧ n ≤ depth) (hcount : b2 < n)
    (hwrap : p + depth - n < 4294967296)
    (hmul : (p + depth - n) % depth * size < 4294967296)
    (hdstw : dst + size ≤ queue ∨ queue + 8 ≤ dst) :
    ∃ claimed copied final,
      queuePopClaim CellSyncQueue.popUpdate IsStopped queue depth (fuel + 1) 0 mem =
        .ok (Sum.inr ((p + depth - n) % depth, claimed)) ∧
      claimed = store64 mem queue (CellSyncQueue.pack 1 p b2 (n - 1)) ∧
      (CellSyncQueue.pop_busy (load64 claimed queue) = 1 ∧
        CellSyncQueue.push_position (load64 claimed queue) = p ∧
        CellSyncQueue.push_busy (load64 claimed queue) = b2 ∧
        CellSyncQueue.count (load64 claimed queue) = n - 1) ∧
      copied = memcpy claimed dst (addr + (p + depth - n) % depth * size) size ∧
      cellSyncQueuePop IsStopped (fuel + 1) mem queue dst = .ok (CELL_OK, final) ∧
      final = store64 copied queue (CellSyncQueue.pack 0 p b2 (n - 1)) ∧
      (CellSyncQueue.pop_busy (load64 final queue) = 0 ∧
        CellSyncQueue.push_position (load64 final queue) = p ∧
        CellSyncQueue.push_busy (load64 final queue) = b2 ∧
        CellSyncQueue.count (load64 final queue) = n - 1) ∧
      (∀ i, i < size →
        final (dst + i) = claimed (addr + (p + depth - n) % depth * size + i)) ∧
      (∀ x, x < queue ∨ queue + 8 ≤ x → claimed x = mem x) ∧
      (∀ x, x < queue ∨ queue + 8 ≤ x → x < dst ∨ dst + size ≤ x → final x = mem x) := by
  obtain ⟨hclaim, hpop, -⟩ := queuePop_step IsStopped fuel mem queue dst p b2 n size depth
    addr hnull halign hdst hrec hp hb2 hn hcount hinv.2 hwrap hmul hdstw
  refine ⟨_, _, _, hclaim, rfl, ?_, rfl, hpop, rfl, ?_, ?_, ?_, ?_⟩
  · rw [load64_store64, Nat.mod_eq_of_lt
      (CellSyncQueue.pack_lt _ _ _ _ (by decide) hp hb2 (by omega))]
    exact CellSyncQueue.pack_fields _ _ _ _ (by decide) hp hb2 (by omega)
  · rw [load64_store64, Nat.mod_eq_of_lt
      (CellSyncQueue.pack_lt _ _ _ _ (by decide) hp hb2 (by omega))]
    exact CellSyncQueue.pack_fields _ _ _ _ (by decide) hp hb2 (by omega)
  · intro i hi
    rw [store64_outside _ _ _ _ (by omega), memcpy_inside _ _ _ _ _ hi]
  · intro x hx
    exact store64_outside _ _ _ _ hx
  · intro x hx hx'
    rw [store64_outside _ _ _ _ hx, memcpy_outside _ _ _ _ _ hx', store64_outside _ _ _ _ hx]

/-- Witness for C20: capacity 4, entry size 16, ring at 64, three pushes and
one pop done (`push_position = 3`, `count = 2`); the pop reads slot 1 at
address 80 into the destination at 512. -/
theorem cellSyncQueuePop_transition_witness :
    ∃ final,
      cellSyncQueuePop (fun _ => false) (0 + 1)
        (queueInState rampMemory 32 64 16 4 (CellSyncQueue.pack 0 3 0 2)) 32 512 =
          .ok (CELL_OK, final) ∧
      (CellSyncQueue.pop_busy (load64 final 32) = 0 ∧
        CellSyncQueue.push_position (load64 final 32) = 3 ∧
        CellSyncQueue.push_busy (load64 final 32) = 0 ∧
        CellSyncQueue.count (load64 final 32) = 2 - 1) ∧
      ∀ i, i < 16 → final (512 + i) =
        store64 (queueInState rampMemory 32 64 16 4 (CellSyncQueue.pack 0 3 0 2)) 32
          (CellSyncQueue.pack 1 3 0 (2 - 1)) (64 + (3 + 4 - 2) % 4 * 16 + i) :=
  have h := cellSyncQueuePop_transition (fun _ => false) 0
    (queueInState rampMemory 32 64 16 4 (CellSyncQueue.pack 0 3 0 2)) 32 512 3 0 2 16 4 64
    (by decide) (by decide) (by decide)
    ⟨by decide, by decide, by decide, by decide⟩
    (by decide) (by decide) (by decide) (by decide) (by decide) (by decide) (by decide)
    (by decide)
  match h with
  | ⟨_, _, final, _, hc, _, _, hpop, _, hfields, hbytes, _, _⟩ =>
    ⟨final, hpop, hfields, fun i hi => hc ▸ hbytes i hi⟩

/-! ## Queue: bounds on the word -/

theorem or_low24 (h a : Nat) (hh : h % 16777216 = 0) :
    ((h ||| a) % 4294967296) % 16777216 = a % 16777216 := by
  rw [Nat.mod_mod_of_dvd _ (by decide : 16777216 ∣ 4294967296)]
  have e := or_mod_pow h a 24
  simp only [Nat.reducePow] at e
  rw [e, hh, Nat.zero_or]

namespace CellSyncQueue

theorem m_v1_set_both (x y : Nat) :
    m_v1 ((x % 4294967296) * 4294967296 + y % 4294967296) = x % 4294967296 := by
  unfold m_v1
  omega

theorem m_v2_set_both (x y : Nat) :
    m_v2 ((x % 4294967296) * 4294967296 + y % 4294967296) = y % 4294967296 := by
  unfold m_v2
  omega

/-- The fields stored by the update of push, for any capacity. -/
theorem pushUpdate_fields (d depth pos nd : Nat) (h : pushUpdate d depth = some (pos, nd)) :
    depth ≠ 0 ∧ pos = push_position d ∧
    push_position nd = ((push_position d + 1) % depth) % 16777216 ∧
    count nd = (count d + 1) % 16777216 := by
  have h1 := m_v1_lt d
  unfold pushUpdate umod32 at h
  by_cases hd : depth = 0
  · simp [hd] at h
  · simp only [if_neg hd, Option.some.injEq, Prod.mk.injEq] at h
    obtain ⟨hpos, hnd⟩ := h
    subst hnd
    refine ⟨hd, hpos.symm, ?_, ?_⟩
    · rw [push_position_eq, set_both, m_v1_set_both, or_low24 _ _ (by
        rw [and_high8 _ h1]; exact Nat.mul_mod_left _ _)]
      rfl
    · rw [count_eq, set_both, m_v2_set_both, or_low24 _ _ (by decide)]
      rfl

theorem clearPopUpdate_pack (d : Nat) (hb : pop_busy d = 0) :
    clearPopUpdate d = pack 1 (push_position d) (push_busy d) (count d) := by
  have h1 := m_v1_lt d
  have h2 := m_v2_lt d
  rw [pop_busy_eq] at hb
  have hv1 : m_v1 d < 16777216 := by omega
  unfold clearPopUpdate
  rw [set_m_v1_eq, Nat.lor_comm, or_bit24 _ hv1, push_position_eq, push_busy_eq, count_eq]
  unfold pack
  omega

theorem clearPushUpdate_pack (d : Nat) (hb : push_busy d = 0) :
    clearPushUpdate d = pack (pop_busy d) (push_position d) 1 (count d) := by
  have h1 := m_v1_lt d
  have h2 := m_v2_lt d
  rw [push_busy_eq] at hb
  have hv2 : m_v2 d < 16777216 := by omega
  unfold clearPushUpdate
  rw [set_m_v2_eq, Nat.lor_comm, or_bit24 _ hv2, push_position_eq, pop_busy_eq, count_eq]
  unfold pack
  omega

end CellSyncQueue

theorem QueueBounds.of_pack (depth b1 p b2 n : Nat) (hb1 : b1 < 256) (hp : p < 16777216)
    (hb2 : b2 < 256) (hn : n < 16777216) (hpd : p ≤ depth) (hnd : n ≤ depth) :
    QueueBounds depth (CellSyncQueue.pack b1 p b2 n) := by
  obtain ⟨-, f2, -, f4⟩ := CellSyncQueue.pack_fields b1 p b2 n hb1 hp hb2 hn
  unfold QueueBounds
  rw [f2, f4]
  exact ⟨hpd, hnd⟩

theorem QueueStep.apply_bounds (depth d : Nat) (s : QueueStep) (h : QueueBounds depth d) :
    QueueBounds depth (s.apply depth d) := by
  obtain ⟨hb1, hp, hb2, hn⟩ := CellSyncQueue.fields_lt d
  obtain ⟨hpd, hnd⟩ := h
  cases s
  · simp only [QueueStep.apply]
    by_cases hb : CellSyncQueue.pushBlocked (CellSyncQueue.m_v1 d) (CellSyncQueue.m_v2 d) depth
    · rw [if_pos hb]
      exact ⟨hpd, hnd⟩
    · rw [if_neg hb]
      have hg : ¬ (CellSyncQueue.push_busy d ≠ 0 ∨
          CellSyncQueue.count d + CellSyncQueue.pop_busy d ≥ depth) :=
        fun hx => hb ((CellSyncQueue.pushBlocked_iff d depth).mpr hx)
      cases hu : CellSyncQueue.pushUpdate d depth with
      | none => exact ⟨hpd, hnd⟩
      | some r =>
        obtain ⟨pos, nd⟩ := r
        obtain ⟨hd, -, f2, f4⟩ := CellSyncQueue.pushUpdate_fields d depth pos nd hu
        refine ⟨?_, ?_⟩
        · show CellSyncQueue.push_position nd ≤ depth
          rw [f2]
          exact Nat.le_trans (Nat.mod_le _ _) (Nat.le_of_lt (Nat.mod_lt _ (by omega)))
        · show CellSyncQueue.count nd ≤ depth
          rw [f4]
          exact Nat.le_trans (Nat.mod_le _ _) (by omega)
  · simp only [QueueStep.apply]
    rw [CellSyncQueue.pushRelease_pack]
    exact QueueBounds.of_pack _ _ _ _ _ hb1 hp (by decide) hn hpd hnd
  · simp only [QueueStep.apply]
    by_cases hb : CellSyncQueue.popBlocked (CellSyncQueue.m_v1 d) (CellSyncQueue.m_v2 d)
    · rw [if_pos hb]
      exact ⟨hpd, hnd⟩
    · rw [if_neg hb]
      have hg : ¬ (CellSyncQueue.pop_busy d ≠ 0 ∨
          CellSyncQueue.count d ≤ CellSyncQueue.push_busy d) :=
        fun hx => hb ((CellSyncQueue.popBlocked_iff d).mpr hx)
      by_cases hd : depth = 0
      · rw [hd, CellSyncQueue.popUpdate_none]
        exact ⟨by omega, by omega⟩
      · rw [CellSyncQueue.popUpdate_pack d depth hd (by omega) (by omega)]
        exact QueueBounds.of_pack _ _ _ _ _ (by decide) hp hb2 (by omega) hpd (by omega)
  · simp only [QueueStep.apply]
    by_cases hb : CellSyncQueue.popBlocked (CellSyncQueue.m_v1 d) (CellSyncQueue.m_v2 d)
    · rw [if_pos hb]
      exact ⟨hpd, hnd⟩
    · rw [if_neg hb]
      have hg : ¬ (CellSyncQueue.pop_busy d ≠ 0 ∨
          CellSyncQueue.count d ≤ CellSyncQueue.push_busy d) :=
        fun hx => hb ((CellSyncQueue.popBlocked_iff d).mpr hx)
      by_cases hd : depth = 0
      · rw [hd, CellSyncQueue.peekUpdate_none]
        exact ⟨by omega, by omega⟩
      · rw [CellSyncQueue.peekUpdate_pack d depth hd (by omega)]
        exact QueueBounds.of_pack _ _ _ _ _ (by decide) hp hb2 hn hpd hnd
  · simp only [QueueStep.apply]
    rw [CellSyncQueue.popRelease_pack]
    exact QueueBounds.of_pack _ _ _ _ _ (by decide) hp hb2 hn hpd hnd
  · simp only [QueueStep.apply]
    by_cases hb : CellSyncQueue.m_v1 d >>> 24 ≠ 0
    · rw [if_pos hb]
      exact ⟨hpd, hnd⟩
    · rw [if_neg hb, CellSyncQueue.clearPopUpdate_pack d (not_not.mp hb)]
      exact QueueBounds.of_pack _ _ _ _ _ (by decide) hp hb2 hn hpd hnd
  · simp only [QueueStep.apply]
    by_cases hb : CellSyncQueue.m_v2 d >>> 24 ≠ 0
    · rw [if_pos hb]
      exact ⟨hpd, hnd⟩
    · rw [if_neg hb, CellSyncQueue.clearPushUpdate_pack d (not_not.mp hb)]
      exact QueueBounds.of_pack _ _ _ _ _ hb1 hp (by decide) hn hpd hnd
  · simp only [QueueStep.apply]
    exact ⟨Nat.zero_le _, Nat.zero_le _⟩

theorem QueueStep.foldl_bounds (depth : Nat) (steps : List QueueStep) (d : Nat)
    (h : QueueBounds depth d) : QueueBounds depth (steps.foldl (QueueStep.apply depth) d) := by
  induction steps generalizing d with
  | nil => exact h
  | cons s rest ih => exact ih _ (QueueStep.apply_bounds depth d s h)

theorem cellSyncQueueInitialize_word (mem : Memory) (queue buffer_addr size depth : Nat)
    (h : (cellSyncQueueInitialize mem queue buffer_addr size depth).1 = CELL_OK) :
    1 ≤ depth ∧ load64 (cellSyncQueueInitialize mem queue buffer_addr size depth).2 queue = 0 := by
  unfold cellSyncQueueInitialize at h ⊢
  by_cases h1 : queue = 0
  · rw [if_pos h1] at h
    exact absurd h (by simp)
  by_cases h2 : size ≠ 0 ∧ buffer_addr = 0
  · rw [if_neg h1, if_pos h2] at h
    exact absurd h (by simp)
  by_cases h3 : queue % 32 ≠ 0 ∨ buffer_addr % 16 ≠ 0
  · rw [if_neg h1, if_neg h2, if_pos h3] at h
    exact absurd h (by simp)
  by_cases h4 : depth = 0 ∨ size % 16 ≠ 0
  · rw [if_neg h1, if_neg h2, if_neg h3, if_pos h4] at h
    exact absurd h (by simp)
  rw [if_neg h1, if_neg h2, if_neg h3, if_neg h4]
  simp only [ICE64_sync]
  refine ⟨by omega, ?_⟩
  rw [load64_congr _ (store64 mem queue 0) queue, load64_store64]
  intro x hx1 hx2
  rw [store64_outside _ _ _ _ (by omega), store32_outside _ _ _ _ (by omega),
    store32_outside _ _ _ _ (by omega)]

theorem cellSyncQueueSize_count (mem : Memory) (queue : Nat) (hnull : queue ≠ 0)
    (halign : queue % 32 = 0) :
    cellSyncQueueSize mem queue = Sum.inr (CellSyncQueue.count (load64 mem queue)) := by
  unfold cellSyncQueueSize CellSyncQueue.count
  rw [if_neg hnull, if_neg (by omega : ¬ queue % 32 ≠ 0), CellSyncQueue.m_v2_load64]

/-- C16: for every capacity `C`, the bounds `push_position <= C` and
`count <= C` hold on the word stored by a successful
`cellSyncQueueInitialize` (the word 0; success implies `C >= 1`), are
preserved by every atomic update of the word made by push, try_push, pop,
try_pop, peek, try_peek and clear (claim and release steps and the reset of
clear), hence hold in every word reached by any sequence of these updates, and
on a record holding such a word `cellSyncQueueSize` returns a value in
`[0, C]`. -/
theorem queue_bounds_invariant (C : Nat) (steps : List QueueStep) :
    (∀ mem queue buffer_addr size,
      (cellSyncQueueInitialize mem queue buffer_addr size C).1 = CELL_OK →
        1 ≤ C ∧ load64 (cellSyncQueueInitialize mem queue buffer_addr size C).2 queue = 0) ∧
    QueueBounds C 0 ∧
    (∀ d s, QueueBounds C d → QueueBounds C (QueueStep.apply C d s)) ∧
    QueueBounds C (steps.foldl (QueueStep.apply C) 0) ∧
    (∀ mem queue, queue ≠ 0 → queue % 32 = 0 →
      load64 mem queue = steps.foldl (QueueStep.apply C) 0 →
      ∃ n, cellSyncQueueSize mem queue = Sum.inr n ∧ n ≤ C) := by
  have h0 : QueueBounds C 0 := ⟨Nat.zero_le _, Nat.zero_le _⟩
  refine ⟨fun mem queue buffer_addr size h =>
      cellSyncQueueInitialize_word mem queue buffer_addr size C h, h0,
    fun d s h => QueueStep.apply_bounds C d s h, QueueStep.foldl_bounds C steps 0 h0, ?_⟩
  intro mem queue hnull halign hw
  refine ⟨_, cellSyncQueueSize_count mem queue hnull halign, ?_⟩
  rw [hw]
  exact (QueueStep.foldl_bounds C steps 0 h0).2

/-! ## Ring arithmetic -/

/-- The slot `j` places behind `p` in a ring of `C` slots. -/
theorem ring_back (C p j : Nat) (hp : p < C) (hj1 : 1 ≤ j) (hj : j ≤ C) :
    (p + C - j) % C = if j ≤ p then p - j else p + C - j := by
  by_cases h : j ≤ p
  · rw [if_pos h]
    have e : p + C - j = (p - j) + C := by omega
    rw [e, Nat.add_mod_right, Nat.mod_eq_of_lt (by omega)]
  · rw [if_neg h, Nat.mod_eq_of_lt (by omega)]

theorem ring_next (C p : Nat) (hp : p < C) :
    (p + 1) % C = if p + 1 = C then 0 else p + 1 := by
  by_cases h : p + 1 = C
  · rw [if_pos h, h, Nat.mod_self]
  · rw [if_neg h, Nat.mod_eq_of_lt (by omega)]

/-- After a push the older entries keep their slots. -/
theorem ring_push_old (C p n k : Nat) (hp : p < C) (hn : n < C) (hk : k < n) :
    ((p + 1) % C + C - (n + 1) + k) % C = (p + C - n + k) % C := by
  have e1 : (p + 1) % C + C - (n + 1) + k = (p + 1) % C + C - (n + 1 - k) := by omega
  have e2 : p + C - n + k = p + C - (n - k) := by omega
  rw [e1, e2, ring_back C _ (n + 1 - k) (Nat.mod_lt _ (by omega)) (by omega) (by omega),
    ring_back C p (n - k) hp (by omega) (by omega), ring_next C p hp]
  by_cases h : p + 1 = C
  · rw [if_pos h]
    by_cases h2 : n - k ≤ p
    · rw [if_neg (by omega), if_pos h2]
      omega
    · omega
  · rw [if_neg h]
    by_cases h2 : n - k ≤ p
    · rw [if_pos (by omega), if_pos h2]
      omega
    · rw [if_neg (by omega), if_neg h2]
      omega

/-- After a push the newest entry is in the slot that was claimed. -/
theorem ring_push_new (C p n : Nat) (hp : p < C) (hn : n < C) :
    ((p + 1) % C + C - (n + 1) + n) % C = p := by
  have e1 : (p + 1) % C + C - (n + 1) + n = (p + 1) % C + C - 1 := by omega
  rw [e1, ring_back C _ 1 (Nat.mod_lt _ (by omega)) (by omega) (by omega), ring_next C p hp]
  by_cases h : p + 1 = C
  · rw [if_pos h, if_neg (by omega)]
    omega
  · rw [if_neg h, if_pos (by omega)]
    omega

/-- The slots of the stored entries differ from the slot a push claims. -/
theorem ring_old_ne (C p n k : Nat) (hp : p < C) (hn : n < C) (hk : k < n) :
    (p + C - n + k) % C ≠ p ∧ (p + C - n + k) % C < C := by
  have e2 : p + C - n + k = p + C - (n - k) := by omega
  rw [e2, ring_back C p (n - k) hp (by omega) (by omega)]
  by_cases h2 : n - k ≤ p
  · rw [if_pos h2]
    omega
  · rw [if_neg h2]
    omega

/-- Two different slots of a ring do not overlap, and a slot lies in the ring. -/
theorem ring_slots (addr size C s t : Nat) (hs : s < C) (hst : s ≠ t) :
    addr + s * size + size ≤ addr + C * size ∧
    (addr + s * size + size ≤ addr + t * size ∨ addr + t * size + size ≤ addr + s * size) := by
  have h1 : (s + 1) * size ≤ C * size := Nat.mul_le_mul_right _ (by omega)
  rw [Nat.add_mul, Nat.one_mul] at h1
  refine ⟨by omega, ?_⟩
  by_cases h : s < t
  · have h2 : (s + 1) * size ≤ t * size := Nat.mul_le_mul_right _ (by omega)
    rw [Nat.add_mul, Nat.one_mul] at h2
    left
    omega
  · have h2 : (t + 1) * size ≤ s * size := Nat.mul_le_mul_right _ (by omega)
    rw [Nat.add_mul, Nat.one_mul] at h2
    right
    omega

theorem readBytes_congr (mem mem' : Memory) (a n : Nat)
    (h : ∀ i, i < n → mem' (a + i) = mem (a + i)) : readBytes mem' a n = readBytes mem a n := by
  unfold readBytes
  exact List.map_congr_left (fun i hi => h i (List.mem_range.mp hi))

theorem readBytes_copy (mem mem' : Memory) (a b n : Nat)
    (h : ∀ i, i < n → mem' (a + i) = mem (b + i)) : readBytes mem' a n = readBytes mem b n := by
  unfold readBytes
  exact List.map_congr_left (fun i hi => h i (List.mem_range.mp hi))

theorem ringEntries_length (mem : Memory) (addr size C p n : Nat) :
    (ringEntries mem addr size C p n).length = n := by
  unfold ringEntries
  rw [List.length_map, List.length_range]

/-! ## Queue: one uncontended call on an idle queue -/

theorem QueueIdle.fields {mem : Memory} {queue size C addr p n : Nat}
    (h : QueueIdle mem queue size C addr p n) (hC24 : C < 16777216) :
    CellSyncQueue.pop_busy (load64 mem queue) = 0 ∧
    CellSyncQueue.push_position (load64 mem queue) = p ∧
    CellSyncQueue.push_busy (load64 mem queue) = 0 ∧
    CellSyncQueue.count (load64 mem queue) = n ∧
    CellSyncQueue.m_depth mem queue = C := by
  have hp := h.position_lt
  have hn := h.count_le
  rw [h.record.word]
  obtain ⟨f1, f2, f3, f4⟩ := CellSyncQueue.pack_fields 0 p 0 n (by decide) (by omega)
    (by decide) (by omega)
  exact ⟨f1, f2, f3, f4, h.record.depth_eq⟩

theorem QueueIdle.size_eq {mem : Memory} {queue size C addr p n : Nat}
    (h : QueueIdle mem queue size C addr p n) (hC24 : C < 16777216)
    (hnull : queue ≠ 0) (halign : queue % 32 = 0) :
    cellSyncQueueSize mem queue = Sum.inr n := by
  rw [cellSyncQueueSize_count mem queue hnull halign, (h.fields hC24).2.2.2.1]

theorem QueueIdle.push_full {mem : Memory} {queue size C addr p n : Nat}
    (h : QueueIdle mem queue size C addr p n) (hC24 : C < 16777216)
    (hnull : queue ≠ 0) (halign : queue % 32 = 0) (fuel src : Nat) (hsrc : src ≠ 0)
    (hn : n = C) :
    cellSyncQueueTryPush (fuel + 1) mem queue src = .ok (CELL_SYNC_ERROR_BUSY, mem) := by
  obtain ⟨f1, -, -, f4, fd⟩ := h.fields hC24
  apply cellSyncQueueTryPush_blocked fuel mem queue src hnull halign hsrc
  rw [CellSyncQueue.pushBlocked_iff, f1, f4, fd]
  right
  omega

theorem QueueIdle.pop_empty {mem : Memory} {queue size C addr p n : Nat}
    (h : QueueIdle mem queue size C addr p n) (hC24 : C < 16777216)
    (hnull : queue ≠ 0) (halign : queue % 32 = 0) (fuel dst : Nat) (hdst : dst ≠ 0)
    (hn : n = 0) :
    cellSyncQueueTryPop (fuel + 1) mem queue dst = .ok (CELL_SYNC_ERROR_BUSY, mem) := by
  obtain ⟨-, -, f3, f4, -⟩ := h.fields hC24
  apply cellSyncQueueTryPop_blocked fuel mem queue dst hnull halign hdst
  rw [CellSyncQueue.popBlocked_iff, f3, f4]
  right
  omega

theorem ring_offset_lt (addr size C s : Nat) (hs : s < C)
    (hfit : addr + C * size ≤ 4294967296) : s * size < 4294967296 := by
  have h1 : (s + 1) * size ≤ C * size := Nat.mul_le_mul_right _ (by omega)
  rw [Nat.add_mul, Nat.one_mul] at h1
  by_cases h0 : size = 0
  · rw [h0, Nat.mul_zero]
    decide
  · omega

theorem QueueIdle.push_room {mem : Memory} {queue size C addr p n : Nat}
    (h : QueueIdle mem queue size C addr p n) (hC24 : C < 16777216)
    (hnull : queue ≠ 0) (halign : queue % 32 = 0)
    (hfit : addr + C * size ≤ 4294967296)
    (hring : addr + C * size ≤ queue ∨ queue + 24 ≤ addr)
    (fuel src : Nat) (hsrc : src ≠ 0) (hsw : src + size ≤ queue ∨ queue + 8 ≤ src)
    (hn : n < C) :
    ∃ mem', cellSyncQueueTryPush (fuel + 1) mem queue src = .ok (CELL_OK, mem') ∧
      QueueIdle mem' queue size C addr ((p + 1) % C) (n + 1) ∧
      ringEntries mem' addr size C ((p + 1) % C) (n + 1) =
        ringEntries mem addr size C p n ++ [readBytes mem src size] := by
  have hp := h.position_lt
  have hin := (ring_slots addr size C p (p + 1) hp (by omega)).1
  have hq : (p + 1) % C < C := Nat.mod_lt _ (by omega)
  have hslot : addr + p * size + size ≤ queue ∨ queue + 24 ≤ addr + p * size := by omega
  obtain ⟨-, -, htry⟩ := queuePush_step (fun _ => false) fuel mem queue src 0 p n size C addr
    hnull halign hsrc h.record (by decide) (by omega) (by omega) hC24
    (ring_offset_lt addr size C p hp hfit) (by omega)
  have F1 : ∀ x, x < queue ∨ queue + 8 ≤ x →
      x < addr + p * size ∨ addr + p * size + size ≤ x →
      store64 (memcpy (store64 mem queue (CellSyncQueue.pack 0 ((p + 1) % C) 1 (n + 1)))
        (addr + p * size) src size) queue
        (CellSyncQueue.pack 0 ((p + 1) % C) 0 (n + 1)) x = mem x := by
    intro x hx hx'
    rw [store64_outside _ _ _ _ hx, memcpy_outside _ _ _ _ _ hx', store64_outside _ _ _ _ hx]
  have F2 : ∀ i, i < size →
      store64 (memcpy (store64 mem queue (CellSyncQueue.pack 0 ((p + 1) % C) 1 (n + 1)))
        (addr + p * size) src size) queue
        (CellSyncQueue.pack 0 ((p + 1) % C) 0 (n + 1)) (addr + p * size + i) =
        mem (src + i) := by
    intro i hi
    rw [store64_outside _ _ _ _ (by omega), memcpy_inside _ _ _ _ _ hi,
      store64_outside _ _ _ _ (by omega)]
  refine ⟨_, htry, ⟨?_, hq, by omega⟩, ?_⟩
  · exact ((h.record.set_word _ (CellSyncQueue.pack_lt _ _ _ _ (by decide) (by omega)
      (by decide) (by omega))).after_copy _ _ _ (by unfold rangesDisjoint; omega)).set_word
      _ (CellSyncQueue.pack_lt _ _ _ _ (by decide) (by omega) (by decide) (by omega))
  · unfold ringEntries
    rw [List.range_succ, List.map_append, List.map_singleton, ring_push_new C p n hp hn]
    congr 1
    · apply List.map_congr_left
      intro k hk
      have hk' := List.mem_range.mp hk
      rw [ring_push_old C p n k hp hn hk']
      obtain ⟨hne, hlt⟩ := ring_old_ne C p n k hp hn hk'
      obtain ⟨hin', hdis⟩ := ring_slots addr size C _ p hlt hne
      apply readBytes_congr
      intro i hi
      exact F1 _ (by omega) (by omega)
    · rw [readBytes_copy mem _ _ src size F2]

theorem QueueIdle.pop_entry {mem : Memory} {queue size C addr p n : Nat}
    (h : QueueIdle mem queue size C addr p n) (hC24 : C < 16777216)
    (hnull : queue ≠ 0) (halign : queue % 32 = 0)
    (hfit : addr + C * size ≤ 4294967296)
    (hring : addr + C * size ≤ queue ∨ queue + 24 ≤ addr)
    (fuel dst : Nat) (hdst : dst ≠ 0) (hdr : dst + size ≤ queue ∨ queue + 24 ≤ dst)
    (hdring : dst + size ≤ addr ∨ addr + C * size ≤ dst)
    (hn : 1 ≤ n) :
    ∃ mem', cellSyncQueueTryPop (fuel + 1) mem queue dst = .ok (CELL_OK, mem') ∧
      QueueIdle mem' queue size C addr p (n - 1) ∧
      ringEntries mem addr size C p n =
        readBytes mem' dst size :: ringEntries mem' addr size C p (n - 1) := by
  have hp := h.position_lt
  have hnC := h.count_le
  have hs : (p + C - n) % C < C := Nat.mod_lt _ (by omega)
  have hin := (ring_slots addr size C _ C hs (by omega)).1
  obtain ⟨-, -, htry⟩ := queuePop_step (fun _ => false) fuel mem queue dst p 0 n size C addr
    hnull halign hdst h.record (by omega) (by decide) (by omega) (by omega) hnC (by omega)
    (ring_offset_lt addr size C _ hs hfit) (by omega)
  have G1 : ∀ x, x < queue ∨ queue + 8 ≤ x → x < dst ∨ dst + size ≤ x →
      store64 (memcpy (store64 mem queue (CellSyncQueue.pack 1 p 0 (n - 1))) dst
        (addr + (p + C - n) % C * size) size) queue
        (CellSyncQueue.pack 0 p 0 (n - 1)) x = mem x := by
    intro x hx hx'
    rw [store64_outside _ _ _ _ hx, memcpy_outside _ _ _ _ _ hx', store64_outside _ _ _ _ hx]
  have G2 : ∀ i, i < size →
      store64 (memcpy (store64 mem queue (CellSyncQueue.pack 1 p 0 (n - 1))) dst
        (addr + (p + C - n) % C * size) size) queue
        (CellSyncQueue.pack 0 p 0 (n - 1)) (dst + i) =
        mem (addr + (p + C - n) % C * size + i) := by
    intro i hi
    rw [store64_outside _ _ _ _ (by omega), memcpy_inside _ _ _ _ _ hi,
      store64_outside _ _ _ _ (by omega)]
  refine ⟨_, htry, ⟨?_, hp, by omega⟩, ?_⟩
  · exact ((h.record.set_word _ (CellSyncQueue.pack_lt _ _ _ _ (by decide) (by omega)
      (by decide) (by omega))).after_copy _ _ _ (by unfold rangesDisjoint; omega)).set_word
      _ (CellSyncQueue.pack_lt _ _ _ _ (by decide) (by omega) (by decide) (by omega))
  · obtain ⟨m, rfl⟩ : ∃ m, n = m + 1 := ⟨n - 1, by omega⟩
    unfold ringEntries
    rw [List.range_succ_eq_map, List.map_cons, List.map_map, Nat.add_sub_cancel]
    congr 1
    · rw [Nat.add_zero]
      exact (readBytes_copy mem _ dst _ size G2).symm
    · apply List.map_congr_left
      intro k hk
      have hk' := List.mem_range.mp hk
      have e : p + C - (m + 1) + (k + 1) = p + C - m + k := by omega
      simp only [Function.comp_apply, Nat.succ_eq_add_one]
      rw [e]
      have hlt : (p + C - m + k) % C < C := Nat.mod_lt _ (by omega)
      have hin' := (ring_slots addr size C _ C hlt (by omega)).1
      apply (readBytes_congr _ _ _ _ _).symm
      intro i hi
      exact G1 _ (by omega) (by omega)

theorem cellSyncQueueInitialize_inv (mem : Memory) (queue buffer_addr size depth : Nat)
    (h : (cellSyncQueueInitialize mem queue buffer_addr size depth).1 = CELL_OK) :
    queue ≠ 0 ∧ (size ≠ 0 → buffer_addr ≠ 0) ∧ queue % 32 = 0 ∧ buffer_addr % 16 = 0 ∧
      depth ≠ 0 ∧ size % 16 = 0 := by
  unfold cellSyncQueueInitialize at h
  by_cases h1 : queue = 0
  · rw [if_pos h1] at h
    exact absurd h (by simp)
  by_cases h2 : size ≠ 0 ∧ buffer_addr = 0
  · rw [if_neg h1, if_pos h2] at h
    exact absurd h (by simp)
  by_cases h3 : queue % 32 ≠ 0 ∨ buffer_addr % 16 ≠ 0
  · rw [if_neg h1, if_neg h2, if_pos h3] at h
    exact absurd h (by simp)
  by_cases h4 : depth = 0 ∨ size % 16 ≠ 0
  · rw [if_neg h1, if_neg h2, if_neg h3, if_pos h4] at h
    exact absurd h (by simp)
  exact ⟨h1, fun a b => h2 ⟨a, b⟩, by omega, by omega, by omega, by omega⟩

theorem fifoObs_push (C : Nat) (l : List (List (Fin 256))) (e : List (Fin 256))
    (rest : List FifoOp) :
    fifoObs C l (.push e :: rest) =
      if l.length = C then .pushed CELL_SYNC_ERROR_BUSY :: fifoObs C l rest
      else .pushed CELL_OK :: fifoObs C (l ++ [e]) rest := by
  cases l <;> rfl

theorem fifoObs_nil (C : Nat) (l : List (List (Fin 256))) : fifoObs C l [] = [] := by
  cases l <;> rfl

theorem fifoObs_size (C : Nat) (l : List (List (Fin 256))) (rest : List FifoOp) :
    fifoObs C l (.size :: rest) = .size (Sum.inr l.length) :: fifoObs C l rest := by
  cases l <;> rfl

theorem queueCalls_cons (fuel queue size : Nat) (mem mem' memF : Memory) (c : QueueCall)
    (rest : List QueueCall) (o : FifoOp × QueueObs) (os : List (FifoOp × QueueObs))
    (h1 : queueCall fuel queue size mem c = .ok (o, mem'))
    (h2 : queueCalls fuel queue size mem' rest = .ok (os, memF)) :
    queueCalls fuel queue size mem (c :: rest) = .ok (o :: os, memF) := by
  rw [queueCalls, h1]
  simp only
  rw [h2]

/-- Every sequence of valid uncontended calls on an idle queue shows what the
list queue holding the ring's entries shows. -/
theorem queueCalls_refine (fuel queue size C addr : Nat) (hC24 : C < 16777216)
    (hnull : queue ≠ 0) (halign : queue % 32 = 0)
    (hfit : addr + C * size ≤ 4294967296)
    (hring : addr + C * size ≤ queue ∨ queue + 24 ≤ addr) :
    ∀ (calls : List QueueCall) (mem : Memory) (p n : Nat),
      QueueIdle mem queue size C addr p n →
      (∀ c ∈ calls, QueueCall.valid queue addr size C c) →
      ∃ log memF, queueCalls (fuel + 1) queue size mem calls = .ok (log, memF) ∧
        log.map Prod.snd = fifoObs C (ringEntries mem addr size C p n) (log.map Prod.fst) := by
  intro calls
  induction calls with
  | nil =>
    intro mem p n _ _
    exact ⟨[], mem, rfl, by rw [List.map_nil, List.map_nil, fifoObs_nil]⟩
  | cons c rest ih =>
    intro mem p n hst hv
    have hc := hv c (List.mem_cons_self _ _)
    have hrest : ∀ c' ∈ rest, QueueCall.valid queue addr size C c' :=
      fun c' h => hv c' (List.mem_cons_of_mem _ h)
    have hlen := ringEntries_length mem addr size C p n
    cases c with
    | tryPush src =>
      obtain ⟨hsrc, hsw⟩ := hc
      by_cases hn : n = C
      · have hbusy := hst.push_full hC24 hnull halign fuel src hsrc hn
        obtain ⟨log, memF, hrun, hobs⟩ := ih mem p n hst hrest
        refine ⟨(.push (readBytes mem src size), .pushed CELL_SYNC_ERROR_BUSY) :: log, memF,
          queueCalls_cons _ _ _ _ _ _ _ _ _ _ (by simp only [queueCall, hbusy]) hrun, ?_⟩
        rw [List.map_cons, List.map_cons, fifoObs_push, if_pos (by rw [hlen, hn]), hobs]
      · obtain ⟨mem', htry, hst', hent⟩ := hst.push_room hC24 hnull halign hfit hring fuel src
          hsrc hsw (by have := hst.count_le; omega)
        obtain ⟨log, memF, hrun, hobs⟩ := ih mem' _ _ hst' hrest
        refine ⟨(.push (readBytes mem src size), .pushed CELL_OK) :: log, memF,
          queueCalls_cons _ _ _ _ _ _ _ _ _ _ (by simp only [queueCall, htry]) hrun, ?_⟩
        rw [List.map_cons, List.map_cons, fifoObs_push, if_neg (by rw [hlen]; exact hn), hobs,
          hent]
    | tryPop dst =>
      obtain ⟨hdst, hdr, hdring⟩ := hc
      by_cases hn : n = 0
      · have hbusy := hst.pop_empty hC24 hnull halign fuel dst hdst hn
        obtain ⟨log, memF, hrun, hobs⟩ := ih mem p n hst hrest
        refine ⟨(.pop, .popped CELL_SYNC_ERROR_BUSY []) :: log, memF,
          queueCalls_cons _ _ _ _ _ _ _ _ _ _ (by simp [queueCall, hbusy]) hrun, ?_⟩
        rw [List.map_cons, List.map_cons, hobs]
        subst hn
        rfl
      · obtain ⟨mem', htry, hst', hent⟩ := hst.pop_entry hC24 hnull halign hfit hring fuel dst
          hdst hdr hdring (by omega)
        obtain ⟨log, memF, hrun, hobs⟩ := ih mem' _ _ hst' hrest
        refine ⟨(.pop, .popped CELL_OK (readBytes mem' dst size)) :: log, memF,
          queueCalls_cons _ _ _ _ _ _ _ _ _ _ (by simp [queueCall, htry]) hrun, ?_⟩
        rw [List.map_cons, List.map_cons, hobs, hent]
        rfl
    | size =>
      obtain ⟨log, memF, hrun, hobs⟩ := ih mem p n hst hrest
      refine ⟨(.size, .size (Sum.inr n)) :: log, memF,
        queueCalls_cons _ _ _ _ _ _ _ _ _ _
          (by simp only [queueCall, hst.size_eq hC24 hnull halign]) hrun, ?_⟩
      rw [List.map_cons, List.map_cons, fifoObs_size, hlen, hobs]

/-- Counterexample to C15 as stated (capacity 4 or 3, entry size a multiple of
16, queue produced by `cellSyncQueueInitialize` at address 32).
(a) A try_pop whose destination (80) is slot 1 of the ring at 64: after
pushes of A (from 256) and B (from 272) it delivers A and overwrites B, and
the next try_pop delivers A again where the list queue delivers B.
(b) Entry size `2^31`, capacity 3: the third push goes to slot 0 (the `u32`
product `2 * 2^31` wraps), so the first try_pop delivers byte 2 of the third
source where the oldest entry begins with byte 0.
(c) A ring at the address of the queue record: the push overwrites the
record, and size returns 329223 where the list has 1 entry.
(d) A source at the address of the queue record: the bytes stored are those
of the record with the push in progress, not the source bytes at the call.
(e) A destination at the address of the queue record: the pop overwrites the
record, and size returns 329223 where the list has 1 entry. -/
theorem queue_fifo_refinement_fails :
    ((cellSyncQueueInitialize rampMemory 32 64 16 4).1 = CELL_OK ∧
      (queueCalls 1 32 16 (cellSyncQueueInitialize rampMemory 32 64 16 4).2
        [.tryPush 256, .tryPush 272, .tryPop 80, .tryPop 512]).toOption.map
          (fun r => r.1.map Prod.snd) =
        some [.pushed CELL_OK, .pushed CELL_OK,
          .popped CELL_OK (readBytes rampMemory 256 16),
          .popped CELL_OK (readBytes rampMemory 256 16)] ∧
      (queueCalls 1 32 16 (cellSyncQueueInitialize rampMemory 32 64 16 4).2
        [.tryPush 256, .tryPush 272, .tryPop 80, .tryPop 512]).toOption.map
          (fun r => fifoObs 4 [] (r.1.map Prod.fst)) =
        some [.pushed CELL_OK, .pushed CELL_OK,
          .popped CELL_OK (readBytes rampMemory 256 16),
          .popped CELL_OK (readBytes rampMemory 272 16)]) ∧
    ((cellSyncQueueInitialize rampMemory 32 (2147483648 + 64) 2147483648 3).1 = CELL_OK ∧
      rampMemory 4096 = 0 ∧
      ((cellSyncQueueTryPush 1
          (cellSyncQueueInitialize rampMemory 32 (2147483648 + 64) 2147483648 3).2
          32 4096).bind fun r1 =>
        (cellSyncQueueTryPush 1 r1.2 32 4097).bind fun r2 =>
        (cellSyncQueueTryPush 1 r2.2 32 4098).bind fun r3 =>
        (cellSyncQueueTryPop 1 r3.2 32 64).bind fun r4 =>
        .ok (r1.1, r2.1, r3.1, r4.1, r4.2 64)).toOption =
        some (CELL_OK, CELL_OK, CELL_OK, CELL_OK, 2)) ∧
    ((cellSyncQueueInitialize rampMemory 32 32 16 4).1 = CELL_OK ∧
      (queueCalls 1 32 16 (cellSyncQueueInitialize rampMemory 32 32 16 4).2
        [.tryPush 256, .size]).toOption.map (fun r => r.1.map Prod.snd) =
        some [.pushed CELL_OK, .size (Sum.inr 329223)] ∧
      (queueCalls 1 32 16 (cellSyncQueueInitialize rampMemory 32 32 16 4).2
        [.tryPush 256, .size]).toOption.map (fun r => fifoObs 4 [] (r.1.map Prod.fst)) =
        some [.pushed CELL_OK, .size (Sum.inr 1)]) ∧
    ((queueCalls 1 32 16 (cellSyncQueueInitialize rampMemory 32 64 16 4).2
        [.tryPush 32, .tryPop 512]).toOption.map (fun r => r.1.map Prod.snd) =
        some [.pushed CELL_OK,
          .popped CELL_OK [0, 0, 0, 1, 1, 0, 0, 1, 0, 0, 0, 16, 0, 0, 0, 4]] ∧
      (queueCalls 1 32 16 (cellSyncQueueInitialize rampMemory 32 64 16 4).2
        [.tryPush 32, .tryPop 512]).toOption.map (fun r => fifoObs 4 [] (r.1.map Prod.fst)) =
        some [.pushed CELL_OK,
          .popped CELL_OK [0, 0, 0, 0, 0, 0, 0, 0, 0, 0, 0, 16, 0, 0, 0, 4]]) ∧
    ((queueCalls 1 32 16 (cellSyncQueueInitialize rampMemory 32 64 16 4).2
        [.tryPush 256, .tryPush 272, .tryPop 32, .size]).toOption.map
          (fun r => r.1.map Prod.snd) =
        some [.pushed CELL_OK, .pushed CELL_OK,
          .popped CELL_OK (readBytes rampMemory 256 16), .size (Sum.inr 329223)] ∧
      (queueCalls 1 32 16 (cellSyncQueueInitialize rampMemory 32 64 16 4).2
        [.tryPush 256, .tryPush 272, .tryPop 32, .size]).toOption.map
          (fun r => fifoObs 4 [] (r.1.map Prod.fst)) =
        some [.pushed CELL_OK, .pushed CELL_OK,
          .popped CELL_OK (readBytes rampMemory 256 16), .size (Sum.inr 1)]) := by
  decide

/-- C15 (amended): for every capacity `C` with `1 <= C < 2^24` and every
entry size that is a multiple of 16, on a queue produced by
`cellSyncQueueInitialize` whose ring lies below `2^32` and does not overlap
the fields of the queue record, every sequence of uncontended
`cellSyncQueueTryPush` / `cellSyncQueueTryPop` / `cellSyncQueueSize` calls
whose buffers are non-null, whose sources do not overlap the queue word and
whose destinations overlap neither the record's fields nor the ring, returns,
and what the callers see is what the abstract bounded list queue shows for the
same requests: try_push is Busy iff the list has `C` entries and otherwise
appends the source bytes, try_pop is Busy iff the list is empty and otherwise
delivers the oldest entry and removes it, size is the list length. -/
theorem queue_fifo_refinement (fuel : Nat) (mem : Memory) (queue buffer_addr size C : Nat)
    (calls : List QueueCall)
    (hC : 1 ≤ C) (hC24 : C < 16777216) (hsize : size % 16 = 0)
    (hinit : (cellSyncQueueInitialize mem queue buffer_addr size C).1 = CELL_OK)
    (hfit : buffer_addr + C * size ≤ 4294967296)
    (hring : buffer_addr + C * size ≤ queue ∨ queue + 24 ≤ buffer_addr)
    (hcalls : ∀ c ∈ calls, QueueCall.valid queue buffer_addr size C c) :
    ∃ log memF,
      queueCalls (fuel + 1) queue size
        (cellSyncQueueInitialize mem queue buffer_addr size C).2 calls = .ok (log, memF) ∧
      log.map Prod.snd = fifoObs C [] (log.map Prod.fst) := by
  obtain ⟨hnull, hbuf, halign, hbalign, hdepth, -⟩ :=
    cellSyncQueueInitialize_inv mem queue buffer_addr size C hinit
  have hle : size ≤ C * size := Nat.le_mul_of_pos_left size hC
  have hs32 : size < 4294967296 := by
    by_cases h0 : size = 0
    · omega
    · have := hbuf h0
      omega
  obtain ⟨-, hrec, -⟩ := cellSyncQueueInitialize_ok mem queue buffer_addr size C hnull hbuf
    halign hbalign hdepth hsize hs32 (by omega) (by omega)
  exact queueCalls_refine fuel queue size C buffer_addr hC24 hnull halign hfit hring calls _ 0 0
    ⟨hrec, by omega, by omega⟩ hcalls

set_option maxRecDepth 8192 in
/-- Witness for C15: capacity 4, entry size 16, queue record at 32, ring at
64; push A, B, C, D (the 16-byte strings at 256, 272, 288, 304), size, a fifth
try_push, four pops and a fifth try_pop. -/
theorem queue_fifo_refinement_witness :
    (∃ log memF,
      queueCalls (0 + 1) 32 16 (cellSyncQueueInitialize rampMemory 32 64 16 4).2
        [.tryPush 256, .tryPush 272, .tryPush 288, .tryPush 304, .size, .tryPush 320,
          .tryPop 512, .tryPop 528, .tryPop 544, .tryPop 560, .tryPop 576] =
        .ok (log, memF) ∧
      log.map Prod.snd = fifoObs 4 [] (log.map Prod.fst)) ∧
    (queueCalls (0 + 1) 32 16 (cellSyncQueueInitialize rampMemory 32 64 16 4).2
        [.tryPush 256, .tryPush 272, .tryPush 288, .tryPush 304, .size, .tryPush 320,
          .tryPop 512, .tryPop 528, .tryPop 544, .tryPop 560, .tryPop 576]).toOption.map
        (fun r => r.1.map Prod.snd) =
      some [.pushed CELL_OK, .pushed CELL_OK, .pushed CELL_OK, .pushed CELL_OK,
        .size (Sum.inr 4), .pushed CELL_SYNC_ERROR_BUSY,
        .popped CELL_OK (readBytes rampMemory 256 16),
        .popped CELL_OK (readBytes rampMemory 272 16),
        .popped CELL_OK (readBytes rampMemory 288 16),
        .popped CELL_OK (readBytes rampMemory 304 16),
        .popped CELL_SYNC_ERROR_BUSY []] :=
  ⟨queue_fifo_refinement 0 rampMemory 32 64 16 4
      [.tryPush 256, .tryPush 272, .tryPush 288, .tryPush 304, .size, .tryPush 320,
        .tryPop 512, .tryPop 528, .tryPop 544, .tryPop 560, .tryPop 576]
      (by decide) (by decide) (by decide) (by decide) (by decide) (by decide) (by decide),
    by decide⟩

/-! ## Queue: clear and size -/

theorem queueClearClaimPop_open (IsStopped : Nat → Bool) (queue fuel polls : Nat)
    (mem : Memory) (h : CellSyncQueue.pop_busy (load64 mem queue) = 0) :
    queueClearClaimPop IsStopped queue (fuel + 1) polls mem =
      .ok (Sum.inr (polls, store64 mem queue
        (CellSyncQueue.clearPopUpdate (load64 mem queue)))) := by
  have h' : ¬ CellSyncQueue.m_v1 (load64 mem queue) >>> 24 ≠ 0 := not_not.mpr h
  rw [queueClearClaimPop]
  simp only [if_neg h', ICE64_fst, ICE64_hit, if_true]

theorem queueClearClaimPush_open (IsStopped : Nat → Bool) (queue fuel polls : Nat)
    (mem : Memory) (h : CellSyncQueue.push_busy (load64 mem queue) = 0) :
    queueClearClaimPush IsStopped queue (fuel + 1) polls mem =
      .ok (Sum.inr (polls, store64 mem queue
        (CellSyncQueue.clearPushUpdate (load64 mem queue)))) := by
  have h' : ¬ CellSyncQueue.m_v2 (load64 mem queue) >>> 24 ≠ 0 := not_not.mpr h
  rw [queueClearClaimPush]
  simp only [if_neg h', ICE64_fst, ICE64_hit, if_true]

theorem cellSyncQueueClear_idle (IsStopped : Nat → Bool) (fuel : Nat) (mem : Memory)
    (queue : Nat) (hnull : queue ≠ 0) (halign : queue % 32 = 0)
    (hpop : CellSyncQueue.pop_busy (load64 mem queue) = 0)
    (hpush : CellSyncQueue.push_busy (load64 mem queue) = 0) :
    cellSyncQueueClear IsStopped (fuel + 1) mem queue =
      .ok (CELL_OK, store64 (store64 (store64 mem queue
        (CellSyncQueue.clearPopUpdate (load64 mem queue))) queue
        (CellSyncQueue.clearPushUpdate (CellSyncQueue.clearPopUpdate (load64 mem queue))))
        queue 0) := by
  obtain ⟨-, hp, -, hn⟩ := CellSyncQueue.fields_lt (load64 mem queue)
  have hw1 : load64 (store64 mem queue (CellSyncQueue.clearPopUpdate (load64 mem queue)))
      queue = CellSyncQueue.clearPopUpdate (load64 mem queue) := by
    rw [load64_store64, CellSyncQueue.clearPopUpdate_pack _ hpop, hpush]
    exact Nat.mod_eq_of_lt (CellSyncQueue.pack_lt _ _ _ _ (by decide) hp (by decide) hn)
  have hb : CellSyncQueue.push_busy (load64 (store64 mem queue
      (CellSyncQueue.clearPopUpdate (load64 mem queue))) queue) = 0 := by
    rw [hw1, CellSyncQueue.clearPopUpdate_pack _ hpop, hpush]
    exact (CellSyncQueue.pack_fields _ _ _ _ (by decide) hp (by decide) hn).2.2.1
  unfold cellSyncQueueClear
  rw [if_neg hnull, if_neg (by omega : ¬ queue % 32 ≠ 0),
    queueClearClaimPop_open IsStopped queue fuel 0 mem hpop]
  dsimp only
  rw [queueClearClaimPush_open IsStopped queue fuel 0 _ hb, hw1]
  dsimp only
  rw [ICE64_sync]

/-- C22: at a non-null 32-aligned queue address, when both busy flags of the
word are clear, `cellSyncQueueClear` returns `CELL_OK` and leaves the whole
64-bit word equal to 0 (`push_position = 0`, `count = 0`, both busy flags 0)
and every byte outside the word as it was, so `m_size`, `m_depth` and
`m_addr` are unchanged and a following `cellSyncQueueSize` returns 0; and on
every memory `cellSyncQueueSize` returns exactly the `count` field (it makes
no store: its embedding returns no memory). -/
theorem cellSyncQueueClear_spec (IsStopped : Nat → Bool) (fuel : Nat) (mem : Memory)
    (queue : Nat) (hnull : queue ≠ 0) (halign : queue % 32 = 0)
    (hpop : CellSyncQueue.pop_busy (load64 mem queue) = 0)
    (hpush : CellSyncQueue.push_busy (load64 mem queue) = 0) :
    ∃ mem', cellSyncQueueClear IsStopped (fuel + 1) mem queue = .ok (CELL_OK, mem') ∧
      load64 mem' queue = 0 ∧
      (CellSyncQueue.pop_busy (load64 mem' queue) = 0 ∧
        CellSyncQueue.push_position (load64 mem' queue) = 0 ∧
        CellSyncQueue.push_busy (load64 mem' queue) = 0 ∧
        CellSyncQueue.count (load64 mem' queue) = 0) ∧
      (∀ x, x < queue ∨ queue + 8 ≤ x → mem' x = mem x) ∧
      CellSyncQueue.m_size mem' queue = CellSyncQueue.m_size mem queue ∧
      CellSyncQueue.m_depth mem' queue = CellSyncQueue.m_depth mem queue ∧
      CellSyncQueue.m_addr mem' queue = CellSyncQueue.m_addr mem queue ∧
      cellSyncQueueSize mem' queue = Sum.inr 0 ∧
      ∀ m, cellSyncQueueSize m queue = Sum.inr (CellSyncQueue.count (load64 m queue)) := by
  have hout : ∀ x, x < queue ∨ queue + 8 ≤ x →
      store64 (store64 (store64 mem queue
        (CellSyncQueue.clearPopUpdate (load64 mem queue))) queue
        (CellSyncQueue.clearPushUpdate (CellSyncQueue.clearPopUpdate (load64 mem queue))))
        queue 0 x = mem x := by
    intro x hx
    rw [store64_outside _ _ _ _ hx, store64_outside _ _ _ _ hx, store64_outside _ _ _ _ hx]
  have hword : load64 (store64 (store64 (store64 mem queue
        (CellSyncQueue.clearPopUpdate (load64 mem queue))) queue
        (CellSyncQueue.clearPushUpdate (CellSyncQueue.clearPopUpdate (load64 mem queue))))
        queue 0) queue = 0 := by
    rw [load64_store64]
  have hrec := (QueueRecord.of_mem mem queue).congr_fields
    (fun x h1 _ => hout x (by omega)) hword
  refine ⟨_, cellSyncQueueClear_idle IsStopped fuel mem queue hnull halign hpop hpush, hword,
    ?_, hout, hrec.size_eq, hrec.depth_eq, hrec.addr_eq, ?_,
    fun m => cellSyncQueueSize_count m queue hnull halign⟩
  · rw [hword]
    exact ⟨rfl, rfl, rfl, rfl⟩
  · rw [cellSyncQueueSize_count _ queue hnull halign, hword]
    rfl

/-- Witness for C22: capacity 4, entry size 16, ring at 64, three entries
stored (`push_position = 3`, `count = 3`). -/
theorem cellSyncQueueClear_spec_witness :
    ∃ mem', cellSyncQueueClear (fun _ => false) (0 + 1)
        (queueInState rampMemory 32 64 16 4 (CellSyncQueue.pack 0 3 0 3)) 32 =
          .ok (CELL_OK, mem') ∧
      load64 mem' 32 = 0 ∧ CellSyncQueue.m_size mem' 32 = 16 ∧
      CellSyncQueue.m_depth mem' 32 = 4 ∧ CellSyncQueue.m_addr mem' 32 = 64 ∧
      cellSyncQueueSize mem' 32 = Sum.inr 0 :=
  have h := cellSyncQueueClear_spec (fun _ => false) 0
    (queueInState rampMemory 32 64 16 4 (CellSyncQueue.pack 0 3 0 3)) 32
    (by decide) (by decide) (by decide) (by decide)
  match h with
  | ⟨mem', hc, hw, _, _, hs, hd, ha, hz, _⟩ =>
    ⟨mem', hc, hw, hs.trans (by decide), hd.trans (by decide), ha.trans (by decide), hz⟩

/-- C23: for `u32` arguments, `cellSyncQueueInitialize` succeeds iff the
queue address is non-null and a multiple of 32, `buffer_addr` is a multiple
of 16 and is non-null whenever the entry size is not 0, the entry size is a
multiple of 16 and the capacity is at least 1.  A failure is
`CELL_SYNC_ERROR_NULL_POINTER` (null queue, or null buffer with a non-zero
size), else `CELL_SYNC_ERROR_ALIGN`, else `CELL_SYNC_ERROR_INVAL`, and leaves
memory unchanged.  On success the word decodes to `push_position = 0`,
`pop_busy = 0`, `count = 0`, `push_busy = 0`, the fields `m_size`, `m_depth`
and `m_addr` hold the arguments, and no byte outside the first 24 bytes of
the record changes. -/
theorem cellSyncQueueInitialize_spec (mem : Memory) (queue buffer_addr size depth : Nat)
    (hs32 : size < 4294967296) (hd32 : depth < 4294967296)
    (hb32 : buffer_addr < 4294967296) :
    ((cellSyncQueueInitialize mem queue buffer_addr size depth).1 = CELL_OK ↔
      (queue ≠ 0 ∧ queue % 32 = 0 ∧ buffer_addr % 16 = 0 ∧ (size > 0 → buffer_addr ≠ 0) ∧
        size % 16 = 0 ∧ depth ≥ 1)) ∧
    (queue = 0 ∨ (size ≠ 0 ∧ buffer_addr = 0) →
      cellSyncQueueInitialize mem queue buffer_addr size depth =
        (CELL_SYNC_ERROR_NULL_POINTER, mem)) ∧
    (¬ (queue = 0 ∨ (size ≠ 0 ∧ buffer_addr = 0)) →
      (queue % 32 ≠ 0 ∨ buffer_addr % 16 ≠ 0) →
      cellSyncQueueInitialize mem queue buffer_addr size depth =
        (CELL_SYNC_ERROR_ALIGN, mem)) ∧
    (¬ (queue = 0 ∨ (size ≠ 0 ∧ buffer_addr = 0)) →
      ¬ (queue % 32 ≠ 0 ∨ buffer_addr % 16 ≠ 0) →
      (depth = 0 ∨ size % 16 ≠ 0) →
      cellSyncQueueInitialize mem queue buffer_addr size depth =
        (CELL_SYNC_ERROR_INVAL, mem)) ∧
    ((cellSyncQueueInitialize mem queue buffer_addr size depth).1 = CELL_OK →
      (CellSyncQueue.push_position
          (load64 (cellSyncQueueInitialize mem queue buffer_addr size depth).2 queue) = 0 ∧
        CellSyncQueue.pop_busy
          (load64 (cellSyncQueueInitialize mem queue buffer_addr size depth).2 queue) = 0 ∧
        CellSyncQueue.count
          (load64 (cellSyncQueueInitialize mem queue buffer_addr size depth).2 queue) = 0 ∧
        CellSyncQueue.push_busy
          (load64 (cellSyncQueueInitialize mem queue buffer_addr size depth).2 queue) = 0) ∧
      CellSyncQueue.m_size (cellSyncQueueInitialize mem queue buffer_addr size depth).2 queue =
        size ∧
      CellSyncQueue.m_depth (cellSyncQueueInitialize mem queue buffer_addr size depth).2 queue =
        depth ∧
      CellSyncQueue.m_addr (cellSyncQueueInitialize mem queue buffer_addr size depth).2 queue =
        buffer_addr ∧
      ∀ x, x < queue ∨ queue + 24 ≤ x →
        (cellSyncQueueInitialize mem queue buffer_addr size depth).2 x = mem x) := by
  have hnullc : queue = 0 ∨ (size ≠ 0 ∧ buffer_addr = 0) →
      cellSyncQueueInitialize mem queue buffer_addr size depth =
        (CELL_SYNC_ERROR_NULL_POINTER, mem) := by
    intro h
    unfold cellSyncQueueInitialize
    by_cases h1 : queue = 0
    · rw [if_pos h1]
    · rw [if_neg h1, if_pos (h.resolve_left h1)]
  have halignc : ¬ (queue = 0 ∨ (size ≠ 0 ∧ buffer_addr = 0)) →
      (queue % 32 ≠ 0 ∨ buffer_addr % 16 ≠ 0) →
      cellSyncQueueInitialize mem queue buffer_addr size depth =
        (CELL_SYNC_ERROR_ALIGN, mem) := by
    intro h1 h2
    unfold cellSyncQueueInitialize
    rw [if_neg (fun h => h1 (Or.inl h)), if_neg (fun h => h1 (Or.inr h)), if_pos h2]
  have hinvalc : ¬ (queue = 0 ∨ (size ≠ 0 ∧ buffer_addr = 0)) →
      ¬ (queue % 32 ≠ 0 ∨ buffer_addr % 16 ≠ 0) →
      (depth = 0 ∨ size % 16 ≠ 0) →
      cellSyncQueueInitialize mem queue buffer_addr size depth =
        (CELL_SYNC_ERROR_INVAL, mem) := by
    intro h1 h2 h3
    unfold cellSyncQueueInitialize
    rw [if_neg (fun h => h1 (Or.inl h)), if_neg (fun h => h1 (Or.inr h)), if_neg h2, if_pos h3]
  have hok : (cellSyncQueueInitialize mem queue buffer_addr size depth).1 = CELL_OK →
      (queue ≠ 0 ∧ queue % 32 = 0 ∧ buffer_addr % 16 = 0 ∧ (size > 0 → buffer_addr ≠ 0) ∧
        size % 16 = 0 ∧ depth ≥ 1) := by
    intro h
    obtain ⟨a, b, c, d, e, f⟩ := cellSyncQueueInitialize_inv mem queue buffer_addr size depth h
    exact ⟨a, c, d, fun hp => b (by omega), f, by omega⟩
  refine ⟨⟨hok, ?_⟩, hnullc, halignc, hinvalc, ?_⟩
  · rintro ⟨a, c, d, b, f, e⟩
    exact (cellSyncQueueInitialize_ok mem queue buffer_addr size depth a
      (fun hp => b (by omega)) c d (by omega) f hs32 hd32 (by omega)).1
  · intro h
    obtain ⟨a, c, d, b, f, e⟩ := hok h
    obtain ⟨-, hrec, hframe⟩ := cellSyncQueueInitialize_ok mem queue buffer_addr size depth a
      (fun hp => b (by omega)) c d (by omega) f hs32 hd32 (by omega)
    refine ⟨?_, hrec.size_eq, hrec.depth_eq, hrec.addr_eq, hframe⟩
    rw [hrec.word]
    exact ⟨rfl, rfl, rfl, rfl⟩

/-- Witness for C23: a queue record at 32 with the ring at 64, entry size 16
and capacity 4. -/
theorem cellSyncQueueInitialize_spec_witness :
    (cellSyncQueueInitialize rampMemory 32 64 16 4).1 = CELL_OK ∧
    CellSyncQueue.m_size (cellSyncQueueInitialize rampMemory 32 64 16 4).2 32 = 16 ∧
    CellSyncQueue.m_depth (cellSyncQueueInitialize rampMemory 32 64 16 4).2 32 = 4 ∧
    CellSyncQueue.m_addr (cellSyncQueueInitialize rampMemory 32 64 16 4).2 32 = 64 :=
  have h := cellSyncQueueInitialize_spec rampMemory 32 64 16 4 (by decide) (by decide)
    (by decide)
  have hok : (cellSyncQueueInitialize rampMemory 32 64 16 4).1 = CELL_OK :=
    h.1.mpr ⟨by decide, by decide, by decide, fun _ => by decide, by decide, by decide⟩
  ⟨hok, (h.2.2.2.2 hok).2.1, (h.2.2.2.2 hok).2.2.1, (h.2.2.2.2 hok).2.2.2.1⟩

/-- Counterexample to C24 as stated: with a non-null but misaligned
primitive address and a null buffer address, `cellSyncRwmInitialize` and
`cellSyncQueueInitialize` (entry size not 0) return
`CELL_SYNC_ERROR_NULL_POINTER`, where the claim, which names the buffer
check only for read/write and push/pop/peek, gives `CELL_SYNC_ERROR_ALIGN`. -/
theorem address_checks_initialize_null_buffer :
    (8 ≠ 0 ∧ 8 % 16 ≠ 0 ∧
      cellSyncRwmInitialize (fun _ => 0) 8 0 128 =
        (CELL_SYNC_ERROR_NULL_POINTER, fun _ => 0)) ∧
    (8 ≠ 0 ∧ 8 % 32 ≠ 0 ∧
      cellSyncQueueInitialize (fun _ => 0) 8 0 16 4 =
        (CELL_SYNC_ERROR_NULL_POINTER, fun _ => 0)) :=
  ⟨⟨by decide, by decide, rfl⟩, ⟨by decide, by decide, rfl⟩⟩

/-- C24 (amended): every Mutex, Barrier, Mediator and Queue call returns
`CELL_SYNC_ERROR_NULL_POINTER` when the primitive's address is 0, and also
when the buffer address is 0 for the Mediator calls initialize, read,
try_read, write, try_write, for the Queue calls push, pop, peek and their
try variants, and for Queue initialize with a non-zero entry size; otherwise
it returns `CELL_SYNC_ERROR_ALIGN` when the primitive's address is not a
multiple of 4 (Mutex, Barrier), 16 (Mediator) or 32 (Queue).  In both cases
memory is returned unchanged (`cellSyncQueueSize` returns no memory). -/
theorem address_checks (IsStopped : Nat → Bool) (fuel : Nat) (mem : Memory)
    (addr buffer_addr size depth total_count : Nat) :
    ((addr = 0 → cellSyncMutexInitialize mem addr = (CELL_SYNC_ERROR_NULL_POINTER, mem)) ∧
      (addr ≠ 0 → addr % 4 ≠ 0 →
        cellSyncMutexInitialize mem addr = (CELL_SYNC_ERROR_ALIGN, mem))) ∧
    ((addr = 0 → cellSyncMutexLock IsStopped fuel mem addr = some (CELL_SYNC_ERROR_NULL_POINTER, mem)) ∧
      (addr ≠ 0 → addr % 4 ≠ 0 →
        cellSyncMutexLock IsStopped fuel mem addr = some (CELL_SYNC_ERROR_ALIGN, mem))) ∧
    ((addr = 0 → cellSyncMutexTryLock fuel mem addr = some (CELL_SYNC_ERROR_NULL_POINTER, mem)) ∧
      (addr ≠ 0 → addr % 4 ≠ 0 →
        cellSyncMutexTryLock fuel mem addr = some (CELL_SYNC_ERROR_ALIGN, mem))) ∧
    ((addr = 0 → cellSyncMutexUnlock fuel mem addr = some (CELL_SYNC_ERROR_NULL_POINTER, mem)) ∧
      (addr ≠ 0 → addr % 4 ≠ 0 →
        cellSyncMutexUnlock fuel mem addr = some (CELL_SYNC_ERROR_ALIGN, mem))) ∧
    ((addr = 0 → cellSyncBarrierInitialize mem addr total_count = (CELL_SYNC_ERROR_NULL_POINTER, mem)) ∧
      (addr ≠ 0 → addr % 4 ≠ 0 →
        cellSyncBarrierInitialize mem addr total_count = (CELL_SYNC_ERROR_ALIGN, mem))) ∧
    ((addr = 0 → cellSyncBarrierNotify IsStopped fuel mem addr = some (CELL_SYNC_ERROR_NULL_POINTER, mem)) ∧
      (addr ≠ 0 → addr % 4 ≠ 0 →
        cellSyncBarrierNotify IsStopped fuel mem addr = some (CELL_SYNC_ERROR_ALIGN, mem))) ∧
    ((addr = 0 → cellSyncBarrierTryNotify fuel mem addr = some (CELL_SYNC_ERROR_NULL_POINTER, mem)) ∧
      (addr ≠ 0 → addr % 4 ≠ 0 →
        cellSyncBarrierTryNotify fuel mem addr = some (CELL_SYNC_ERROR_ALIGN, mem))) ∧
    ((addr = 0 → cellSyncBarrierWait IsStopped fuel mem addr = some (CELL_SYNC_ERROR_NULL_POINTER, mem)) ∧
      (addr ≠ 0 → addr % 4 ≠ 0 →
        cellSyncBarrierWait IsStopped fuel mem addr = some (CELL_SYNC_ERROR_ALIGN, mem))) ∧
    ((addr = 0 → cellSyncBarrierTryWait fuel mem addr = some (CELL_SYNC_ERROR_NULL_POINTER, mem)) ∧
      (addr ≠ 0 → addr % 4 ≠ 0 →
        cellSyncBarrierTryWait fuel mem addr = some (CELL_SYNC_ERROR_ALIGN, mem))) ∧
    ((addr = 0 ∨ buffer_addr = 0 →
        cellSyncRwmInitialize mem addr buffer_addr size = (CELL_SYNC_ERROR_NULL_POINTER, mem)) ∧
      (addr ≠ 0 → buffer_addr ≠ 0 → addr % 16 ≠ 0 →
        cellSyncRwmInitialize mem addr buffer_addr size = (CELL_SYNC_ERROR_ALIGN, mem))) ∧
    ((addr = 0 ∨ buffer_addr = 0 →
        cellSyncRwmRead IsStopped fuel mem addr buffer_addr = some (CELL_SYNC_ERROR_NULL_POINTER, mem)) ∧
      (addr ≠ 0 → buffer_addr ≠ 0 → addr % 16 ≠ 0 →
        cellSyncRwmRead IsStopped fuel mem addr buffer_addr = some (CELL_SYNC_ERROR_ALIGN, mem))) ∧
    ((addr = 0 ∨ buffer_addr = 0 →
        cellSyncRwmTryRead fuel mem addr buffer_addr = some (CELL_SYNC_ERROR_NULL_POINTER, mem)) ∧
      (addr ≠ 0 → buffer_addr ≠ 0 → addr % 16 ≠ 0 →
        cellSyncRwmTryRead fuel mem addr buffer_addr = some (CELL_SYNC_ERROR_ALIGN, mem))) ∧
    ((addr = 0 ∨ buffer_addr = 0 →
        cellSyncRwmWrite IsStopped fuel mem addr buffer_addr = some (CELL_SYNC_ERROR_NULL_POINTER, mem)) ∧
      (addr ≠ 0 → buffer_addr ≠ 0 → addr % 16 ≠ 0 →
        cellSyncRwmWrite IsStopped fuel mem addr buffer_addr = some (CELL_SYNC_ERROR_ALIGN, mem))) ∧
    ((addr = 0 ∨ buffer_addr = 0 →
        cellSyncRwmTryWrite mem addr buffer_addr = (CELL_SYNC_ERROR_NULL_POINTER, mem)) ∧
      (addr ≠ 0 → buffer_addr ≠ 0 → addr % 16 ≠ 0 →
        cellSyncRwmTryWrite mem addr buffer_addr = (CELL_SYNC_ERROR_ALIGN, mem))) ∧
    ((addr = 0 ∨ (size ≠ 0 ∧ buffer_addr = 0) →
        cellSyncQueueInitialize mem addr buffer_addr size depth = (CELL_SYNC_ERROR_NULL_POINTER, mem)) ∧
      (addr ≠ 0 → ¬ (size ≠ 0 ∧ buffer_addr = 0) → addr % 32 ≠ 0 →
        cellSyncQueueInitialize mem addr buffer_addr size depth = (CELL_SYNC_ERROR_ALIGN, mem))) ∧
    ((addr = 0 ∨ buffer_addr = 0 →
        cellSyncQueuePush IsStopped fuel mem addr buffer_addr = .ok (CELL_SYNC_ERROR_NULL_POINTER, mem)) ∧
      (addr ≠ 0 → buffer_addr ≠ 0 → addr % 32 ≠ 0 →
        cellSyncQueuePush IsStopped fuel mem addr buffer_addr = .ok (CELL_SYNC_ERROR_ALIGN, mem))) ∧
    ((addr = 0 ∨ buffer_addr = 0 →
        cellSyncQueueTryPush fuel mem addr buffer_addr = .ok (CELL_SYNC_ERROR_NULL_POINTER, mem)) ∧
      (addr ≠ 0 → buffer_addr ≠ 0 → addr % 32 ≠ 0 →
        cellSyncQueueTryPush fuel mem addr buffer_addr = .ok (CELL_SYNC_ERROR_ALIGN, mem))) ∧
    ((addr = 0 ∨ buffer_addr = 0 →
        cellSyncQueuePop IsStopped fuel mem addr buffer_addr = .ok (CELL_SYNC_ERROR_NULL_POINTER, mem)) ∧
      (addr ≠ 0 → buffer_addr ≠ 0 → addr % 32 ≠ 0 →
        cellSyncQueuePop IsStopped fuel mem addr buffer_addr = .ok (CELL_SYNC_ERROR_ALIGN, mem))) ∧
    ((addr = 0 ∨ buffer_addr = 0 →
        cellSyncQueueTryPop fuel mem addr buffer_addr = .ok (CELL_SYNC_ERROR_NULL_POINTER, mem)) ∧
      (addr ≠ 0 → buffer_addr ≠ 0 → addr % 32 ≠ 0 →
        cellSyncQueueTryPop fuel mem addr buffer_addr = .ok (CELL_SYNC_ERROR_ALIGN, mem))) ∧
    ((addr = 0 ∨ buffer_addr = 0 →
        cellSyncQueuePeek IsStopped fuel mem addr buffer_addr = .ok (CELL_SYNC_ERROR_NULL_POINTER, mem)) ∧
      (addr ≠ 0 → buffer_addr ≠ 0 → addr % 32 ≠ 0 →
        cellSyncQueuePeek IsStopped fuel mem addr buffer_addr = .ok (CELL_SYNC_ERROR_ALIGN, mem))) ∧
    ((addr = 0 ∨ buffer_addr = 0 →
        cellSyncQueueTryPeek fuel mem addr buffer_addr = .ok (CELL_SYNC_ERROR_NULL_POINTER, mem)) ∧
      (addr ≠ 0 → buffer_addr ≠ 0 → addr % 32 ≠ 0 →
        cellSyncQueueTryPeek fuel mem addr buffer_addr = .ok (CELL_SYNC_ERROR_ALIGN, mem))) ∧
    ((addr = 0 → cellSyncQueueSize mem addr = Sum.inl CELL_SYNC_ERROR_NULL_POINTER) ∧
      (addr ≠ 0 → addr % 32 ≠ 0 →
        cellSyncQueueSize mem addr = Sum.inl CELL_SYNC_ERROR_ALIGN)) ∧
    ((addr = 0 → cellSyncQueueClear IsStopped fuel mem addr = .ok (CELL_SYNC_ERROR_NULL_POINTER, mem)) ∧
      (addr ≠ 0 → addr % 32 ≠ 0 →
        cellSyncQueueClear IsStopped fuel mem addr = .ok (CELL_SYNC_ERROR_ALIGN, mem))) := by
  refine ⟨⟨?_, ?_⟩, ⟨?_, ?_⟩, ⟨?_, ?_⟩, ⟨?_, ?_⟩, ⟨?_, ?_⟩, ⟨?_, ?_⟩, ⟨?_, ?_⟩, ⟨?_, ?_⟩, ⟨?_, ?_⟩, ⟨?_, ?_⟩, ⟨?_, ?_⟩, ⟨?_, ?_⟩, ⟨?_, ?_⟩, ⟨?_, ?_⟩, ⟨?_, ?_⟩, ⟨?_, ?_⟩, ⟨?_, ?_⟩, ⟨?_, ?_⟩, ⟨?_, ?_⟩, ⟨?_, ?_⟩, ⟨?_, ?_⟩, ⟨?_, ?_⟩, ⟨?_, ?_⟩⟩
  · intro h
    unfold cellSyncMutexInitialize
    rw [if_pos h]
  · intro h1 h2
    unfold cellSyncMutexInitialize
    rw [if_neg h1, if_pos h2]
  · intro h
    unfold cellSyncMutexLock
    rw [if_pos h]
  · intro h1 h2
    unfold cellSyncMutexLock
    rw [if_neg h1, if_pos h2]
  · intro h
    unfold cellSyncMutexTryLock
    rw [if_pos h]
  · intro h1 h2
    unfold cellSyncMutexTryLock
    rw [if_neg h1, if_pos h2]
  · intro h
    unfold cellSyncMutexUnlock
    rw [if_pos h]
  · intro h1 h2
    unfold cellSyncMutexUnlock
    rw [if_neg h1, if_pos h2]
  · intro h
    unfold cellSyncBarrierInitialize
    rw [if_pos h]
  · intro h1 h2
    unfold cellSyncBarrierInitialize
    rw [if_neg h1, if_pos h2]
  · intro h
    unfold cellSyncBarrierNotify
    rw [if_pos h]
  · intro h1 h2
    unfold cellSyncBarrierNotify
    rw [if_neg h1, if_pos h2]
  · intro h
    unfold cellSyncBarrierTryNotify
    rw [if_pos h]
  · intro h1 h2
    unfold cellSyncBarrierTryNotify
    rw [if_neg h1, if_pos h2]
  · intro h
    unfold cellSyncBarrierWait
    rw [if_pos h]
  · intro h1 h2
    unfold cellSyncBarrierWait
    rw [if_neg h1, if_pos h2]
  · intro h
    unfold cellSyncBarrierTryWait
    rw [if_pos h]
  · intro h1 h2
    unfold cellSyncBarrierTryWait
    rw [if_neg h1, if_pos h2]
  · intro h
    unfold cellSyncRwmInitialize
    rw [if_pos h]
  · intro h1 h2 h3
    unfold cellSyncRwmInitialize
    rw [if_neg (by omega : ¬ (addr = 0 ∨ buffer_addr = 0)), if_pos (Or.inl h3)]
  · intro h
    unfold cellSyncRwmRead
    rw [if_pos h]
  · intro h1 h2 h3
    unfold cellSyncRwmRead
    rw [if_neg (by omega : ¬ (addr = 0 ∨ buffer_addr = 0)), if_pos h3]
  · intro h
    unfold cellSyncRwmTryRead
    rw [if_pos h]
  · intro h1 h2 h3
    unfold cellSyncRwmTryRead
    rw [if_neg (by omega : ¬ (addr = 0 ∨ buffer_addr = 0)), if_pos h3]
  · intro h
    unfold cellSyncRwmWrite
    rw [if_pos h]
  · intro h1 h2 h3
    unfold cellSyncRwmWrite
    rw [if_neg (by omega : ¬ (addr = 0 ∨ buffer_addr = 0)), if_pos h3]
  · intro h
    unfold cellSyncRwmTryWrite
    rw [if_pos h]
  · intro h1 h2 h3
    unfold cellSyncRwmTryWrite
    rw [if_neg (by omega : ¬ (addr = 0 ∨ buffer_addr = 0)), if_pos h3]
  · intro h
    unfold cellSyncQueueInitialize
    by_cases h0 : addr = 0
    · rw [if_pos h0]
    · rw [if_neg h0, if_pos (h.resolve_left h0)]
  · intro h1 h2 h3
    unfold cellSyncQueueInitialize
    rw [if_neg h1, if_neg h2, if_pos (Or.inl h3)]
  · intro h
    unfold cellSyncQueuePush
    rw [if_pos h]
  · intro h1 h2 h3
    unfold cellSyncQueuePush
    rw [if_neg (by omega : ¬ (addr = 0 ∨ buffer_addr = 0)), if_pos h3]
  · intro h
    unfold cellSyncQueueTryPush
    rw [if_pos h]
  · intro h1 h2 h3
    unfold cellSyncQueueTryPush
    rw [if_neg (by omega : ¬ (addr = 0 ∨ buffer_addr = 0)), if_pos h3]
  · intro h
    unfold cellSyncQueuePop
    rw [if_pos h]
  · intro h1 h2 h3
    unfold cellSyncQueuePop
    rw [if_neg (by omega : ¬ (addr = 0 ∨ buffer_addr = 0)), if_pos h3]
  · intro h
    unfold cellSyncQueueTryPop
    rw [if_pos h]
  · intro h1 h2 h3
    unfold cellSyncQueueTryPop
    rw [if_neg (by omega : ¬ (addr = 0 ∨ buffer_addr = 0)), if_pos h3]
  · intro h
    unfold cellSyncQueuePeek
    rw [if_pos h]
  · intro h1 h2 h3
    unfold cellSyncQueuePeek
    rw [if_neg (by omega : ¬ (addr = 0 ∨ buffer_addr = 0)), if_pos h3]
  · intro h
    unfold cellSyncQueueTryPeek
    rw [if_pos h]
  · intro h1 h2 h3
    unfold cellSyncQueueTryPeek
    rw [if_neg (by omega : ¬ (addr = 0 ∨ buffer_addr = 0)), if_pos h3]
  · intro h
    unfold cellSyncQueueSize
    rw [if_pos h]
  · intro h1 h2
    unfold cellSyncQueueSize
    rw [if_neg h1, if_pos h2]
  · intro h
    unfold cellSyncQueueClear
    rw [if_pos h]
  · intro h1 h2
    unfold cellSyncQueueClear
    rw [if_neg h1, if_pos h2]

/-! ## Cancellation while a guard keeps a call waiting -/

theorem barrierNotifyLoop_stopped (IsStopped : Nat → Bool) (barrier : Nat) (mem : Memory)
    (n : Nat) (hstop : IsStopped n = true)
    (hv : toS16 (CellSyncBarrier.m_value (load32 mem barrier)) < 0) :
    ∀ fuel polls, polls ≤ n → n - polls < fuel →
      barrierNotifyLoop IsStopped barrier fuel polls mem = some (CELL_OK, mem) := by
  intro fuel
  induction fuel with
  | zero => intro polls _ h; omega
  | succ k ih =>
    intro polls hle hlt
    rw [barrierNotifyLoop]
    simp only [if_pos hv]
    by_cases hp : IsStopped polls = true
    · rw [if_pos hp]
    · rw [if_neg hp]
      have hpn : polls ≠ n := fun e => hp (e ▸ hstop)
      exact ih (polls + 1) (by omega) (by omega)

theorem barrierWaitLoop_stopped (IsStopped : Nat → Bool) (barrier : Nat) (mem : Memory)
    (n : Nat) (hstop : IsStopped n = true)
    (hv : toS16 (CellSyncBarrier.m_value (load32 mem barrier)) ≥ 0) :
    ∀ fuel polls, polls ≤ n → n - polls < fuel →
      barrierWaitLoop IsStopped barrier fuel polls mem = some (CELL_OK, mem) := by
  intro fuel
  induction fuel with
  | zero => intro polls _ h; omega
  | succ k ih =>
    intro polls hle hlt
    rw [barrierWaitLoop]
    simp only [if_pos hv]
    by_cases hp : IsStopped polls = true
    · rw [if_pos hp]
    · rw [if_neg hp]
      have hpn : polls ≠ n := fun e => hp (e ▸ hstop)
      exact ih (polls + 1) (by omega) (by omega)

theorem rwmReadAcquire_stopped (IsStopped : Nat → Bool) (rwm : Nat) (mem : Memory)
    (n : Nat) (hstop : IsStopped n = true)
    (hw : CellSyncRwm.m_writers (load32 mem rwm) ≠ 0) :
    ∀ fuel polls, polls ≤ n → n - polls < fuel →
      rwmReadAcquire IsStopped rwm fuel polls mem = some (Sum.inl CELL_OK) := by
  intro fuel
  induction fuel with
  | zero => intro polls _ h; omega
  | succ k ih =>
    intro polls hle hlt
    rw [rwmReadAcquire]
    simp only [if_pos hw]
    by_cases hp : IsStopped polls = true
    · rw [if_pos hp]
    · rw [if_neg hp]
      have hpn : polls ≠ n := fun e => hp (e ▸ hstop)
      exact ih (polls + 1) (by omega) (by omega)

theorem rwmWriteAcquire_stopped (IsStopped : Nat → Bool) (rwm : Nat) (mem : Memory)
    (n : Nat) (hstop : IsStopped n = true)
    (hw : CellSyncRwm.m_writers (load32 mem rwm) ≠ 0) :
    ∀ fuel polls, polls ≤ n → n - polls < fuel →
      rwmWriteAcquire IsStopped rwm fuel polls mem = some (Sum.inl CELL_OK) := by
  intro fuel
  induction fuel with
  | zero => intro polls _ h; omega
  | succ k ih =>
    intro polls hle hlt
    rw [rwmWriteAcquire]
    simp only [if_pos hw]
    by_cases hp : IsStopped polls = true
    · rw [if_pos hp]
    · rw [if_neg hp]
      have hpn : polls ≠ n := fun e => hp (e ▸ hstop)
      exact ih (polls + 1) (by omega) (by omega)

theorem queuePushClaim_stopped (IsStopped : Nat → Bool) (queue depth : Nat) (mem : Memory)
    (n : Nat) (hstop : IsStopped n = true)
    (hb : CellSyncQueue.pushBlocked (CellSyncQueue.m_v1 (load64 mem queue))
      (CellSyncQueue.m_v2 (load64 mem queue)) depth) :
    ∀ fuel polls, polls ≤ n → n - polls < fuel →
      queuePushClaim IsStopped queue depth fuel polls mem = .ok (Sum.inl CELL_OK) := by
  intro fuel
  induction fuel with
  | zero => intro polls _ h; omega
  | succ k ih =>
    intro polls hle hlt
    rw [queuePushClaim]
    simp only [if_pos hb]
    by_cases hp : IsStopped polls = true
    · rw [if_pos hp]
    · rw [if_neg hp]
      have hpn : polls ≠ n := fun e => hp (e ▸ hstop)
      exact ih (polls + 1) (by omega) (by omega)

theorem queuePopClaim_stopped (update : Nat → Nat → Option (Nat × Nat))
    (IsStopped : Nat → Bool) (queue depth : Nat) (mem : Memory)
    (n : Nat) (hstop : IsStopped n = true)
    (hb : CellSyncQueue.popBlocked (CellSyncQueue.m_v1 (load64 mem queue))
      (CellSyncQueue.m_v2 (load64 mem queue))) :
    ∀ fuel polls, polls ≤ n → n - polls < fuel →
      queuePopClaim update IsStopped queue depth fuel polls mem = .ok (Sum.inl CELL_OK) := by
  intro fuel
  induction fuel with
  | zero => intro polls _ h; omega
  | succ k ih =>
    intro polls hle hlt
    rw [queuePopClaim]
    simp only [if_pos hb]
    by_cases hp : IsStopped polls = true
    · rw [if_pos hp]
    · rw [if_neg hp]
      have hpn : polls ≠ n := fun e => hp (e ▸ hstop)
      exact ih (polls + 1) (by omega) (by omega)

/-- C25: let the emulator be seen stopped at the `n`-th poll of a call that
has fuel for more than `n` polls.  At valid addresses, when the guard of the
call does not hold on the word (barrier notify: `value < 0`; barrier wait:
`value >= 0`; mediator read and mediator write: `m_writers != 0`; queue push:
`push_busy != 0` or `count + pop_busy >= depth`; queue pop and peek:
`pop_busy != 0` or `count <= push_busy`), the call returns `CELL_OK` and the
whole memory (the word, the payload or ring, the caller's buffer) is as it
was. -/
theorem cancellation_returns_success (IsStopped : Nat → Bool) (fuel n : Nat) (mem : Memory)
    (addr buffer_addr : Nat) (hstop : IsStopped n = true) (hfuel : n < fuel) :
    (addr ≠ 0 → addr % 4 = 0 →
      toS16 (CellSyncBarrier.m_value (load32 mem addr)) < 0 →
      cellSyncBarrierNotify IsStopped fuel mem addr = some (CELL_OK, mem)) ∧
    (addr ≠ 0 → addr % 4 = 0 →
      toS16 (CellSyncBarrier.m_value (load32 mem addr)) ≥ 0 →
      cellSyncBarrierWait IsStopped fuel mem addr = some (CELL_OK, mem)) ∧
    (addr ≠ 0 → buffer_addr ≠ 0 → addr % 16 = 0 →
      CellSyncRwm.m_writers (load32 mem addr) ≠ 0 →
      cellSyncRwmRead IsStopped fuel mem addr buffer_addr = some (CELL_OK, mem)) ∧
    (addr ≠ 0 → buffer_addr ≠ 0 → addr % 16 = 0 →
      CellSyncRwm.m_writers (load32 mem addr) ≠ 0 →
      cellSyncRwmWrite IsStopped fuel mem addr buffer_addr = some (CELL_OK, mem)) ∧
    (addr ≠ 0 → buffer_addr ≠ 0 → addr % 32 = 0 →
      (CellSyncQueue.push_busy (load64 mem addr) ≠ 0 ∨
        CellSyncQueue.count (load64 mem addr) + CellSyncQueue.pop_busy (load64 mem addr) ≥
          CellSyncQueue.m_depth mem addr) →
      cellSyncQueuePush IsStopped fuel mem addr buffer_addr = .ok (CELL_OK, mem)) ∧
    (addr ≠ 0 → buffer_addr ≠ 0 → addr % 32 = 0 →
      (CellSyncQueue.pop_busy (load64 mem addr) ≠ 0 ∨
        CellSyncQueue.count (load64 mem addr) ≤ CellSyncQueue.push_busy (load64 mem addr)) →
      cellSyncQueuePop IsStopped fuel mem addr buffer_addr = .ok (CELL_OK, mem) ∧
      cellSyncQueuePeek IsStopped fuel mem addr buffer_addr = .ok (CELL_OK, mem)) := by
  refine ⟨?_, ?_, ?_, ?_, ?_, ?_⟩
  · intro h1 h2 hv
    unfold cellSyncBarrierNotify
    rw [if_neg h1, if_neg (by omega : ¬ addr % 4 ≠ 0)]
    simp only [ICE_sync]
    exact barrierNotifyLoop_stopped IsStopped addr mem n hstop hv fuel 0 (by omega) (by omega)
  · intro h1 h2 hv
    unfold cellSyncBarrierWait
    rw [if_neg h1, if_neg (by omega : ¬ addr % 4 ≠ 0)]
    simp only [ICE_sync]
    exact barrierWaitLoop_stopped IsStopped addr mem n hstop hv fuel 0 (by omega) (by omega)
  · intro h1 h2 h3 hw
    unfold cellSyncRwmRead
    rw [if_neg (by omega : ¬ (addr = 0 ∨ buffer_addr = 0)),
      if_neg (by omega : ¬ addr % 16 ≠ 0),
      rwmReadAcquire_stopped IsStopped addr mem n hstop hw fuel 0 (by omega) (by omega)]
  · intro h1 h2 h3 hw
    unfold cellSyncRwmWrite
    rw [if_neg (by omega : ¬ (addr = 0 ∨ buffer_addr = 0)),
      if_neg (by omega : ¬ addr % 16 ≠ 0),
      rwmWriteAcquire_stopped IsStopped addr mem n hstop hw fuel 0 (by omega) (by omega)]
  · intro h1 h2 h3 hb
    unfold cellSyncQueuePush
    rw [if_neg (by omega : ¬ (addr = 0 ∨ buffer_addr = 0)),
      if_neg (by omega : ¬ addr % 32 ≠ 0)]
    dsimp only
    rw [queuePushClaim_stopped IsStopped addr _ mem n hstop
      ((CellSyncQueue.pushBlocked_iff _ _).mpr hb) fuel 0 (by omega) (by omega)]
  · intro h1 h2 h3 hb
    constructor
    · unfold cellSyncQueuePop
      rw [if_neg (by omega : ¬ (addr = 0 ∨ buffer_addr = 0)),
        if_neg (by omega : ¬ addr % 32 ≠ 0)]
      dsimp only
      rw [queuePopClaim_stopped _ IsStopped addr _ mem n hstop
        ((CellSyncQueue.popBlocked_iff _).mpr hb) fuel 0 (by omega) (by omega)]
    · unfold cellSyncQueuePeek
      rw [if_neg (by omega : ¬ (addr = 0 ∨ buffer_addr = 0)),
        if_neg (by omega : ¬ addr % 32 ≠ 0)]
      dsimp only
      rw [queuePopClaim_stopped _ IsStopped addr _ mem n hstop
        ((CellSyncQueue.popBlocked_iff _).mpr hb) fuel 0 (by omega) (by omega)]

/-- Witness for C25: the stop is seen at the third poll (`n = 2`) of calls
with fuel 5.  On the zeroed memory the barrier word has `value = 0` and the
queue at 32 is empty; on the memory whose word at 32 is `0x80010001` the
barrier gate is set and the mediator has `m_writers = 1`. -/
theorem cancellation_returns_success_witness :
    (cellSyncBarrierWait (fun i => i == 2) 5 (fun _ => 0) 32 = some (CELL_OK, fun _ => 0) ∧
      cellSyncQueuePush (fun i => i == 2) 5 (fun _ => 0) 32 512 = .ok (CELL_OK, fun _ => 0) ∧
      cellSyncQueuePop (fun i => i == 2) 5 (fun _ => 0) 32 512 = .ok (CELL_OK, fun _ => 0) ∧
      cellSyncQueuePeek (fun i => i == 2) 5 (fun _ => 0) 32 512 =
        .ok (CELL_OK, fun _ => 0)) ∧
    (cellSyncBarrierNotify (fun i => i == 2) 5 (store32 (fun _ => 0) 32 0x80010001) 32 =
        some (CELL_OK, store32 (fun _ => 0) 32 0x80010001) ∧
      cellSyncRwmRead (fun i => i == 2) 5 (store32 (fun _ => 0) 32 0x80010001) 32 512 =
        some (CELL_OK, store32 (fun _ => 0) 32 0x80010001) ∧
      cellSyncRwmWrite (fun i => i == 2) 5 (store32 (fun _ => 0) 32 0x80010001) 32 512 =
        some (CELL_OK, store32 (fun _ => 0) 32 0x80010001)) :=
  have h0 := cancellation_returns_success (fun i => i == 2) 5 2 (fun _ => 0) 32 512 rfl
    (by decide)
  have h1 := cancellation_returns_success (fun i => i == 2) 5 2
    (store32 (fun _ => 0) 32 0x80010001) 32 512 rfl (by decide)
  ⟨⟨h0.2.1 (by decide) (by decide) (by decide),
      h0.2.2.2.2.1 (by decide) (by decide) (by decide) (by decide),
      h0.2.2.2.2.2 (by decide) (by decide) (by decide) (by decide)⟩,
    ⟨h1.1 (by decide) (by decide) (by decide),
      h1.2.2.1 (by decide) (by decide) (by decide) (by decide),
      h1.2.2.2.1 (by decide) (by decide) (by decide) (by decide)⟩⟩

/-- Counterexample to C30 as stated (any 32-bit capacity).  Capacity `2^24`
is accepted by `cellSyncQueueInitialize`; on the word with `count = 2^24 - 1`
and no busy flag the push guard holds and the update stores `count = 0`, not
`2^24`.  Capacity `2^24 + 1` is accepted too; on the word with
`push_position = 2^24 - 1` the next position `2^24` does not fit the 24-bit
field and the update stores `pop_busy = 1` where it was 0. -/
theorem queue_claim_field_isolation_fails :
    ((cellSyncQueueInitialize (fun _ => 0) 32 64 16 16777216).1 = CELL_OK ∧
      ¬ CellSyncQueue.pushBlocked
        (CellSyncQueue.m_v1 (CellSyncQueue.pack 0 16777215 0 16777215))
        (CellSyncQueue.m_v2 (CellSyncQueue.pack 0 16777215 0 16777215)) 16777216 ∧
      CellSyncQueue.count (CellSyncQueue.pack 0 16777215 0 16777215) + 1 = 16777216 ∧
      (CellSyncQueue.pushUpdate (CellSyncQueue.pack 0 16777215 0 16777215) 16777216).map
        (fun r => (CellSyncQueue.push_busy r.2, CellSyncQueue.count r.2)) = some (1, 0)) ∧
    ((cellSyncQueueInitialize (fun _ => 0) 32 64 16 16777217).1 = CELL_OK ∧
      ¬ CellSyncQueue.pushBlocked
        (CellSyncQueue.m_v1 (CellSyncQueue.pack 0 16777215 0 5))
        (CellSyncQueue.m_v2 (CellSyncQueue.pack 0 16777215 0 5)) 16777217 ∧
      CellSyncQueue.pop_busy (CellSyncQueue.pack 0 16777215 0 5) = 0 ∧
      (CellSyncQueue.pushUpdate (CellSyncQueue.pack 0 16777215 0 5) 16777217).map
        (fun r => (CellSyncQueue.pop_busy r.2, CellSyncQueue.push_position r.2)) =
        some (1, 0)) := by
  decide

/-- C30 (amended): for every capacity `depth` with `1 <= depth < 2^24` and
every queue word on which the push guard holds, the claim step of push and of
try_push stores a word with `pop_busy` unchanged, `push_busy = 1` and
`count = old count + 1` (no wrap); and for every capacity `depth >= 1` and
every word on which the pop guard holds, the claim step of pop and of try_pop
stores a word with `push_busy` and `push_position` unchanged. -/
theorem queue_claim_field_isolation (IsStopped : Nat → Bool) (fuel : Nat) (mem : Memory)
    (queue depth : Nat) (hdepth : 1 ≤ depth) :
    (depth < 16777216 →
      ¬ CellSyncQueue.pushBlocked (CellSyncQueue.m_v1 (load64 mem queue))
        (CellSyncQueue.m_v2 (load64 mem queue)) depth →
      ∃ nd,
        queuePushClaim IsStopped queue depth (fuel + 1) 0 mem =
          .ok (Sum.inr (CellSyncQueue.push_position (load64 mem queue),
            store64 mem queue nd)) ∧
        queueTryPushClaim queue depth (fuel + 1) mem =
          .ok (Sum.inr (CellSyncQueue.push_position (load64 mem queue),
            store64 mem queue nd)) ∧
        CellSyncQueue.pop_busy nd = CellSyncQueue.pop_busy (load64 mem queue) ∧
        CellSyncQueue.push_busy nd = 1 ∧
        CellSyncQueue.count nd = CellSyncQueue.count (load64 mem queue) + 1) ∧
    (¬ CellSyncQueue.popBlocked (CellSyncQueue.m_v1 (load64 mem queue))
        (CellSyncQueue.m_v2 (load64 mem queue)) →
      ∃ position nd,
        queuePopClaim CellSyncQueue.popUpdate IsStopped queue depth (fuel + 1) 0 mem =
          .ok (Sum.inr (position, store64 mem queue nd)) ∧
        queueTryPopClaim CellSyncQueue.popUpdate queue depth (fuel + 1) mem =
          .ok (Sum.inr (position, store64 mem queue nd)) ∧
        CellSyncQueue.push_busy nd = CellSyncQueue.push_busy (load64 mem queue) ∧
        CellSyncQueue.push_position nd = CellSyncQueue.push_position (load64 mem queue)) := by
  obtain ⟨hb1, hp, hb2, hn⟩ := CellSyncQueue.fields_lt (load64 mem queue)
  constructor
  · intro hcap hnb
    have hg : ¬ (CellSyncQueue.push_busy (load64 mem queue) ≠ 0 ∨
        CellSyncQueue.count (load64 mem queue) + CellSyncQueue.pop_busy (load64 mem queue) ≥
          depth) := fun hx => hnb ((CellSyncQueue.pushBlocked_iff _ depth).mpr hx)
    have hq : (CellSyncQueue.push_position (load64 mem queue) + 1) % depth < 16777216 :=
      Nat.lt_trans (Nat.mod_lt _ (by omega)) hcap
    have hu := CellSyncQueue.pushUpdate_pack (load64 mem queue) depth (by omega) hq (by omega)
    obtain ⟨f1, -, f3, f4⟩ := CellSyncQueue.pack_fields
      (CellSyncQueue.pop_busy (load64 mem queue))
      ((CellSyncQueue.push_position (load64 mem queue) + 1) % depth) 1
      (CellSyncQueue.count (load64 mem queue) + 1) hb1 hq (by decide) (by omega)
    exact ⟨_, queuePushClaim_open IsStopped queue depth fuel 0 mem _ _ hnb hu,
      queueTryPushClaim_open queue depth fuel mem _ _ hnb hu, f1, f3, f4⟩
  · intro hnb
    have hg : ¬ (CellSyncQueue.pop_busy (load64 mem queue) ≠ 0 ∨
        CellSyncQueue.count (load64 mem queue) ≤ CellSyncQueue.push_busy (load64 mem queue)) :=
      fun hx => hnb ((CellSyncQueue.popBlocked_iff _).mpr hx)
    have hu := CellSyncQueue.popUpdate_pack (load64 mem queue) depth (by omega) (by omega)
      (by omega)
    obtain ⟨-, f2, f3, -⟩ := CellSyncQueue.pack_fields 1
      (CellSyncQueue.push_position (load64 mem queue))
      (CellSyncQueue.push_busy (load64 mem queue))
      (CellSyncQueue.count (load64 mem queue) - 1) (by decide) hp hb2 (by omega)
    exact ⟨_, _, queuePopClaim_open _ IsStopped queue depth fuel 0 mem _ _ hnb hu,
      queueTryPopClaim_open _ queue depth fuel mem _ _ hnb hu, f3, f2⟩

/-- Witness for C30: capacity 4, the word with `pop_busy = 0`,
`push_position = 3`, `push_busy = 0`, `count = 2` at address 32. -/
theorem queue_claim_field_isolation_witness :
    (∃ nd,
      queueTryPushClaim 32 4 (0 + 1)
          (queueInState rampMemory 32 64 16 4 (CellSyncQueue.pack 0 3 0 2)) =
        .ok (Sum.inr (CellSyncQueue.push_position
          (load64 (queueInState rampMemory 32 64 16 4 (CellSyncQueue.pack 0 3 0 2)) 32),
          store64 (queueInState rampMemory 32 64 16 4 (CellSyncQueue.pack 0 3 0 2)) 32 nd)) ∧
      CellSyncQueue.push_busy nd = 1 ∧
      CellSyncQueue.count nd = CellSyncQueue.count
        (load64 (queueInState rampMemory 32 64 16 4 (CellSyncQueue.pack 0 3 0 2)) 32) + 1) ∧
    (∃ position nd,
      queueTryPopClaim CellSyncQueue.popUpdate 32 4 (0 + 1)
          (queueInState rampMemory 32 64 16 4 (CellSyncQueue.pack 0 3 0 2)) =
        .ok (Sum.inr (position,
          store64 (queueInState rampMemory 32 64 16 4 (CellSyncQueue.pack 0 3 0 2)) 32 nd)) ∧
      CellSyncQueue.push_position nd = CellSyncQueue.push_position
        (load64 (queueInState rampMemory 32 64 16 4 (CellSyncQueue.pack 0 3 0 2)) 32)) :=
  have h := queue_claim_field_isolation (fun _ => false) 0
    (queueInState rampMemory 32 64 16 4 (CellSyncQueue.pack 0 3 0 2)) 32 4 (by decide)
  match h.1 (by decide) (by decide), h.2 (by decide) with
  | ⟨nd, _, h2, _, h4, h5⟩, ⟨pos, nd', _, g2, _, g4⟩ =>
    ⟨⟨nd, h2, h4, h5⟩, ⟨pos, nd', g2, g4⟩⟩

/-! ## Barrier: reachable words -/

theorem and_low15 (v : Nat) : v &&& 0x7FFF = v % 32768 :=
  Nat.and_pow_two_sub_one_eq_mod v 15

theorem CellSyncBarrier.m_value_lt (d : Nat) : CellSyncBarrier.m_value d < 65536 := by
  unfold CellSyncBarrier.m_value
  omega

theorem CellSyncBarrier.toS16_value_neg_iff (d : Nat) :
    toS16 (CellSyncBarrier.m_value d) < 0 ↔ 32768 ≤ CellSyncBarrier.m_value d := by
  have h := toS16_nonneg_iff (CellSyncBarrier.m_value d) (CellSyncBarrier.m_value_lt d)
  constructor
  · intro hlt
    by_contra hc
    have := h.mpr (by omega)
    omega
  · intro hge
    by_contra hc
    have := h.mp (by omega)
    omega

theorem BarrierReach.start (N : Nat) (hN : N ≤ 32767) (hN1 : 1 ≤ N) : BarrierReach N N := by
  unfold BarrierReach CellSyncBarrier.m_count CellSyncBarrier.m_value
  omega

theorem BarrierReach.notified (N d : Nat) (hN : N ≤ 32767) (hN1 : 1 ≤ N)
    (h : BarrierReach N d) (hv : ¬ toS16 (CellSyncBarrier.m_value d) < 0) :
    BarrierReach N (CellSyncBarrier.notifyUpdate d (toS16 (CellSyncBarrier.m_value d))) := by
  have hlt : CellSyncBarrier.m_value d < 32768 := by
    have := (CellSyncBarrier.toS16_value_neg_iff d).not.mp hv
    omega
  obtain ⟨hc, hr⟩ := h
  have hcount : CellSyncBarrier.m_count
      (CellSyncBarrier.notifyUpdate d (toS16 (CellSyncBarrier.m_value d))) = N := by
    unfold CellSyncBarrier.notifyUpdate
    simp only
    rw [CellSyncBarrier.m_count_set, hc]
  refine ⟨hcount, ?_⟩
  rw [CellSyncBarrier.notifyUpdate_value d hlt, hc]
  by_cases he : CellSyncBarrier.m_value d + 1 = N
  · rw [if_pos he, or_gate_of_lt _ (by omega)]
    right
    omega
  · rw [if_neg he]
    left
    omega

theorem BarrierReach.waited (N d : Nat) (hN : N ≤ 32767)
    (h : BarrierReach N d) (hv : ¬ toS16 (CellSyncBarrier.m_value d) ≥ 0) :
    BarrierReach N (CellSyncBarrier.waitUpdate d (toS16 (CellSyncBarrier.m_value d))) := by
  have hge : 32768 ≤ CellSyncBarrier.m_value d :=
    (CellSyncBarrier.toS16_value_neg_iff d).mp (by omega)
  have hlt := CellSyncBarrier.m_value_lt d
  obtain ⟨hc, hr⟩ := h
  have hcount : CellSyncBarrier.m_count
      (CellSyncBarrier.waitUpdate d (toS16 (CellSyncBarrier.m_value d))) = N := by
    unfold CellSyncBarrier.waitUpdate
    simp only
    rw [CellSyncBarrier.m_count_set, hc]
  refine ⟨hcount, ?_⟩
  rw [CellSyncBarrier.waitUpdate_value d hge]
  by_cases he : CellSyncBarrier.m_value d = 32769
  · rw [if_pos he]
    left
    omega
  · rw [if_neg he]
    right
    omega

theorem BarrierStep.apply_reach (N d : Nat) (s : BarrierStep) (hN : N ≤ 32767) (hN1 : 1 ≤ N)
    (h : BarrierReach N d) : BarrierReach N (s.apply d) := by
  cases s
  · simp only [BarrierStep.apply]
    by_cases hv : toS16 (CellSyncBarrier.m_value d) < 0
    · rw [if_pos hv]; exact h
    · rw [if_neg hv]; exact BarrierReach.notified N d hN hN1 h hv
  · simp only [BarrierStep.apply]
    by_cases hv : toS16 (CellSyncBarrier.m_value d) < 0
    · rw [if_pos hv]; exact h
    · rw [if_neg hv]; exact BarrierReach.notified N d hN hN1 h hv
  · simp only [BarrierStep.apply]
    by_cases hv : toS16 (CellSyncBarrier.m_value d) ≥ 0
    · rw [if_pos hv]; exact h
    · rw [if_neg hv]; exact BarrierReach.waited N d hN h hv
  · simp only [BarrierStep.apply]
    by_cases hv : toS16 (CellSyncBarrier.m_value d) ≥ 0
    · rw [if_pos hv]; exact h
    · rw [if_neg hv]; exact BarrierReach.waited N d hN h hv

theorem BarrierStep.foldl_reach (N : Nat) (hN : N ≤ 32767) (hN1 : 1 ≤ N)
    (steps : List BarrierStep) (d : Nat) (h : BarrierReach N d) :
    BarrierReach N (steps.foldl BarrierStep.apply d) := by
  induction steps generalizing d with
  | nil => exact h
  | cons s rest ih => exact ih _ (BarrierStep.apply_reach N d s hN hN1 h)

theorem cellSyncBarrierInitialize_word (mem : Memory) (barrier N : Nat)
    (h : (cellSyncBarrierInitialize mem barrier N).1 = CELL_OK) :
    1 ≤ N ∧ N ≤ 32767 ∧ load32 (cellSyncBarrierInitialize mem barrier N).2 barrier = N := by
  unfold cellSyncBarrierInitialize at h ⊢
  by_cases h1 : barrier = 0
  · rw [if_pos h1] at h
    exact absurd h (by simp)
  by_cases h2 : barrier % 4 ≠ 0
  · rw [if_neg h1, if_pos h2] at h
    exact absurd h (by simp)
  by_cases h3 : N = 0 ∨ N > 32767
  · rw [if_neg h1, if_neg h2, if_pos h3] at h
    exact absurd h (by simp)
  rw [if_neg h1, if_neg h2, if_neg h3]
  simp only [ICE_sync]
  obtain ⟨f1, f2⟩ := barrier_init_fields mem barrier N (by omega)
  refine ⟨by omega, by omega, ?_⟩
  unfold load32
  rw [f1, f2]
  omega

theorem and_pow15 (v : Nat) (h : v < 65536) :
    v &&& 2 ^ 15 = if v < 32768 then 0 else 2 ^ 15 := by
  apply Nat.eq_of_testBit_eq
  intro i
  rw [Nat.testBit_and, Nat.testBit_two_pow]
  by_cases hv : v < 32768
  · rw [if_pos hv, Nat.zero_testBit]
    by_cases hi : 15 = i
    · subst hi
      rw [testBit15_of_lt v hv]
      rfl
    · simp [hi]
  · rw [if_neg hv, Nat.testBit_two_pow]
    by_cases hi : 15 = i
    · subst hi
      rw [testBit15_of_ge v (by omega) h]
      rfl
    · simp [hi]

theorem and_gate (v : Nat) (h : v < 65536) :
    v &&& 0x8000 = if v < 32768 then 0 else 32768 :=
  and_pow15 v h

/-- Counterexample to C28 as stated: a barrier of one party.  After
`cellSyncBarrierInitialize` the word is 1 (`value = 0`, `count = 1`); one
notify stores `value = 0x8001`, which read as a signed 16-bit integer is
-32767, and `|value| = 32767 > count = 1`. -/
theorem barrier_abs_value_exceeds_count :
    (cellSyncBarrierInitialize (fun _ => 0) 4 1).1 = CELL_OK ∧
    load32 (cellSyncBarrierInitialize (fun _ => 0) 4 1).2 4 = 1 ∧
    toS16 (CellSyncBarrier.m_value (BarrierStep.apply 1 .notify)) = -32767 ∧
    CellSyncBarrier.m_count (BarrierStep.apply 1 .notify) = 1 ∧
    ¬ ((toS16 (CellSyncBarrier.m_value (BarrierStep.apply 1 .notify))).natAbs ≤
      CellSyncBarrier.m_count (BarrierStep.apply 1 .notify)) ∧
    (cellSyncBarrierNotify (fun _ => false) 1
        (cellSyncBarrierInitialize (fun _ => 0) 4 1).2 4).map
      (fun r => (r.1, toS16 (CellSyncBarrier.m_value (load32 r.2 4)),
        CellSyncBarrier.m_count (load32 r.2 4))) = some (CELL_OK, -32767, 1) := by
  decide

/-- C28 (amended): in every word reached from the word stored by
`cellSyncBarrierInitialize(N)`, `N` in `[1, 32767]`, by notify, try_notify,
wait and try_wait updates, the low 15 bits of the value field satisfy
`0 <= (value & 0x7FFF) <= count`. -/
theorem barrier_value_low_bits_le_count (N : Nat) (hN1 : 1 ≤ N) (hN : N ≤ 32767)
    (steps : List BarrierStep) :
    0 ≤ CellSyncBarrier.m_value (steps.foldl BarrierStep.apply N) &&& 0x7FFF ∧
    CellSyncBarrier.m_value (steps.foldl BarrierStep.apply N) &&& 0x7FFF ≤
      CellSyncBarrier.m_count (steps.foldl BarrierStep.apply N) := by
  obtain ⟨hc, hr⟩ := BarrierStep.foldl_reach N hN hN1 steps N (BarrierReach.start N hN hN1)
  rw [and_low15, hc]
  omega

/-- Witness for C28: four parties; three notifies, the fourth (which sets
the gate), one wait. -/
theorem barrier_value_low_bits_le_count_witness :
    0 ≤ CellSyncBarrier.m_value
        ([BarrierStep.notify, .notify, .tryNotify, .notify, .wait].foldl
          BarrierStep.apply 4) &&& 0x7FFF ∧
    CellSyncBarrier.m_value
        ([BarrierStep.notify, .notify, .tryNotify, .notify, .wait].foldl
          BarrierStep.apply 4) &&& 0x7FFF ≤
      CellSyncBarrier.m_count
        ([BarrierStep.notify, .notify, .tryNotify, .notify, .wait].foldl
          BarrierStep.apply 4) :=
  barrier_value_low_bits_le_count 4 (by decide) (by decide)
    [BarrierStep.notify, .notify, .tryNotify, .notify, .wait]

/-- C29: the word stored by a successful `cellSyncBarrierInitialize(N)` is
`N` (`value = 0`, `count = N`, and `N` is in `[1, 32767]`); in every word
reached from it by notify, try_notify, wait and try_wait updates,
`count = N`, and either the gate bit `0x8000` of `value` is clear and
`(value & 0x7FFF) < N`, or it is set and `1 <= (value & 0x7FFF) <= N`; so
`value = 0x8000` is never stored. -/
theorem barrier_reachable_low_bits (N : Nat) (hN1 : 1 ≤ N) (hN : N ≤ 32767)
    (steps : List BarrierStep) :
    (∀ mem barrier, (cellSyncBarrierInitialize mem barrier N).1 = CELL_OK →
      load32 (cellSyncBarrierInitialize mem barrier N).2 barrier = N) ∧
    CellSyncBarrier.m_count (steps.foldl BarrierStep.apply N) = N ∧
    ((CellSyncBarrier.m_value (steps.foldl BarrierStep.apply N) &&& 0x8000 = 0 ∧
        CellSyncBarrier.m_value (steps.foldl BarrierStep.apply N) &&& 0x7FFF < N) ∨
      (CellSyncBarrier.m_value (steps.foldl BarrierStep.apply N) &&& 0x8000 = 0x8000 ∧
        1 ≤ CellSyncBarrier.m_value (steps.foldl BarrierStep.apply N) &&& 0x7FFF ∧
        CellSyncBarrier.m_value (steps.foldl BarrierStep.apply N) &&& 0x7FFF ≤ N)) ∧
    CellSyncBarrier.m_value (steps.foldl BarrierStep.apply N) ≠ 0x8000 := by
  obtain ⟨hc, hr⟩ := BarrierStep.foldl_reach N hN hN1 steps N (BarrierReach.start N hN hN1)
  have hlt := CellSyncBarrier.m_value_lt (steps.foldl BarrierStep.apply N)
  refine ⟨fun mem barrier h => (cellSyncBarrierInitialize_word mem barrier N h).2.2, hc, ?_,
    by omega⟩
  rw [and_low15, and_gate _ hlt]
  rcases hr with h1 | h2
  · left
    rw [if_pos (by omega)]
    omega
  · right
    rw [if_neg (by omega)]
    omega

/-- Witness for C29: four parties; three notifies, the fourth (which sets
the gate), two waits. -/
theorem barrier_reachable_low_bits_witness :
    CellSyncBarrier.m_count
        ([BarrierStep.notify, .notify, .notify, .tryNotify, .wait, .tryWait].foldl
          BarrierStep.apply 4) = 4 ∧
    CellSyncBarrier.m_value
        ([BarrierStep.notify, .notify, .notify, .tryNotify, .wait, .tryWait].foldl
          BarrierStep.apply 4) ≠ 0x8000 :=
  have h := barrier_reachable_low_bits 4 (by decide) (by decide)
    [BarrierStep.notify, .notify, .notify, .tryNotify, .wait, .tryWait]
  ⟨h.2.1, h.2.2.2⟩

/-! ## Queue: peek -/

theorem store64_inside (mem mem' : Memory) (a v x : Nat) (h1 : a ≤ x) (h2 : x < a + 8) :
    store64 mem a v x = store64 mem' a v x := by
  unfold store64
  by_cases hx : a + 4 ≤ x
  · exact store32_inside _ _ _ _ _ hx (by omega)
  · rw [store32_outside (store32 mem a (v / 4294967296)) (a + 4) v x (by omega),
      store32_outside (store32 mem' a (v / 4294967296)) (a + 4) v x (by omega)]
    exact store32_inside _ _ _ _ _ h1 (by omega)

/-- Storing back the word a memory held undoes what happened to the word. -/
theorem store64_restore (mem mem' : Memory) (a x : Nat)
    (h : x < a ∨ a + 8 ≤ x → mem' x = mem x) :
    store64 mem' a (load64 mem a) x = mem x := by
  by_cases hx : x < a ∨ a + 8 ≤ x
  · rw [store64_outside _ _ _ _ hx, h hx]
  · rw [store64_inside mem' mem a _ x (by omega) (by omega), store64_load64]

theorem queuePeek_step (IsStopped : Nat → Bool) (fuel : Nat) (mem : Memory)
    (queue dst p b2 n size depth addr : Nat)
    (hnull : queue ≠ 0) (halign : queue % 32 = 0) (hdst : dst ≠ 0)
    (hrec : QueueRecord mem queue (CellSyncQueue.pack 0 p b2 n) size depth addr)
    (hp : p < 16777216) (hb2 : b2 < 256) (hn : n < 16777216)
    (hcount : b2 < n) (hinv : n ≤ depth) (hwrap : p + depth - n < 4294967296)
    (hmul : (p + depth - n) % depth * size < 4294967296)
    (hdstw : dst + size ≤ queue ∨ queue + 8 ≤ dst) :
    cellSyncQueuePeek IsStopped (fuel + 1) mem queue dst = .ok (CELL_OK,
      store64 (memcpy (store64 mem queue (CellSyncQueue.pack 1 p b2 n)) dst
        (addr + (p + depth - n) % depth * size) size) queue
        (CellSyncQueue.pack 0 p b2 n)) ∧
    cellSyncQueueTryPeek (fuel + 1) mem queue dst = .ok (CELL_OK,
      store64 (memcpy (store64 mem queue (CellSyncQueue.pack 1 p b2 n)) dst
        (addr + (p + depth - n) % depth * size) size) queue
        (CellSyncQueue.pack 0 p b2 n)) := by
  obtain ⟨f1, f2, f3, f4⟩ := CellSyncQueue.pack_fields 0 p b2 n (by decide) hp hb2 hn
  have hopen := CellSyncQueue.popUpdate_open (CellSyncQueue.pack 0 p b2 n) depth f1
    (by rw [f3, f4]; exact hcount) (by rw [f4]; exact hinv) (by rw [f2, f4]; exact hwrap)
  rw [f2, f3, f4] at hopen
  obtain ⟨hnb, -, hu⟩ := hopen
  have hrec1 := hrec.set_word (CellSyncQueue.pack 1 p b2 n)
    (CellSyncQueue.pack_lt _ _ _ _ (by decide) hp hb2 hn)
  have hcommit := queuePopCommit_record fuel _ queue dst size depth addr
    ((p + depth - n) % depth) p b2 n hrec1 hp hb2 hn hmul hdstw
  obtain ⟨hw, hs, hd, -⟩ := hrec
  subst hs hd
  rw [← hw] at hnb hu
  refine ⟨?_, ?_⟩
  · rw [cellSyncQueuePeek_open IsStopped fuel mem queue dst _ _ hnull halign hdst hnb hu,
      hcommit]
  · rw [cellSyncQueueTryPeek_open fuel mem queue dst _ _ hnull halign hdst hnb hu,
      hcommit]

/-- Counterexample to C21 as stated (every state in which a peek succeeds; in
each case the call returns `CELL_OK`).
(a) Capacity `2^32 - 1`, `push_position = 5`, `count = 4`: the `u32` sum
wraps and byte 1 delivered is the byte at 65 (slot 0), where the oldest entry
is slot 1 (byte at 81).
(b) Entry size `2^31`, `push_position = 3`, `count = 1`: the oldest entry is
slot 2 at `64 + 2^32` (first byte 7), the `u32` product wraps and the byte at
64 is delivered.
(c) Destination at the address of the queue record: the word after the call
is not the word before it.
(d) Destination in the ring (slot 1 at 80): the ring byte at 80 changes from
80 to 64.
(e) Ring at the address of the queue record: the bytes delivered are those of
the record with `pop_busy` set, not the bytes the slot held before the call.
(f) A following pop whose destination is the queue record: the bytes found
there after the pop are not the bytes the peek delivered. -/
theorem queue_peek_frame_fails :
    ((cellSyncQueueInitialize rampMemory 32 64 16 4294967295).1 = CELL_OK ∧
      (5 + 4294967295 - 4) % 4294967295 = 1 ∧
      queueInState rampMemory 32 64 16 4294967295 (CellSyncQueue.pack 0 5 0 4)
        (64 + 1 * 16 + 1) = 81 ∧
      (cellSyncQueuePeek (fun _ => false) 1
        (queueInState rampMemory 32 64 16 4294967295 (CellSyncQueue.pack 0 5 0 4))
          32 16).toOption.map (fun r => (r.1, r.2 (16 + 1))) = some (CELL_OK, 65)) ∧
    ((3 + 4 - 1) % 4 = 2 ∧
      queueInState (store8 rampMemory (64 + 2 * 2147483648) 7) 32 64 2147483648 4
        (CellSyncQueue.pack 0 3 0 1) (64 + 2 * 2147483648) = 7 ∧
      (cellSyncQueuePeek (fun _ => false) 1
        (queueInState (store8 rampMemory (64 + 2 * 2147483648) 7) 32 64 2147483648 4
          (CellSyncQueue.pack 0 3 0 1)) 32 16).toOption.map (fun r => (r.1, r.2 16)) =
        some (CELL_OK, 64)) ∧
    (load64 (queueInState rampMemory 32 64 16 4 (CellSyncQueue.pack 0 1 0 1)) 32 =
        4294967297 ∧
      (cellSyncQueuePeek (fun _ => false) 1
        (queueInState rampMemory 32 64 16 4 (CellSyncQueue.pack 0 1 0 1))
          32 32).toOption.map (fun r => (r.1, load64 r.2 32)) =
        some (CELL_OK, 18368730161825351)) ∧
    (queueInState rampMemory 32 64 16 4 (CellSyncQueue.pack 0 2 0 2) 80 = 80 ∧
      (cellSyncQueuePeek (fun _ => false) 1
        (queueInState rampMemory 32 64 16 4 (CellSyncQueue.pack 0 2 0 2))
          32 80).toOption.map (fun r => (r.1, r.2 80)) = some (CELL_OK, 64)) ∧
    (readBytes (queueInState rampMemory 32 32 16 4 (CellSyncQueue.pack 0 1 0 1)) 32 16 =
        [0, 0, 0, 1, 0, 0, 0, 1, 0, 0, 0, 16, 0, 0, 0, 4] ∧
      (cellSyncQueuePeek (fun _ => false) 1
        (queueInState rampMemory 32 32 16 4 (CellSyncQueue.pack 0 1 0 1))
          32 512).toOption.map (fun r => (r.1, readBytes r.2 512 16)) =
        some (CELL_OK, [1, 0, 0, 1, 0, 0, 0, 1, 0, 0, 0, 16, 0, 0, 0, 4])) ∧
    (((cellSyncQueuePeek (fun _ => false) 1
        (queueInState rampMemory 32 64 16 4 (CellSyncQueue.pack 0 1 0 1)) 32 512).bind
        (fun r => (cellSyncQueuePop (fun _ => false) 1 r.2 32 32).map
          (fun q => (r.1, q.1, r.2 512, q.2 32)))).toOption =
      some (CELL_OK, CELL_OK, 64, 0)) := by
  decide

/-- C21 (amended): let the queue record hold a word with `pop_busy = 0` and
`count > push_busy`, within the bound `count <= capacity`, and let
`push_position + capacity - count < 2^32`, `slot * entry_size < 2^32` for
`slot = (push_position + capacity - count) mod capacity`, the destination
overlap neither the fields of the queue record (its first 24 bytes) nor the
ring, and the slot not overlap the queue word.  Then `cellSyncQueuePeek` and
`cellSyncQueueTryPeek` return `CELL_OK`, the 64-bit word after the call is
the word before it, every byte outside the destination (so every byte of the
ring) is as before, the bytes delivered are those of the slot, and an
immediately following `cellSyncQueuePop` whose destination does not overlap
the queue word delivers the same bytes. -/
theorem cellSyncQueuePeek_frame (IsStopped IsStopped2 : Nat → Bool) (fuel : Nat)
    (mem : Memory) (queue dst dst2 p b2 n size depth addr : Nat)
    (hnull : queue ≠ 0) (halign : queue % 32 = 0) (hdst : dst ≠ 0) (hdst2 : dst2 ≠ 0)
    (hrec : QueueRecord mem queue (CellSyncQueue.pack 0 p b2 n) size depth addr)
    (hp : p < 16777216) (hb2 : b2 < 256) (hn : n < 16777216)
    (hcount : b2 < n) (hinv : n ≤ depth)
    (hwrap : p + depth - n < 4294967296)
    (hmul : (p + depth - n) % depth * size < 4294967296)
    (hdr : dst + size ≤ queue ∨ queue + 24 ≤ dst)
    (hdring : dst + size ≤ addr ∨ addr + depth * size ≤ dst)
    (hsw : addr + (p + depth - n) % depth * size + size ≤ queue ∨
      queue + 8 ≤ addr + (p + depth - n) % depth * size)
    (hd2w : dst2 + size ≤ queue ∨ queue + 8 ≤ dst2) :
    ∃ mem',
      cellSyncQueuePeek IsStopped (fuel + 1) mem queue dst = .ok (CELL_OK, mem') ∧
      cellSyncQueueTryPeek (fuel + 1) mem queue dst = .ok (CELL_OK, mem') ∧
      load64 mem' queue = load64 mem queue ∧
      (CellSyncQueue.pop_busy (load64 mem' queue) = 0 ∧
        CellSyncQueue.push_position (load64 mem' queue) = p ∧
        CellSyncQueue.push_busy (load64 mem' queue) = b2 ∧
        CellSyncQueue.count (load64 mem' queue) = n) ∧
      (∀ x, x < dst ∨ dst + size ≤ x → mem' x = mem x) ∧
      (∀ x, addr ≤ x → x < addr + depth * size → mem' x = mem x) ∧
      readBytes mem' dst size =
        readBytes mem (addr + (p + depth - n) % depth * size) size ∧
      ∃ mem'',
        cellSyncQueuePop IsStopped2 (fuel + 1) mem' queue dst2 = .ok (CELL_OK, mem'') ∧
        readBytes mem'' dst2 size = readBytes mem' dst size := by
  have hs : (p + depth - n) % depth < depth := Nat.mod_lt _ (by omega)
  have hin := (ring_slots addr size depth _ depth hs (by omega)).1
  obtain ⟨hpeek, htry⟩ := queuePeek_step IsStopped fuel mem queue dst p b2 n size depth addr
    hnull halign hdst hrec hp hb2 hn hcount hinv hwrap hmul (by omega)
  have hW : CellSyncQueue.pack 0 p b2 n = load64 mem queue := hrec.word.symm
  have hframe : ∀ x, x < dst ∨ dst + size ≤ x →
      store64 (memcpy (store64 mem queue (CellSyncQueue.pack 1 p b2 n)) dst
        (addr + (p + depth - n) % depth * size) size) queue
        (CellSyncQueue.pack 0 p b2 n) x = mem x := by
    intro x hx
    rw [hW]
    apply store64_restore
    intro hxw
    rw [memcpy_outside _ _ _ _ _ hx, store64_outside _ _ _ _ hxw]
  have hword : load64 (store64 (memcpy (store64 mem queue (CellSyncQueue.pack 1 p b2 n)) dst
        (addr + (p + depth - n) % depth * size) size) queue
        (CellSyncQueue.pack 0 p b2 n)) queue = CellSyncQueue.pack 0 p b2 n := by
    rw [load64_store64]
    exact Nat.mod_eq_of_lt (CellSyncQueue.pack_lt _ _ _ _ (by decide) hp hb2 hn)
  have hdeliv : ∀ i, i < size →
      store64 (memcpy (store64 mem queue (CellSyncQueue.pack 1 p b2 n)) dst
        (addr + (p + depth - n) % depth * size) size) queue
        (CellSyncQueue.pack 0 p b2 n) (dst + i) =
        mem (addr + (p + depth - n) % depth * size + i) := by
    intro i hi
    rw [store64_outside _ _ _ _ (by omega), memcpy_inside _ _ _ _ _ hi,
      store64_outside _ _ _ _ (by omega)]
  have hrec' := hrec.congr_fields (fun x h1 h2 => hframe x (by omega)) hword
  obtain ⟨-, hpop, -⟩ := queuePop_step IsStopped2 fuel _ queue dst2 p b2 n size depth addr
    hnull halign hdst2 hrec' hp hb2 hn hcount hinv hwrap hmul hd2w
  refine ⟨_, hpeek, htry, by rw [hword, hrec.word], ?_, hframe,
    fun x h1 h2 => hframe x (by omega), readBytes_copy mem _ dst _ size hdeliv, _, hpop, ?_⟩
  · rw [hword]
    exact CellSyncQueue.pack_fields 0 p b2 n (by decide) hp hb2 hn
  · rw [readBytes_copy mem _ dst _ size hdeliv]
    apply readBytes_copy
    intro i hi
    rw [store64_outside _ _ _ _ (by omega), memcpy_inside _ _ _ _ _ hi,
      store64_outside _ _ _ _ (by omega)]
    exact hframe _ (by omega)

/-- Witness for C21: capacity 4, entry size 16, ring at 64, entries in slots
0 and 1 (`push_position = 2`, `count = 2`); the peek delivers slot 0 to 512,
the following pop delivers it to 528. -/
theorem cellSyncQueuePeek_frame_witness :
    ∃ mem',
      cellSyncQueuePeek (fun _ => false) (0 + 1)
        (queueInState rampMemory 32 64 16 4 (CellSyncQueue.pack 0 2 0 2)) 32 512 =
          .ok (CELL_OK, mem') ∧
      load64 mem' 32 =
        load64 (queueInState rampMemory 32 64 16 4 (CellSyncQueue.pack 0 2 0 2)) 32 ∧
      readBytes mem' 512 16 =
        readBytes (queueInState rampMemory 32 64 16 4 (CellSyncQueue.pack 0 2 0 2))
          (64 + (2 + 4 - 2) % 4 * 16) 16 ∧
      ∃ mem'',
        cellSyncQueuePop (fun _ => false) (0 + 1) mem' 32 528 = .ok (CELL_OK, mem'') ∧
        readBytes mem'' 528 16 = readBytes mem' 512 16 :=
  have h := cellSyncQueuePeek_frame (fun _ => false) (fun _ => false) 0
    (queueInState rampMemory 32 64 16 4 (CellSyncQueue.pack 0 2 0 2)) 32 512 528 2 0 2 16 4 64
    (by decide) (by decide) (by decide) (by decide)
    ⟨by decide, by decide, by decide, by decide⟩
    (by decide) (by decide) (by decide) (by decide) (by decide) (by decide) (by decide)
    (by decide) (by decide) (by decide) (by decide)
  match h with
  | ⟨mem', hpeek, _, hw, _, _, _, hbytes, hpop⟩ => ⟨mem', hpeek, hw, hbytes, hpop⟩

theorem store8_outside (mem : Memory) (a v x : Nat) (h : x ≠ a) :
    store8 mem a v x = mem x := by
  rw [store8_apply, if_neg h]

theorem load32_store8_ne (mem : Memory) (a b v : Nat) (h : b < a ∨ a + 4 ≤ b) :
    load32 (store8 mem b v) a = load32 mem a :=
  load32_congr _ _ _ (fun x h1 h2 => store8_outside _ _ _ _ (by omega))

theorem load32_store16_ne (mem : Memory) (a b v : Nat) (h : b + 2 ≤ a ∨ a + 4 ≤ b) :
    load32 (store16 mem b v) a = load32 mem a :=
  load32_congr _ _ _ (fun x h1 h2 => store16_outside _ _ _ _ (by omega))

theorem load32_store32_ne (mem : Memory) (a b v : Nat) (h : b + 4 ≤ a ∨ a + 4 ≤ b) :
    load32 (store32 mem b v) a = load32 mem a :=
  load32_congr _ _ _ (fun x h1 h2 => store32_outside _ _ _ _ (by omega))

theorem load32_store64_ne (mem : Memory) (a b v : Nat) (h : b + 8 ≤ a ∨ a + 4 ≤ b) :
    load32 (store64 mem b v) a = load32 mem a :=
  load32_congr _ _ _ (fun x h1 h2 => store64_outside _ _ _ _ (by omega))

theorem load64_store8_ne (mem : Memory) (a b v : Nat) (h : b < a ∨ a + 8 ≤ b) :
    load64 (store8 mem b v) a = load64 mem a :=
  load64_congr _ _ _ (fun x h1 h2 => store8_outside _ _ _ _ (by omega))

theorem load64_store16_ne (mem : Memory) (a b v : Nat) (h : b + 2 ≤ a ∨ a + 8 ≤ b) :
    load64 (store16 mem b v) a = load64 mem a :=
  load64_congr _ _ _ (fun x h1 h2 => store16_outside _ _ _ _ (by omega))

theorem load64_store32_ne (mem : Memory) (a b v : Nat) (h : b + 4 ≤ a ∨ a + 8 ≤ b) :
    load64 (store32 mem b v) a = load64 mem a :=
  load64_congr _ _ _ (fun x h1 h2 => store32_outside _ _ _ _ (by omega))

theorem load64_store64_ne (mem : Memory) (a b v : Nat) (h : b + 8 ≤ a ∨ a + 8 ≤ b) :
    load64 (store64 mem b v) a = load64 mem a :=
  load64_congr _ _ _ (fun x h1 h2 => store64_outside _ _ _ _ (by omega))

theorem hs_fold_outside (base : Nat) (l : List Nat) (n : Nat) (hl : ∀ j ∈ l, j < n)
    (mem : Memory) (x : Nat) (h : x < base ∨ base + 2 * n ≤ x) :
    l.foldl (fun m i => store16 m (base + 2 * i) 0) mem x = mem x := by
  induction l generalizing mem with
  | nil => rfl
  | cons i l ih =>
    rw [List.foldl_cons, ih (fun j hj => hl j (List.mem_cons_of_mem _ hj))]
    have := hl i (List.mem_cons_self _ _)
    exact store16_outside _ _ _ _ (by omega)

theorem syncLFQueueClearHs_outside (L : LFQueueLayout) (queue : Nat) (mem : Memory) (x : Nat)
    (h : x < queue + L.m_hs ∨ queue + L.m_hs + 2 * L.hs_len ≤ x) :
    syncLFQueueClearHs L queue mem x = mem x :=
  hs_fold_outside (queue + L.m_hs) _ L.hs_len (fun _ hi => List.mem_range.1 hi) mem x h

theorem load32_clearHs_ne (L : LFQueueLayout) (queue : Nat) (mem : Memory) (a : Nat)
    (h : a + 4 ≤ queue + L.m_hs ∨ queue + L.m_hs + 2 * L.hs_len ≤ a) :
    load32 (syncLFQueueClearHs L queue mem) a = load32 mem a :=
  load32_congr _ _ _ (fun x h1 h2 => syncLFQueueClearHs_outside _ _ _ _ (by omega))

theorem load64_clearHs_ne (L : LFQueueLayout) (queue : Nat) (mem : Memory) (a : Nat)
    (h : a + 8 ≤ queue + L.m_hs ∨ queue + L.m_hs + 2 * L.hs_len ≤ a) :
    load64 (syncLFQueueClearHs L queue mem) a = load64 mem a :=
  load64_congr _ _ _ (fun x h1 h2 => syncLFQueueClearHs_outside _ _ _ _ (by omega))

/-- Bytes that `syncLFQueueInitialize` does not write: those outside the
record and those of the `u32` of `m_data()`. -/
theorem syncLFQueueInitialize_outside (L : LFQueueLayout) (hL : L.Ordered) (mem : Memory)
    (queue buffer_addr size depth direction eaSignal_addr x : Nat)
    (h : x < queue ∨ queue + L.sizeof ≤ x ∨
      (queue + L.m_data ≤ x ∧ x < queue + L.m_data + 4)) :
    syncLFQueueInitialize L mem queue buffer_addr size depth direction eaSignal_addr x =
      mem x := by
  unfold LFQueueLayout.Ordered at hL
  unfold syncLFQueueInitialize
  by_cases hd : direction = L.CELL_SYNC_QUEUE_ANY2ANY
  · simp only [if_pos hd]
    simp (disch := omega) only [store8_outside, store16_outside, store32_outside,
      store64_outside, syncLFQueueClearHs_outside]
  · simp only [if_neg hd]
    simp (disch := omega) only [store8_outside, store16_outside, store32_outside,
      store64_outside, syncLFQueueClearHs_outside]

/-- The fields that `syncLFQueueInitialize` records. -/
theorem syncLFQueueInitialize_fields (L : LFQueueLayout) (hL : L.Ordered) (mem : Memory)
    (queue buffer_addr size depth direction eaSignal_addr : Nat)
    (hb : buffer_addr < 4294967296) (hs : size < 4294967296) (hd : depth < 4294967296)
    (hdir : direction < 4294967296) (he : eaSignal_addr < 4294967296) :
    load32 (syncLFQueueInitialize L mem queue buffer_addr size depth direction eaSignal_addr)
        (queue + L.m_size) = size ∧
    load32 (syncLFQueueInitialize L mem queue buffer_addr size depth direction eaSignal_addr)
        (queue + L.m_depth) = depth ∧
    load64 (syncLFQueueInitialize L mem queue buffer_addr size depth direction eaSignal_addr)
        (queue + L.m_buffer) =
      (if direction = L.CELL_SYNC_QUEUE_ANY2ANY then buffer_addr ||| 1 else buffer_addr) ∧
    load32 (syncLFQueueInitialize L mem queue buffer_addr size depth direction eaSignal_addr)
        (queue + L.m_direction) = direction ∧
    load64 (syncLFQueueInitialize L mem queue buffer_addr size depth direction eaSignal_addr)
        (queue + L.m_eaSignal) = eaSignal_addr := by
  unfold LFQueueLayout.Ordered at hL
  have hor : buffer_addr ||| 1 < 18446744073709551616 :=
    Nat.lt_of_lt_of_le (Nat.or_lt_two_pow (n := 32) hb (by decide)) (by decide)
  unfold syncLFQueueInitialize
  by_cases hdd : direction = L.CELL_SYNC_QUEUE_ANY2ANY
  · simp only [if_pos hdd]
    simp (disch := omega) only [load32_store8_ne, load32_store16_ne, load32_store32_ne,
      load32_store64_ne, load64_store8_ne, load64_store16_ne, load64_store32_ne,
      load64_store64_ne, load32_clearHs_ne, load64_clearHs_ne, load32_store32,
      load64_store64, Nat.mod_eq_of_lt, and_self]
  · simp only [if_neg hdd]
    simp (disch := omega) only [load32_store8_ne, load32_store16_ne, load32_store32_ne,
      load32_store64_ne, load64_store8_ne, load64_store16_ne, load64_store32_ne,
      load64_store64_ne, load32_clearHs_ne, load64_clearHs_ne, load32_store32,
      load64_store64, Nat.mod_eq_of_lt, and_self]

theorem load64_zero (mem : Memory) (a : Nat)
    (h : ∀ x, a ≤ x → x < a + 8 → mem x = 0) : load64 mem a = 0 := by
  rw [load64_congr mem (fun _ => 0) a h]
  simp [load64, load32, load16]

theorem load32_zero (mem : Memory) (a : Nat)
    (h : ∀ x, a ≤ x → x < a + 4 → mem x = 0) : load32 mem a = 0 := by
  rw [load32_congr mem (fun _ => 0) a h]
  simp [load32, load16]

theorem lfQueueNonZero_zero (L : LFQueueLayout) (mem : Memory) (queue : Nat)
    (hz : ∀ x, queue ≤ x → x < queue + L.sizeof → mem x = 0) :
    lfQueueNonZero L mem queue = false := by
  unfold lfQueueNonZero
  rw [List.any_eq_false]
  intro i hi
  have hi' := List.mem_range.1 hi
  have h0 : load64 mem (queue + i * 8) = 0 :=
    load64_zero mem _ (fun x h1 h2 => hz x (by omega) (by omega))
  simp [h0]

theorem lfQueueReserve_fresh (L : LFQueueLayout) (sdk_ver : Int) (queue fuel : Nat)
    (mem : Memory) (h0 : load32 mem (queue + L.m_data) = 0)
    (hnz : lfQueueNonZero L mem queue = false) :
    lfQueueReserve L sdk_ver queue (fuel + 1) mem =
      .ok (Sum.inr (1, store32 mem (queue + L.m_data) 1)) := by
  simp [lfQueueReserve, h0, hnz, InterlockedCompareExchange]

theorem lfQueueReserve_ready (L : LFQueueLayout) (sdk_ver : Int) (queue fuel : Nat)
    (mem : Memory) (h2 : load32 mem (queue + L.m_data) = 2) :
    lfQueueReserve L sdk_ver queue (fuel + 1) mem = .ok (Sum.inr (2, mem)) := by
  have hs : store32 mem (queue + L.m_data) 2 = mem := by
    rw [← h2, store32_load32]
  simp [lfQueueReserve, h2, InterlockedCompareExchange, hs]

/-- Counterexample to C26 as stated: on the all-zero memory, with the record
at 128, a buffer at 256, entry size 16, depth 4, direction 0, no signal
address and a successful SDK-version query, the call returns `CELL_OK`, the
layout fields are written, and the status field on return is 0, not 2. -/
theorem lfqueue_initialize_status_not_ready :
    LFQueueValid 128 256 16 4 0 0 ∧
    (cellSyncLFQueueInitialize LFQueueLayout.packed 0 0x460000 1 (fun _ => 0)
        128 256 16 4 0 0).toOption.map
      (fun r => (r.1, load32 r.2 (128 + LFQueueLayout.packed.m_data),
        load32 r.2 (128 + LFQueueLayout.packed.m_size),
        load32 r.2 (128 + LFQueueLayout.packed.m_depth),
        load64 r.2 (128 + LFQueueLayout.packed.m_buffer))) =
      some (.status CELL_OK, 0, 16, 4, 256) := by
  decide

/-- C26 (amended): when `cellSyncLFQueueInitialize` is called with valid
parameters on an all-zero queue record and the SDK-version query succeeds
(`ret = 0`, any version), the reserving loop wins the exchange that moves the
status field from 0 to 1, the call returns `CELL_OK`, the layout fields hold
the parameters (the buffer address with bit 0 set for any-to-any), the bytes
outside the record are unchanged, and on return the status field is 0. -/
theorem cellSyncLFQueueInitialize_fresh (L : LFQueueLayout) (hL : L.Ordered)
    (sdk_ver : Int) (fuel : Nat) (mem : Memory)
    (queue buffer_addr size depth direction eaSignal_addr : Nat)
    (hv : LFQueueValid queue buffer_addr size depth direction eaSignal_addr)
    (hz : ∀ x, queue ≤ x → x < queue + L.sizeof → mem x = 0) :
    lfQueueReserve L (if sdk_ver = -1 then 0x460000 else sdk_ver) queue (fuel + 1) mem =
      .ok (Sum.inr (1, store32 mem (queue + L.m_data) 1)) ∧
    load32 mem (queue + L.m_data) = 0 ∧
    load32 (store32 mem (queue + L.m_data) 1) (queue + L.m_data) = 1 ∧
    ∃ mem',
      cellSyncLFQueueInitialize L 0 sdk_ver (fuel + 1) mem queue buffer_addr size depth
        direction eaSignal_addr = .ok (.status CELL_OK, mem') ∧
      load32 mem' (queue + L.m_data) = 0 ∧
      load32 mem' (queue + L.m_size) = size ∧
      load32 mem' (queue + L.m_depth) = depth ∧
      load64 mem' (queue + L.m_buffer) =
        (if direction = L.CELL_SYNC_QUEUE_ANY2ANY then buffer_addr ||| 1 else buffer_addr) ∧
      load32 mem' (queue + L.m_direction) = direction ∧
      load64 mem' (queue + L.m_eaSignal) = eaSignal_addr ∧
      ∀ x, x < queue ∨ queue + L.sizeof ≤ x → mem' x = mem x := by
  obtain ⟨hq, hqa, -, hsb, hba, hb, hs, hsa, hd0, hd, hdir, hea⟩ := hv
  have hO := hL
  unfold LFQueueLayout.Ordered at hO
  have h0 : load32 mem (queue + L.m_data) = 0 :=
    load32_zero mem _ (fun x h1 h2 => hz x (by omega) (by omega))
  have hres := lfQueueReserve_fresh L (if sdk_ver = -1 then 0x460000 else sdk_ver) queue fuel
    mem h0 (lfQueueNonZero_zero L mem queue hz)
  obtain ⟨f1, f2, f3, f4, f5⟩ := syncLFQueueInitialize_fields L hL
    (store32 mem (queue + L.m_data) 1) queue buffer_addr size depth direction eaSignal_addr
    hb (by omega) (by omega) (by omega) hea
  refine ⟨hres, h0, by rw [load32_store32], store32 (syncLFQueueInitialize L
    (store32 mem (queue + L.m_data) 1) queue buffer_addr size depth direction eaSignal_addr)
    (queue + L.m_data) 0, ?_, ?_, ?_, ?_, ?_, ?_, ?_, ?_⟩
  · unfold cellSyncLFQueueInitialize
    rw [if_neg hq, if_neg (by intro h; exact hsb h.1 h.2),
      if_neg (by intro h; omega),
      if_neg (by intro h; rcases h with h | h | h <;> omega),
      if_neg (by intro h; omega), if_neg (by simp)]
    dsimp only
    rw [hres]
    dsimp only
    rw [if_neg (by decide), ICE_sync, ICE_sync]
  · rw [load32_store32]
  · rw [load32_store32_ne _ _ _ _ (by omega)]; exact f1
  · rw [load32_store32_ne _ _ _ _ (by omega)]; exact f2
  · rw [load64_store32_ne _ _ _ _ (by omega)]; exact f3
  · rw [load32_store32_ne _ _ _ _ (by omega)]; exact f4
  · rw [load64_store32_ne _ _ _ _ (by omega)]; exact f5
  · intro x hx
    rw [store32_outside _ _ _ _ (by omega),
      syncLFQueueInitialize_outside L hL _ _ _ _ _ _ _ _ (by omega),
      store32_outside _ _ _ _ (by omega)]

/-- Witness for C26: the all-zero memory, record at 128, buffer at 256,
entry size 16, depth 4, direction 0, SDK version 0x460000. -/
theorem cellSyncLFQueueInitialize_fresh_witness :
    lfQueueReserve LFQueueLayout.packed (if (0x460000 : Int) = -1 then 0x460000 else 0x460000)
        128 (0 + 1) (fun _ => 0) =
      .ok (Sum.inr (1, store32 (fun _ => 0) (128 + LFQueueLayout.packed.m_data) 1)) ∧
    ∃ mem',
      cellSyncLFQueueInitialize LFQueueLayout.packed 0 0x460000 (0 + 1) (fun _ => 0)
        128 256 16 4 0 0 = .ok (.status CELL_OK, mem') ∧
      load32 mem' (128 + LFQueueLayout.packed.m_data) = 0 ∧
      load32 mem' (128 + LFQueueLayout.packed.m_size) = 16 :=
  have h := cellSyncLFQueueInitialize_fresh LFQueueLayout.packed (by decide) 0x460000 0
    (fun _ => 0) 128 256 16 4 0 0 (by decide) (fun _ _ _ => rfl)
  match h with
  | ⟨hres, _, _, mem', hcall, hst, hsz, _⟩ => ⟨hres, mem', hcall, hst, hsz⟩

theorem lfQueueReady_fields (L : LFQueueLayout) (hL : L.Ordered) (mem : Memory)
    (queue buffer_addr size depth direction eaSignal_addr : Nat)
    (hb : buffer_addr < 4294967296) (hs : size < 4294967296) (hd : depth < 4294967296)
    (hdir : direction < 4294967296) (he : eaSignal_addr < 4294967296) :
    load32 (lfQueueReady L mem queue buffer_addr size depth direction eaSignal_addr)
        (queue + L.m_data) = 2 ∧
    load32 (lfQueueReady L mem queue buffer_addr size depth direction eaSignal_addr)
        (queue + L.m_size) = size ∧
    load32 (lfQueueReady L mem queue buffer_addr size depth direction eaSignal_addr)
        (queue + L.m_depth) = depth ∧
    load64 (lfQueueReady L mem queue buffer_addr size depth direction eaSignal_addr)
        (queue + L.m_buffer) =
      (if direction = L.CELL_SYNC_QUEUE_ANY2ANY then buffer_addr ||| 1 else buffer_addr) ∧
    load32 (lfQueueReady L mem queue buffer_addr size depth direction eaSignal_addr)
        (queue + L.m_direction) = direction ∧
    load64 (lfQueueReady L mem queue buffer_addr size depth direction eaSignal_addr)
        (queue + L.m_eaSignal) = eaSignal_addr := by
  have hO := hL
  unfold LFQueueLayout.Ordered at hO
  obtain ⟨f1, f2, f3, f4, f5⟩ := syncLFQueueInitialize_fields L hL mem queue buffer_addr size
    depth direction eaSignal_addr hb hs hd hdir he
  unfold lfQueueReady
  refine ⟨by rw [load32_store32], ?_, ?_, ?_, ?_, ?_⟩
  · rw [load32_store32_ne _ _ _ _ (by omega)]; exact f1
  · rw [load32_store32_ne _ _ _ _ (by omega)]; exact f2
  · rw [load64_store32_ne _ _ _ _ (by omega)]; exact f3
  · rw [load32_store32_ne _ _ _ _ (by omega)]; exact f4
  · rw [load64_store32_ne _ _ _ _ (by omega)]; exact f5

/-- A call of `cellSyncLFQueueInitialize` whose parameters pass the checks,
with a successful SDK-version query, on a record whose status field is 2:
the outcome is decided by the comparisons with the recorded fields, and the
memory is unchanged. -/
theorem cellSyncLFQueueInitialize_compare (L : LFQueueLayout) (sdk_ver : Int) (fuel : Nat)
    (mem : Memory) (queue buffer_addr size depth direction eaSignal_addr : Nat)
    (hv : LFQueueValid queue buffer_addr size depth direction eaSignal_addr)
    (h2 : load32 mem (queue + L.m_data) = 2) :
    cellSyncLFQueueInitialize L 0 sdk_ver (fuel + 1) mem queue buffer_addr size depth
        direction eaSignal_addr =
      .ok (.status
        (if load32 mem (queue + L.m_size) ≠ size ∨ load32 mem (queue + L.m_depth) ≠ depth ∨
            load64 mem (queue + L.m_buffer) ≠ buffer_addr then CELL_SYNC_ERROR_INVAL
          else if (if sdk_ver = -1 then 0x460000 else sdk_ver) > 0x17ffff ∧
            (load64 mem (queue + L.m_eaSignal) ≠ eaSignal_addr ∨
              load32 mem (queue + L.m_direction) ≠ direction) then CELL_SYNC_ERROR_INVAL
          else CELL_OK), mem) := by
  obtain ⟨hq, hqa, -, hsb, hba, hb, hs, hsa, hd0, hd, hdir, hea⟩ := hv
  unfold cellSyncLFQueueInitialize
  rw [if_neg hq, if_neg (by intro h; exact hsb h.1 h.2),
    if_neg (by intro h; omega),
    if_neg (by intro h; rcases h with h | h | h <;> omega),
    if_neg (by intro h; omega), if_neg (by simp)]
  dsimp only
  rw [lfQueueReserve_ready L _ queue fuel mem h2]
  dsimp only
  rw [if_pos rfl, ICE_sync]
  split_ifs <;> rfl

/-- Counterexample to C27 as stated, on the well-formed declaration
`LFQueueLayout.packed` (any-to-any is direction 3) and the all-zero memory.
(a) The record at 128 is written by `syncLFQueueInitialize` with buffer 256,
entry size 16, depth 4, direction 3 (any-to-any) and no signal address, and
its status field is 2; the recorded buffer address is 257; the call with the
same parameters returns `CELL_SYNC_ERROR_INVAL`, for an SDK version above and
below `0x17ffff`.
(b) The same with direction 0 and an SDK-version query that fails with
`ret = -2147418109`: the call returns `ret`, not success. -/
theorem lfqueue_reinitialize_same_parameters_fails :
    (LFQueueValid 128 256 16 4 3 0 ∧
      load32 (lfQueueReady LFQueueLayout.packed (fun _ => 0) 128 256 16 4 3 0)
        (128 + LFQueueLayout.packed.m_data) = 2 ∧
      load64 (lfQueueReady LFQueueLayout.packed (fun _ => 0) 128 256 16 4 3 0)
        (128 + LFQueueLayout.packed.m_buffer) = 257 ∧
      (cellSyncLFQueueInitialize LFQueueLayout.packed 0 0x460000 1
        (lfQueueReady LFQueueLayout.packed (fun _ => 0) 128 256 16 4 3 0)
        128 256 16 4 3 0).toOption.map (fun r => r.1) =
        some (.status CELL_SYNC_ERROR_INVAL) ∧
      (cellSyncLFQueueInitialize LFQueueLayout.packed 0 0x100000 1
        (lfQueueReady LFQueueLayout.packed (fun _ => 0) 128 256 16 4 3 0)
        128 256 16 4 3 0).toOption.map (fun r => r.1) =
        some (.status CELL_SYNC_ERROR_INVAL)) ∧
    (LFQueueValid 128 256 16 4 0 0 ∧
      (cellSyncLFQueueInitialize LFQueueLayout.packed (-2147418109) 0x460000 1
        (lfQueueReady LFQueueLayout.packed (fun _ => 0) 128 256 16 4 0 0)
        128 256 16 4 0 0).toOption.map (fun r => r.1) =
        some (.sdk_version_error (-2147418109))) := by
  decide

/-- C27 (amended): for a queue record whose status field is 2 and whose
layout fields were written by `syncLFQueueInitialize` with valid parameters
and a direction other than any-to-any, when the SDK-version query succeeds a
`cellSyncLFQueueInitialize` call with those same parameters returns `CELL_OK`
and leaves the memory unchanged; a call with valid parameters returns
`CELL_SYNC_ERROR_INVAL` whenever its entry size, depth or buffer address
differs from the recorded one, and a call returns `CELL_SYNC_ERROR_INVAL`
only when some parameter differs from the recorded one. -/
theorem cellSyncLFQueueInitialize_ready (L : LFQueueLayout) (hL : L.Ordered)
    (sdk_ver : Int) (fuel : Nat) (mem : Memory)
    (queue buffer_addr size depth direction eaSignal_addr : Nat)
    (hv : LFQueueValid queue buffer_addr size depth direction eaSignal_addr)
    (hdir : direction ≠ L.CELL_SYNC_QUEUE_ANY2ANY) :
    cellSyncLFQueueInitialize L 0 sdk_ver (fuel + 1)
        (lfQueueReady L mem queue buffer_addr size depth direction eaSignal_addr)
        queue buffer_addr size depth direction eaSignal_addr =
      .ok (.status CELL_OK,
        lfQueueReady L mem queue buffer_addr size depth direction eaSignal_addr) ∧
    (∀ buffer_addr' size' depth' direction' eaSignal_addr',
      LFQueueValid queue buffer_addr' size' depth' direction' eaSignal_addr' →
      size' ≠ size ∨ depth' ≠ depth ∨ buffer_addr' ≠ buffer_addr →
      cellSyncLFQueueInitialize L 0 sdk_ver (fuel + 1)
          (lfQueueReady L mem queue buffer_addr size depth direction eaSignal_addr)
          queue buffer_addr' size' depth' direction' eaSignal_addr' =
        .ok (.status CELL_SYNC_ERROR_INVAL,
          lfQueueReady L mem queue buffer_addr size depth direction eaSignal_addr)) ∧
    (∀ buffer_addr' size' depth' direction' eaSignal_addr' mem',
      cellSyncLFQueueInitialize L 0 sdk_ver (fuel + 1)
          (lfQueueReady L mem queue buffer_addr size depth direction eaSignal_addr)
          queue buffer_addr' size' depth' direction' eaSignal_addr' =
        .ok (.status CELL_SYNC_ERROR_INVAL, mem') →
      buffer_addr' ≠ buffer_addr ∨ size' ≠ size ∨ depth' ≠ depth ∨
        direction' ≠ direction ∨ eaSignal_addr' ≠ eaSignal_addr) := by
  have hv' := hv
  obtain ⟨hq, hqa, -, hsb, hba, hb, hs, hsa, hd0, hd, hdir3, hea⟩ := hv'
  obtain ⟨g0, g1, g2, g3, g4, g5⟩ := lfQueueReady_fields L hL mem queue buffer_addr size
    depth direction eaSignal_addr hb (by omega) (by omega) (by omega) hea
  rw [if_neg hdir] at g3
  have hsame : cellSyncLFQueueInitialize L 0 sdk_ver (fuel + 1)
        (lfQueueReady L mem queue buffer_addr size depth direction eaSignal_addr)
        queue buffer_addr size depth direction eaSignal_addr =
      .ok (.status CELL_OK,
        lfQueueReady L mem queue buffer_addr size depth direction eaSignal_addr) := by
    rw [cellSyncLFQueueInitialize_compare L sdk_ver fuel _ queue buffer_addr size depth
      direction eaSignal_addr hv g0, g1, g2, g3, g4, g5]
    simp
  refine ⟨hsame, ?_, ?_⟩
  · intro b' s' d' dir' ea' hv2 hne
    rw [cellSyncLFQueueInitialize_compare L sdk_ver fuel _ queue b' s' d' dir' ea' hv2 g0,
      g1, g2, g3]
    rw [if_pos]
    rcases hne with h | h | h
    · exact Or.inl (Ne.symm h)
    · exact Or.inr (Or.inl (Ne.symm h))
    · exact Or.inr (Or.inr (Ne.symm h))
  · intro b' s' d' dir' ea' mem' hcall
    by_contra hall
    have e1 : b' = buffer_addr := by by_contra h; exact hall (Or.inl h)
    have e2 : s' = size := by by_contra h; exact hall (Or.inr (Or.inl h))
    have e3 : d' = depth := by by_contra h; exact hall (Or.inr (Or.inr (Or.inl h)))
    have e4 : dir' = direction := by
      by_contra h; exact hall (Or.inr (Or.inr (Or.inr (Or.inl h))))
    have e5 : ea' = eaSignal_addr := by
      by_contra h; exact hall (Or.inr (Or.inr (Or.inr (Or.inr h))))
    subst e1 e2 e3 e4 e5
    rw [hsame] at hcall
    cases hcall

/-- Witness for C27: the record at 128 written over the all-zero memory with
buffer 256, entry size 16, depth 4, direction 0 and no signal address. -/
theorem cellSyncLFQueueInitialize_ready_witness :
    LFQueueLayout.packed.Ordered ∧ LFQueueValid 128 256 16 4 0 0 ∧
    cellSyncLFQueueInitialize LFQueueLayout.packed 0 0x460000 (0 + 1)
        (lfQueueReady LFQueueLayout.packed (fun _ => 0) 128 256 16 4 0 0)
        128 256 16 4 0 0 =
      .ok (.status CELL_OK,
        lfQueueReady LFQueueLayout.packed (fun _ => 0) 128 256 16 4 0 0) :=
  ⟨by decide, by decide,
    (cellSyncLFQueueInitialize_ready LFQueueLayout.packed (by decide) 0x460000 0
      (fun _ => 0) 128 256 16 4 0 0 (by decide) (by decide)).1⟩

theorem CellSyncQueue.pushOpen_depth (d depth : Nat)
    (h : ¬ CellSyncQueue.pushBlocked (CellSyncQueue.m_v1 d) (CellSyncQueue.m_v2 d) depth) :
    1 ≤ depth := by
  unfold CellSyncQueue.pushBlocked at h
  omega

theorem CellSyncQueue.popOpen_depth (d depth : Nat)
    (h : ¬ CellSyncQueue.popBlocked (CellSyncQueue.m_v1 d) (CellSyncQueue.m_v2 d))
    (hc : CellSyncQueue.count d ≤ depth) : 1 ≤ depth := by
  unfold CellSyncQueue.popBlocked at h
  unfold CellSyncQueue.count at hc
  omega

theorem queuePushRelease_no_fault (queue : Nat) :
    ∀ fuel mem, queuePushRelease queue fuel mem ≠ .error .divisionByZero := by
  intro fuel
  induction fuel with
  | zero => intro mem h; cases h
  | succ k _ =>
    intro mem
    rw [queuePushRelease]
    simp [ICE64_fst]

theorem queuePopRelease_no_fault (queue : Nat) :
    ∀ fuel mem, queuePopRelease queue fuel mem ≠ .error .divisionByZero := by
  intro fuel
  induction fuel with
  | zero => intro mem h; cases h
  | succ k _ =>
    intro mem
    rw [queuePopRelease]
    simp [ICE64_fst]

theorem queuePushCommit_no_fault (fuel : Nat) (mem : Memory)
    (queue buffer_addr size position : Nat) :
    queuePushCommit fuel mem queue buffer_addr size position ≠ .error .divisionByZero := by
  unfold queuePushCommit
  dsimp only
  have h := queuePushRelease_no_fault queue fuel
    (memcpy mem (CellSyncQueue.m_addr mem queue + (position * size) % 4294967296)
      buffer_addr size)
  revert h
  cases queuePushRelease queue fuel
    (memcpy mem (CellSyncQueue.m_addr mem queue + (position * size) % 4294967296)
      buffer_addr size) with
  | error e => intro h h'; exact h (by cases h'; rfl)
  | ok m => intro _ h'; cases h'

theorem queuePopCommit_no_fault (fuel : Nat) (mem : Memory)
    (queue buffer_addr size position : Nat) :
    queuePopCommit fuel mem queue buffer_addr size position ≠ .error .divisionByZero := by
  unfold queuePopCommit
  dsimp only
  have h := queuePopRelease_no_fault queue fuel
    (memcpy mem buffer_addr
      (CellSyncQueue.m_addr mem queue + (position * size) % 4294967296) size)
  revert h
  cases queuePopRelease queue fuel
    (memcpy mem buffer_addr
      (CellSyncQueue.m_addr mem queue + (position * size) % 4294967296) size) with
  | error e => intro h h'; exact h (by cases h'; rfl)
  | ok m => intro _ h'; cases h'

theorem queuePushClaim_no_fault (IsStopped : Nat → Bool) (queue depth : Nat) (mem : Memory) :
    ∀ fuel polls,
      queuePushClaim IsStopped queue depth fuel polls mem ≠ .error .divisionByZero := by
  intro fuel
  induction fuel with
  | zero => intro polls h; cases h
  | succ k ih =>
    intro polls
    rw [queuePushClaim]
    dsimp only
    by_cases hb : CellSyncQueue.pushBlocked (CellSyncQueue.m_v1 (load64 mem queue))
        (CellSyncQueue.m_v2 (load64 mem queue)) depth
    · rw [if_pos hb]
      by_cases hp : IsStopped polls = true
      · rw [if_pos hp]; intro h; cases h
      · rw [if_neg hp]; exact ih (polls + 1)
    · rw [if_neg hb]
      obtain ⟨nd, hu⟩ := CellSyncQueue.pushUpdate_some (load64 mem queue) depth
        (by have := CellSyncQueue.pushOpen_depth _ _ hb; omega)
      rw [hu]
      simp [ICE64_fst]

theorem queueTryPushClaim_no_fault (queue depth fuel : Nat) (mem : Memory) :
    queueTryPushClaim queue depth fuel mem ≠ .error .divisionByZero := by
  cases fuel with
  | zero => intro h; cases h
  | succ k =>
    rw [queueTryPushClaim]
    dsimp only
    by_cases hb : CellSyncQueue.pushBlocked (CellSyncQueue.m_v1 (load64 mem queue))
        (CellSyncQueue.m_v2 (load64 mem queue)) depth
    · rw [if_pos hb]; intro h; cases h
    · rw [if_neg hb]
      obtain ⟨nd, hu⟩ := CellSyncQueue.pushUpdate_some (load64 mem queue) depth
        (by have := CellSyncQueue.pushOpen_depth _ _ hb; omega)
      rw [hu]
      simp [ICE64_fst]

theorem queuePopClaim_no_fault (update : Nat → Nat → Option (Nat × Nat))
    (IsStopped : Nat → Bool) (queue depth : Nat) (mem : Memory)
    (hu : ¬ CellSyncQueue.popBlocked (CellSyncQueue.m_v1 (load64 mem queue))
        (CellSyncQueue.m_v2 (load64 mem queue)) →
      ∃ r, update (load64 mem queue) depth = some r) :
    ∀ fuel polls,
      queuePopClaim update IsStopped queue depth fuel polls mem ≠ .error .divisionByZero := by
  intro fuel
  induction fuel with
  | zero => intro polls h; cases h
  | succ k ih =>
    intro polls
    rw [queuePopClaim]
    dsimp only
    by_cases hb : CellSyncQueue.popBlocked (CellSyncQueue.m_v1 (load64 mem queue))
        (CellSyncQueue.m_v2 (load64 mem queue))
    · rw [if_pos hb]
      by_cases hp : IsStopped polls = true
      · rw [if_pos hp]; intro h; cases h
      · rw [if_neg hp]; exact ih (polls + 1)
    · rw [if_neg hb]
      obtain ⟨r, hr⟩ := hu hb
      rw [hr]
      simp [ICE64_fst]

theorem queueTryPopClaim_no_fault (update : Nat → Nat → Option (Nat × Nat))
    (queue depth fuel : Nat) (mem : Memory)
    (hu : ¬ CellSyncQueue.popBlocked (CellSyncQueue.m_v1 (load64 mem queue))
        (CellSyncQueue.m_v2 (load64 mem queue)) →
      ∃ r, update (load64 mem queue) depth = some r) :
    queueTryPopClaim update queue depth fuel mem ≠ .error .divisionByZero := by
  cases fuel with
  | zero => intro h; cases h
  | succ k =>
    rw [queueTryPopClaim]
    dsimp only
    by_cases hb : CellSyncQueue.popBlocked (CellSyncQueue.m_v1 (load64 mem queue))
        (CellSyncQueue.m_v2 (load64 mem queue))
    · rw [if_pos hb]; intro h; cases h
    · rw [if_neg hb]
      obtain ⟨r, hr⟩ := hu hb
      rw [hr]
      simp [ICE64_fst]

theorem queueCall_no_fault (claim : Except Fault (Status ⊕ (Nat × Memory)))
    (commit : Nat → Memory → Except Fault (Status × Memory)) (mem : Memory) :
    claim ≠ .error .divisionByZero →
    (∀ p m, commit p m ≠ .error .divisionByZero) →
    (match claim with
      | .error e => .error e
      | .ok (Sum.inl st) => .ok (st, mem)
      | .ok (Sum.inr (position, mem)) => commit position mem) ≠
      (.error .divisionByZero : Except Fault (Status × Memory)) := by
  intro hc hcommit
  cases claim with
  | error e => intro h; exact hc (by cases h; rfl)
  | ok r =>
    cases r with
    | inl st => intro h; cases h
    | inr pm => exact hcommit pm.1 pm.2

/-- C31: no division by zero in the queue.  Whenever the test of push and
try_push lets the update through, the capacity passed to `%` is at least 1
and the update is evaluated without fault, for every word and every capacity
(0 included); the same for pop, try_pop, peek and try_peek for every word
with `count <= capacity`.  Hence `cellSyncQueuePush` and
`cellSyncQueueTryPush` never end in a division by zero, whatever the memory,
the stored capacity and the fuel, and `cellSyncQueuePop`,
`cellSyncQueueTryPop`, `cellSyncQueuePeek` and `cellSyncQueueTryPeek` never do
on a record whose word has `count <= capacity`. -/
theorem queue_no_division_by_zero :
    (∀ d depth,
      ¬ CellSyncQueue.pushBlocked (CellSyncQueue.m_v1 d) (CellSyncQueue.m_v2 d) depth →
      1 ≤ depth ∧ umod32 (CellSyncQueue.push_position d + 1) depth =
          some ((CellSyncQueue.push_position d + 1) % depth) ∧
        ∃ nd, CellSyncQueue.pushUpdate d depth = some (CellSyncQueue.push_position d, nd)) ∧
    (∀ d depth,
      ¬ CellSyncQueue.popBlocked (CellSyncQueue.m_v1 d) (CellSyncQueue.m_v2 d) →
      CellSyncQueue.count d ≤ depth →
      1 ≤ depth ∧
        (∃ r, CellSyncQueue.popPosition (CellSyncQueue.m_v1 d) (CellSyncQueue.m_v2 d) depth =
          some r) ∧
        (∃ r, CellSyncQueue.popUpdate d depth = some r) ∧
        ∃ r, CellSyncQueue.peekUpdate d depth = some r) ∧
    (∀ (IsStopped : Nat → Bool) (fuel : Nat) (mem : Memory) (queue buffer_addr : Nat),
      cellSyncQueuePush IsStopped fuel mem queue buffer_addr ≠ .error .divisionByZero ∧
      cellSyncQueueTryPush fuel mem queue buffer_addr ≠ .error .divisionByZero) ∧
    (∀ (IsStopped : Nat → Bool) (fuel : Nat) (mem : Memory) (queue buffer_addr : Nat),
      CellSyncQueue.count (load64 mem queue) ≤ CellSyncQueue.m_depth mem queue →
      cellSyncQueuePop IsStopped fuel mem queue buffer_addr ≠ .error .divisionByZero ∧
      cellSyncQueueTryPop fuel mem queue buffer_addr ≠ .error .divisionByZero ∧
      cellSyncQueuePeek IsStopped fuel mem queue buffer_addr ≠ .error .divisionByZero ∧
      cellSyncQueueTryPeek fuel mem queue buffer_addr ≠ .error .divisionByZero) := by
  refine ⟨?_, ?_, ?_, ?_⟩
  · intro d depth h
    have hd := CellSyncQueue.pushOpen_depth d depth h
    refine ⟨hd, ?_, CellSyncQueue.pushUpdate_some d depth (by omega)⟩
    unfold umod32
    rw [if_neg (by omega)]
  · intro d depth h hc
    have hd := CellSyncQueue.popOpen_depth d depth h hc
    refine ⟨hd, ?_, CellSyncQueue.popUpdate_some d depth (by omega),
      CellSyncQueue.peekUpdate_some d depth (by omega)⟩
    unfold CellSyncQueue.popPosition umod32
    rw [if_neg (by omega)]
    exact ⟨_, rfl⟩
  · intro IsStopped fuel mem queue buffer_addr
    constructor
    · unfold cellSyncQueuePush
      split_ifs
      · intro h; cases h
      · intro h; cases h
      · exact queueCall_no_fault _
          (fun p m => queuePushCommit fuel m queue buffer_addr (CellSyncQueue.m_size mem queue) p)
          mem (queuePushClaim_no_fault IsStopped queue _ mem fuel 0)
          (fun p m => queuePushCommit_no_fault fuel m queue buffer_addr _ p)
    · unfold cellSyncQueueTryPush
      split_ifs
      · intro h; cases h
      · intro h; cases h
      · exact queueCall_no_fault _
          (fun p m => queuePushCommit fuel m queue buffer_addr (CellSyncQueue.m_size mem queue) p)
          mem (queueTryPushClaim_no_fault queue _ fuel mem)
          (fun p m => queuePushCommit_no_fault fuel m queue buffer_addr _ p)
  · intro IsStopped fuel mem queue buffer_addr hc
    have hpop : ¬ CellSyncQueue.popBlocked (CellSyncQueue.m_v1 (load64 mem queue))
        (CellSyncQueue.m_v2 (load64 mem queue)) →
        ∃ r, CellSyncQueue.popUpdate (load64 mem queue) (CellSyncQueue.m_depth mem queue) =
          some r := fun h =>
      CellSyncQueue.popUpdate_some _ _
        (by have := CellSyncQueue.popOpen_depth _ _ h hc; omega)
    have hpeek : ¬ CellSyncQueue.popBlocked (CellSyncQueue.m_v1 (load64 mem queue))
        (CellSyncQueue.m_v2 (load64 mem queue)) →
        ∃ r, CellSyncQueue.peekUpdate (load64 mem queue) (CellSyncQueue.m_depth mem queue) =
          some r := fun h =>
      CellSyncQueue.peekUpdate_some _ _
        (by have := CellSyncQueue.popOpen_depth _ _ h hc; omega)
    refine ⟨?_, ?_, ?_, ?_⟩
    · unfold cellSyncQueuePop
      split_ifs
      · intro h; cases h
      · intro h; cases h
      · exact queueCall_no_fault _
          (fun p m => queuePopCommit fuel m queue buffer_addr (CellSyncQueue.m_size mem queue) p)
          mem (queuePopClaim_no_fault _ IsStopped queue _ mem hpop fuel 0)
          (fun p m => queuePopCommit_no_fault fuel m queue buffer_addr _ p)
    · unfold cellSyncQueueTryPop
      split_ifs
      · intro h; cases h
      · intro h; cases h
      · exact queueCall_no_fault _
          (fun p m => queuePopCommit fuel m queue buffer_addr (CellSyncQueue.m_size mem queue) p)
          mem (queueTryPopClaim_no_fault _ queue _ fuel mem hpop)
          (fun p m => queuePopCommit_no_fault fuel m queue buffer_addr _ p)
    · unfold cellSyncQueuePeek
      split_ifs
      · intro h; cases h
      · intro h; cases h
      · exact queueCall_no_fault _
          (fun p m => queuePopCommit fuel m queue buffer_addr (CellSyncQueue.m_size mem queue) p)
          mem (queuePopClaim_no_fault _ IsStopped queue _ mem hpeek fuel 0)
          (fun p m => queuePopCommit_no_fault fuel m queue buffer_addr _ p)
    · unfold cellSyncQueueTryPeek
      split_ifs
      · intro h; cases h
      · intro h; cases h
      · exact queueCall_no_fault _
          (fun p m => queuePopCommit fuel m queue buffer_addr (CellSyncQueue.m_size mem queue) p)
          mem (queueTryPopClaim_no_fault _ queue _ fuel mem hpeek)
          (fun p m => queuePopCommit_no_fault fuel m queue buffer_addr _ p)

theorem rwmWriteAcquire_open (IsStopped : Nat → Bool) (rwm fuel polls : Nat) (mem : Memory)
    (hw : CellSyncRwm.m_writers (load32 mem rwm) = 0) :
    rwmWriteAcquire IsStopped rwm (fuel + 1) polls mem =
      some (Sum.inr (polls,
        store32 mem rwm (CellSyncRwm.set_m_writers (load32 mem rwm) 1))) := by
  rw [rwmWriteAcquire]
  simp only [hw, ICE_fst, ICE_hit]
  simp

theorem rwmWriteDrain_stopped (IsStopped : Nat → Bool) (rwm : Nat) (mem : Memory)
    (n : Nat) (hstop : IsStopped n = true) (hr : load16 mem rwm ≠ 0) :
    ∀ fuel polls, polls ≤ n → n - polls < fuel →
      rwmWriteDrain IsStopped mem rwm fuel polls = some true := by
  intro fuel
  induction fuel with
  | zero => intro polls _ h; omega
  | succ k ih =>
    intro polls hle hlt
    rw [rwmWriteDrain]
    simp only [if_pos hr]
    by_cases hp : IsStopped polls = true
    · rw [if_pos hp]
    · rw [if_neg hp]
      have hpn : polls ≠ n := fun e => hp (e ▸ hstop)
      exact ih (polls + 1) (by omega) (by omega)

theorem CellSyncRwm.set_m_writers_fields (d : Nat) :
    CellSyncRwm.set_m_writers d 1 < 4294967296 ∧
    CellSyncRwm.m_writers (CellSyncRwm.set_m_writers d 1) = 1 ∧
    CellSyncRwm.m_readers (CellSyncRwm.set_m_writers d 1) = CellSyncRwm.m_readers d := by
  unfold CellSyncRwm.set_m_writers CellSyncRwm.m_writers CellSyncRwm.m_readers
  omega

theorem cellSyncRwmTryRead_held (fuel : Nat) (mem : Memory) (rwm buffer_addr : Nat)
    (hnull : rwm ≠ 0) (halign : rwm % 16 = 0) (hbuf : buffer_addr ≠ 0)
    (hw : CellSyncRwm.m_writers (load32 mem rwm) ≠ 0) :
    cellSyncRwmTryRead (fuel + 1) mem rwm buffer_addr =
      some (CELL_SYNC_ERROR_BUSY, mem) := by
  unfold cellSyncRwmTryRead
  rw [if_neg (by omega : ¬ (rwm = 0 ∨ buffer_addr = 0)), if_neg (by omega : ¬ rwm % 16 ≠ 0),
    rwmTryReadAcquire]
  simp only [if_pos hw]

theorem cellSyncRwmTryWrite_held (mem : Memory) (rwm buffer_addr : Nat)
    (hnull : rwm ≠ 0) (halign : rwm % 16 = 0) (hbuf : buffer_addr ≠ 0)
    (hw : CellSyncRwm.m_writers (load32 mem rwm) ≠ 0) :
    cellSyncRwmTryWrite mem rwm buffer_addr = (CELL_SYNC_ERROR_BUSY, mem) := by
  rw [cellSyncRwmTryWrite_valid mem rwm buffer_addr hnull halign hbuf, if_pos]
  intro h
  rw [h] at hw
  exact hw rfl

theorem rwmReadAcquire_held (IsStopped : Nat → Bool) (rwm : Nat) (mem : Memory)
    (hw : CellSyncRwm.m_writers (load32 mem rwm) ≠ 0) :
    ∀ fuel polls, rwmReadAcquire IsStopped rwm fuel polls mem = none ∨
      rwmReadAcquire IsStopped rwm fuel polls mem = some (Sum.inl CELL_OK) := by
  intro fuel
  induction fuel with
  | zero => intro polls; exact Or.inl rfl
  | succ k ih =>
    intro polls
    rw [rwmReadAcquire]
    simp only [if_pos hw]
    by_cases hp : IsStopped polls = true
    · rw [if_pos hp]; exact Or.inr rfl
    · rw [if_neg hp]; exact ih (polls + 1)

theorem rwmWriteAcquire_held (IsStopped : Nat → Bool) (rwm : Nat) (mem : Memory)
    (hw : CellSyncRwm.m_writers (load32 mem rwm) ≠ 0) :
    ∀ fuel polls, rwmWriteAcquire IsStopped rwm fuel polls mem = none ∨
      rwmWriteAcquire IsStopped rwm fuel polls mem = some (Sum.inl CELL_OK) := by
  intro fuel
  induction fuel with
  | zero => intro polls; exact Or.inl rfl
  | succ k ih =>
    intro polls
    rw [rwmWriteAcquire]
    simp only [if_pos hw]
    by_cases hp : IsStopped polls = true
    · rw [if_pos hp]; exact Or.inr rfl
    · rw [if_neg hp]; exact ih (polls + 1)

theorem cellSyncRwmRead_held (IsStopped : Nat → Bool) (fuel : Nat) (mem : Memory)
    (rwm buffer_addr : Nat) (hnull : rwm ≠ 0) (halign : rwm % 16 = 0)
    (hbuf : buffer_addr ≠ 0) (hw : CellSyncRwm.m_writers (load32 mem rwm) ≠ 0)
    (r : Status × Memory)
    (h : cellSyncRwmRead IsStopped fuel mem rwm buffer_addr = some r) : r = (CELL_OK, mem) := by
  unfold cellSyncRwmRead at h
  rw [if_neg (by omega : ¬ (rwm = 0 ∨ buffer_addr = 0)),
    if_neg (by omega : ¬ rwm % 16 ≠ 0)] at h
  rcases rwmReadAcquire_held IsStopped rwm mem hw fuel 0 with e | e
  · rw [e] at h; cases h
  · rw [e] at h; cases h; rfl

theorem cellSyncRwmWrite_held (IsStopped : Nat → Bool) (fuel : Nat) (mem : Memory)
    (rwm buffer_addr : Nat) (hnull : rwm ≠ 0) (halign : rwm % 16 = 0)
    (hbuf : buffer_addr ≠ 0) (hw : CellSyncRwm.m_writers (load32 mem rwm) ≠ 0)
    (r : Status × Memory)
    (h : cellSyncRwmWrite IsStopped fuel mem rwm buffer_addr = some r) : r = (CELL_OK, mem) := by
  unfold cellSyncRwmWrite at h
  rw [if_neg (by omega : ¬ (rwm = 0 ∨ buffer_addr = 0)),
    if_neg (by omega : ¬ rwm % 16 ≠ 0)] at h
  rcases rwmWriteAcquire_held IsStopped rwm mem hw fuel 0 with e | e
  · rw [e] at h; cases h
  · rw [e] at h; cases h; rfl

theorem cellSyncRwmWrite_cancelled (IsStopped : Nat → Bool) (fuel : Nat) (mem : Memory)
    (rwm buffer_addr n : Nat) (hnull : rwm ≠ 0) (halign : rwm % 16 = 0)
    (hbuf : buffer_addr ≠ 0) (hw : CellSyncRwm.m_writers (load32 mem rwm) = 0)
    (hr : CellSyncRwm.m_readers (load32 mem rwm) ≠ 0)
    (hstop : IsStopped n = true) (hfuel : n < fuel) :
    cellSyncRwmWrite IsStopped (fuel + 1) mem rwm buffer_addr =
      some (CELL_OK, store32 mem rwm (CellSyncRwm.set_m_writers (load32 mem rwm) 1)) := by
  unfold cellSyncRwmWrite
  rw [if_neg (by omega : ¬ (rwm = 0 ∨ buffer_addr = 0)), if_neg (by omega : ¬ rwm % 16 ≠ 0),
    rwmWriteAcquire_open IsStopped rwm fuel 0 mem hw]
  dsimp only
  have hl : load16 (store32 mem rwm (CellSyncRwm.set_m_writers (load32 mem rwm) 1)) rwm ≠ 0 := by
    rw [load16_store32_hi]
    have h3 := (CellSyncRwm.set_m_writers_fields (load32 mem rwm)).2.2
    unfold CellSyncRwm.m_readers at h3 hr
    rw [h3]
    exact hr
  rw [rwmWriteDrain_stopped IsStopped rwm _ n hstop hl (fuel + 1) 0 (by omega) (by omega)]

theorem CellSyncRwm.m_writers_set_m_readers (d v : Nat) :
    CellSyncRwm.m_writers (CellSyncRwm.set_m_readers d v) = CellSyncRwm.m_writers d := by
  unfold CellSyncRwm.m_writers CellSyncRwm.set_m_readers
  omega

theorem RwmAbandoned.relocate {T : Type} [DecidableEq T] {s : RwmSys T} (h : RwmAbandoned s)
    (t : T) (p : RwmPc) (hp : p.holdsW = false) (d : Nat)
    (hd : CellSyncRwm.m_writers d = 1) : RwmAbandoned ⟨d, s.setPc t p⟩ := by
  refine ⟨hd, fun u => ?_⟩
  by_cases hu : u = t
  · subst hu
    show (s.setPc u p u).holdsW = false
    rw [RwmSys.setPc_self]
    exact hp
  · show (s.setPc t p u).holdsW = false
    rw [RwmSys.setPc_ne s t u p hu]
    exact h.2 u

theorem RwmAbandoned.step_keeps {T : Type} [DecidableEq T] {s : RwmSys T}
    (h : RwmAbandoned s) (a : T × RwmOp) : RwmAbandoned (s.step a) := by
  obtain ⟨t, op⟩ := a
  have hw := h.1
  have hnot := h.2 t
  unfold RwmSys.step
  simp only
  cases hp : s.pc t with
  | idle =>
    simp only
    cases op with
    | read => exact h.relocate t _ (by rfl) _ hw
    | tryRead => exact h.relocate t _ (by rfl) _ hw
    | write => exact h.relocate t _ (by rfl) _ hw
    | tryWrite =>
      simp only
      have hd : s.data ≠ 0 := by
        intro h0
        rw [h0] at hw
        exact absurd hw (by decide)
      rw [if_pos hd]
      exact h
  | readCas old_data =>
    simp only
    by_cases hwo : CellSyncRwm.m_writers old_data ≠ 0
    · rw [if_pos hwo]
      exact h.relocate t _ (by rfl) _ hw
    · rw [if_neg hwo]
      have hd : ¬ s.data = old_data := by
        intro e
        rw [e] at hw
        omega
      rw [if_neg hd]
      exact h.relocate t _ (by rfl) _ hw
  | readCopy => exact h.relocate t _ (by rfl) _ hw
  | readDone => exact h.relocate t _ (by rfl) _ hw
  | readDecCas old_data =>
    simp only
    by_cases hr : CellSyncRwm.m_readers old_data = 0
    · rw [if_pos hr]
      exact h.relocate t _ (by rfl) _ hw
    · rw [if_neg hr]
      by_cases hd : s.data = old_data
      · rw [if_pos hd]
        refine h.relocate t _ (by rfl) _ ?_
        rw [CellSyncRwm.m_writers_set_m_readers, ← hd]
        exact hw
      · rw [if_neg hd]
        exact h.relocate t _ (by rfl) _ hw
  | writeCas old_data =>
    simp only
    by_cases hwo : CellSyncRwm.m_writers old_data ≠ 0
    · rw [if_pos hwo]
      exact h.relocate t _ (by rfl) _ hw
    · rw [if_neg hwo]
      have hd : ¬ s.data = old_data := by
        intro e
        rw [e] at hw
        omega
      rw [if_neg hd]
      exact h.relocate t _ (by rfl) _ hw
  | writeDrain => rw [hp] at hnot; cases hnot
  | writeCopy => rw [hp] at hnot; cases hnot
  | writeReset => rw [hp] at hnot; cases hnot

theorem RwmAbandoned.foldl_keeps {T : Type} [DecidableEq T]
    (sched : List (T × RwmOp)) (s : RwmSys T) (h : RwmAbandoned s) :
    RwmAbandoned (sched.foldl RwmSys.step s) := by
  induction sched generalizing s with
  | nil => exact h
  | cons a rest ih => exact ih _ (h.step_keeps a)

theorem RwmAbandoned.of_cancel {T : Type} [Fintype T] [DecidableEq T] {s : RwmSys T}
    (h : RwmInv s) (t : T) (hp : s.pc t = .writeDrain) : RwmAbandoned (s.cancel t) := by
  unfold RwmSys.cancel
  rw [hp]
  simp only
  have ht : (s.pc t).holdsW = true := by rw [hp]; rfl
  refine ⟨h.writers_held t ht, fun u => ?_⟩
  by_cases hu : u = t
  · subst hu
    show (s.setPc u .idle u).holdsW = false
    rw [RwmSys.setPc_self]
    rfl
  · show (s.setPc t .idle u).holdsW = false
    rw [RwmSys.setPc_ne s t u _ hu]
    cases hh : (s.pc u).holdsW with
    | false => rfl
    | true => exact absurd (h.writer_unique u t hh ht) hu

theorem RwmSys.step_reset_only {T : Type} [DecidableEq T] (s : RwmSys T) (a : T × RwmOp)
    (hw : CellSyncRwm.m_writers s.data ≠ 0)
    (h0 : CellSyncRwm.m_writers (s.step a).data = 0) :
    s.pc a.1 = .writeReset ∧ (s.step a).data = 0 := by
  obtain ⟨t, op⟩ := a
  revert h0
  unfold RwmSys.step
  simp only
  cases hp : s.pc t with
  | idle =>
    simp only
    cases op with
    | read => intro h0; exact absurd h0 hw
    | tryRead => intro h0; exact absurd h0 hw
    | write => intro h0; exact absurd h0 hw
    | tryWrite =>
      simp only
      have hd : s.data ≠ 0 := by
        intro e
        rw [e] at hw
        exact hw rfl
      rw [if_pos hd]
      intro h0; exact absurd h0 hw
  | readCas old_data =>
    simp only
    by_cases hwo : CellSyncRwm.m_writers old_data ≠ 0
    · rw [if_pos hwo]; intro h0; exact absurd h0 hw
    · rw [if_neg hwo]
      have hd : ¬ s.data = old_data := by
        intro e
        rw [e] at hw
        exact hwo hw
      rw [if_neg hd]; intro h0; exact absurd h0 hw
  | readCopy => intro h0; exact absurd h0 hw
  | readDone => intro h0; exact absurd h0 hw
  | readDecCas old_data =>
    simp only
    by_cases hr : CellSyncRwm.m_readers old_data = 0
    · rw [if_pos hr]; intro h0; exact absurd h0 hw
    · rw [if_neg hr]
      by_cases hd : s.data = old_data
      · rw [if_pos hd]
        intro h0
        simp only [CellSyncRwm.m_writers_set_m_readers] at h0
        rw [← hd] at h0
        exact absurd h0 hw
      · rw [if_neg hd]; intro h0; exact absurd h0 hw
  | writeCas old_data =>
    simp only
    by_cases hwo : CellSyncRwm.m_writers old_data ≠ 0
    · rw [if_pos hwo]; intro h0; exact absurd h0 hw
    · rw [if_neg hwo]
      have hd : ¬ s.data = old_data := by
        intro e
        rw [e] at hw
        exact hwo hw
      rw [if_neg hd]; intro h0; exact absurd h0 hw
  | writeDrain =>
    simp only
    by_cases hr : CellSyncRwm.m_readers s.data ≠ 0
    · rw [if_pos hr]; intro h0; exact absurd h0 hw
    · rw [if_neg hr]; intro h0; exact absurd h0 hw
  | writeCopy => intro h0; exact absurd h0 hw
  | writeReset => intro _; exact ⟨rfl, rfl⟩

/-- C32: a cancelled write keeps the mediator locked.  Let the word have
`m_writers = 0` and `m_readers != 0`, and let the emulator be found stopped at
some poll the fuel reaches.  Then `cellSyncRwmWrite` returns `CELL_OK`; the
memory on return is the memory right after the compare-exchange that set
`m_writers = 1` (nothing is copied, every byte outside the word is as before
the call), the word holds `m_writers = 1` and the same `m_readers`; on that
memory `cellSyncRwmTryRead` and `cellSyncRwmTryWrite` return
`CELL_SYNC_ERROR_BUSY` and change nothing.  More generally, on every memory
whose word has `m_writers != 0` the two return busy with the memory unchanged
and `cellSyncRwmRead` and `cellSyncRwmWrite` can only return `CELL_OK` with
the memory unchanged; among interleaved callers, a writer that leaves its
wait this way leaves a word with `m_writers = 1` that no caller holds, every
schedule of steps of read, try_read, write and try_write keeps it so, and a
step takes a word with `m_writers != 0` to one with `m_writers = 0` only when
it is the reset of a writer that is past its copy. -/
theorem rwm_cancelled_write_keeps_lock (IsStopped : Nat → Bool) (fuel : Nat) (mem : Memory)
    (rwm buffer_addr n : Nat) (hnull : rwm ≠ 0) (halign : rwm % 16 = 0)
    (hbuf : buffer_addr ≠ 0) (hw : CellSyncRwm.m_writers (load32 mem rwm) = 0)
    (hr : CellSyncRwm.m_readers (load32 mem rwm) ≠ 0)
    (hstop : IsStopped n = true) (hfuel : n < fuel) :
    (∃ mem',
      cellSyncRwmWrite IsStopped (fuel + 1) mem rwm buffer_addr = some (CELL_OK, mem') ∧
      rwmWriteAcquire IsStopped rwm (fuel + 1) 0 mem = some (Sum.inr (0, mem')) ∧
      CellSyncRwm.m_writers (load32 mem' rwm) = 1 ∧
      CellSyncRwm.m_readers (load32 mem' rwm) = CellSyncRwm.m_readers (load32 mem rwm) ∧
      (∀ x, x < rwm ∨ rwm + 4 ≤ x → mem' x = mem x) ∧
      ∀ fuel2 buf, buf ≠ 0 →
        cellSyncRwmTryRead (fuel2 + 1) mem' rwm buf = some (CELL_SYNC_ERROR_BUSY, mem') ∧
        cellSyncRwmTryWrite mem' rwm buf = (CELL_SYNC_ERROR_BUSY, mem')) ∧
    (∀ (mem2 : Memory) (St : Nat → Bool) (fuel2 buf : Nat),
      CellSyncRwm.m_writers (load32 mem2 rwm) ≠ 0 → buf ≠ 0 →
      cellSyncRwmTryRead (fuel2 + 1) mem2 rwm buf = some (CELL_SYNC_ERROR_BUSY, mem2) ∧
      cellSyncRwmTryWrite mem2 rwm buf = (CELL_SYNC_ERROR_BUSY, mem2) ∧
      (∀ r, cellSyncRwmRead St fuel2 mem2 rwm buf = some r → r = (CELL_OK, mem2)) ∧
      (∀ r, cellSyncRwmWrite St fuel2 mem2 rwm buf = some r → r = (CELL_OK, mem2))) ∧
    (∀ (T : Type) [Fintype T] [DecidableEq T] (s : RwmSys T) (t : T),
      RwmInv s → s.pc t = .writeDrain →
      (s.cancel t).data = s.data ∧ (s.cancel t).pc t = .idle ∧ RwmAbandoned (s.cancel t)) ∧
    (∀ (T : Type) [DecidableEq T] (s : RwmSys T) (sched : List (T × RwmOp)),
      RwmAbandoned s →
      RwmAbandoned (sched.foldl RwmSys.step s) ∧ (sched.foldl RwmSys.step s).data ≠ 0) ∧
    (∀ (T : Type) [DecidableEq T] (s : RwmSys T) (a : T × RwmOp),
      CellSyncRwm.m_writers s.data ≠ 0 → CellSyncRwm.m_writers (s.step a).data = 0 →
      s.pc a.1 = .writeReset ∧ (s.step a).data = 0) := by
  obtain ⟨hlt, hw1, hr1⟩ := CellSyncRwm.set_m_writers_fields (load32 mem rwm)
  have hload : load32 (store32 mem rwm (CellSyncRwm.set_m_writers (load32 mem rwm) 1)) rwm =
      CellSyncRwm.set_m_writers (load32 mem rwm) 1 := by
    rw [load32_store32, Nat.mod_eq_of_lt hlt]
  refine ⟨⟨_, cellSyncRwmWrite_cancelled IsStopped fuel mem rwm buffer_addr n hnull halign
    hbuf hw hr hstop hfuel, rwmWriteAcquire_open IsStopped rwm fuel 0 mem hw, ?_, ?_,
    fun x hx => store32_outside _ _ _ _ hx, ?_⟩, ?_, ?_, ?_, ?_⟩
  · rw [hload]; exact hw1
  · rw [hload]; exact hr1
  · intro fuel2 buf hb
    have hne : CellSyncRwm.m_writers
        (load32 (store32 mem rwm (CellSyncRwm.set_m_writers (load32 mem rwm) 1)) rwm) ≠ 0 := by
      rw [hload, hw1]; decide
    exact ⟨cellSyncRwmTryRead_held fuel2 _ rwm buf hnull halign hb hne,
      cellSyncRwmTryWrite_held _ rwm buf hnull halign hb hne⟩
  · intro mem2 St fuel2 buf hne hb
    exact ⟨cellSyncRwmTryRead_held fuel2 mem2 rwm buf hnull halign hb hne,
      cellSyncRwmTryWrite_held mem2 rwm buf hnull halign hb hne,
      fun r h => cellSyncRwmRead_held St fuel2 mem2 rwm buf hnull halign hb hne r h,
      fun r h => cellSyncRwmWrite_held St fuel2 mem2 rwm buf hnull halign hb hne r h⟩
  · intro T _ _ s t hinv hp
    refine ⟨?_, ?_, RwmAbandoned.of_cancel hinv t hp⟩
    · unfold RwmSys.cancel
      rw [hp]
    · unfold RwmSys.cancel
      rw [hp]
      exact RwmSys.setPc_self s t _
  · intro T _ s sched h
    have h' := RwmAbandoned.foldl_keeps sched s h
    refine ⟨h', fun h0 => ?_⟩
    have h1 := h'.1
    rw [h0] at h1
    exact absurd h1 (by decide)
  · intro T _ s a h1 h0
    exact RwmSys.step_reset_only s a h1 h0

/-- Witness for C32: the record at 16 with one reader inside (`m_readers = 1`,
`m_writers = 0`), the emulator stopped at the first poll. -/
theorem rwm_cancelled_write_keeps_lock_witness :
    ∃ mem',
      cellSyncRwmWrite (fun _ => true) (1 + 1) (store32 (fun _ => 0) 16 65536) 16 256 =
        some (CELL_OK, mem') ∧
      CellSyncRwm.m_writers (load32 mem' 16) = 1 ∧
      CellSyncRwm.m_readers (load32 mem' 16) =
        CellSyncRwm.m_readers (load32 (store32 (fun _ => 0) 16 65536) 16) ∧
      cellSyncRwmTryWrite mem' 16 256 = (CELL_SYNC_ERROR_BUSY, mem') :=
  have h := rwm_cancelled_write_keeps_lock (fun _ => true) 1 (store32 (fun _ => 0) 16 65536)
    16 256 0 (by decide) (by decide) (by decide) (by decide) (by decide) rfl (by decide)
  match h.1 with
  | ⟨mem', hcall, _, hw, hr, _, htry⟩ => ⟨mem', hcall, hw, hr, (htry 0 256 (by decide)).2⟩

end CellSync
